import Mathlib

set_option autoImplicit false

/-!
# Verification development for the `_462` ray tracer

Shallow embedding of the intersection engine of `src/scene/sphere.cpp`,
`src/scene/triangle.cpp`, `src/scene/model.cpp` and of the pixel driver of
`src/raytracer/raytracer.cpp`.

## Number model

The C++ type `real_t` is a `double`.  It is embedded as `real_t K`: the finite
values are the elements of an ordered field `K` and are computed exactly (no
rounding, no overflow); the three special values that an IEEE division can
produce (`+inf`, `-inf`, `NaN`) are kept, with the IEEE rules for arithmetic
and comparison on them.  Zero is unsigned, so `x / 0` for a finite `x ≠ 0` is
the infinity that has the sign of `x`.  The library function `sqrt` is a
parameter `sqrtK : K → K` of the functions that call it; `IsSqrt sqrtK` says
that it is the square root.

Statements that depend on the value of an arithmetic result, and not only on
the control flow and on the special values, are made in `double` arithmetic:
a second layer, the functions with the suffix `_fl`, is the same text with
every operation rounded by a parameter `R : Rounding K`.  `ieee` is the
rounding of IEEE 754 binary64 (round to nearest, ties to even, overflow to
infinity, gradual underflow), evaluated on the rationals; `Rounding.exact` is
no rounding at all.  A statement for every `R` holds in both.  The vector
operations of `math/vector.hpp`, which is not among the sources, are taken
component-wise, `dot` adding the three products from left to right and
`normalize` dividing each component by the length.

## State and failure

The file-scope variables of `triangle.cpp` and `model.cpp` are the record
`Globals`; a `real_t *T` argument is passed in and returned (`Isect`).  A
failed `assert` and a read past the end of an array make the result `none`.

## Layout

Definitions of the program, auxiliary definitions for the statements, example
data, lemmas, and last the theorems of the claims.
-/

namespace Raytrace

/-! ## `real_t` -/

/-- Values of the C++ type `real_t`: a finite number or one of the IEEE
special values. -/
inductive real_t (K : Type) where
  | fin (x : K)
  | pinf
  | ninf
  | nan
  deriving DecidableEq

namespace real_t

variable {K : Type} [LinearOrderedField K]

/-- The infinity that has the sign of `a`; `NaN` when `a = 0`. -/
def signInf (a : K) : real_t K :=
  if a = 0 then nan else if 0 < a then pinf else ninf

/-- Unary minus. -/
def neg : real_t K → real_t K
  | fin a => fin (-a)
  | pinf => ninf
  | ninf => pinf
  | nan => nan

/-- Addition; `inf + (-inf)` is `NaN`. -/
def add : real_t K → real_t K → real_t K
  | fin a, fin b => fin (a + b)
  | fin _, pinf => pinf
  | fin _, ninf => ninf
  | pinf, fin _ => pinf
  | pinf, pinf => pinf
  | ninf, fin _ => ninf
  | ninf, ninf => ninf
  | _, _ => nan

/-- Subtraction. -/
def sub (a b : real_t K) : real_t K := add a (neg b)

/-- Multiplication; `0 * inf` is `NaN`. -/
def mul : real_t K → real_t K → real_t K
  | fin a, fin b => fin (a * b)
  | fin a, pinf => signInf a
  | fin a, ninf => signInf (-a)
  | pinf, fin b => signInf b
  | ninf, fin b => signInf (-b)
  | pinf, pinf => pinf
  | ninf, ninf => pinf
  | pinf, ninf => ninf
  | ninf, pinf => ninf
  | _, _ => nan

/-- Division; a finite non-zero number divided by zero is an infinity, `0 / 0`
and `inf / inf` are `NaN`, a finite number divided by an infinity is `0`. -/
def div : real_t K → real_t K → real_t K
  | fin a, fin b => if b = 0 then signInf a else fin (a / b)
  | fin _, pinf => fin 0
  | fin _, ninf => fin 0
  | pinf, fin b => if 0 ≤ b then pinf else ninf
  | ninf, fin b => if 0 ≤ b then ninf else pinf
  | _, _ => nan

/-- The C++ comparison `a < b`; false when an operand is `NaN`. -/
def lt : real_t K → real_t K → Bool
  | fin a, fin b => decide (a < b)
  | fin _, pinf => true
  | ninf, fin _ => true
  | ninf, pinf => true
  | _, _ => false

/-- The C++ comparison `a <= b`; false when an operand is `NaN`. -/
def le : real_t K → real_t K → Bool
  | fin a, fin b => decide (a ≤ b)
  | fin _, pinf => true
  | ninf, fin _ => true
  | ninf, pinf => true
  | pinf, pinf => true
  | ninf, ninf => true
  | _, _ => false

/-- The C++ comparison `a >= b`. -/
def ge (a b : real_t K) : Bool := le b a

/-- The C++ comparison `a > b`. -/
def gt (a b : real_t K) : Bool := lt b a

/-- The C++ comparison `a == b`; `NaN` is not equal to itself. -/
def eq : real_t K → real_t K → Bool
  | fin a, fin b => decide (a = b)
  | pinf, pinf => true
  | ninf, ninf => true
  | _, _ => false

/-- The C++ comparison `a != b`. -/
def ne (a b : real_t K) : Bool := !(eq a b)

/-- The library call `sqrt(x)` on a `real_t`, given the square root
`sqrtK` of the finite non-negative numbers; `NaN` on a negative argument. -/
def sqrt (sqrtK : K → K) : real_t K → real_t K
  | fin a => if a < 0 then nan else fin (sqrtK a)
  | pinf => pinf
  | _ => nan

instance : Neg (real_t K) := ⟨neg⟩
instance : Add (real_t K) := ⟨add⟩
instance : Sub (real_t K) := ⟨sub⟩
instance : Mul (real_t K) := ⟨mul⟩
instance : Div (real_t K) := ⟨div⟩

end real_t

/-- The function `sqrtK` is the real square root on the non-negative
numbers. -/
def IsSqrt {K : Type} [LinearOrderedField K] (sqrtK : K → K) : Prop :=
  ∀ x : K, 0 ≤ x → 0 ≤ sqrtK x ∧ sqrtK x * sqrtK x = x

/-! ## Vectors, colours, matrices (`math/`) -/

/-- Modelled from the spec: `Vector3` of `math/vector.hpp`, three
components. -/
structure Vector3 (α : Type) where
  x : α
  y : α
  z : α

/-- Modelled from the spec: `Vector2` of `math/vector.hpp`. -/
structure Vector2 (α : Type) where
  x : α
  y : α

namespace Vector3

variable {α : Type}

/-- Modelled from the spec: component-wise `a + b` of `math/vector.hpp`. -/
def add [Add α] (a b : Vector3 α) : Vector3 α := ⟨a.x + b.x, a.y + b.y, a.z + b.z⟩

/-- Modelled from the spec: component-wise `a - b` of `math/vector.hpp`. -/
def sub [Sub α] (a b : Vector3 α) : Vector3 α := ⟨a.x - b.x, a.y - b.y, a.z - b.z⟩

/-- Modelled from the spec: component-wise `-a` of `math/vector.hpp`. -/
def neg [Neg α] (a : Vector3 α) : Vector3 α := ⟨-a.x, -a.y, -a.z⟩

/-- Modelled from the spec: `dot(a, b)` of `math/vector.hpp`. -/
def dot [Add α] [Mul α] (a b : Vector3 α) : α := a.x * b.x + a.y * b.y + a.z * b.z

/-- Modelled from the spec: the product `k * v` of a scalar and a vector. -/
def smul [Mul α] (k : α) (v : Vector3 α) : Vector3 α := ⟨k * v.x, k * v.y, k * v.z⟩

/-- Modelled from the spec: the product `v * k` of a vector and a scalar. -/
def muls [Mul α] (v : Vector3 α) (k : α) : Vector3 α := ⟨v.x * k, v.y * k, v.z * k⟩

instance [Add α] : Add (Vector3 α) := ⟨add⟩
instance [Sub α] : Sub (Vector3 α) := ⟨sub⟩
instance [Neg α] : Neg (Vector3 α) := ⟨neg⟩

/-- A vector of finite numbers as a vector of `real_t`. -/
def lift {K : Type} (v : Vector3 K) : Vector3 (real_t K) :=
  ⟨real_t.fin v.x, real_t.fin v.y, real_t.fin v.z⟩

/-- Modelled from the spec: `normalize(v)` of `math/vector.hpp`, the vector
divided by its length `sqrt(dot(v, v))`. -/
def normalize {K : Type} [LinearOrderedField K] (sqrtK : K → K)
    (v : Vector3 (real_t K)) : Vector3 (real_t K) :=
  let len := real_t.sqrt sqrtK (dot v v)
  ⟨v.x / len, v.y / len, v.z / len⟩

end Vector3

/-- Modelled from the spec: `Color3` of `math/color.hpp`, three channels. -/
structure Color3 (K : Type) where
  r : real_t K
  g : real_t K
  b : real_t K

namespace Color3

variable {K : Type} [LinearOrderedField K]

/-- Modelled from the spec: channel-wise sum of two colours. -/
def add (a b : Color3 K) : Color3 K := ⟨a.r + b.r, a.g + b.g, a.b + b.b⟩

/-- Modelled from the spec: channel-wise product of two colours. -/
def mul (a b : Color3 K) : Color3 K := ⟨a.r * b.r, a.g * b.g, a.b * b.b⟩

instance : Add (Color3 K) := ⟨add⟩
instance : Mul (Color3 K) := ⟨mul⟩

end Color3

/-- Modelled from the spec: `Matrix4` of `math/matrix.hpp`, known here by its
two actions: `transform_vector` applies the linear part only,
`transform_point` the full affine transform. -/
structure Matrix4 (K : Type) where
  transform_vector : Vector3 (real_t K) → Vector3 (real_t K)
  transform_point : Vector3 (real_t K) → Vector3 (real_t K)

/-- The identity transform. -/
def Matrix4.identity (K : Type) : Matrix4 K := ⟨fun v => v, fun p => p⟩

/-- Modelled from the spec: `Matrix3` of `math/matrix.hpp`, known here by its
product with a vector; it holds the normal matrix of a primitive. -/
structure Matrix3 (K : Type) where
  mul_vec : Vector3 (real_t K) → Vector3 (real_t K)

/-- The identity matrix. -/
def Matrix3.identity (K : Type) : Matrix3 K := ⟨fun v => v⟩

/-! ## Scene data (`scene/material.hpp`, `scene/mesh.hpp`, `scene/scene.hpp`) -/

/-- Modelled from the spec: `Material` of `scene/material.hpp`: ambient,
diffuse and specular colour, refractive index (0 for an opaque surface) and
an optional texture (size and pixel lookup). -/
structure Material (K : Type) where
  ambient : Color3 K
  diffuse : Color3 K
  specular : Color3 K
  refractive_index : real_t K
  tex_width : Int
  tex_height : Int
  get_texture_pixel : Int → Int → Color3 K

/-- Modelled from the spec: `MeshVertex` of `scene/mesh.hpp`. -/
structure MeshVertex (K : Type) where
  position : Vector3 (real_t K)
  normal : Vector3 (real_t K)
  tex_coord : Vector2 (real_t K)

/-- Modelled from the spec: `MeshTriangle` of `scene/mesh.hpp`, three indices
into the vertex list of the mesh. -/
structure MeshTriangle where
  vertices : Fin 3 → Nat

/-- Modelled from the spec: `Mesh` of `scene/mesh.hpp`, the ordered triangles
and the shared vertices. -/
structure Mesh (K : Type) where
  triangles : List MeshTriangle
  vertices : List (MeshVertex K)

section Program

variable {K : Type} [LinearOrderedField K]

/-- The vertex `vertices[i]` of a mesh.  The indices of the triangles of a
well-formed mesh are below the number of vertices; for any other index the
zero vertex stands for the read past the end of the array, and no result
below depends on that choice. -/
def Mesh.get_vertex (m : Mesh K) (i : Nat) : MeshVertex K :=
  m.vertices.getD i
    ⟨⟨real_t.fin 0, real_t.fin 0, real_t.fin 0⟩, ⟨real_t.fin 0, real_t.fin 0, real_t.fin 0⟩,
      ⟨real_t.fin 0, real_t.fin 0⟩⟩

/-- The file-scope variables `ALPHA`, `BETA`, `GAMMA`, `camera_eye`,
`ray_time`, `ray_direction` of `triangle.cpp` (lines 19-25) and
`min_triangle`, `ALPH`, `BET`, `GAM` of `model.cpp` (lines 28-31). -/
structure Globals (K : Type) where
  ALPHA : real_t K
  BETA : real_t K
  GAMMA : real_t K
  camera_eye : Vector3 (real_t K)
  ray_time : real_t K
  ray_direction : Vector3 (real_t K)
  min_triangle : MeshTriangle
  ALPH : real_t K
  BET : real_t K
  GAM : real_t K

/-- The macro `NOINTERSECTION` (0.0). -/
def NOINTERSECTION : real_t K := real_t.fin 0

/-- The macro `UNINITIALIZED` (-1.0), the unset running time. -/
def UNINITIALIZED : real_t K := real_t.fin (-1)

/-- What an intersection query leaves behind: the value it returns, the
running best time `*T` and the file-scope variables. -/
structure Isect (K : Type) where
  ret : real_t K
  T : real_t K
  g : Globals K

/-! ## `Sphere` (`scene/sphere.cpp`) -/

/-- The class `Sphere` (`sphere.hpp`), with the members of `Geometry` it
uses. -/
structure Sphere (K : Type) where
  position : Vector3 (real_t K)
  inv_trans : Matrix4 K
  norm_matrix : Matrix3 K
  radius : real_t K
  material : Material K

/-- `Sphere::transform_vector` (sphere.cpp:112). -/
def Sphere.transform_vector (S : Sphere K) (v : Vector3 (real_t K)) : Vector3 (real_t K) :=
  S.inv_trans.transform_vector v

/-- `Sphere::transform_point` (sphere.cpp:116). -/
def Sphere.transform_point (S : Sphere K) (p : Vector3 (real_t K)) : Vector3 (real_t K) :=
  S.inv_trans.transform_point p

/-- `Sphere::is_intersecting` (sphere.cpp:404-439): the returned value and the
new `*T`. -/
def Sphere.is_intersecting (sqrtK : K → K) (S : Sphere K) (s e : Vector3 (real_t K))
    (T : real_t K) : real_t K × real_t K :=
  let D := s
  let E := S.transform_point e
  let d := S.transform_vector D
  let c := S.transform_point S.position
  let ec := E - c
  let product_ec := Vector3.dot ec ec
  let product_dd := Vector3.dot d d
  let discriminant :=
    Vector3.dot d ec * Vector3.dot d ec - product_dd * (product_ec - S.radius * S.radius)
  if discriminant.ge (real_t.fin 0) then
    let T1 := (Vector3.dot (-d) ec + real_t.sqrt sqrtK discriminant) / product_dd
    let T2 := (Vector3.dot (-d) ec - real_t.sqrt sqrtK discriminant) / product_dd
    if T1.le (real_t.fin 0) then
      (real_t.fin 0, T)
    else
      let local_min := if T2.le (real_t.fin 0) then T1 else T2
      if local_min.lt T || T.eq (real_t.fin (-1)) then
        (real_t.fin 1, local_min)
      else
        (real_t.fin 0, T)
  else
    (real_t.fin 0, T)

/-- `Sphere::shadow_intersection` (sphere.cpp:167-193). -/
def Sphere.shadow_intersection (sqrtK : K → K) (S : Sphere K)
    (shadow_dir surface_pos : Vector3 (real_t K)) : real_t K :=
  let E := S.transform_point surface_pos
  let d := S.transform_vector shadow_dir
  let c := S.transform_point S.position
  let ec := E - c
  let product_ec := Vector3.dot ec ec
  let product_dd := Vector3.dot d d
  let discriminant :=
    Vector3.dot d ec * Vector3.dot d ec - product_dd * (product_ec - S.radius * S.radius)
  if discriminant.ge (real_t.fin 0) then
    let T1 := (Vector3.dot (-d) ec + real_t.sqrt sqrtK discriminant) / product_dd
    let T2 := (Vector3.dot (-d) ec - real_t.sqrt sqrtK discriminant) / product_dd
    if T1.le (real_t.fin 0) then
      real_t.fin (-1)
    else if T2.le (real_t.fin 0) then
      T1
    else
      T2
  else
    real_t.fin (-1)

/-! ## The 3x3 system of the triangle tests -/

/-- The determinant and the three quotients of Cramer's rule. -/
structure Cramer (K : Type) where
  M : real_t K
  beta : real_t K
  gamma : real_t K
  TIME : real_t K

/-- The block that `Triangle::is_intersecting` (triangle.cpp:348-377),
`Triangle::shadow_intersection` (triangle.cpp:113-142),
`Model::intersects_triangle` (model.cpp:334-363) and
`Model::shadow_intersect_triangle` (model.cpp:92-121) share word for word:
the entries of the system for the vertices `a`, `b`, `c`, the direction `d`
and the origin `e1`, and its solution by Cramer's rule. -/
def cramer (a b c d e1 : Vector3 (real_t K)) : Cramer K :=
  let A := a.x - b.x
  let B := a.y - b.y
  let C := a.z - b.z
  let D := a.x - c.x
  let E := a.y - c.y
  let F := a.z - c.z
  let G := d.x
  let H := d.y
  let I := d.z
  let J := a.x - e1.x
  let K' := a.y - e1.y
  let L := a.z - e1.z
  let EIHF := E * I - H * F
  let GFDI := G * F - D * I
  let DHEG := D * H - E * G
  let AKJB := A * K' - J * B
  let JCAL := J * C - A * L
  let BLKC := B * L - K' * C
  let M := A * EIHF + B * GFDI + C * DHEG
  let beta := (J * EIHF + K' * GFDI + L * DHEG) / M
  let gamma := (I * AKJB + H * JCAL + G * BLKC) / M
  let TIME := (-(F * AKJB + E * JCAL + D * BLKC)) / M
  ⟨M, beta, gamma, TIME⟩

/-- The condition of the four triangle tests (triangle.cpp:379, 144;
model.cpp:365, 123). -/
def Cramer.valid (r : Cramer K) : Bool :=
  r.TIME.ge (real_t.fin 0) && r.gamma.ge (real_t.fin 0) && r.gamma.le (real_t.fin 1)
    && r.beta.ge (real_t.fin 0) && r.beta.le (real_t.fin 1 - r.gamma)

/-! ## `Triangle` (`scene/triangle.cpp`) -/

/-- The struct `Triangle::Vertex` (triangle.hpp). -/
structure Vertex (K : Type) where
  position : Vector3 (real_t K)
  normal : Vector3 (real_t K)
  tex_coord : Vector2 (real_t K)
  material : Material K

/-- The class `Triangle` (`triangle.hpp`), with the members of `Geometry` it
uses. -/
structure Triangle (K : Type) where
  inv_trans : Matrix4 K
  norm_matrix : Matrix3 K
  vertices : Fin 3 → Vertex K

/-- `Triangle::transform_vector` (triangle.cpp:69). -/
def Triangle.transform_vector (t : Triangle K) (v : Vector3 (real_t K)) : Vector3 (real_t K) :=
  t.inv_trans.transform_vector v

/-- `Triangle::transform_point` (triangle.cpp:73). -/
def Triangle.transform_point (t : Triangle K) (p : Vector3 (real_t K)) : Vector3 (real_t K) :=
  t.inv_trans.transform_point p

/-- `Triangle::is_intersecting` (triangle.cpp:336-393). -/
def Triangle.is_intersecting (tri : Triangle K) (s e : Vector3 (real_t K)) (T : real_t K)
    (g : Globals K) : Isect K :=
  let d := tri.transform_vector s
  let e1 := tri.transform_point e
  let a := (tri.vertices 0).position
  let b := (tri.vertices 1).position
  let c := (tri.vertices 2).position
  let g1 := { g with camera_eye := e1, ray_direction := d }
  let r := cramer a b c d e1
  if r.valid then
    let g2 := { g1 with ray_time := r.TIME }
    let alpha := real_t.fin 1 - r.beta - r.gamma
    if r.TIME.lt T || T.eq (real_t.fin (-1)) then
      ⟨real_t.fin (-1), r.TIME, { g2 with ALPHA := alpha, BETA := r.beta, GAMMA := r.gamma }⟩
    else
      ⟨real_t.fin 0, T, g2⟩
  else
    ⟨real_t.fin 0, T, g1⟩

/-- `Triangle::shadow_intersection` (triangle.cpp:103-149). -/
def Triangle.shadow_intersection (tri : Triangle K)
    (shadow_dir surface_pos : Vector3 (real_t K)) : real_t K :=
  let d := tri.transform_vector shadow_dir
  let e1 := tri.transform_point surface_pos
  let a := (tri.vertices 0).position
  let b := (tri.vertices 1).position
  let c := (tri.vertices 2).position
  let r := cramer a b c d e1
  if r.valid then r.TIME else real_t.fin (-1)

/-! ## `Model` (`scene/model.cpp`) -/

/-- The class `Model` (`model.hpp`), with the members of `Geometry` it
uses. -/
structure Model (K : Type) where
  inv_trans : Matrix4 K
  norm_matrix : Matrix3 K
  mesh : Mesh K
  material : Material K

/-- `Model::transform_vector` (model.cpp:47). -/
def Model.transform_vector (m : Model K) (v : Vector3 (real_t K)) : Vector3 (real_t K) :=
  m.inv_trans.transform_vector v

/-- `Model::transform_point` (model.cpp:52). -/
def Model.transform_point (m : Model K) (p : Vector3 (real_t K)) : Vector3 (real_t K) :=
  m.inv_trans.transform_point p

/-- `Model::intersects_triangle` (model.cpp:321-378). -/
def Model.intersects_triangle (m : Model K) (triangle : MeshTriangle)
    (s e : Vector3 (real_t K)) (T : real_t K) (g : Globals K) : Isect K :=
  let d := m.transform_vector s
  let e1 := m.transform_point e
  let a := (m.mesh.get_vertex (triangle.vertices 0)).position
  let b := (m.mesh.get_vertex (triangle.vertices 1)).position
  let c := (m.mesh.get_vertex (triangle.vertices 2)).position
  let r := cramer a b c d e1
  if r.valid then
    let alpha := real_t.fin 1 - r.gamma - r.beta
    if r.TIME.lt T || T.eq (real_t.fin (-1)) then
      ⟨real_t.fin 1, r.TIME,
        { g with min_triangle := triangle, ALPH := alpha, BET := r.beta, GAM := r.gamma }⟩
    else
      ⟨real_t.fin (-1), T, g⟩
  else
    ⟨real_t.fin (-1), T, g⟩

/-- The loop of `Model::is_intersecting` (model.cpp:309-314) over the
triangles still to be tested, from the current `has_intersection`, `*T` and
file-scope variables. -/
def Model.is_intersecting_loop (m : Model K) (s e : Vector3 (real_t K)) :
    List MeshTriangle → real_t K → real_t K → Globals K → Isect K
  | [], has_intersection, T, g => ⟨has_intersection, T, g⟩
  | triangle :: rest, has_intersection, T, g =>
    let r := m.intersects_triangle triangle s e T g
    let time := r.ret
    Model.is_intersecting_loop m s e rest
      (if time.ne (real_t.fin (-1)) then real_t.fin 1 else has_intersection) r.T r.g

/-- `Model::is_intersecting` (model.cpp:305-316). -/
def Model.is_intersecting (m : Model K) (s e : Vector3 (real_t K)) (T : real_t K)
    (g : Globals K) : Isect K :=
  m.is_intersecting_loop s e m.mesh.triangles (real_t.fin 0) T g

/-- `Model::shadow_intersect_triangle` (model.cpp:80-128). -/
def Model.shadow_intersect_triangle (m : Model K) (triangle : MeshTriangle)
    (shadow_dir surface_pos : Vector3 (real_t K)) : real_t K :=
  let d := m.transform_vector shadow_dir
  let e1 := m.transform_point surface_pos
  let a := (m.mesh.get_vertex (triangle.vertices 0)).position
  let b := (m.mesh.get_vertex (triangle.vertices 1)).position
  let c := (m.mesh.get_vertex (triangle.vertices 2)).position
  let r := cramer a b c d e1
  if r.valid then r.TIME else real_t.fin (-1)

/-! ## `Geometry` and `Scene` (`scene/scene.hpp`) -/

/-- The three classes that derive from `Geometry`. -/
inductive Geometry (K : Type) where
  | sphere (S : Sphere K)
  | triangle (t : Triangle K)
  | model (m : Model K)

/-- The virtual call `geo->is_intersecting(s, e, &T)`. -/
def Geometry.is_intersecting (sqrtK : K → K) (geo : Geometry K) (s e : Vector3 (real_t K))
    (T : real_t K) (g : Globals K) : Isect K :=
  match geo with
  | Geometry.sphere S =>
    let r := S.is_intersecting sqrtK s e T
    ⟨r.1, r.2, g⟩
  | Geometry.triangle t => t.is_intersecting s e T g
  | Geometry.model m => m.is_intersecting s e T g

/-- The struct `PointLight` (scene.hpp:83-100). -/
structure PointLight (K : Type) where
  position : Vector3 (real_t K)
  color : Color3 K
  constant : real_t K
  linear : real_t K
  quadratic : real_t K

/-- The class `Scene` (scene.hpp:106-167), without the camera. -/
structure Scene (K : Type) where
  background_color : Color3 K
  ambient_light : Color3 K
  refractive_index : real_t K
  geometries : List (Geometry K)
  point_lights : List (PointLight K)

/-! ## The pixel driver (`raytracer/raytracer.cpp`) -/

/-- The nearest-hit loop of `Raytracer::trace_pixel` (raytracer.cpp:117-123),
which `compute_specular` repeats (sphere.cpp:277-282 and 304-309,
triangle.cpp:285-291, model.cpp:264-270): the primitives still to be tested,
the index `i` of the first of them, the running `minTime`, the index `geo` of
the selected primitive and the file-scope variables. -/
def nearest_hit_loop (sqrtK : K → K) (dir_norm e : Vector3 (real_t K)) :
    List (Geometry K) → Nat → real_t K → Nat → Globals K → real_t K × Nat × Globals K
  | [], _, minTime, geo, g => (minTime, geo, g)
  | temp_geo :: rest, i, minTime, geo, g =>
    let r := temp_geo.is_intersecting sqrtK dir_norm e minTime g
    nearest_hit_loop sqrtK dir_norm e rest (i + 1) r.T
      (if r.ret.ne NOINTERSECTION then i else geo) r.g

/-- The members of the class `Raytracer` (raytracer.hpp:212-215) that
`trace_pixel` reads. -/
structure Raytracer (K : Type) where
  u : Vector3 (real_t K)
  v : Vector3 (real_t K)
  w : Vector3 (real_t K)
  e : Vector3 (real_t K)
  nearClip : real_t K
  top : real_t K
  right : real_t K
  bottom : real_t K
  left : real_t K

/-- The virtual methods of `Geometry` that the hit branch of `trace_pixel`
calls on the selected primitive (scene.hpp:66-76); they read the
file-scope variables. -/
structure Shading (K : Type) where
  get_specular : Geometry K → Globals K → Color3 K
  normal_of : Geometry K → Globals K → Vector3 (real_t K) → Vector3 (real_t K)
  get_refractive_index : Geometry K → Globals K → real_t K
  compute_specular : Geometry K → Globals K → Scene K → Vector3 (real_t K) →
    Vector3 (real_t K) → Vector3 (real_t K) → Int → Color3 K
  color_at_pixel : Geometry K → Globals K → Scene K → Vector3 (real_t K) → Color3 K

/-- `Raytracer::trace_pixel` (raytracer.cpp:95-136).  The result is `none`
when an assertion fails, and when `Geometry* geo = sceneObjects[0]`
(raytracer.cpp:116) reads past the end of the array of primitives, which has
`scene->num_geometries()` elements. -/
def Raytracer.trace_pixel (sqrtK : K → K) (sh : Shading K) (rt : Raytracer K)
    (scene : Scene K) (x y width height : Nat) (g : Globals K) : Option (Color3 K) :=
  if ¬ (0 ≤ x ∧ x < width) then none
  else if ¬ (0 ≤ y ∧ y < height) then none
  else
    let u_s := rt.left + (rt.right - rt.left) * real_t.fin ((x : K) + 1 / 2) / real_t.fin (width : K)
    let v_s := rt.bottom + (rt.top - rt.bottom) * real_t.fin ((y : K) + 1 / 2) / real_t.fin (height : K)
    let ray_dir := Vector3.smul u_s rt.u + Vector3.smul v_s rt.v + Vector3.smul rt.nearClip rt.w
    let dir_norm := Vector3.normalize sqrtK ray_dir
    match scene.geometries.get? 0 with
    | none => none
    | some _ =>
      let r := nearest_hit_loop sqrtK dir_norm rt.e scene.geometries 0 UNINITIALIZED 0 g
      let minTime := r.1
      let g1 := r.2.2
      if minTime.ne UNINITIALIZED then
        match scene.geometries.get? r.2.1 with
        | none => none
        | some geo =>
          let surface_pos := rt.e + Vector3.muls dir_norm minTime
          let specular := sh.get_specular geo g1
          let normal := sh.normal_of geo g1 surface_pos
          if (sh.get_refractive_index geo g1).ne (real_t.fin 0) then
            some (sh.compute_specular geo g1 scene normal dir_norm surface_pos 3)
          else
            some (sh.color_at_pixel geo g1 scene surface_pos
              + specular * sh.compute_specular geo g1 scene normal dir_norm surface_pos 3)
      else
        some scene.background_color

/-! ## Shading (`scene/sphere.cpp`, `scene/triangle.cpp`, `scene/model.cpp`) -/

/-! ## Faults, library functions and arithmetic of the shading code -/

/-- What makes a call end without a result: a read past the end of an array,
an integer modulo by zero, the exhaustion of a bound that the embedding
carries (on nested `compute_specular` calls, on the turns of a loop), or a
failed `assert`. -/
inductive Fault where
  | out_of_bounds
  | modulo_by_zero
  | out_of_fuel
  | assert_failed
  deriving DecidableEq

/-- The result of a call that can end in a fault. -/
abbrev Res (α : Type) : Type := Except Fault α

/-- The library functions and the constant `PI` that the shading code uses;
`sqrt` on the finite non-negative numbers, the others on `real_t`. -/
structure Libm (K : Type) where
  sqrt : K → K
  acos : real_t K → real_t K
  atan2 : real_t K → real_t K → real_t K
  PI : real_t K

/-- The library call `pow(x, n)` for a whole exponent `n`: the product of `n`
factors `x`. -/
def real_t.pow (x : real_t K) : Nat → real_t K
  | 0 => real_t.fin 1
  | n + 1 => real_t.pow x n * x

/-- The value of a finite number rounded toward zero. -/
def trunc [FloorRing K] (x : K) : Int := if 0 ≤ x then Int.floor x else Int.ceil x

/-- The cast `(int) x` of a `real_t`: the value rounded toward zero.  On a
value that is not finite the cast is not defined by the language; 0 stands
for it. -/
def real_t.to_int [FloorRing K] : real_t K → Int
  | real_t.fin x => trunc x
  | _ => 0

/-- The integer operation `a % b`: the remainder of the division that rounds
toward zero, which has the sign of `a`; a fault when `b = 0`. -/
def c_mod (a b : Int) : Res Int :=
  if b = 0 then Except.error Fault.modulo_by_zero else Except.ok (Int.tmod a b)

/-- Modelled from the spec: `Color3::White` of `math/color.hpp`. -/
def Color3.White : Color3 K := ⟨real_t.fin 1, real_t.fin 1, real_t.fin 1⟩

/-- Modelled from the spec: `Color3::Black` of `math/color.hpp`. -/
def Color3.Black : Color3 K := ⟨real_t.fin 0, real_t.fin 0, real_t.fin 0⟩

/-- Modelled from the spec: the product `c * k` of a colour and a scalar. -/
def Color3.muls (c : Color3 K) (k : real_t K) : Color3 K := ⟨c.r * k, c.g * k, c.b * k⟩

/-- Modelled from the spec: the product `k * c` of a scalar and a colour. -/
def Color3.smul (k : real_t K) (c : Color3 K) : Color3 K := ⟨k * c.r, k * c.g, k * c.b⟩

/-- Modelled from the spec: `length(v)` of `math/vector.hpp`. -/
def Vector3.length (sqrtK : K → K) (v : Vector3 (real_t K)) : real_t K :=
  real_t.sqrt sqrtK (Vector3.dot v v)

/-- Modelled from the spec: `distance(a, b)` of `math/vector.hpp`, the length
of `a - b`. -/
def Vector3.distance (sqrtK : K → K) (a b : Vector3 (real_t K)) : real_t K :=
  Vector3.length sqrtK (a - b)

/-- Modelled from the spec: the quotient `v / k` of a vector and a scalar. -/
def Vector3.divs (v : Vector3 (real_t K)) (k : real_t K) : Vector3 (real_t K) :=
  ⟨v.x / k, v.y / k, v.z / k⟩

/-- The macro `EPSILON` (0.000001) of `sphere.cpp`, `triangle.cpp` and
`model.cpp`. -/
def EPSILON : real_t K := real_t.fin (1 / 1000000)

/-! ## Shadow tests -/

/-- The loop of `Model::shadow_intersection` (model.cpp:134-141) over the
triangles still to be tested, from the current `min_time`. -/
def Model.shadow_intersection_loop (m : Model K) (shadow_dir surface_pos : Vector3 (real_t K)) :
    List MeshTriangle → real_t K → real_t K
  | [], min_time => min_time
  | triangle :: rest, min_time =>
    let time := m.shadow_intersect_triangle triangle shadow_dir surface_pos
    Model.shadow_intersection_loop m shadow_dir surface_pos rest
      (if time.ne (real_t.fin (-1)) then
        (if time.lt min_time || min_time.eq (real_t.fin (-1)) then time else min_time)
      else min_time)

/-- `Model::shadow_intersection` (model.cpp:131-143). -/
def Model.shadow_intersection (m : Model K) (shadow_dir surface_pos : Vector3 (real_t K)) :
    real_t K :=
  m.shadow_intersection_loop shadow_dir surface_pos m.mesh.triangles (real_t.fin (-1))

/-- The virtual call `geo->shadow_intersection(shadow_dir, surface_pos)`. -/
def Geometry.shadow_intersection (sqrtK : K → K) (geo : Geometry K)
    (shadow_dir surface_pos : Vector3 (real_t K)) : real_t K :=
  match geo with
  | Geometry.sphere S => S.shadow_intersection sqrtK shadow_dir surface_pos
  | Geometry.triangle t => t.shadow_intersection shadow_dir surface_pos
  | Geometry.model m => m.shadow_intersection shadow_dir surface_pos

/-! ## Diffuse light -/

/-- `max_of` (sphere.cpp:123-129). -/
def max_of (a b : real_t K) : real_t K := if a.gt b then a else b

/-- `max` of `triangle.cpp` (lines 80-86). -/
def Triangle.max (a b : real_t K) : real_t K := if a.gt b then a else b

/-- `Model::max` (model.cpp:59-65). -/
def Model.max (a b : real_t K) : real_t K := if a.gt b then a else b

/-- `Sphere::attenuation` (sphere.cpp:156-161). -/
def Sphere.attenuation (dist : real_t K) (light : PointLight K)
    (_light_pos _surface_pos : Vector3 (real_t K)) : Color3 K :=
  let constant := light.constant
  let lin := light.linear
  let quad := light.quadratic
  light.color.muls (real_t.fin 1 / (constant + lin * dist + quad * real_t.pow dist 2))

/-- `Triangle::attenuation` (triangle.cpp:92-98). -/
def Triangle.attenuation (dist : real_t K) (light : PointLight K)
    (_light_pos _surface_pos : Vector3 (real_t K)) : Color3 K :=
  let constant := light.constant
  let lin := light.linear
  let quad := light.quadratic
  light.color.muls (real_t.fin 1 / (constant + lin * dist + quad * real_t.pow dist 2))

/-- `Model::attenuation` (model.cpp:71-77). -/
def Model.attenuation (dist : real_t K) (light : PointLight K)
    (_light_pos _surface_pos : Vector3 (real_t K)) : Color3 K :=
  let constant := light.constant
  let lin := light.linear
  let quad := light.quadratic
  light.color.muls (real_t.fin 1 / (constant + lin * dist + quad * real_t.pow dist 2))

/-- The loop over the primitives inside `compute_diffuse`, which the three
versions share word for word (sphere.cpp:212-226, triangle.cpp:176-187,
model.cpp:162-174): the value of `b_i` after it, 0 when a primitive casts a
shadow (the `break`), else the initial 1. -/
def shadow_loop (sqrtK : K → K) (light_vector slope_pos surface_pos : Vector3 (real_t K))
    (dist : real_t K) : List (Geometry K) → real_t K
  | [] => real_t.fin 1
  | geo :: rest =>
    let t := geo.shadow_intersection sqrtK light_vector slope_pos
    if t.ne (real_t.fin (-1)) then
      let geo_surface := slope_pos + Vector3.muls light_vector t
      let geo_dis := Vector3.distance sqrtK geo_surface surface_pos
      if geo_dis.lt dist then real_t.fin 0
      else shadow_loop sqrtK light_vector slope_pos surface_pos dist rest
    else shadow_loop sqrtK light_vector slope_pos surface_pos dist rest

/-- The body of the loop over the lights in `Sphere::compute_diffuse`
(sphere.cpp:204-231): the value of `total_diff` after the light `lights[i]`. -/
def Sphere.diffuse_light (sqrtK : K → K) (scene : Scene K)
    (normal surface_pos : Vector3 (real_t K)) (total_diff : Color3 K) (light : PointLight K) :
    Color3 K :=
  let light_pos := light.position
  let light_vector := Vector3.normalize sqrtK (light_pos - surface_pos)
  let dist := Vector3.distance sqrtK light_pos surface_pos
  let slope_pos := surface_pos + Vector3.smul EPSILON light_vector
  let b_i := shadow_loop sqrtK light_vector slope_pos surface_pos dist scene.geometries
  if b_i.eq (real_t.fin 1) then
    let atten := Sphere.attenuation dist light light_pos surface_pos
    total_diff + atten.muls (max_of (Vector3.dot light_vector normal) (real_t.fin 0))
  else total_diff

/-- `Sphere::compute_diffuse` (sphere.cpp:197-233). -/
def Sphere.compute_diffuse (sqrtK : K → K) (scene : Scene K)
    (normal surface_pos : Vector3 (real_t K)) : Color3 K :=
  scene.point_lights.foldl (Sphere.diffuse_light sqrtK scene normal surface_pos) Color3.Black

/-- The body of the loop over the lights in `Triangle::compute_diffuse`
(triangle.cpp:164-192): the value of `total_diff` after the light `lights[i]`. -/
def Triangle.diffuse_light (sqrtK : K → K) (scene : Scene K)
    (normal surface_pos : Vector3 (real_t K)) (total_diff : Color3 K) (light : PointLight K) :
    Color3 K :=
  let light_pos := light.position
  let light_vector := Vector3.normalize sqrtK (light_pos - surface_pos)
  let dist := Vector3.distance sqrtK light_pos surface_pos
  let slope_pos := surface_pos + Vector3.smul EPSILON light_vector
  let b_i := shadow_loop sqrtK light_vector slope_pos surface_pos dist scene.geometries
  if b_i.eq (real_t.fin 1) then
    let atten := Triangle.attenuation dist light light_pos surface_pos
    total_diff + atten.muls (Triangle.max (Vector3.dot light_vector normal) (real_t.fin 0))
  else total_diff

/-- `Triangle::compute_diffuse` (triangle.cpp:156-194). -/
def Triangle.compute_diffuse (sqrtK : K → K) (scene : Scene K)
    (normal surface_pos : Vector3 (real_t K)) : Color3 K :=
  scene.point_lights.foldl (Triangle.diffuse_light sqrtK scene normal surface_pos) Color3.Black

/-- The body of the loop over the lights in `Model::compute_diffuse`
(model.cpp:156-179): the value of `total_diff` after the light `lights[i]`. -/
def Model.diffuse_light (sqrtK : K → K) (scene : Scene K)
    (normal surface_pos : Vector3 (real_t K)) (total_diff : Color3 K) (light : PointLight K) :
    Color3 K :=
  let light_pos := light.position
  let light_vector := Vector3.normalize sqrtK (light_pos - surface_pos)
  let dist := Vector3.distance sqrtK light_pos surface_pos
  let slope_pos := surface_pos + Vector3.smul EPSILON light_vector
  let b_i := shadow_loop sqrtK light_vector slope_pos surface_pos dist scene.geometries
  if b_i.eq (real_t.fin 1) then
    let atten := Model.attenuation dist light light_pos surface_pos
    total_diff + atten.muls (Model.max (Vector3.dot light_vector normal) (real_t.fin 0))
  else total_diff

/-- `Model::compute_diffuse` (model.cpp:147-182). -/
def Model.compute_diffuse (sqrtK : K → K) (scene : Scene K)
    (normal surface_pos : Vector3 (real_t K)) : Color3 K :=
  scene.point_lights.foldl (Model.diffuse_light sqrtK scene normal surface_pos) Color3.Black

/-! ## Textures -/

/-- `Sphere::compute_texture` (sphere.cpp:135-151). -/
def Sphere.compute_texture [FloorRing K] (lib : Libm K) (S : Sphere K)
    (normal : Vector3 (real_t K)) : Res (Color3 K) :=
  let THETA := lib.acos normal.y
  let PHI := lib.atan2 normal.x normal.z
  let u := PHI / (real_t.fin 2 * lib.PI)
  let v := (lib.PI - THETA) / lib.PI
  let width := S.material.tex_width
  let height := S.material.tex_height
  if width = 0 ∨ height = 0 then
    Except.ok Color3.White
  else do
    let mod_U ← c_mod (real_t.to_int (real_t.fin (width : K) * u)) width
    let mod_V ← c_mod (real_t.to_int (real_t.fin (height : K) * v)) height
    let texture_color := S.material.get_texture_pixel mod_U mod_V
    Except.ok texture_color

/-- `Triangle::compute_texture_at_vertex` (triangle.cpp:200-211); `mod_U` and
`mod_V` are `real_t` variables there, converted back to `int` by the call of
`get_texture_pixel`. -/
def Triangle.compute_texture_at_vertex [FloorRing K] (u v : real_t K) (material : Material K) :
    Res (Color3 K) :=
  let width := material.tex_width
  let height := material.tex_height
  if width = 0 ∨ height = 0 then
    Except.ok Color3.White
  else do
    let mod_U ← c_mod (real_t.to_int (real_t.fin (width : K) * u)) width
    let mod_V ← c_mod (real_t.to_int (real_t.fin (height : K) * v)) height
    let tex_color := material.get_texture_pixel
      (real_t.to_int (real_t.fin (mod_U : K))) (real_t.to_int (real_t.fin (mod_V : K)))
    Except.ok tex_color

/-- `Triangle::compute_texture` (triangle.cpp:215-231). -/
def Triangle.compute_texture [FloorRing K] (tri : Triangle K) (g : Globals K) : Res (Color3 K) :=
  let tex_A := (tri.vertices 0).tex_coord
  let tex_B := (tri.vertices 1).tex_coord
  let tex_C := (tri.vertices 2).tex_coord
  let tex_U := g.ALPHA * tex_A.x + g.BETA * tex_B.x + g.GAMMA * tex_C.x
  let tex_V := g.ALPHA * tex_A.y + g.BETA * tex_B.y + g.GAMMA * tex_C.y
  do
    let color_A ← Triangle.compute_texture_at_vertex tex_U tex_V (tri.vertices 0).material
    let color_B ← Triangle.compute_texture_at_vertex tex_U tex_V (tri.vertices 1).material
    let color_C ← Triangle.compute_texture_at_vertex tex_U tex_V (tri.vertices 2).material
    let tex_color := Color3.smul g.ALPHA color_A + Color3.smul g.BETA color_B
      + Color3.smul g.GAMMA color_C
    Except.ok tex_color

/-- `Model::compute_texture_at_vertex` (model.cpp:187-198). -/
def Model.compute_texture_at_vertex [FloorRing K] (m : Model K) (u v : real_t K) :
    Res (Color3 K) :=
  let width := m.material.tex_width
  let height := m.material.tex_height
  if width = 0 ∨ height = 0 then
    Except.ok Color3.White
  else do
    let mod_U ← c_mod (real_t.to_int (real_t.fin (width : K) * u)) width
    let mod_V ← c_mod (real_t.to_int (real_t.fin (height : K) * v)) height
    let tex_color := m.material.get_texture_pixel
      (real_t.to_int (real_t.fin (mod_U : K))) (real_t.to_int (real_t.fin (mod_V : K)))
    Except.ok tex_color

/-- `Model::compute_texture` (model.cpp:202-219). -/
def Model.compute_texture [FloorRing K] (m : Model K) (g : Globals K) : Res (Color3 K) :=
  let tex_A := (m.mesh.get_vertex (g.min_triangle.vertices 0)).tex_coord
  let tex_B := (m.mesh.get_vertex (g.min_triangle.vertices 1)).tex_coord
  let tex_C := (m.mesh.get_vertex (g.min_triangle.vertices 2)).tex_coord
  let tex_U := g.ALPH * tex_A.x + g.BET * tex_B.x + g.GAM * tex_C.x
  let tex_V := g.ALPH * tex_A.y + g.BET * tex_B.y + g.GAM * tex_C.y
  m.compute_texture_at_vertex tex_U tex_V

/-! ## Materials and normals at a hit -/

/-- `Sphere::get_refractive_index` (sphere.cpp:355-357). -/
def Sphere.get_refractive_index (S : Sphere K) : real_t K := S.material.refractive_index

/-- `Sphere::get_specular` (sphere.cpp:360-362). -/
def Sphere.get_specular (S : Sphere K) : Color3 K := S.material.specular

/-- `Sphere::normal_of` (sphere.cpp:366-374). -/
def Sphere.normal_of (sqrtK : K → K) (S : Sphere K) (surface_pos : Vector3 (real_t K)) :
    Vector3 (real_t K) :=
  let trans_s_pos := S.transform_point surface_pos
  let center := S.transform_point S.position
  Vector3.normalize sqrtK (S.norm_matrix.mul_vec (Vector3.divs (trans_s_pos - center) S.radius))

/-- `Triangle::get_refractive_index` (triangle.cpp:235-242). -/
def Triangle.get_refractive_index (tri : Triangle K) (g : Globals K) : real_t K :=
  let refA := (tri.vertices 0).material.refractive_index
  let refB := (tri.vertices 1).material.refractive_index
  let refC := (tri.vertices 2).material.refractive_index
  g.ALPHA * refA + g.BETA * refB + g.GAMMA * refC

/-- `Triangle::get_specular` (triangle.cpp:247-254). -/
def Triangle.get_specular (tri : Triangle K) (g : Globals K) : Color3 K :=
  let specA := (tri.vertices 0).material.specular
  let specB := (tri.vertices 1).material.specular
  let specC := (tri.vertices 2).material.specular
  Color3.smul g.ALPHA specA + Color3.smul g.BETA specB + Color3.smul g.GAMMA specC

/-- `Triangle::normal_of` (triangle.cpp:258-266). -/
def Triangle.normal_of (sqrtK : K → K) (tri : Triangle K) (g : Globals K)
    (_surface_pos : Vector3 (real_t K)) : Vector3 (real_t K) :=
  let normalA := (tri.vertices 0).normal
  let normalB := (tri.vertices 1).normal
  let normalC := (tri.vertices 2).normal
  Vector3.normalize sqrtK (tri.norm_matrix.mul_vec
    (Vector3.smul g.ALPHA normalA + Vector3.smul g.BETA normalB + Vector3.smul g.GAMMA normalC))

/-- `Model::get_refractive_index` (model.cpp:227-229). -/
def Model.get_refractive_index (m : Model K) : real_t K := m.material.refractive_index

/-- `Model::get_specular` (model.cpp:231-233). -/
def Model.get_specular (m : Model K) : Color3 K := m.material.specular

/-- `Model::normal_of` (model.cpp:240-250). -/
def Model.normal_of (sqrtK : K → K) (m : Model K) (g : Globals K)
    (_surface_pos : Vector3 (real_t K)) : Vector3 (real_t K) :=
  let normalA := (m.mesh.get_vertex (g.min_triangle.vertices 0)).normal
  let normalB := (m.mesh.get_vertex (g.min_triangle.vertices 1)).normal
  let normalC := (m.mesh.get_vertex (g.min_triangle.vertices 2)).normal
  Vector3.normalize sqrtK (m.norm_matrix.mul_vec
    (Vector3.smul g.ALPH normalA + Vector3.smul g.BET normalB + Vector3.smul g.GAM normalC))

/-! ## Local colour -/

/-- `Sphere::color_at_pixel` (sphere.cpp:379-391). -/
def Sphere.color_at_pixel [FloorRing K] (lib : Libm K) (S : Sphere K) (scene : Scene K)
    (surface_pos : Vector3 (real_t K)) : Res (Color3 K) :=
  let diffuse := S.material.diffuse
  let ambient := S.material.ambient
  let normal := S.normal_of lib.sqrt surface_pos
  do
    let texture_color ← S.compute_texture lib normal
    Except.ok (texture_color * (scene.ambient_light * ambient
      + diffuse * Sphere.compute_diffuse lib.sqrt scene normal surface_pos))

/-- `Triangle::color_at_pixel` (triangle.cpp:315-330). -/
def Triangle.color_at_pixel [FloorRing K] (sqrtK : K → K) (tri : Triangle K) (g : Globals K)
    (scene : Scene K) (surface_pos : Vector3 (real_t K)) : Res (Color3 K) :=
  let ambA := (tri.vertices 0).material.ambient
  let ambB := (tri.vertices 1).material.ambient
  let ambC := (tri.vertices 2).material.ambient
  let diffA := (tri.vertices 0).material.diffuse
  let diffB := (tri.vertices 1).material.diffuse
  let diffC := (tri.vertices 2).material.diffuse
  let bary_amb := Color3.smul g.ALPHA ambA + Color3.smul g.BETA ambB + Color3.smul g.GAMMA ambC
  let bary_diff := Color3.smul g.ALPHA diffA + Color3.smul g.BETA diffB
    + Color3.smul g.GAMMA diffC
  let bary_normal := tri.normal_of sqrtK g surface_pos
  do
    let tex_color ← tri.compute_texture g
    Except.ok (tex_color * (scene.ambient_light * bary_amb
      + bary_diff * Triangle.compute_diffuse sqrtK scene bary_normal surface_pos))

/-- `Model::color_at_pixel` (model.cpp:290-298). -/
def Model.color_at_pixel [FloorRing K] (sqrtK : K → K) (m : Model K) (g : Globals K)
    (scene : Scene K) (surface_pos : Vector3 (real_t K)) : Res (Color3 K) :=
  let diffuse := m.material.diffuse
  let ambient := m.material.ambient
  let bary_norm := m.normal_of sqrtK g surface_pos
  do
    let tex_color ← m.compute_texture g
    Except.ok (tex_color * (scene.ambient_light * ambient
      + diffuse * Model.compute_diffuse sqrtK scene bary_norm surface_pos))

/-- The virtual call `geo->get_refractive_index()`. -/
def Geometry.get_refractive_index (geo : Geometry K) (g : Globals K) : real_t K :=
  match geo with
  | Geometry.sphere S => S.get_refractive_index
  | Geometry.triangle t => t.get_refractive_index g
  | Geometry.model m => m.get_refractive_index

/-- The virtual call `geo->get_specular()`. -/
def Geometry.get_specular (geo : Geometry K) (g : Globals K) : Color3 K :=
  match geo with
  | Geometry.sphere S => S.get_specular
  | Geometry.triangle t => t.get_specular g
  | Geometry.model m => m.get_specular

/-- The virtual call `geo->normal_of(surface_pos)`. -/
def Geometry.normal_of (sqrtK : K → K) (geo : Geometry K) (g : Globals K)
    (surface_pos : Vector3 (real_t K)) : Vector3 (real_t K) :=
  match geo with
  | Geometry.sphere S => S.normal_of sqrtK surface_pos
  | Geometry.triangle t => t.normal_of sqrtK g surface_pos
  | Geometry.model m => m.normal_of sqrtK g surface_pos

/-- The virtual call `geo->color_at_pixel(scene, surface_pos)`. -/
def Geometry.color_at_pixel [FloorRing K] (lib : Libm K) (geo : Geometry K) (g : Globals K)
    (scene : Scene K) (surface_pos : Vector3 (real_t K)) : Res (Color3 K) :=
  match geo with
  | Geometry.sphere S => S.color_at_pixel lib scene surface_pos
  | Geometry.triangle t => t.color_at_pixel lib.sqrt g scene surface_pos
  | Geometry.model m => m.color_at_pixel lib.sqrt g scene surface_pos

/-! ## Recursive specular colour -/

/-- The `compute_specular` calls issued while one call runs, in order: each
entry records the depth argument passed and the calls made inside it. -/
inductive Calls where
  | none
  | call (depth : Int) (inner : Calls) (next : Calls)

/-- Number of calls in a log, the nested ones included. -/
def Calls.count : Calls → Nat
  | Calls.none => 0
  | Calls.call _ inner next => 1 + inner.count + next.count

/-- Depth arguments of the calls issued directly, in order. -/
def Calls.depths : Calls → List Int
  | Calls.none => []
  | Calls.call depth _ next => depth :: next.depths

/-- One log followed by another. -/
def Calls.append : Calls → Calls → Calls
  | Calls.none, c => c
  | Calls.call depth inner next, c => Calls.call depth inner (next.append c)

/-- What a `compute_specular` call leaves behind: the colour it returns, the
file-scope variables, and the calls it made. -/
structure Shaded (K : Type) where
  color : Color3 K
  g : Globals K
  calls : Calls

/-- The virtual call `geo->compute_specular(scene, normal, incoming_ray,
surface_pos, depth)` as seen by a caller. -/
abbrev SpecularCall (K : Type) : Type :=
  Geometry K → Globals K → Scene K → Vector3 (real_t K) → Vector3 (real_t K) →
    Vector3 (real_t K) → Int → Res (Shaded K)

/-- `Sphere::compute_refraction` (sphere.cpp:235-241). -/
def Sphere.compute_refraction (_n nt : real_t K) (ray normal : Vector3 (real_t K)) : real_t K :=
  let c := Vector3.dot ray normal
  let R_0 := real_t.pow ((nt - real_t.fin 1) / (nt + real_t.fin 1)) 2
  let R := R_0 + (real_t.fin 1 - R_0) * real_t.pow (real_t.fin 1 + c) 5
  R

/-- `Sphere::compute_refr_ray` (sphere.cpp:243-254). -/
def Sphere.compute_refr_ray (sqrtK : K → K) (n nt : real_t K)
    (normal dir : Vector3 (real_t K)) : Vector3 (real_t K) :=
  let nsq := real_t.pow n 2
  let dn := real_t.fin 1 - real_t.pow (Vector3.dot dir normal) 2
  let discriminant := real_t.fin 1 - (nsq * dn) / real_t.pow nt 2
  if discriminant.lt (real_t.fin 0) then
    ⟨real_t.fin 0, real_t.fin 0, real_t.fin 0⟩
  else
    let first_term := Vector3.divs
      (Vector3.smul n (dir - Vector3.muls normal (Vector3.dot dir normal))) nt
    Vector3.normalize sqrtK (first_term - Vector3.muls normal (real_t.sqrt sqrtK discriminant))

/-- The refracted ray in `Sphere::compute_specular` (sphere.cpp:283-326), from
the file-scope variables `g1` that the loop for the reflected ray left: the
coefficient `R`, the colour `refr_color`, the file-scope variables and the
calls made.  `dflt` is the value of the local `Color3 refr_color;` before
anything is assigned to it. -/
def Sphere.specular_refraction [FloorRing K] (lib : Libm K) (dflt : Color3 K)
    (call : SpecularCall K) (S : Sphere K) (g1 : Globals K) (scene : Scene K)
    (normal incoming_ray surface_pos : Vector3 (real_t K)) (depth : Int)
    (tex_color : Color3 K) : Res (real_t K × Color3 K × Globals K × Calls) :=
  let product := Vector3.dot incoming_ray normal
  let new_depth := depth - 1
  let curr_refr := S.get_refractive_index
  if curr_refr.ne (real_t.fin 0) then
    let refr_ray :=
      if product.lt (real_t.fin 0) then
        Sphere.compute_refr_ray lib.sqrt (real_t.fin 1) curr_refr normal incoming_ray
      else
        Sphere.compute_refr_ray lib.sqrt curr_refr (real_t.fin 1) normal incoming_ray
    let R :=
      if product.lt (real_t.fin 0) then
        Sphere.compute_refraction (real_t.fin 1) curr_refr refr_ray normal
      else
        Sphere.compute_refraction curr_refr (real_t.fin 1) (-incoming_ray) normal
    if (Vector3.length lib.sqrt refr_ray).ne (real_t.fin 0) then
      let refr_slop_pos := surface_pos + Vector3.smul EPSILON refr_ray
      let r2 := nearest_hit_loop lib.sqrt refr_ray refr_slop_pos scene.geometries 0
        UNINITIALIZED 0 g1
      let min_ref_time := r2.1
      if min_ref_time.ne UNINITIALIZED then
        match scene.geometries.get? r2.2.1 with
        | none => Except.error Fault.out_of_bounds
        | some geo2 => do
          let refr_surf_pos := surface_pos + Vector3.muls refr_ray min_ref_time
          let new_refr_norm := geo2.normal_of lib.sqrt r2.2.2 refr_surf_pos
          let temp_color ← geo2.color_at_pixel lib r2.2.2 scene refr_surf_pos
          if depth > 1 then
            let refr_spec := geo2.get_specular r2.2.2
            let rec_refr ← call geo2 r2.2.2 scene new_refr_norm refr_ray refr_surf_pos
              new_depth
            Except.ok (R, tex_color * (temp_color + refr_spec * rec_refr.color), rec_refr.g,
              Calls.call new_depth rec_refr.calls Calls.none)
          else
            Except.ok (R, dflt, r2.2.2, Calls.none)
      else
        Except.ok (R, tex_color * scene.background_color, r2.2.2, Calls.none)
    else
      Except.ok (real_t.fin 1, dflt, g1, Calls.none)
  else
    Except.ok (real_t.fin 1, dflt, g1, Calls.none)

/-- The reflected ray in `Sphere::compute_specular` (sphere.cpp:328-343), from
the time `minTime` and the index `geo1` that the loop for the reflected ray
left and the file-scope variables `g2` after the refracted ray: the colour
`refl_color`, the file-scope variables and the calls made. -/
def Sphere.specular_reflection [FloorRing K] (lib : Libm K) (call : SpecularCall K)
    (scene : Scene K) (surface_pos refl_ray : Vector3 (real_t K)) (minTime : real_t K)
    (geo1 : Nat) (g2 : Globals K) (depth : Int) (tex_color : Color3 K) :
    Res (Color3 K × Globals K × Calls) :=
  let new_depth := depth - 1
  if minTime.ne UNINITIALIZED then
    match scene.geometries.get? geo1 with
    | none => Except.error Fault.out_of_bounds
    | some geo1 => do
      let new_pos := surface_pos + Vector3.muls refl_ray minTime
      let new_norm := geo1.normal_of lib.sqrt g2 new_pos
      let temp_color ← geo1.color_at_pixel lib g2 scene new_pos
      if depth > 1 then
        let specular := geo1.get_specular g2
        let rec_refl ← call geo1 g2 scene new_norm refl_ray new_pos new_depth
        Except.ok (tex_color * (temp_color + specular * rec_refl.color), rec_refl.g,
          Calls.call new_depth rec_refl.calls Calls.none)
      else
        Except.ok (tex_color * temp_color, g2, Calls.none)
  else
    Except.ok (tex_color * scene.background_color, g2, Calls.none)

/-- `Sphere::compute_specular` (sphere.cpp:260-351). `call` is the virtual
call `compute_specular` on the primitive that was hit. A fault is a read of
`sceneObjects` past its end. -/
def Sphere.compute_specular [FloorRing K] (lib : Libm K) (dflt : Color3 K)
    (call : SpecularCall K) (S : Sphere K) (g : Globals K) (scene : Scene K)
    (normal incoming_ray surface_pos : Vector3 (real_t K)) (depth : Int) : Res (Shaded K) :=
  let product := Vector3.dot incoming_ray normal
  let refl_ray :=
    if product.lt (real_t.fin 0) then
      Vector3.normalize lib.sqrt
        (incoming_ray - Vector3.smul (real_t.fin 2 * Vector3.dot incoming_ray normal) normal)
    else
      Vector3.normalize lib.sqrt
        (incoming_ray + Vector3.smul (real_t.fin 2 * Vector3.dot incoming_ray (-normal)) normal)
  let slop_pos := surface_pos + Vector3.smul EPSILON refl_ray
  match scene.geometries.get? 0 with
  | none => Except.error Fault.out_of_bounds
  | some _ => do
    let tex_color ← S.compute_texture lib normal
    let r1 := nearest_hit_loop lib.sqrt refl_ray slop_pos scene.geometries 0 UNINITIALIZED 0 g
    let minTime := r1.1
    let refr ← S.specular_refraction lib dflt call r1.2.2 scene normal incoming_ray surface_pos
      depth tex_color
    let R := refr.1
    let refr_color := refr.2.1
    let refl ← Sphere.specular_reflection lib call scene surface_pos refl_ray minTime r1.2.1
      refr.2.2.1 depth tex_color
    let refl_color := refl.1
    let calls := refr.2.2.2.append refl.2.2
    if R.eq (real_t.fin 1) then
      Except.ok ⟨refl_color, refl.2.1, calls⟩
    else
      Except.ok ⟨Color3.smul R refl_color + Color3.smul (real_t.fin 1 - R) refr_color,
        refl.2.1, calls⟩

/-- `Triangle::compute_specular` (triangle.cpp:276-306). -/
def Triangle.compute_specular [FloorRing K] (lib : Libm K) (call : SpecularCall K)
    (tri : Triangle K) (g : Globals K) (scene : Scene K)
    (normal incoming_ray surface_pos : Vector3 (real_t K)) (depth : Int) : Res (Shaded K) :=
  let refl_ray := Vector3.normalize lib.sqrt
    (incoming_ray - Vector3.smul (real_t.fin 2 * Vector3.dot incoming_ray normal) normal)
  let slop_pos := surface_pos + Vector3.smul EPSILON refl_ray
  match scene.geometries.get? 0 with
  | none => Except.error Fault.out_of_bounds
  | some _ => do
    let tex_color ← tri.compute_texture g
    let r1 := nearest_hit_loop lib.sqrt refl_ray slop_pos scene.geometries 0 UNINITIALIZED 0 g
    let minTime := r1.1
    if minTime.ne UNINITIALIZED then
      match scene.geometries.get? r1.2.1 with
      | none => Except.error Fault.out_of_bounds
      | some geo => do
        let new_pos := surface_pos + Vector3.muls refl_ray minTime
        let returnColor ← geo.color_at_pixel lib r1.2.2 scene new_pos
        if depth = 1 then
          Except.ok ⟨returnColor, r1.2.2, Calls.none⟩
        else
          let new_depth := depth - 1
          let specular := geo.get_specular r1.2.2
          let new_norm := geo.normal_of lib.sqrt r1.2.2 new_pos
          let rec_refl ← call geo r1.2.2 scene new_norm refl_ray new_pos new_depth
          Except.ok ⟨tex_color * (returnColor + specular * rec_refl.color), rec_refl.g,
            Calls.call new_depth rec_refl.calls Calls.none⟩
    else
      Except.ok ⟨tex_color * scene.background_color, r1.2.2, Calls.none⟩

/-- `Model::compute_specular` (model.cpp:256-285). -/
def Model.compute_specular [FloorRing K] (lib : Libm K) (call : SpecularCall K)
    (m : Model K) (g : Globals K) (scene : Scene K)
    (normal incoming_ray surface_pos : Vector3 (real_t K)) (depth : Int) : Res (Shaded K) :=
  let refl_ray := Vector3.normalize lib.sqrt
    (incoming_ray - Vector3.smul (real_t.fin 2 * Vector3.dot incoming_ray normal) normal)
  let slop_pos := surface_pos + Vector3.smul EPSILON refl_ray
  match scene.geometries.get? 0 with
  | none => Except.error Fault.out_of_bounds
  | some _ => do
    let tex_color ← m.compute_texture g
    let r1 := nearest_hit_loop lib.sqrt refl_ray slop_pos scene.geometries 0 UNINITIALIZED 0 g
    let minTime := r1.1
    if minTime.ne UNINITIALIZED then
      match scene.geometries.get? r1.2.1 with
      | none => Except.error Fault.out_of_bounds
      | some geo => do
        let new_pos := surface_pos + Vector3.muls refl_ray minTime
        let returnColor ← geo.color_at_pixel lib r1.2.2 scene new_pos
        if depth = 1 then
          Except.ok ⟨returnColor, r1.2.2, Calls.none⟩
        else
          let new_depth := depth - 1
          let specular := geo.get_specular r1.2.2
          let new_norm := geo.normal_of lib.sqrt r1.2.2 new_pos
          let rec_refl ← call geo r1.2.2 scene new_norm refl_ray new_pos new_depth
          Except.ok ⟨tex_color * (returnColor + specular * rec_refl.color), rec_refl.g,
            Calls.call new_depth rec_refl.calls Calls.none⟩
    else
      Except.ok ⟨tex_color * scene.background_color, r1.2.2, Calls.none⟩

/-- The virtual call `geo->compute_specular(...)`, with the nesting of calls
bounded by `fuel`: a call that would nest deeper reports `out_of_fuel`. -/
def Geometry.compute_specular [FloorRing K] (lib : Libm K) (dflt : Color3 K) :
    Nat → SpecularCall K
  | 0 => fun _ _ _ _ _ _ _ => Except.error Fault.out_of_fuel
  | fuel + 1 => fun geo g scene normal incoming_ray surface_pos depth =>
    match geo with
    | Geometry.sphere S =>
      S.compute_specular lib dflt (Geometry.compute_specular lib dflt fuel) g scene normal
        incoming_ray surface_pos depth
    | Geometry.triangle t =>
      t.compute_specular lib (Geometry.compute_specular lib dflt fuel) g scene normal
        incoming_ray surface_pos depth
    | Geometry.model m =>
      m.compute_specular lib (Geometry.compute_specular lib dflt fuel) g scene normal
        incoming_ray surface_pos depth

/-! ## The pixel driver with the shading of the primitives -/

/-- `Raytracer::trace_pixel` (raytracer.cpp:95-136) with the methods of the
primitives as embedded above; the result carries the file-scope variables.
`specular_first` says which operand of the `+` in line 131 is evaluated
first, `compute_specular` or `color_at_pixel`: C++ leaves the order to the
compiler.  `fuel` bounds the nesting of `compute_specular` calls.  A failed
assertion is the fault `assert_failed`. -/
def Raytracer.trace_pixel_shaded [FloorRing K] (lib : Libm K) (dflt : Color3 K) (fuel : Nat)
    (specular_first : Bool) (rt : Raytracer K) (scene : Scene K) (x y width height : Nat)
    (g : Globals K) : Res (Color3 K × Globals K) :=
  if ¬ (0 ≤ x ∧ x < width) then Except.error Fault.assert_failed
  else if ¬ (0 ≤ y ∧ y < height) then Except.error Fault.assert_failed
  else
    let u_s := rt.left + (rt.right - rt.left) * real_t.fin ((x : K) + 1 / 2) / real_t.fin (width : K)
    let v_s := rt.bottom + (rt.top - rt.bottom) * real_t.fin ((y : K) + 1 / 2) / real_t.fin (height : K)
    let ray_dir := Vector3.smul u_s rt.u + Vector3.smul v_s rt.v + Vector3.smul rt.nearClip rt.w
    let dir_norm := Vector3.normalize lib.sqrt ray_dir
    match scene.geometries.get? 0 with
    | none => Except.error Fault.out_of_bounds
    | some _ =>
      let r := nearest_hit_loop lib.sqrt dir_norm rt.e scene.geometries 0 UNINITIALIZED 0 g
      let minTime := r.1
      let g1 := r.2.2
      if minTime.ne UNINITIALIZED then
        match scene.geometries.get? r.2.1 with
        | none => Except.error Fault.out_of_bounds
        | some geo =>
          let surface_pos := rt.e + Vector3.muls dir_norm minTime
          let specular := geo.get_specular g1
          let normal := geo.normal_of lib.sqrt g1 surface_pos
          if (geo.get_refractive_index g1).ne (real_t.fin 0) then do
            let s ← Geometry.compute_specular lib dflt fuel geo g1 scene normal dir_norm
              surface_pos 3
            Except.ok (s.color, s.g)
          else if specular_first then do
            let s ← Geometry.compute_specular lib dflt fuel geo g1 scene normal dir_norm
              surface_pos 3
            let c ← geo.color_at_pixel lib s.g scene surface_pos
            Except.ok (c + specular * s.color, s.g)
          else do
            let c ← geo.color_at_pixel lib g1 scene surface_pos
            let s ← Geometry.compute_specular lib dflt fuel geo g1 scene normal dir_norm
              surface_pos 3
            Except.ok (c + specular * s.color, s.g)
      else
        Except.ok (scene.background_color, g1)

/-- Modelled from the spec: `Camera` of `math/camera.hpp`, by the values of
its getters `get_position`, `get_direction`, `get_up`, `get_fov_radians` and
`get_near_clip`. -/
structure Camera (K : Type) where
  position : Vector3 (real_t K)
  direction : Vector3 (real_t K)
  up : Vector3 (real_t K)
  fov_radians : real_t K
  near_clip : real_t K

/-- Modelled from the spec: `cross(a, b)` of `math/vector.hpp`. -/
def Vector3.cross {α : Type} [Sub α] [Mul α] (a b : Vector3 α) : Vector3 α :=
  ⟨a.y * b.z - a.z * b.y, a.z * b.x - a.x * b.z, a.x * b.y - a.y * b.x⟩

/-- The library call `fabs(x)`. -/
def real_t.fabs : real_t K → real_t K
  | real_t.fin a => real_t.fin |a|
  | real_t.pinf => real_t.pinf
  | real_t.ninf => real_t.pinf
  | real_t.nan => real_t.nan

/-- `Raytracer::initialize` (raytracer.cpp:44-79): the members that
`trace_pixel` reads, from the camera of the scene and the size of the image;
`tanK` is the library call `tan`.  The function also stores the scene and the
size, sets `current_row` to 0, and fills `inv_trans` and `norm_matrix` of
every primitive (lines 70-77) from its position, orientation and scale; the
primitives of the embedding carry these two matrices as given. -/
def Raytracer.initialize (sqrtK : K → K) (tanK : real_t K → real_t K) (camera : Camera K)
    (width height : Nat) : Raytracer K :=
  let g := camera.direction
  let t := camera.up
  let w := Vector3.normalize sqrtK g
  let u := Vector3.normalize sqrtK (Vector3.cross t w)
  let v := Vector3.cross w u
  let u := -u
  let e := camera.position
  let fov := camera.fov_radians
  let nearClip := camera.near_clip
  let top := tanK (fov / real_t.fin 2) * real_t.fabs nearClip
  let right := (real_t.fin 1 * real_t.fin (width : K) / real_t.fin (height : K)) * top
  let left := -right
  let bottom := -top
  { u := u, v := v, w := w, e := e, nearClip := nearClip, top := top, right := right,
    bottom := bottom, left := left }

/-- The call `trace_pixel(scene, x, current_row, width, height)` as
`Raytracer::raytrace` sees it: from the pixel and the file-scope variables
to a colour and the file-scope variables, or a fault. -/
abbrev PixelTrace (K : Type) : Type := Nat → Nat → Globals K → Res (Color3 K × Globals K)

/-- What `Raytracer::raytrace` works on: the member `current_row`, the calls
`color.to_array(&buffer[offset])` made so far, each as the offset and the
colour, in order, the file-scope variables, the number of calls of
`SDL_GetTicks` made so far, and the local `is_done`, which has no value until
it is assigned. -/
structure RaytraceState (K : Type) where
  current_row : Nat
  writes : List (Nat × Color3 K)
  g : Globals K
  clock_reads : Nat
  is_done : Option Bool

/-- The loop over `x` in `Raytracer::raytrace` (raytracer.cpp:180-185) for
the values of `x` still to come. -/
def Raytracer.raytrace_row (trace : PixelTrace K) (width : Nat) :
    List Nat → RaytraceState K → Res (RaytraceState K)
  | [], st => Except.ok st
  | x :: rest, st => do
    let traced ← trace x st.current_row st.g
    let color := traced.1
    Raytracer.raytrace_row trace width rest
      { st with writes := st.writes ++ [(4 * (st.current_row * width + x), color)],
                g := traced.2 }

/-- The loop over the rows in `Raytracer::raytrace` (raytracer.cpp:168-186).
`timed` says that `max_time` is not null, `clock k` is what the call number
`k` of `SDL_GetTicks` returns, `fuel` bounds the number of times the loop
condition is evaluated.  The `printf` calls are left out; `size_t` is taken
without wrap-around. -/
def Raytracer.raytrace_loop (trace : PixelTrace K) (width height : Nat) (timed : Bool)
    (end_time : Nat) (clock : Nat → Nat) : Nat → RaytraceState K → Res (RaytraceState K)
  | 0, _ => Except.error Fault.out_of_fuel
  | fuel + 1, st =>
    let st1 := if timed then { st with clock_reads := st.clock_reads + 1 } else st
    if !timed || decide (end_time > clock st.clock_reads) then
      let is_done := decide (st1.current_row = height)
      if is_done then
        Except.ok { st1 with is_done := some true }
      else do
        let st2 ← Raytracer.raytrace_row trace width (List.range width)
          { st1 with is_done := some false }
        Raytracer.raytrace_loop trace width height timed end_time clock fuel
          { st2 with current_row := st2.current_row + 1 }
    else
      Except.ok st1

/-- `Raytracer::raytrace` (raytracer.cpp:150-193).  `max_time` is `none` for a
null pointer; the returned value is `none` when the local `is_done` is
returned without ever being assigned.  `end_time` and `duration` are
`unsigned int` (32 bits); the conversion of a duration that is negative or
too large, which C++ leaves undefined, is taken as 0 and modulo `2^32`. -/
def Raytracer.raytrace [FloorRing K] (trace : PixelTrace K) (width height : Nat)
    (max_time : Option (real_t K)) (clock : Nat → Nat) (fuel : Nat) (st : RaytraceState K) :
    Res (Option Bool × RaytraceState K) :=
  let st0 := { st with is_done := none }
  match max_time with
  | some t => do
    let duration := (real_t.to_int (t * real_t.fin 1000)).toNat % 2 ^ 32
    let end_time := (clock st0.clock_reads + duration) % 2 ^ 32
    let st1 ← Raytracer.raytrace_loop trace width height true end_time clock fuel
      { st0 with clock_reads := st0.clock_reads + 1 }
    Except.ok (st1.is_done, st1)
  | none => do
    let st1 ← Raytracer.raytrace_loop trace width height false 0 clock fuel st0
    Except.ok (st1.is_done, st1)

/-! ## Auxiliary definitions for the statements -/

/-- The system that `Triangle::is_intersecting` and
`Triangle::shadow_intersection` set up for a ray (triangle.cpp:338-377,
105-142). -/
def Triangle.system (tri : Triangle K) (s e : Vector3 (real_t K)) : Cramer K :=
  cramer (tri.vertices 0).position (tri.vertices 1).position (tri.vertices 2).position
    (tri.transform_vector s) (tri.transform_point e)

/-- The system that `Model::intersects_triangle` and
`Model::shadow_intersect_triangle` set up for a member triangle and a ray
(model.cpp:323-363, 81-121). -/
def Model.system (m : Model K) (triangle : MeshTriangle) (s e : Vector3 (real_t K)) :
    Cramer K :=
  cramer (m.mesh.get_vertex (triangle.vertices 0)).position
    (m.mesh.get_vertex (triangle.vertices 1)).position
    (m.mesh.get_vertex (triangle.vertices 2)).position
    (m.transform_vector s) (m.transform_point e)

/-- The hit time of a member triangle of a mesh: the `time` of its system
when the system passes the bounds checks. -/
def Model.hit_time (m : Model K) (s e : Vector3 (real_t K)) (triangle : MeshTriangle) :
    Option (real_t K) :=
  if (m.system triangle s e).valid then some (m.system triangle s e).TIME else none

/-- The own hit time of a primitive: the time it reports when it is queried
alone from the unset time, `none` when that query reports no intersection. -/
def Geometry.own_hit (sqrtK : K → K) (geo : Geometry K) (s e : Vector3 (real_t K))
    (g : Globals K) : Option (real_t K) :=
  let r := geo.is_intersecting sqrtK s e UNINITIALIZED g
  if r.ret.ne NOINTERSECTION then some r.T else none

/-- The candidate time of a sphere for a ray: the root that
`Sphere::is_intersecting` and `Sphere::shadow_intersection` select
(sphere.cpp:414-430, 172-190), `none` when they find none. -/
def Sphere.local_min (sqrtK : K → K) (S : Sphere K) (s e : Vector3 (real_t K)) :
    Option (real_t K) :=
  let E := S.transform_point e
  let d := S.transform_vector s
  let c := S.transform_point S.position
  let ec := E - c
  let product_ec := Vector3.dot ec ec
  let product_dd := Vector3.dot d d
  let discriminant :=
    Vector3.dot d ec * Vector3.dot d ec - product_dd * (product_ec - S.radius * S.radius)
  if discriminant.ge (real_t.fin 0) then
    let T1 := (Vector3.dot (-d) ec + real_t.sqrt sqrtK discriminant) / product_dd
    let T2 := (Vector3.dot (-d) ec - real_t.sqrt sqrtK discriminant) / product_dd
    if T1.le (real_t.fin 0) then none
    else some (if T2.le (real_t.fin 0) then T1 else T2)
  else none

/-- The earliest of a list of candidate times; of equal times the first. -/
def best : List (Option (real_t K)) → Option (real_t K)
  | [] => none
  | c :: cs =>
    match c, best cs with
    | none, b => b
    | some t, none => some t
    | some t, some m => if m.lt t then some m else some t

/-- The candidate time of a primitive for a ray: the time its test proposes
to the update policy, `none` when it proposes none. -/
def Geometry.candidate (sqrtK : K → K) (geo : Geometry K) (s e : Vector3 (real_t K)) :
    Option (real_t K) :=
  match geo with
  | Geometry.sphere S => S.local_min sqrtK s e
  | Geometry.triangle t => if (t.system s e).valid then some (t.system s e).TIME else none
  | Geometry.model m => best (m.mesh.triangles.map (m.hit_time s e))

/-- The update policy of the intersection tests: a candidate time `t`
replaces the running best `T` when `t < T` or `T` is unset.  The result is
whether `T` was replaced, and the new running best. -/
def cand_update (c : Option (real_t K)) (T : real_t K) : Bool × real_t K :=
  match c with
  | none => (false, T)
  | some t => if t.lt T || T.eq (real_t.fin (-1)) then (true, t) else (false, T)

/-- A time that is not before the ray origin: a finite `t ≥ 0`, or `+inf`. -/
def Good (t : real_t K) : Prop := (real_t.fin 0 : real_t K).le t = true

/-- The determinant `M` of the system, on finite data. -/
def detM (a b c d : Vector3 K) : K :=
  (a.x - b.x) * ((a.y - c.y) * d.z - d.y * (a.z - c.z))
    + (a.y - b.y) * (d.x * (a.z - c.z) - (a.x - c.x) * d.z)
    + (a.z - b.z) * ((a.x - c.x) * d.y - (a.y - c.y) * d.x)

/-- The numerator of `beta`, on finite data. -/
def numBeta (a c d e1 : Vector3 K) : K :=
  (a.x - e1.x) * ((a.y - c.y) * d.z - d.y * (a.z - c.z))
    + (a.y - e1.y) * (d.x * (a.z - c.z) - (a.x - c.x) * d.z)
    + (a.z - e1.z) * ((a.x - c.x) * d.y - (a.y - c.y) * d.x)

/-- The numerator of `gamma`, on finite data. -/
def numGamma (a b d e1 : Vector3 K) : K :=
  d.z * ((a.x - b.x) * (a.y - e1.y) - (a.x - e1.x) * (a.y - b.y))
    + d.y * ((a.x - e1.x) * (a.z - b.z) - (a.x - b.x) * (a.z - e1.z))
    + d.x * ((a.y - b.y) * (a.z - e1.z) - (a.y - e1.y) * (a.z - b.z))

/-- The numerator of `TIME`, on finite data. -/
def numTime (a b c e1 : Vector3 K) : K :=
  -((a.z - c.z) * ((a.x - b.x) * (a.y - e1.y) - (a.x - e1.x) * (a.y - b.y))
    + (a.y - c.y) * ((a.x - e1.x) * (a.z - b.z) - (a.x - b.x) * (a.z - e1.z))
    + (a.x - c.x) * ((a.y - b.y) * (a.z - e1.z) - (a.y - e1.y) * (a.z - b.z)))

/-- The point `a + β (b - a) + γ (c - a)` of the plane of the triangle is the
point `e1 + t d` of the ray. -/
def meets (a b c d e1 : Vector3 K) (β γ t : K) : Prop :=
  a.x + β * (b.x - a.x) + γ * (c.x - a.x) = e1.x + t * d.x ∧
  a.y + β * (b.y - a.y) + γ * (c.y - a.y) = e1.y + t * d.y ∧
  a.z + β * (b.z - a.z) + γ * (c.z - a.z) = e1.z + t * d.z

/-- The point `E + t d` of the ray lies on the sphere of centre `c` and
radius `R`: `|E + t d - c|² = R²`. -/
def on_sphere (E d c : Vector3 K) (R t : K) : Prop :=
  (E.x + t * d.x - c.x) * (E.x + t * d.x - c.x) + (E.y + t * d.y - c.y) * (E.y + t * d.y - c.y)
    + (E.z + t * d.z - c.z) * (E.z + t * d.z - c.z) = R * R

/-- The direction `dir_norm` of the viewing ray that `Raytracer::trace_pixel`
casts through the pixel `(x, y)` (raytracer.cpp:101-105). -/
def Raytracer.viewing_ray (sqrtK : K → K) (rt : Raytracer K) (x y width height : Nat) :
    Vector3 (real_t K) :=
  let u_s := rt.left + (rt.right - rt.left) * real_t.fin ((x : K) + 1 / 2) / real_t.fin (width : K)
  let v_s := rt.bottom + (rt.top - rt.bottom) * real_t.fin ((y : K) + 1 / 2) / real_t.fin (height : K)
  let ray_dir := Vector3.smul u_s rt.u + Vector3.smul v_s rt.v + Vector3.smul rt.nearClip rt.w
  Vector3.normalize sqrtK ray_dir

/-! ## Example data -/

/-- The colour black. -/
def ex_black (K : Type) [LinearOrderedField K] : Color3 K :=
  ⟨real_t.fin 0, real_t.fin 0, real_t.fin 0⟩

/-- An opaque black material without texture. -/
def ex_material (K : Type) [LinearOrderedField K] : Material K :=
  ⟨ex_black K, ex_black K, ex_black K, real_t.fin 0, 0, 0, fun _ _ => ex_black K⟩

/-- The sphere of radius 2 around the origin, not transformed. -/
def ex_sphere (K : Type) [LinearOrderedField K] : Sphere K :=
  ⟨Vector3.lift ⟨0, 0, 0⟩, Matrix4.identity K, Matrix3.identity K, real_t.fin 2, ex_material K⟩

/-- A vertex at `(x, y, z)` with the normal `(0, 0, 1)`. -/
def ex_vertex {K : Type} [LinearOrderedField K] (x y z : K) : Vertex K :=
  ⟨Vector3.lift ⟨x, y, z⟩, Vector3.lift ⟨0, 0, 1⟩, ⟨real_t.fin 0, real_t.fin 0⟩, ex_material K⟩

/-- The triangle `(0,0,0)`, `(1,0,0)`, `(0,1,0)`, not transformed. -/
def ex_triangle (K : Type) [LinearOrderedField K] : Triangle K :=
  ⟨Matrix4.identity K, Matrix3.identity K, ![ex_vertex 0 0 0, ex_vertex 1 0 0, ex_vertex 0 1 0]⟩

/-- A mesh vertex at `(x, y, z)` with the normal `(0, 0, 1)`. -/
def ex_mesh_vertex {K : Type} [LinearOrderedField K] (x y z : K) : MeshVertex K :=
  ⟨Vector3.lift ⟨x, y, z⟩, Vector3.lift ⟨0, 0, 1⟩, ⟨real_t.fin 0, real_t.fin 0⟩⟩

/-- The first member triangle of the example mesh. -/
def ex_face0 : MeshTriangle := ⟨![0, 1, 2]⟩

/-- The second member triangle of the example mesh. -/
def ex_face1 : MeshTriangle := ⟨![3, 4, 5]⟩

/-- A mesh of two parallel triangles, in the planes `z = 0` and `z = 1`,
not transformed. -/
def ex_model (K : Type) [LinearOrderedField K] : Model K :=
  ⟨Matrix4.identity K, Matrix3.identity K,
    ⟨[ex_face0, ex_face1],
      [ex_mesh_vertex 0 0 0, ex_mesh_vertex 1 0 0, ex_mesh_vertex 0 1 0,
        ex_mesh_vertex 0 0 1, ex_mesh_vertex 1 0 1, ex_mesh_vertex 0 1 1]⟩,
    ex_material K⟩

/-- File-scope variables as they are at program start (all zero). -/
def ex_globals (K : Type) [LinearOrderedField K] : Globals K :=
  ⟨real_t.fin 0, real_t.fin 0, real_t.fin 0, Vector3.lift ⟨0, 0, 0⟩, real_t.fin 0,
    Vector3.lift ⟨0, 0, 0⟩, ⟨![0, 0, 0]⟩, real_t.fin 0, real_t.fin 0, real_t.fin 0⟩

/-- A ray origin on the axis `x = y = 1/4`, at height 5. -/
def ex_origin (K : Type) [LinearOrderedField K] : Vector3 K := ⟨1 / 4, 1 / 4, 5⟩

/-- The direction straight down. -/
def ex_down (K : Type) [LinearOrderedField K] : Vector3 K := ⟨0, 0, -1⟩

/-- A scene without primitives and without lights. -/
def ex_empty_scene (K : Type) [LinearOrderedField K] : Scene K :=
  ⟨ex_black K, ex_black K, real_t.fin 1, [], []⟩

/-- A shading interface that returns black everywhere. -/
def ex_shading (K : Type) [LinearOrderedField K] : Shading K :=
  ⟨fun _ _ => ex_black K, fun _ _ v => v, fun _ _ => real_t.fin 0,
    fun _ _ _ _ _ _ _ => ex_black K, fun _ _ _ _ => ex_black K⟩

/-- A camera at `(0, 0, 5)` that looks down the z axis. -/
def ex_raytracer (K : Type) [LinearOrderedField K] : Raytracer K :=
  ⟨Vector3.lift ⟨1, 0, 0⟩, Vector3.lift ⟨0, 1, 0⟩, Vector3.lift ⟨0, 0, -1⟩,
    Vector3.lift ⟨0, 0, 5⟩, real_t.fin 1, real_t.fin 1, real_t.fin 1, real_t.fin (-1),
    real_t.fin (-1)⟩

/-! ## Auxiliary definitions for the shading statements -/

/-- The occlusion test that `compute_diffuse` runs for a surface point and a
light position, as one condition: some primitive of the scene returns a
shadow time other than -1 for the ray from the offset point toward the light,
and the hit point of that time is nearer to the surface point than the light
is. -/
def occluded (sqrtK : K → K) (scene : Scene K) (surface_pos light_pos : Vector3 (real_t K)) :
    Bool :=
  let light_vector := Vector3.normalize sqrtK (light_pos - surface_pos)
  let dist := Vector3.distance sqrtK light_pos surface_pos
  let slope_pos := surface_pos + Vector3.smul EPSILON light_vector
  scene.geometries.any (fun geo =>
    let t := geo.shadow_intersection sqrtK light_vector slope_pos
    t.ne (real_t.fin (-1)) &&
      (Vector3.distance sqrtK (slope_pos + Vector3.muls light_vector t) surface_pos).lt dist)

/-- The occlusion test in the words of the specification: some primitive of
the scene returns a shadow time other than -1 for the ray from the offset
point `p + EPSILON*L` toward the light, and that time is strictly less than
the distance from the offset point to the light. -/
def occluded_by_time (sqrtK : K → K) (scene : Scene K)
    (surface_pos light_pos : Vector3 (real_t K)) : Bool :=
  let L := Vector3.normalize sqrtK (light_pos - surface_pos)
  let offset_pos := surface_pos + Vector3.smul EPSILON L
  scene.geometries.any (fun geo =>
    let t := geo.shadow_intersection sqrtK L offset_pos
    t.ne (real_t.fin (-1)) && t.lt (Vector3.distance sqrtK offset_pos light_pos))

/-- The larger of two numbers; the first when neither is the larger. -/
def real_t.max (a b : real_t K) : real_t K := if a.lt b then b else a

/-- The term of one light in the diffuse sum, in the words of the
specification: `light.color * (1 / (c0 + c1*d + c2*d^2)) * max(0, dot(normal,
L))` with `d` the distance from the surface point to the light and `L` the
unit direction to it. -/
def light_term (sqrtK : K → K) (normal surface_pos : Vector3 (real_t K))
    (light : PointLight K) : Color3 K :=
  let d := Vector3.distance sqrtK surface_pos light.position
  let L := Vector3.normalize sqrtK (light.position - surface_pos)
  (light.color.muls
      (real_t.fin 1 / (light.constant + light.linear * d + light.quadratic * (d * d)))).muls
    (real_t.max (real_t.fin 0) (Vector3.dot normal L))

/-- The diffuse sum in the words of the specification: the sum of the terms
of the lights that are not occluded, black when there is none. -/
def diffuse_sum (sqrtK : K → K) (scene : Scene K) (normal surface_pos : Vector3 (real_t K)) :
    Color3 K :=
  ((scene.point_lights.filter
      (fun light => !occluded sqrtK scene surface_pos light.position)).map
    (light_term sqrtK normal surface_pos)).foldl (fun total term => total + term) Color3.Black

/-- The unit vector of a finite vector, on the components. -/
def Vector3.unit (sqrtK : K → K) (v : Vector3 K) : Vector3 K :=
  ⟨v.x / sqrtK (Vector3.dot v v), v.y / sqrtK (Vector3.dot v v), v.z / sqrtK (Vector3.dot v v)⟩

/-- A white light with constant attenuation 1 at `(x, y, z)`. -/
def ex_light {K : Type} [LinearOrderedField K] (x y z : K) : PointLight K :=
  ⟨Vector3.lift ⟨x, y, z⟩, ⟨real_t.fin 1, real_t.fin 1, real_t.fin 1⟩, real_t.fin 1,
    real_t.fin 0, real_t.fin 0⟩

/-- A triangle around the z axis in the plane `z = 5/4000000`, not
transformed. -/
def ex_low_triangle (K : Type) [LinearOrderedField K] : Triangle K :=
  ⟨Matrix4.identity K, Matrix3.identity K,
    ![ex_vertex (-1) (-1) (5 / 4000000), ex_vertex 1 (-1) (5 / 4000000),
      ex_vertex 0 1 (5 / 4000000)]⟩

/-- A scene of the low triangle with a light on the z axis at height
`1/2000000`, nearer to the origin than `EPSILON`. -/
def ex_near_light_scene (K : Type) [LinearOrderedField K] : Scene K :=
  ⟨ex_black K, ex_black K, real_t.fin 1, [Geometry.triangle (ex_low_triangle K)],
    [ex_light 0 0 (1 / 2000000)]⟩

/-- File-scope variables after a hit of the second member triangle of the
example mesh at the weights `(1/2, 1/4, 1/4)`. -/
def ex_hit_globals (K : Type) [LinearOrderedField K] : Globals K :=
  { ex_globals K with
    min_triangle := ex_face1, ALPH := real_t.fin (1 / 2), BET := real_t.fin (1 / 4),
    GAM := real_t.fin (1 / 4) }

/-- A scene of the example mesh with white ambient light and one white light
at `(1/4, 1/4, 2)`, one unit above the upper triangle of the mesh. -/
def ex_lit_scene (K : Type) [LinearOrderedField K] : Scene K :=
  ⟨ex_black K, ⟨real_t.fin 1, real_t.fin 1, real_t.fin 1⟩, real_t.fin 1,
    [Geometry.model (ex_model K)], [ex_light (1 / 4) (1 / 4) 2]⟩

/-- A material with a 10 x 10 texture whose pixel `(i, j)` has the colour
`(i, j, 0)`: a lookup shows the indices it was given. -/
def ex_index_material (K : Type) [LinearOrderedField K] : Material K :=
  ⟨ex_black K, ex_black K, ex_black K, real_t.fin 0, 10, 10,
    fun i j => ⟨real_t.fin (i : K), real_t.fin (j : K), real_t.fin 0⟩⟩

/-- The example mesh with the index texture. -/
def ex_index_model (K : Type) [LinearOrderedField K] : Model K :=
  { ex_model K with material := ex_index_material K }

/-- The triangle `(0,0,1)`, `(1,0,1)`, `(0,1,1)`, not transformed. -/
def ex_top_triangle (K : Type) [LinearOrderedField K] : Triangle K :=
  ⟨Matrix4.identity K, Matrix3.identity K, ![ex_vertex 0 0 1, ex_vertex 1 0 1, ex_vertex 0 1 1]⟩

/-- A scene of two parallel triangles that face each other, in the planes
`z = 0` and `z = 1`, without lights. -/
def ex_mirror_scene (K : Type) [LinearOrderedField K] : Scene K :=
  ⟨ex_black K, ex_black K, real_t.fin 1,
    [Geometry.triangle (ex_triangle K), Geometry.triangle (ex_top_triangle K)], []⟩

/-! ## Auxiliary definitions for the statements on refraction and on the driver -/

/-- The direction of the reflected ray that `Sphere::compute_specular` casts
(sphere.cpp:264-268). -/
def Sphere.reflected_ray (sqrtK : K → K) (normal incoming_ray : Vector3 (real_t K)) :
    Vector3 (real_t K) :=
  if (Vector3.dot incoming_ray normal).lt (real_t.fin 0) then
    Vector3.normalize sqrtK
      (incoming_ray - Vector3.smul (real_t.fin 2 * Vector3.dot incoming_ray normal) normal)
  else
    Vector3.normalize sqrtK
      (incoming_ray + Vector3.smul (real_t.fin 2 * Vector3.dot incoming_ray (-normal)) normal)

/-- The direction of the reflected ray that `Triangle::compute_specular` and
`Model::compute_specular` cast (triangle.cpp:280, model.cpp:259). -/
def mirror_ray (sqrtK : K → K) (normal incoming_ray : Vector3 (real_t K)) : Vector3 (real_t K) :=
  Vector3.normalize sqrtK
    (incoming_ray - Vector3.smul (real_t.fin 2 * Vector3.dot incoming_ray normal) normal)

/-- The direction of the reflected ray that `compute_specular` of a primitive
casts. -/
def Geometry.reflected_ray (sqrtK : K → K) (geo : Geometry K)
    (normal incoming_ray : Vector3 (real_t K)) : Vector3 (real_t K) :=
  match geo with
  | Geometry.sphere _ => Sphere.reflected_ray sqrtK normal incoming_ray
  | Geometry.triangle _ => mirror_ray sqrtK normal incoming_ray
  | Geometry.model _ => mirror_ray sqrtK normal incoming_ray

/-- The direction `refr_ray` that `Sphere::compute_specular` computes for a
sphere with a refractive index other than 0 (sphere.cpp:291-300). -/
def Sphere.refracted_ray (sqrtK : K → K) (S : Sphere K)
    (normal incoming_ray : Vector3 (real_t K)) : Vector3 (real_t K) :=
  if (Vector3.dot incoming_ray normal).lt (real_t.fin 0) then
    Sphere.compute_refr_ray sqrtK (real_t.fin 1) S.get_refractive_index normal incoming_ray
  else
    Sphere.compute_refr_ray sqrtK S.get_refractive_index (real_t.fin 1) normal incoming_ray

/-- The local `discriminant` of `Sphere::compute_refr_ray`
(sphere.cpp:244-246). -/
def Sphere.refr_discriminant (n nt : real_t K) (normal dir : Vector3 (real_t K)) : real_t K :=
  let nsq := real_t.pow n 2
  let dn := real_t.fin 1 - real_t.pow (Vector3.dot dir normal) 2
  real_t.fin 1 - (nsq * dn) / real_t.pow nt 2

/-- The discriminant of the refraction that `Sphere::compute_specular` asks
for: from index 1 to the index of the material when the ray enters, from the
index of the material to 1 when it leaves. -/
def Sphere.discriminant_at (S : Sphere K) (normal incoming_ray : Vector3 (real_t K)) :
    real_t K :=
  if (Vector3.dot incoming_ray normal).lt (real_t.fin 0) then
    Sphere.refr_discriminant (real_t.fin 1) S.get_refractive_index normal incoming_ray
  else
    Sphere.refr_discriminant S.get_refractive_index (real_t.fin 1) normal incoming_ray

/-- The nearest-hit loop of `compute_specular` for a ray that leaves the
point `surface_pos` in the direction `dir` (sphere.cpp:277-282 and 304-309,
triangle.cpp:285-291, model.cpp:264-270): the ray starts at the offset point
`surface_pos + EPSILON*dir` and the running time starts unset. -/
def cast_ray (sqrtK : K → K) (scene : Scene K) (dir surface_pos : Vector3 (real_t K))
    (g : Globals K) : real_t K × Nat × Globals K :=
  nearest_hit_loop sqrtK dir (surface_pos + Vector3.smul EPSILON dir) scene.geometries 0
    UNINITIALIZED 0 g

/-- The texture colour of the surface that `compute_specular` of a primitive
looks up first (sphere.cpp:276, triangle.cpp:284, model.cpp:263). -/
def Geometry.compute_texture [FloorRing K] (lib : Libm K) (geo : Geometry K) (g : Globals K)
    (normal : Vector3 (real_t K)) : Res (Color3 K) :=
  match geo with
  | Geometry.sphere S => S.compute_texture lib normal
  | Geometry.triangle t => t.compute_texture g
  | Geometry.model m => m.compute_texture g

/-- The reflectance in the words of the specification:
`R = R0 + (1 - R0)*(1 + c)^5` with `R0 = ((nt - 1)/(nt + 1))^2`. -/
def schlick (nt c : real_t K) : real_t K :=
  let R0 := ((nt - real_t.fin 1) / (nt + real_t.fin 1)) * ((nt - real_t.fin 1) / (nt + real_t.fin 1))
  R0 + (real_t.fin 1 - R0)
    * ((real_t.fin 1 + c) * (real_t.fin 1 + c) * (real_t.fin 1 + c) * (real_t.fin 1 + c)
      * (real_t.fin 1 + c))

/-- A colour of three finite components. -/
def Color3.IsFinite (c : Color3 K) : Prop :=
  ∃ r g b : K, c = ⟨real_t.fin r, real_t.fin g, real_t.fin b⟩

/-- The pixels of the rows from `row` to `height - 1`, row by row and from
left to right in a row, each as `(x, row)`. -/
def pixels_from (width height row : Nat) : List (Nat × Nat) :=
  (List.range' row (height - row)).flatMap (fun y => (List.range width).map (fun x => (x, y)))

/-- The pixels of a list traced one after the other: each colour is written
at the offset `4 * (row * width + x)` of its pixel. -/
def trace_all (trace : PixelTrace K) (width : Nat) :
    List (Nat × Nat) → List (Nat × Color3 K) → Globals K →
      Res (List (Nat × Color3 K) × Globals K)
  | [], writes, g => Except.ok (writes, g)
  | (x, y) :: rest, writes, g => do
    let traced ← trace x y g
    trace_all trace width rest (writes ++ [(4 * (y * width + x), traced.1)]) traced.2

/-- A material of refractive index 3/2 with black colours and no texture. -/
def ex_glass_material (K : Type) [LinearOrderedField K] : Material K :=
  { ex_material K with refractive_index := real_t.fin (3 / 2) }

/-- The sphere of radius 2 around the origin, of glass, not transformed. -/
def ex_glass_sphere (K : Type) [LinearOrderedField K] : Sphere K :=
  { ex_sphere K with material := ex_glass_material K }

/-- A scene with a white background that holds the example triangle, without
lights. -/
def ex_floor_scene (K : Type) [LinearOrderedField K] : Scene K :=
  ⟨⟨real_t.fin 1, real_t.fin 1, real_t.fin 1⟩, ex_black K, real_t.fin 1,
    [Geometry.triangle (ex_triangle K)], []⟩

/-- A camera at `(0, 0, 5)` that looks down the z axis, with the y axis up. -/
def ex_camera (K : Type) [LinearOrderedField K] : Camera K :=
  ⟨Vector3.lift ⟨0, 0, 5⟩, Vector3.lift ⟨0, 0, -1⟩, Vector3.lift ⟨0, 1, 0⟩, real_t.fin 1,
    real_t.fin 1⟩

/-- A pixel tracer that returns black and leaves the file-scope variables as
they are. -/
def ex_black_trace (K : Type) [LinearOrderedField K] : PixelTrace K :=
  fun _ _ g => Except.ok (ex_black K, g)

/-- The state of a raytrace at its start: row 0, nothing written, the clock
not read. -/
def ex_start (K : Type) [LinearOrderedField K] : RaytraceState K :=
  ⟨0, [], ex_globals K, 0, none⟩

/-- A material of refractive index 3/2 with a white ambient colour, black
diffuse and specular colours and no texture. -/
def ex_lens_material (K : Type) [LinearOrderedField K] : Material K :=
  ⟨⟨real_t.fin 1, real_t.fin 1, real_t.fin 1⟩, ex_black K, ex_black K, real_t.fin (3 / 2), 0, 0,
    fun _ _ => ex_black K⟩

/-- The sphere of radius 2 around the origin, of the lens material, not
transformed. -/
def ex_lens (K : Type) [LinearOrderedField K] : Sphere K :=
  ⟨Vector3.lift ⟨0, 0, 0⟩, Matrix4.identity K, Matrix3.identity K, real_t.fin 2,
    ex_lens_material K⟩

/-- A scene with a white background and white ambient light that holds the
lens, without lights. -/
def ex_lens_scene (K : Type) [LinearOrderedField K] : Scene K :=
  ⟨⟨real_t.fin 1, real_t.fin 1, real_t.fin 1⟩, ⟨real_t.fin 1, real_t.fin 1, real_t.fin 1⟩,
    real_t.fin 1, [Geometry.sphere (ex_lens K)], []⟩

/-! ## Auxiliary definitions for the statements on the rays and on the weights -/

/-- The vector that `compute_specular` normalises into the reflected ray:
`incoming_ray - 2*dot(incoming_ray, normal)*normal` (sphere.cpp:266,
triangle.cpp:280, model.cpp:259). -/
def mirror_vector (normal incoming_ray : Vector3 (real_t K)) : Vector3 (real_t K) :=
  incoming_ray - Vector3.smul (real_t.fin 2 * Vector3.dot incoming_ray normal) normal

/-- The vector that `Sphere::compute_specular` normalises into the reflected
ray when `dot(incoming_ray, normal)` is not negative:
`incoming_ray + 2*dot(incoming_ray, -normal)*normal` (sphere.cpp:268). -/
def mirror_vector_leaving (normal incoming_ray : Vector3 (real_t K)) : Vector3 (real_t K) :=
  incoming_ray + Vector3.smul (real_t.fin 2 * Vector3.dot incoming_ray (-normal)) normal

/-- The vector that `Sphere::compute_refr_ray` normalises when the
discriminant is not negative:
`n*(dir - normal*dot(dir,normal))/nt - normal*sqrt(discriminant)`
(sphere.cpp:251-252). -/
def Sphere.refr_vector (sqrtK : K → K) (n nt : real_t K) (normal dir : Vector3 (real_t K)) :
    Vector3 (real_t K) :=
  Vector3.divs (Vector3.smul n (dir - Vector3.muls normal (Vector3.dot dir normal))) nt
    - Vector3.muls normal (real_t.sqrt sqrtK (Sphere.refr_discriminant n nt normal dir))

/-- The interpolated ambient colour `bary_amb` of `Triangle::color_at_pixel`
(triangle.cpp:316-325). -/
def Triangle.bary_ambient (tri : Triangle K) (g : Globals K) : Color3 K :=
  Color3.smul g.ALPHA (tri.vertices 0).material.ambient
    + Color3.smul g.BETA (tri.vertices 1).material.ambient
    + Color3.smul g.GAMMA (tri.vertices 2).material.ambient

/-- The interpolated diffuse colour `bary_diff` of `Triangle::color_at_pixel`
(triangle.cpp:316-326). -/
def Triangle.bary_diffuse (tri : Triangle K) (g : Globals K) : Color3 K :=
  Color3.smul g.ALPHA (tri.vertices 0).material.diffuse
    + Color3.smul g.BETA (tri.vertices 1).material.diffuse
    + Color3.smul g.GAMMA (tri.vertices 2).material.diffuse

/-- The interpolated texture coordinate `tex_U` of `Triangle::compute_texture`
(triangle.cpp:215-222). -/
def Triangle.bary_tex_u (tri : Triangle K) (g : Globals K) : real_t K :=
  g.ALPHA * (tri.vertices 0).tex_coord.x + g.BETA * (tri.vertices 1).tex_coord.x
    + g.GAMMA * (tri.vertices 2).tex_coord.x

/-- The interpolated texture coordinate `tex_V` of `Triangle::compute_texture`
(triangle.cpp:215-223). -/
def Triangle.bary_tex_v (tri : Triangle K) (g : Globals K) : real_t K :=
  g.ALPHA * (tri.vertices 0).tex_coord.y + g.BETA * (tri.vertices 1).tex_coord.y
    + g.GAMMA * (tri.vertices 2).tex_coord.y

/-- An opaque black material with a texture of one grey pixel. -/
def ex_grey_material (K : Type) [LinearOrderedField K] : Material K :=
  ⟨ex_black K, ex_black K, ex_black K, real_t.fin 0, 1, 1,
    fun _ _ => ⟨real_t.fin (1 / 2), real_t.fin (1 / 2), real_t.fin (1 / 2)⟩⟩

/-- A vertex of the grey material at `(x, y, z)` with the normal `(0, 0, 1)`. -/
def ex_grey_vertex {K : Type} [LinearOrderedField K] (x y z : K) : Vertex K :=
  ⟨Vector3.lift ⟨x, y, z⟩, Vector3.lift ⟨0, 0, 1⟩, ⟨real_t.fin 0, real_t.fin 0⟩,
    ex_grey_material K⟩

/-- The grey triangle `(-1,-1,-5)`, `(3,-1,-5)`, `(-1,3,-5)`, not transformed. -/
def ex_grey_triangle (K : Type) [LinearOrderedField K] : Triangle K :=
  ⟨Matrix4.identity K, Matrix3.identity K,
    ![ex_grey_vertex (-1) (-1) (-5), ex_grey_vertex 3 (-1) (-5), ex_grey_vertex (-1) 3 (-5)]⟩

/-- An opaque sphere of the grey material, of radius 1 around `(0, 0, -6)`,
not transformed: it touches the grey triangle in `(0, 0, -5)`. -/
def ex_grey_sphere (K : Type) [LinearOrderedField K] : Sphere K :=
  ⟨Vector3.lift ⟨0, 0, -6⟩, Matrix4.identity K, Matrix3.identity K, real_t.fin 1,
    ex_grey_material K⟩

/-- A scene with white background and white ambient light that holds the
lens and, below it, the grey triangle, without lights. -/
def ex_grey_scene (K : Type) [LinearOrderedField K] : Scene K :=
  ⟨⟨real_t.fin 1, real_t.fin 1, real_t.fin 1⟩, ⟨real_t.fin 1, real_t.fin 1, real_t.fin 1⟩,
    real_t.fin 1, [Geometry.sphere (ex_lens K), Geometry.triangle (ex_grey_triangle K)], []⟩

/-- File-scope variables after a hit of a triangle at the weights
`(1/2, 1/4, 1/4)`. -/
def ex_tri_globals (K : Type) [LinearOrderedField K] : Globals K :=
  { ex_globals K with
    ALPHA := real_t.fin (1 / 2), BETA := real_t.fin (1 / 4), GAMMA := real_t.fin (1 / 4) }

/-- An opaque material with the ambient colour `c`, black diffuse and
specular colours and no texture. -/
def ex_colour_material {K : Type} [LinearOrderedField K] (c : Color3 K) : Material K :=
  ⟨c, ex_black K, ex_black K, real_t.fin 0, 0, 0, fun _ _ => ex_black K⟩

/-- A vertex at `(x, y, z)` with the normal `(0, 0, 1)` and the ambient
colour `c`. -/
def ex_colour_vertex {K : Type} [LinearOrderedField K] (x y z : K) (c : Color3 K) : Vertex K :=
  ⟨Vector3.lift ⟨x, y, z⟩, Vector3.lift ⟨0, 0, 1⟩, ⟨real_t.fin 0, real_t.fin 0⟩,
    ex_colour_material c⟩

/-- The triangle `(-1,-1,3)`, `(7,-1,3)`, `(-1,7,3)` with a red, a green and a
blue vertex, not transformed. -/
def ex_rgb_triangle (K : Type) [LinearOrderedField K] : Triangle K :=
  ⟨Matrix4.identity K, Matrix3.identity K,
    ![ex_colour_vertex (-1) (-1) 3 ⟨real_t.fin 1, real_t.fin 0, real_t.fin 0⟩,
      ex_colour_vertex 7 (-1) 3 ⟨real_t.fin 0, real_t.fin 1, real_t.fin 0⟩,
      ex_colour_vertex (-1) 7 3 ⟨real_t.fin 0, real_t.fin 0, real_t.fin 1⟩]⟩

/-- The black triangle `(-1,-1,0)`, `(3,-1,0)`, `(-1,3,0)`, not transformed. -/
def ex_inner_triangle (K : Type) [LinearOrderedField K] : Triangle K :=
  ⟨Matrix4.identity K, Matrix3.identity K,
    ![ex_vertex (-1) (-1) 0, ex_vertex 3 (-1) 0, ex_vertex (-1) 3 0]⟩

/-- A scene with white background and white ambient light that holds the
lens, the coloured triangle above it and the black triangle inside it,
without lights. -/
def ex_rgb_scene (K : Type) [LinearOrderedField K] : Scene K :=
  ⟨⟨real_t.fin 1, real_t.fin 1, real_t.fin 1⟩, ⟨real_t.fin 1, real_t.fin 1, real_t.fin 1⟩,
    real_t.fin 1,
    [Geometry.sphere (ex_lens K), Geometry.triangle (ex_rgb_triangle K),
      Geometry.triangle (ex_inner_triangle K)], []⟩

/-- A sphere of radius 2 whose inverse transform is the zero matrix: it maps
every point and every vector to the origin, so that the local direction of
every ray is the zero vector. -/
def ex_flat_sphere (K : Type) [LinearOrderedField K] : Sphere K :=
  ⟨Vector3.lift ⟨0, 0, 0⟩, ⟨fun _ => Vector3.lift ⟨0, 0, 0⟩, fun _ => Vector3.lift ⟨0, 0, 0⟩⟩,
    Matrix3.identity K, real_t.fin 2, ex_material K⟩

/-- The triangle `(-1,-1,2)`, `(3,-1,2)`, `(-1,3,2)`, not transformed: it
touches the example sphere in `(0, 0, 2)`. -/
def ex_cap_triangle (K : Type) [LinearOrderedField K] : Triangle K :=
  ⟨Matrix4.identity K, Matrix3.identity K,
    ![ex_vertex (-1) (-1) 2, ex_vertex 3 (-1) 2, ex_vertex (-1) 3 2]⟩

/-! ## Double arithmetic

The exact arithmetic of `real_t K` leaves out the rounding of the C++ type
`double`.  The definitions below put it back.  `Rounding` is the rounding of
the result of an operation; `ieee` is the format IEEE 754 binary64 with
rounding to nearest, ties to even, every operation rounded once (no fused
multiply-add, no extended precision).  The functions with the suffix `_fl`
are the text of the functions of the program above with every operation
rounded.  Zero is unsigned, as before. -/

/-- The rounding of `double` arithmetic.  An arithmetic operation of the
program on finite operands returns `rnd x`, where `x` is the exact result of
the operation; the library call `sqrt` returns `sqrt x` for a finite
`x ≥ 0`. -/
structure Rounding (K : Type) where
  rnd : K → real_t K
  sqrt : K → real_t K

/-- The value of an operation whose exact result is `v`: a finite result is
rounded, a special value is kept. -/
def Rounding.round (R : Rounding K) : real_t K → real_t K
  | real_t.fin x => R.rnd x
  | real_t.pinf => real_t.pinf
  | real_t.ninf => real_t.ninf
  | real_t.nan => real_t.nan

/-- The `double` operation `a + b`. -/
def Rounding.add (R : Rounding K) (a b : real_t K) : real_t K := R.round (a + b)

/-- The `double` operation `a - b`. -/
def Rounding.sub (R : Rounding K) (a b : real_t K) : real_t K := R.round (a - b)

/-- The `double` operation `a * b`. -/
def Rounding.mul (R : Rounding K) (a b : real_t K) : real_t K := R.round (a * b)

/-- The `double` operation `a / b`. -/
def Rounding.div (R : Rounding K) (a b : real_t K) : real_t K := R.round (a / b)

/-- The library call `sqrt(x)` on a `double`; `NaN` on a negative argument. -/
def Rounding.sqrt_t (R : Rounding K) : real_t K → real_t K
  | real_t.fin a => if a < 0 then real_t.nan else R.sqrt a
  | real_t.pinf => real_t.pinf
  | _ => real_t.nan

/-- Exact arithmetic as a rounding: nothing is rounded, `sqrtK` is the square
root. -/
def Rounding.exact (sqrtK : K → K) : Rounding K := ⟨real_t.fin, fun x => real_t.fin (sqrtK x)⟩

/-- The number of binary digits of `n`, with `fuel` digits looked at. -/
def bitlen_aux : Nat → Nat → Nat
  | 0, _ => 0
  | fuel + 1, n => if n = 0 then 0 else bitlen_aux fuel (n / 2) + 1

/-- The number of binary digits of `n`: the `k` with `2^(k-1) ≤ n < 2^k`, and
0 for `n = 0`. -/
def bitlen (n : Nat) : Nat := bitlen_aux n n

/-- The binary exponent of a positive number `a`: the whole number `e` with
`2^e ≤ a < 2^(e+1)`. -/
def ilog2 [FloorRing K] (a : K) : Int :=
  if 1 ≤ a then (bitlen ⌊a⌋₊ : Int) - 1
  else if a * 2 ^ (bitlen ⌊1 / a⌋₊ - 1) = 1 then -((bitlen ⌊1 / a⌋₊ - 1 : Nat) : Int)
  else -((bitlen ⌊1 / a⌋₊ - 1 : Nat) : Int) - 1

/-- The whole number nearest to `y ≥ 0`; of two equally near ones the even
one. -/
def round_half_even [FloorRing K] (y : K) : Int :=
  if y - (⌊y⌋ : K) < 1 / 2 then ⌊y⌋
  else if 1 / 2 < y - (⌊y⌋ : K) then ⌊y⌋ + 1
  else if ⌊y⌋ % 2 = 0 then ⌊y⌋ else ⌊y⌋ + 1

/-- The `double` (IEEE 754 binary64) nearest to the number `x`, ties to the
even significand: the significand has 53 binary digits, the exponent of the
last digit is at least -1074 (gradual underflow), and a result of magnitude
`2^1024` or more is an infinity. -/
def binary64_rnd [FloorRing K] (x : K) : real_t K :=
  if x = 0 then real_t.fin 0
  else
    let q : Int := if -1074 ≤ ilog2 |x| - 52 then ilog2 |x| - 52 else -1074
    let r : K := (round_half_even (|x| / 2 ^ q) : K) * 2 ^ q
    if (2 : K) ^ (1024 : Int) ≤ r then (if 0 < x then real_t.pinf else real_t.ninf)
    else real_t.fin (if 0 < x then r else -r)

/-- Rounding to `double`, with the library `sqrt` correctly rounded: the
`double` nearest to the square root `sqrtK x`. -/
def Rounding.binary64 [FloorRing K] (sqrtK : K → K) : Rounding K :=
  ⟨binary64_rnd, fun x => binary64_rnd (sqrtK x)⟩

/-- The whole part of the square root of `n`, found digit by digit, with
`fuel` binary digits of the root. -/
def isqrt_aux : Nat → Nat → Nat
  | 0, _ => 0
  | fuel + 1, n =>
    if n = 0 then 0
    else
      match isqrt_aux fuel (n / 4) with
      | 0 => if 1 ≤ n then 1 else 0
      | r + 1 =>
        if (2 * (r + 1) + 1) * (2 * (r + 1) + 1) ≤ n then 2 * (r + 1) + 1 else 2 * (r + 1)

/-- The whole part of the square root of `n`. -/
def isqrt (n : Nat) : Nat := isqrt_aux n n

/-- A rational stand-in for the square root of `x ≥ 0`, for rounding: the
root itself when it is a multiple of `2^-k`, else the midpoint of the two
neighbouring multiples of `2^-k` between which the root lies, where `2^-k` is
`2^-70` times the power of two next below the root.  All `double`s near the
root and all midpoints of neighbouring `double`s are multiples of `2^-k`, so
`binary64_rnd (dsqrt x)` is the `double` nearest to the root. -/
def dsqrt (x : ℚ) : ℚ :=
  let k : Nat := (70 - ilog2 x / 2).toNat
  let n := isqrt ⌊x * 4 ^ k⌋₊
  if ((n * n : Nat) : ℚ) = x * 4 ^ k then (n : ℚ) / 2 ^ k else (2 * n + 1 : ℚ) / 2 ^ (k + 1)

/-- The `double` arithmetic of the program: IEEE 754 binary64 with rounding
to nearest, every operation rounded once. -/
def ieee : Rounding ℚ := Rounding.binary64 dsqrt

/-- A value of `real_t` over the rationals, in another ordered field. -/
def real_t.of_rat : real_t ℚ → real_t K
  | real_t.fin x => real_t.fin (x : K)
  | real_t.pinf => real_t.pinf
  | real_t.ninf => real_t.ninf
  | real_t.nan => real_t.nan

/-- Component-wise `a + b` in `double` arithmetic. -/
def Rounding.vadd (R : Rounding K) (a b : Vector3 (real_t K)) : Vector3 (real_t K) :=
  ⟨R.add a.x b.x, R.add a.y b.y, R.add a.z b.z⟩

/-- Component-wise `a - b` in `double` arithmetic. -/
def Rounding.vsub (R : Rounding K) (a b : Vector3 (real_t K)) : Vector3 (real_t K) :=
  ⟨R.sub a.x b.x, R.sub a.y b.y, R.sub a.z b.z⟩

/-- Modelled from the spec: `dot(a, b)` of `math/vector.hpp` in `double`
arithmetic, the three products added from left to right. -/
def Rounding.dot (R : Rounding K) (a b : Vector3 (real_t K)) : real_t K :=
  R.add (R.add (R.mul a.x b.x) (R.mul a.y b.y)) (R.mul a.z b.z)

/-- The product `k * v` in `double` arithmetic. -/
def Rounding.smul (R : Rounding K) (k : real_t K) (v : Vector3 (real_t K)) :
    Vector3 (real_t K) :=
  ⟨R.mul k v.x, R.mul k v.y, R.mul k v.z⟩

/-- The product `v * k` in `double` arithmetic. -/
def Rounding.muls (R : Rounding K) (v : Vector3 (real_t K)) (k : real_t K) :
    Vector3 (real_t K) :=
  ⟨R.mul v.x k, R.mul v.y k, R.mul v.z k⟩

/-- The quotient `v / k` in `double` arithmetic. -/
def Rounding.divs (R : Rounding K) (v : Vector3 (real_t K)) (k : real_t K) :
    Vector3 (real_t K) :=
  ⟨R.div v.x k, R.div v.y k, R.div v.z k⟩

/-- Modelled from the spec: `cross(a, b)` in `double` arithmetic. -/
def Rounding.cross (R : Rounding K) (a b : Vector3 (real_t K)) : Vector3 (real_t K) :=
  ⟨R.sub (R.mul a.y b.z) (R.mul a.z b.y), R.sub (R.mul a.z b.x) (R.mul a.x b.z),
    R.sub (R.mul a.x b.y) (R.mul a.y b.x)⟩

/-- Modelled from the spec: `length(v)` in `double` arithmetic. -/
def Rounding.length (R : Rounding K) (v : Vector3 (real_t K)) : real_t K :=
  R.sqrt_t (R.dot v v)

/-- Modelled from the spec: `normalize(v)` in `double` arithmetic, the vector
divided by its length. -/
def Rounding.normalize (R : Rounding K) (v : Vector3 (real_t K)) : Vector3 (real_t K) :=
  let len := R.sqrt_t (R.dot v v)
  ⟨R.div v.x len, R.div v.y len, R.div v.z len⟩

/-- Modelled from the spec: `distance(a, b)` in `double` arithmetic. -/
def Rounding.distance (R : Rounding K) (a b : Vector3 (real_t K)) : real_t K :=
  R.length (R.vsub a b)

/-- `Sphere::is_intersecting` (sphere.cpp:404-439) in `double` arithmetic:
the text of `Sphere.is_intersecting` with every operation rounded by `R`. -/
def Sphere.is_intersecting_fl (R : Rounding K) (S : Sphere K) (s e : Vector3 (real_t K))
    (T : real_t K) : real_t K × real_t K :=
  let D := s
  let E := S.transform_point e
  let d := S.transform_vector D
  let c := S.transform_point S.position
  let ec := R.vsub E c
  let product_ec := R.dot ec ec
  let product_dd := R.dot d d
  let discriminant :=
    R.sub (R.mul (R.dot d ec) (R.dot d ec))
      (R.mul product_dd (R.sub product_ec (R.mul S.radius S.radius)))
  if discriminant.ge (real_t.fin 0) then
    let T1 := R.div (R.add (R.dot (-d) ec) (R.sqrt_t discriminant)) product_dd
    let T2 := R.div (R.sub (R.dot (-d) ec) (R.sqrt_t discriminant)) product_dd
    if T1.le (real_t.fin 0) then
      (real_t.fin 0, T)
    else
      let local_min := if T2.le (real_t.fin 0) then T1 else T2
      if local_min.lt T || T.eq (real_t.fin (-1)) then
        (real_t.fin 1, local_min)
      else
        (real_t.fin 0, T)
  else
    (real_t.fin 0, T)

/-- The `double` that the decimal literal or the fraction `x` stands for. -/
def dbl (x : ℚ) : real_t ℚ := binary64_rnd x

/-- A sphere around the origin with the radius `r`, not transformed. -/
def ex_ball (r : real_t ℚ) : Sphere ℚ :=
  ⟨Vector3.lift ⟨0, 0, 0⟩, Matrix4.identity ℚ, Matrix3.identity ℚ, r, ex_material ℚ⟩

/-! ## Conditions under which no operation rounds -/

/-- The operation whose exact result is `v` does not round: `v` is a
`double`. -/
def Rounding.Keeps (R : Rounding K) (v : real_t K) : Prop := R.round v = v

/-- No operation of `a - b` rounds. -/
def Rounding.KeepsSub (R : Rounding K) (a b : Vector3 (real_t K)) : Prop :=
  R.Keeps (a.x - b.x) ∧ R.Keeps (a.y - b.y) ∧ R.Keeps (a.z - b.z)

/-- No operation of `a + b` rounds. -/
def Rounding.KeepsAdd (R : Rounding K) (a b : Vector3 (real_t K)) : Prop :=
  R.Keeps (a.x + b.x) ∧ R.Keeps (a.y + b.y) ∧ R.Keeps (a.z + b.z)

/-- No operation of `dot(a, b)` rounds. -/
def Rounding.KeepsDot (R : Rounding K) (a b : Vector3 (real_t K)) : Prop :=
  R.Keeps (a.x * b.x) ∧ R.Keeps (a.y * b.y) ∧ R.Keeps (a.z * b.z) ∧
    R.Keeps (a.x * b.x + a.y * b.y) ∧ R.Keeps (a.x * b.x + a.y * b.y + a.z * b.z)

/-- The library call `sqrt(v)` returns the square root itself. -/
def Rounding.KeepsSqrt (R : Rounding K) (sqrtK : K → K) (v : real_t K) : Prop :=
  R.sqrt_t v = real_t.sqrt sqrtK v

/-- No operation of the query `Sphere::is_intersecting(s, e, T)` rounds: the
exact result of each is a `double`, and `sqrt` returns the square root of the
discriminant itself. -/
def Sphere.is_intersecting_exact (R : Rounding K) (sqrtK : K → K) (S : Sphere K)
    (s e : Vector3 (real_t K)) : Prop :=
  let E := S.transform_point e
  let d := S.transform_vector s
  let c := S.transform_point S.position
  let ec := E - c
  let product_ec := Vector3.dot ec ec
  let product_dd := Vector3.dot d d
  let discriminant :=
    Vector3.dot d ec * Vector3.dot d ec - product_dd * (product_ec - S.radius * S.radius)
  R.KeepsSub E c ∧ R.KeepsDot ec ec ∧ R.KeepsDot d d ∧ R.KeepsDot d ec ∧ R.KeepsDot (-d) ec ∧
    R.Keeps (Vector3.dot d ec * Vector3.dot d ec) ∧ R.Keeps (S.radius * S.radius) ∧
    R.Keeps (product_ec - S.radius * S.radius) ∧
    R.Keeps (product_dd * (product_ec - S.radius * S.radius)) ∧ R.Keeps discriminant ∧
    R.KeepsSqrt sqrtK discriminant ∧
    R.Keeps (Vector3.dot (-d) ec + real_t.sqrt sqrtK discriminant) ∧
    R.Keeps (Vector3.dot (-d) ec - real_t.sqrt sqrtK discriminant) ∧
    R.Keeps ((Vector3.dot (-d) ec + real_t.sqrt sqrtK discriminant) / product_dd) ∧
    R.Keeps ((Vector3.dot (-d) ec - real_t.sqrt sqrtK discriminant) / product_dd)

/-- The block of the four triangle tests that sets up and solves the system
(triangle.cpp:348-377, 113-142; model.cpp:334-363, 92-121) in `double`
arithmetic: the text of `cramer` with every operation rounded by `R`. -/
def cramer_fl (R : Rounding K) (a b c d e1 : Vector3 (real_t K)) : Cramer K :=
  let A := R.sub a.x b.x
  let B := R.sub a.y b.y
  let C := R.sub a.z b.z
  let D := R.sub a.x c.x
  let E := R.sub a.y c.y
  let F := R.sub a.z c.z
  let G := d.x
  let H := d.y
  let I := d.z
  let J := R.sub a.x e1.x
  let K' := R.sub a.y e1.y
  let L := R.sub a.z e1.z
  let EIHF := R.sub (R.mul E I) (R.mul H F)
  let GFDI := R.sub (R.mul G F) (R.mul D I)
  let DHEG := R.sub (R.mul D H) (R.mul E G)
  let AKJB := R.sub (R.mul A K') (R.mul J B)
  let JCAL := R.sub (R.mul J C) (R.mul A L)
  let BLKC := R.sub (R.mul B L) (R.mul K' C)
  let M := R.add (R.add (R.mul A EIHF) (R.mul B GFDI)) (R.mul C DHEG)
  let beta := R.div (R.add (R.add (R.mul J EIHF) (R.mul K' GFDI)) (R.mul L DHEG)) M
  let gamma := R.div (R.add (R.add (R.mul I AKJB) (R.mul H JCAL)) (R.mul G BLKC)) M
  let TIME := R.div (-(R.add (R.add (R.mul F AKJB) (R.mul E JCAL)) (R.mul D BLKC))) M
  ⟨M, beta, gamma, TIME⟩

/-- The condition of the four triangle tests (triangle.cpp:379, 144;
model.cpp:365, 123) in `double` arithmetic: the subtraction `1.0 - gamma` is
rounded. -/
def Cramer.valid_fl (R : Rounding K) (r : Cramer K) : Bool :=
  r.TIME.ge (real_t.fin 0) && r.gamma.ge (real_t.fin 0) && r.gamma.le (real_t.fin 1)
    && r.beta.ge (real_t.fin 0) && r.beta.le (R.sub (real_t.fin 1) r.gamma)

/-- `Triangle::is_intersecting` (triangle.cpp:336-393) in `double`
arithmetic. -/
def Triangle.is_intersecting_fl (R : Rounding K) (tri : Triangle K) (s e : Vector3 (real_t K))
    (T : real_t K) (g : Globals K) : Isect K :=
  let d := tri.transform_vector s
  let e1 := tri.transform_point e
  let a := (tri.vertices 0).position
  let b := (tri.vertices 1).position
  let c := (tri.vertices 2).position
  let g1 := { g with camera_eye := e1, ray_direction := d }
  let r := cramer_fl R a b c d e1
  if r.valid_fl R then
    let g2 := { g1 with ray_time := r.TIME }
    let alpha := R.sub (R.sub (real_t.fin 1) r.beta) r.gamma
    if r.TIME.lt T || T.eq (real_t.fin (-1)) then
      ⟨real_t.fin (-1), r.TIME, { g2 with ALPHA := alpha, BETA := r.beta, GAMMA := r.gamma }⟩
    else
      ⟨real_t.fin 0, T, g2⟩
  else
    ⟨real_t.fin 0, T, g1⟩

/-- `Model::intersects_triangle` (model.cpp:321-378) in `double`
arithmetic. -/
def Model.intersects_triangle_fl (R : Rounding K) (m : Model K) (triangle : MeshTriangle)
    (s e : Vector3 (real_t K)) (T : real_t K) (g : Globals K) : Isect K :=
  let d := m.transform_vector s
  let e1 := m.transform_point e
  let a := (m.mesh.get_vertex (triangle.vertices 0)).position
  let b := (m.mesh.get_vertex (triangle.vertices 1)).position
  let c := (m.mesh.get_vertex (triangle.vertices 2)).position
  let r := cramer_fl R a b c d e1
  if r.valid_fl R then
    let alpha := R.sub (R.sub (real_t.fin 1) r.gamma) r.beta
    if r.TIME.lt T || T.eq (real_t.fin (-1)) then
      ⟨real_t.fin 1, r.TIME,
        { g with min_triangle := triangle, ALPH := alpha, BET := r.beta, GAM := r.gamma }⟩
    else
      ⟨real_t.fin (-1), T, g⟩
  else
    ⟨real_t.fin (-1), T, g⟩

/-- The system that `Triangle::is_intersecting` sets up and solves for a ray,
in `double` arithmetic. -/
def Triangle.system_fl (R : Rounding K) (tri : Triangle K) (s e : Vector3 (real_t K)) :
    Cramer K :=
  cramer_fl R (tri.vertices 0).position (tri.vertices 1).position (tri.vertices 2).position
    (tri.transform_vector s) (tri.transform_point e)

/-- The system that `Model::intersects_triangle` sets up and solves for a
member triangle and a ray, in `double` arithmetic. -/
def Model.system_fl (R : Rounding K) (m : Model K) (triangle : MeshTriangle)
    (s e : Vector3 (real_t K)) : Cramer K :=
  cramer_fl R (m.mesh.get_vertex (triangle.vertices 0)).position
    (m.mesh.get_vertex (triangle.vertices 1)).position
    (m.mesh.get_vertex (triangle.vertices 2)).position
    (m.transform_vector s) (m.transform_point e)

/-- No operation of `x*y - z*w` rounds. -/
def Rounding.KeepsDet (R : Rounding K) (x y z w : real_t K) : Prop :=
  R.Keeps (x * y) ∧ R.Keeps (z * w) ∧ R.Keeps (x * y - z * w)

/-- No operation of `x*y + z*w + u*v` rounds. -/
def Rounding.KeepsSum (R : Rounding K) (x y z w u v : real_t K) : Prop :=
  R.Keeps (x * y) ∧ R.Keeps (z * w) ∧ R.Keeps (u * v) ∧ R.Keeps (x * y + z * w) ∧
    R.Keeps (x * y + z * w + u * v)

/-- No operation of the block that sets up and solves the system rounds: the
nine subtractions of coordinates, the six differences of two products, the
four sums of three products, and the three divisions by `M`. -/
def cramer_exact (R : Rounding K) (a b c d e1 : Vector3 (real_t K)) : Prop :=
  let A := a.x - b.x
  let B := a.y - b.y
  let C := a.z - b.z
  let D := a.x - c.x
  let E := a.y - c.y
  let F := a.z - c.z
  let G := d.x
  let H := d.y
  let I := d.z
  let J := a.x - e1.x
  let K' := a.y - e1.y
  let L := a.z - e1.z
  let EIHF := E * I - H * F
  let GFDI := G * F - D * I
  let DHEG := D * H - E * G
  let AKJB := A * K' - J * B
  let JCAL := J * C - A * L
  let BLKC := B * L - K' * C
  let M := A * EIHF + B * GFDI + C * DHEG
  (R.KeepsSub a b ∧ R.KeepsSub a c ∧ R.KeepsSub a e1) ∧
    (R.KeepsDet E I H F ∧ R.KeepsDet G F D I ∧ R.KeepsDet D H E G ∧
      R.KeepsDet A K' J B ∧ R.KeepsDet J C A L ∧ R.KeepsDet B L K' C) ∧
    (R.KeepsSum A EIHF B GFDI C DHEG ∧ R.KeepsSum J EIHF K' GFDI L DHEG ∧
      R.KeepsSum I AKJB H JCAL G BLKC ∧ R.KeepsSum F AKJB E JCAL D BLKC) ∧
    (R.Keeps ((J * EIHF + K' * GFDI + L * DHEG) / M) ∧
      R.Keeps ((I * AKJB + H * JCAL + G * BLKC) / M) ∧
      R.Keeps ((-(F * AKJB + E * JCAL + D * BLKC)) / M))

/-- The triangle `(0,0,0)`, `(3,0,0)`, `(0,3,0)`, not transformed. -/
def ex_wide_triangle (K : Type) [LinearOrderedField K] : Triangle K :=
  ⟨Matrix4.identity K, Matrix3.identity K, ![ex_vertex 0 0 0, ex_vertex 3 0 0, ex_vertex 0 3 0]⟩

/-- The vector that `compute_specular` normalises into the reflected ray
(sphere.cpp:266, triangle.cpp:280, model.cpp:259) in `double` arithmetic. -/
def mirror_vector_fl (R : Rounding K) (normal incoming_ray : Vector3 (real_t K)) :
    Vector3 (real_t K) :=
  R.vsub incoming_ray (R.smul (R.mul (real_t.fin 2) (R.dot incoming_ray normal)) normal)

/-- The vector that `Sphere::compute_specular` normalises into the reflected
ray when `dot(incoming_ray, normal)` is not negative (sphere.cpp:268) in
`double` arithmetic. -/
def mirror_vector_leaving_fl (R : Rounding K) (normal incoming_ray : Vector3 (real_t K)) :
    Vector3 (real_t K) :=
  R.vadd incoming_ray (R.smul (R.mul (real_t.fin 2) (R.dot incoming_ray (-normal))) normal)

/-- The direction of the reflected ray that `Sphere::compute_specular` casts
(sphere.cpp:264-268) in `double` arithmetic. -/
def Sphere.reflected_ray_fl (R : Rounding K) (normal incoming_ray : Vector3 (real_t K)) :
    Vector3 (real_t K) :=
  if (R.dot incoming_ray normal).lt (real_t.fin 0) then
    R.normalize (R.vsub incoming_ray
      (R.smul (R.mul (real_t.fin 2) (R.dot incoming_ray normal)) normal))
  else
    R.normalize (R.vadd incoming_ray
      (R.smul (R.mul (real_t.fin 2) (R.dot incoming_ray (-normal))) normal))

/-- The direction of the reflected ray that `Triangle::compute_specular` and
`Model::compute_specular` cast (triangle.cpp:280, model.cpp:259) in `double`
arithmetic. -/
def mirror_ray_fl (R : Rounding K) (normal incoming_ray : Vector3 (real_t K)) :
    Vector3 (real_t K) :=
  R.normalize (R.vsub incoming_ray
    (R.smul (R.mul (real_t.fin 2) (R.dot incoming_ray normal)) normal))

/-- No operation of `k * v` rounds. -/
def Rounding.KeepsSmul (R : Rounding K) (k : real_t K) (v : Vector3 (real_t K)) : Prop :=
  R.Keeps (k * v.x) ∧ R.Keeps (k * v.y) ∧ R.Keeps (k * v.z)

/-- No operation of the two forms of the mirror vector of `compute_specular`
rounds, nor any of the dot product of the mirror vector and the normal, and
the lengths of the mirror vector and of the incoming vector are computed
without rounding, `sqrt` returning the square root itself. -/
def mirror_exact (R : Rounding K) (sqrtK : K → K) (normal incoming_ray : Vector3 (real_t K)) :
    Prop :=
  let k := real_t.fin 2 * Vector3.dot incoming_ray normal
  let k' := real_t.fin 2 * Vector3.dot incoming_ray (-normal)
  let m := incoming_ray - Vector3.smul k normal
  (R.KeepsDot incoming_ray normal ∧ R.Keeps k ∧ R.KeepsSmul k normal ∧
    R.KeepsSub incoming_ray (Vector3.smul k normal)) ∧
  (R.KeepsDot incoming_ray (-normal) ∧ R.Keeps k' ∧ R.KeepsSmul k' normal ∧
    R.KeepsAdd incoming_ray (Vector3.smul k' normal)) ∧
  R.KeepsDot m normal ∧
  (R.KeepsDot m m ∧ R.KeepsSqrt sqrtK (Vector3.dot m m)) ∧
  (R.KeepsDot incoming_ray incoming_ray ∧
    R.KeepsSqrt sqrtK (Vector3.dot incoming_ray incoming_ray))

/-- The library call `pow(x, 2)` on a `double`: the square of `x`, rounded
once. -/
def Rounding.pow2 (R : Rounding K) (x : real_t K) : real_t K := R.round (x * x)

/-- The local `discriminant` of `Sphere::compute_refr_ray` (sphere.cpp:244-246)
in `double` arithmetic. -/
def Sphere.refr_discriminant_fl (R : Rounding K) (n nt : real_t K)
    (normal dir : Vector3 (real_t K)) : real_t K :=
  let nsq := R.pow2 n
  let dn := R.sub (real_t.fin 1) (R.pow2 (R.dot dir normal))
  R.sub (real_t.fin 1) (R.div (R.mul nsq dn) (R.pow2 nt))

/-- The vector that `Sphere::compute_refr_ray` normalises when the
discriminant is not negative (sphere.cpp:251-252) in `double` arithmetic. -/
def Sphere.refr_vector_fl (R : Rounding K) (n nt : real_t K) (normal dir : Vector3 (real_t K)) :
    Vector3 (real_t K) :=
  R.vsub (R.divs (R.smul n (R.vsub dir (R.muls normal (R.dot dir normal)))) nt)
    (R.muls normal (R.sqrt_t (Sphere.refr_discriminant_fl R n nt normal dir)))

/-- `Sphere::compute_refr_ray` (sphere.cpp:243-254) in `double` arithmetic. -/
def Sphere.compute_refr_ray_fl (R : Rounding K) (n nt : real_t K)
    (normal dir : Vector3 (real_t K)) : Vector3 (real_t K) :=
  let nsq := R.pow2 n
  let dn := R.sub (real_t.fin 1) (R.pow2 (R.dot dir normal))
  let discriminant := R.sub (real_t.fin 1) (R.div (R.mul nsq dn) (R.pow2 nt))
  if discriminant.lt (real_t.fin 0) then
    ⟨real_t.fin 0, real_t.fin 0, real_t.fin 0⟩
  else
    let first_term := R.divs (R.smul n (R.vsub dir (R.muls normal (R.dot dir normal)))) nt
    R.normalize (R.vsub first_term (R.muls normal (R.sqrt_t discriminant)))

/-- No operation of `v * k` rounds. -/
def Rounding.KeepsMuls (R : Rounding K) (v : Vector3 (real_t K)) (k : real_t K) : Prop :=
  R.Keeps (v.x * k) ∧ R.Keeps (v.y * k) ∧ R.Keeps (v.z * k)

/-- No operation of `v / k` rounds. -/
def Rounding.KeepsDivs (R : Rounding K) (v : Vector3 (real_t K)) (k : real_t K) : Prop :=
  R.Keeps (v.x / k) ∧ R.Keeps (v.y / k) ∧ R.Keeps (v.z / k)

/-- No operation of `Sphere::compute_refr_ray` before the normalize step
rounds, `sqrt` returns the square root of the discriminant itself, and the
length of the vector built is computed without rounding. -/
def refr_exact (R : Rounding K) (sqrtK : K → K) (n nt : real_t K)
    (normal dir : Vector3 (real_t K)) : Prop :=
  let c := Vector3.dot dir normal
  let dn := real_t.fin 1 - c * c
  let D := real_t.fin 1 - (n * n * dn) / (nt * nt)
  let p := dir - Vector3.muls normal c
  let first_term := Vector3.divs (Vector3.smul n p) nt
  let s := real_t.sqrt sqrtK D
  let W := first_term - Vector3.muls normal s
  (R.Keeps (n * n) ∧ R.KeepsDot dir normal ∧ R.Keeps (c * c) ∧ R.Keeps dn ∧
    R.Keeps (n * n * dn) ∧ R.Keeps (nt * nt) ∧ R.Keeps ((n * n * dn) / (nt * nt)) ∧
    R.Keeps D) ∧
  (R.KeepsMuls normal c ∧ R.KeepsSub dir (Vector3.muls normal c) ∧ R.KeepsSmul n p ∧
    R.KeepsDivs (Vector3.smul n p) nt ∧ R.KeepsSqrt sqrtK D ∧ R.KeepsMuls normal s ∧
    R.KeepsSub first_term (Vector3.muls normal s)) ∧
  (R.KeepsDot W W ∧ R.KeepsSqrt sqrtK (Vector3.dot W W))

/-- `Raytracer::initialize` (raytracer.cpp:44-79) in `double` arithmetic: the
text of `Raytracer.initialize` with every operation rounded by `R`; the
conversion of `width` and of `height` to `double` rounds as well. -/
def Raytracer.initialize_fl (R : Rounding K) (tanK : real_t K → real_t K) (camera : Camera K)
    (width height : Nat) : Raytracer K :=
  let g := camera.direction
  let t := camera.up
  let w := R.normalize g
  let u := R.normalize (R.cross t w)
  let v := R.cross w u
  let u := -u
  let e := camera.position
  let fov := camera.fov_radians
  let nearClip := camera.near_clip
  let top := R.mul (tanK (R.div fov (real_t.fin 2))) (real_t.fabs nearClip)
  let right := R.mul (R.div (R.mul (real_t.fin 1) (R.round (real_t.fin (width : K))))
    (R.round (real_t.fin (height : K)))) top
  let left := -right
  let bottom := -top
  { u := u, v := v, w := w, e := e, nearClip := nearClip, top := top, right := right,
    bottom := bottom, left := left }

/-- No operation of `cross(a, b)` rounds. -/
def Rounding.KeepsCross (R : Rounding K) (a b : Vector3 (real_t K)) : Prop :=
  R.KeepsDet a.y b.z a.z b.y ∧ R.KeepsDet a.z b.x a.x b.z ∧ R.KeepsDet a.x b.y a.y b.x

/-- No operation of `normalize(v)` rounds, and `sqrt` returns the square root
itself. -/
def Rounding.KeepsNormalize (R : Rounding K) (sqrtK : K → K) (v : Vector3 (real_t K)) : Prop :=
  R.KeepsDot v v ∧ R.KeepsSqrt sqrtK (Vector3.dot v v) ∧
    R.KeepsDivs v (real_t.sqrt sqrtK (Vector3.dot v v))

/-- No operation of the four lines of `Raytracer::initialize` that compute
`w`, `u` and `v` from the view direction `g` and the up vector `t` rounds. -/
def basis_exact (R : Rounding K) (sqrtK : K → K) (g t : Vector3 (real_t K)) : Prop :=
  R.KeepsNormalize sqrtK g ∧
  R.KeepsCross t (Vector3.normalize sqrtK g) ∧
  R.KeepsNormalize sqrtK (Vector3.cross t (Vector3.normalize sqrtK g)) ∧
  R.KeepsCross (Vector3.normalize sqrtK g)
    (Vector3.normalize sqrtK (Vector3.cross t (Vector3.normalize sqrtK g)))

/-- A camera at `(0, 0, 5)` with the view direction `(0.2, -0.1, -1)` and the
y axis up. -/
def ex_tilted_camera : Camera ℚ :=
  ⟨Vector3.lift ⟨0, 0, 5⟩, ⟨dbl (2 / 10), dbl (-1 / 10), real_t.fin (-1)⟩,
    Vector3.lift ⟨0, 1, 0⟩, real_t.fin 1, real_t.fin 1⟩

/-- Channel-wise `a + b` of colours in `double` arithmetic. -/
def Rounding.cadd (R : Rounding K) (a b : Color3 K) : Color3 K :=
  ⟨R.add a.r b.r, R.add a.g b.g, R.add a.b b.b⟩

/-- Channel-wise `a * b` of colours in `double` arithmetic. -/
def Rounding.cmul (R : Rounding K) (a b : Color3 K) : Color3 K :=
  ⟨R.mul a.r b.r, R.mul a.g b.g, R.mul a.b b.b⟩

/-- The product `c * k` of a colour and a scalar in `double` arithmetic. -/
def Rounding.cmuls (R : Rounding K) (c : Color3 K) (k : real_t K) : Color3 K :=
  ⟨R.mul c.r k, R.mul c.g k, R.mul c.b k⟩

/-- The product `k * c` of a scalar and a colour in `double` arithmetic. -/
def Rounding.csmul (R : Rounding K) (k : real_t K) (c : Color3 K) : Color3 K :=
  ⟨R.mul k c.r, R.mul k c.g, R.mul k c.b⟩

/-- `Sphere::shadow_intersection` (sphere.cpp:167-193) in `double`
arithmetic. -/
def Sphere.shadow_intersection_fl (R : Rounding K) (S : Sphere K)
    (shadow_dir surface_pos : Vector3 (real_t K)) : real_t K :=
  let E := S.transform_point surface_pos
  let d := S.transform_vector shadow_dir
  let c := S.transform_point S.position
  let ec := R.vsub E c
  let product_ec := R.dot ec ec
  let product_dd := R.dot d d
  let discriminant :=
    R.sub (R.mul (R.dot d ec) (R.dot d ec))
      (R.mul product_dd (R.sub product_ec (R.mul S.radius S.radius)))
  if discriminant.ge (real_t.fin 0) then
    let T1 := R.div (R.add (R.dot (-d) ec) (R.sqrt_t discriminant)) product_dd
    let T2 := R.div (R.sub (R.dot (-d) ec) (R.sqrt_t discriminant)) product_dd
    if T1.le (real_t.fin 0) then
      real_t.fin (-1)
    else if T2.le (real_t.fin 0) then
      T1
    else
      T2
  else
    real_t.fin (-1)

/-- `Triangle::shadow_intersection` (triangle.cpp:103-149) in `double`
arithmetic. -/
def Triangle.shadow_intersection_fl (R : Rounding K) (tri : Triangle K)
    (shadow_dir surface_pos : Vector3 (real_t K)) : real_t K :=
  let d := tri.transform_vector shadow_dir
  let e1 := tri.transform_point surface_pos
  let a := (tri.vertices 0).position
  let b := (tri.vertices 1).position
  let c := (tri.vertices 2).position
  let r := cramer_fl R a b c d e1
  if r.valid_fl R then r.TIME else real_t.fin (-1)

/-- `Model::shadow_intersect_triangle` (model.cpp:80-128) in `double`
arithmetic. -/
def Model.shadow_intersect_triangle_fl (R : Rounding K) (m : Model K) (triangle : MeshTriangle)
    (shadow_dir surface_pos : Vector3 (real_t K)) : real_t K :=
  let d := m.transform_vector shadow_dir
  let e1 := m.transform_point surface_pos
  let a := (m.mesh.get_vertex (triangle.vertices 0)).position
  let b := (m.mesh.get_vertex (triangle.vertices 1)).position
  let c := (m.mesh.get_vertex (triangle.vertices 2)).position
  let r := cramer_fl R a b c d e1
  if r.valid_fl R then r.TIME else real_t.fin (-1)

/-- The loop of `Model::shadow_intersection` (model.cpp:134-141) in `double`
arithmetic. -/
def Model.shadow_intersection_loop_fl (R : Rounding K) (m : Model K)
    (shadow_dir surface_pos : Vector3 (real_t K)) : List MeshTriangle → real_t K → real_t K
  | [], min_time => min_time
  | triangle :: rest, min_time =>
    let time := m.shadow_intersect_triangle_fl R triangle shadow_dir surface_pos
    Model.shadow_intersection_loop_fl R m shadow_dir surface_pos rest
      (if time.ne (real_t.fin (-1)) then
        (if time.lt min_time || min_time.eq (real_t.fin (-1)) then time else min_time)
      else min_time)

/-- `Model::shadow_intersection` (model.cpp:131-143) in `double`
arithmetic. -/
def Model.shadow_intersection_fl (R : Rounding K) (m : Model K)
    (shadow_dir surface_pos : Vector3 (real_t K)) : real_t K :=
  m.shadow_intersection_loop_fl R shadow_dir surface_pos m.mesh.triangles (real_t.fin (-1))

/-- The virtual call `geo->shadow_intersection(shadow_dir, surface_pos)` in
`double` arithmetic. -/
def Geometry.shadow_intersection_fl (R : Rounding K) (geo : Geometry K)
    (shadow_dir surface_pos : Vector3 (real_t K)) : real_t K :=
  match geo with
  | Geometry.sphere S => S.shadow_intersection_fl R shadow_dir surface_pos
  | Geometry.triangle t => t.shadow_intersection_fl R shadow_dir surface_pos
  | Geometry.model m => m.shadow_intersection_fl R shadow_dir surface_pos

/-- `Sphere::attenuation` (sphere.cpp:156-161) in `double` arithmetic. -/
def Sphere.attenuation_fl (R : Rounding K) (dist : real_t K) (light : PointLight K)
    (_light_pos _surface_pos : Vector3 (real_t K)) : Color3 K :=
  let constant := light.constant
  let lin := light.linear
  let quad := light.quadratic
  R.cmuls light.color
    (R.div (real_t.fin 1) (R.add (R.add constant (R.mul lin dist)) (R.mul quad (R.pow2 dist))))

/-- `Triangle::attenuation` (triangle.cpp:92-98) in `double` arithmetic. -/
def Triangle.attenuation_fl (R : Rounding K) (dist : real_t K) (light : PointLight K)
    (_light_pos _surface_pos : Vector3 (real_t K)) : Color3 K :=
  let constant := light.constant
  let lin := light.linear
  let quad := light.quadratic
  R.cmuls light.color
    (R.div (real_t.fin 1) (R.add (R.add constant (R.mul lin dist)) (R.mul quad (R.pow2 dist))))

/-- `Model::attenuation` (model.cpp:71-77) in `double` arithmetic. -/
def Model.attenuation_fl (R : Rounding K) (dist : real_t K) (light : PointLight K)
    (_light_pos _surface_pos : Vector3 (real_t K)) : Color3 K :=
  let constant := light.constant
  let lin := light.linear
  let quad := light.quadratic
  R.cmuls light.color
    (R.div (real_t.fin 1) (R.add (R.add constant (R.mul lin dist)) (R.mul quad (R.pow2 dist))))

/-- The loop over the primitives inside `compute_diffuse` (sphere.cpp:212-226,
triangle.cpp:176-187, model.cpp:162-174) in `double` arithmetic: the value of
`b_i` after it. -/
def shadow_loop_fl (R : Rounding K) (light_vector slope_pos surface_pos : Vector3 (real_t K))
    (dist : real_t K) : List (Geometry K) → real_t K
  | [] => real_t.fin 1
  | geo :: rest =>
    let t := geo.shadow_intersection_fl R light_vector slope_pos
    if t.ne (real_t.fin (-1)) then
      let geo_surface := R.vadd slope_pos (R.muls light_vector t)
      let geo_dis := R.distance geo_surface surface_pos
      if geo_dis.lt dist then real_t.fin 0
      else shadow_loop_fl R light_vector slope_pos surface_pos dist rest
    else shadow_loop_fl R light_vector slope_pos surface_pos dist rest

/-- The body of the loop over the lights in `Sphere::compute_diffuse`
(sphere.cpp:204-231) in `double` arithmetic; the literal `EPSILON` is the
`double` nearest to 0.000001. -/
def Sphere.diffuse_light_fl (R : Rounding K) (scene : Scene K)
    (normal surface_pos : Vector3 (real_t K)) (total_diff : Color3 K) (light : PointLight K) :
    Color3 K :=
  let light_pos := light.position
  let light_vector := R.normalize (R.vsub light_pos surface_pos)
  let dist := R.distance light_pos surface_pos
  let slope_pos := R.vadd surface_pos (R.smul (R.round EPSILON) light_vector)
  let b_i := shadow_loop_fl R light_vector slope_pos surface_pos dist scene.geometries
  if b_i.eq (real_t.fin 1) then
    let atten := Sphere.attenuation_fl R dist light light_pos surface_pos
    R.cadd total_diff (R.cmuls atten (max_of (R.dot light_vector normal) (real_t.fin 0)))
  else total_diff

/-- `Sphere::compute_diffuse` (sphere.cpp:197-233) in `double` arithmetic. -/
def Sphere.compute_diffuse_fl (R : Rounding K) (scene : Scene K)
    (normal surface_pos : Vector3 (real_t K)) : Color3 K :=
  scene.point_lights.foldl (Sphere.diffuse_light_fl R scene normal surface_pos) Color3.Black

/-- The body of the loop over the lights in `Triangle::compute_diffuse`
(triangle.cpp:164-192) in `double` arithmetic. -/
def Triangle.diffuse_light_fl (R : Rounding K) (scene : Scene K)
    (normal surface_pos : Vector3 (real_t K)) (total_diff : Color3 K) (light : PointLight K) :
    Color3 K :=
  let light_pos := light.position
  let light_vector := R.normalize (R.vsub light_pos surface_pos)
  let dist := R.distance light_pos surface_pos
  let slope_pos := R.vadd surface_pos (R.smul (R.round EPSILON) light_vector)
  let b_i := shadow_loop_fl R light_vector slope_pos surface_pos dist scene.geometries
  if b_i.eq (real_t.fin 1) then
    let atten := Triangle.attenuation_fl R dist light light_pos surface_pos
    R.cadd total_diff (R.cmuls atten (Triangle.max (R.dot light_vector normal) (real_t.fin 0)))
  else total_diff

/-- `Triangle::compute_diffuse` (triangle.cpp:156-194) in `double`
arithmetic. -/
def Triangle.compute_diffuse_fl (R : Rounding K) (scene : Scene K)
    (normal surface_pos : Vector3 (real_t K)) : Color3 K :=
  scene.point_lights.foldl (Triangle.diffuse_light_fl R scene normal surface_pos) Color3.Black

/-- The body of the loop over the lights in `Model::compute_diffuse`
(model.cpp:156-179) in `double` arithmetic. -/
def Model.diffuse_light_fl (R : Rounding K) (scene : Scene K)
    (normal surface_pos : Vector3 (real_t K)) (total_diff : Color3 K) (light : PointLight K) :
    Color3 K :=
  let light_pos := light.position
  let light_vector := R.normalize (R.vsub light_pos surface_pos)
  let dist := R.distance light_pos surface_pos
  let slope_pos := R.vadd surface_pos (R.smul (R.round EPSILON) light_vector)
  let b_i := shadow_loop_fl R light_vector slope_pos surface_pos dist scene.geometries
  if b_i.eq (real_t.fin 1) then
    let atten := Model.attenuation_fl R dist light light_pos surface_pos
    R.cadd total_diff (R.cmuls atten (Model.max (R.dot light_vector normal) (real_t.fin 0)))
  else total_diff

/-- `Model::compute_diffuse` (model.cpp:147-182) in `double` arithmetic. -/
def Model.compute_diffuse_fl (R : Rounding K) (scene : Scene K)
    (normal surface_pos : Vector3 (real_t K)) : Color3 K :=
  scene.point_lights.foldl (Model.diffuse_light_fl R scene normal surface_pos) Color3.Black

/-- The occlusion test that `compute_diffuse` runs for a surface point and a
light position in `double` arithmetic, as one condition: some primitive of
the scene returns a shadow time other than -1 for the ray from the offset
point toward the light, and the computed distance of the hit point of that
time from the surface point is less than the computed distance of the light
from the surface point. -/
def occluded_fl (R : Rounding K) (scene : Scene K) (surface_pos light_pos : Vector3 (real_t K)) :
    Bool :=
  let light_vector := R.normalize (R.vsub light_pos surface_pos)
  let dist := R.distance light_pos surface_pos
  let slope_pos := R.vadd surface_pos (R.smul (R.round EPSILON) light_vector)
  scene.geometries.any (fun geo =>
    let t := geo.shadow_intersection_fl R light_vector slope_pos
    t.ne (real_t.fin (-1)) &&
      (R.distance (R.vadd slope_pos (R.muls light_vector t)) surface_pos).lt dist)

/-- The occlusion test in the words of the specification, in `double`
arithmetic: some primitive of the scene returns a shadow time other than -1
for the ray from the offset point `p + EPSILON*L` toward the light, and that
time is strictly less than the computed distance from the offset point to the
light. -/
def occluded_by_time_fl (R : Rounding K) (scene : Scene K)
    (surface_pos light_pos : Vector3 (real_t K)) : Bool :=
  let L := R.normalize (R.vsub light_pos surface_pos)
  let offset_pos := R.vadd surface_pos (R.smul (R.round EPSILON) L)
  scene.geometries.any (fun geo =>
    let t := geo.shadow_intersection_fl R L offset_pos
    t.ne (real_t.fin (-1)) && t.lt (R.distance offset_pos light_pos))

/-- A white light with constant attenuation 1 at the position `pos`. -/
def ex_light_at (pos : Vector3 (real_t ℚ)) : PointLight ℚ :=
  ⟨pos, ⟨real_t.fin 1, real_t.fin 1, real_t.fin 1⟩, real_t.fin 1, real_t.fin 0, real_t.fin 0⟩

/-- The triangle `(-8,-8,h)`, `(8,-8,h)`, `(0,8,h)` in the plane `z = h`, not
transformed. -/
def ex_roof_triangle (h : ℚ) : Triangle ℚ :=
  ⟨Matrix4.identity ℚ, Matrix3.identity ℚ, ![ex_vertex (-8) (-8) h, ex_vertex 8 (-8) h,
    ex_vertex 0 8 h]⟩

/-- A scene of the roof triangle in the plane `z = h` with one white light at
`(x, y, h)`, a point of the plane. -/
def ex_roof_scene (x y h : ℚ) : Scene ℚ :=
  ⟨ex_black ℚ, ex_black ℚ, real_t.fin 1, [Geometry.triangle (ex_roof_triangle h)],
    [ex_light_at (Vector3.lift ⟨x, y, h⟩)]⟩

/-- `Triangle::compute_texture_at_vertex` (triangle.cpp:200-211) in `double`
arithmetic: the products `width*u` and `height*v` round. -/
def Triangle.compute_texture_at_vertex_fl [FloorRing K] (R : Rounding K) (u v : real_t K)
    (material : Material K) : Res (Color3 K) :=
  let width := material.tex_width
  let height := material.tex_height
  if width = 0 ∨ height = 0 then
    Except.ok Color3.White
  else do
    let mod_U ← c_mod (real_t.to_int (R.mul (real_t.fin (width : K)) u)) width
    let mod_V ← c_mod (real_t.to_int (R.mul (real_t.fin (height : K)) v)) height
    let tex_color := material.get_texture_pixel
      (real_t.to_int (real_t.fin (mod_U : K))) (real_t.to_int (real_t.fin (mod_V : K)))
    Except.ok tex_color

/-- `Triangle::compute_texture` (triangle.cpp:215-231) in `double`
arithmetic. -/
def Triangle.compute_texture_fl [FloorRing K] (R : Rounding K) (tri : Triangle K)
    (g : Globals K) : Res (Color3 K) :=
  let tex_A := (tri.vertices 0).tex_coord
  let tex_B := (tri.vertices 1).tex_coord
  let tex_C := (tri.vertices 2).tex_coord
  let tex_U := R.add (R.add (R.mul g.ALPHA tex_A.x) (R.mul g.BETA tex_B.x))
    (R.mul g.GAMMA tex_C.x)
  let tex_V := R.add (R.add (R.mul g.ALPHA tex_A.y) (R.mul g.BETA tex_B.y))
    (R.mul g.GAMMA tex_C.y)
  do
    let color_A ← Triangle.compute_texture_at_vertex_fl R tex_U tex_V (tri.vertices 0).material
    let color_B ← Triangle.compute_texture_at_vertex_fl R tex_U tex_V (tri.vertices 1).material
    let color_C ← Triangle.compute_texture_at_vertex_fl R tex_U tex_V (tri.vertices 2).material
    let tex_color := R.cadd (R.cadd (R.csmul g.ALPHA color_A) (R.csmul g.BETA color_B))
      (R.csmul g.GAMMA color_C)
    Except.ok tex_color

/-- `Triangle::get_refractive_index` (triangle.cpp:235-242) in `double`
arithmetic. -/
def Triangle.get_refractive_index_fl (R : Rounding K) (tri : Triangle K) (g : Globals K) :
    real_t K :=
  let refA := (tri.vertices 0).material.refractive_index
  let refB := (tri.vertices 1).material.refractive_index
  let refC := (tri.vertices 2).material.refractive_index
  R.add (R.add (R.mul g.ALPHA refA) (R.mul g.BETA refB)) (R.mul g.GAMMA refC)

/-- `Triangle::get_specular` (triangle.cpp:247-254) in `double` arithmetic. -/
def Triangle.get_specular_fl (R : Rounding K) (tri : Triangle K) (g : Globals K) : Color3 K :=
  let specA := (tri.vertices 0).material.specular
  let specB := (tri.vertices 1).material.specular
  let specC := (tri.vertices 2).material.specular
  R.cadd (R.cadd (R.csmul g.ALPHA specA) (R.csmul g.BETA specB)) (R.csmul g.GAMMA specC)

/-- `Triangle::normal_of` (triangle.cpp:258-266) in `double` arithmetic. -/
def Triangle.normal_of_fl (R : Rounding K) (tri : Triangle K) (g : Globals K)
    (_surface_pos : Vector3 (real_t K)) : Vector3 (real_t K) :=
  let normalA := (tri.vertices 0).normal
  let normalB := (tri.vertices 1).normal
  let normalC := (tri.vertices 2).normal
  R.normalize (tri.norm_matrix.mul_vec
    (R.vadd (R.vadd (R.smul g.ALPHA normalA) (R.smul g.BETA normalB)) (R.smul g.GAMMA normalC)))

/-- `Triangle::color_at_pixel` (triangle.cpp:315-330) in `double`
arithmetic. -/
def Triangle.color_at_pixel_fl [FloorRing K] (R : Rounding K) (tri : Triangle K)
    (g : Globals K) (scene : Scene K) (surface_pos : Vector3 (real_t K)) : Res (Color3 K) :=
  let ambA := (tri.vertices 0).material.ambient
  let ambB := (tri.vertices 1).material.ambient
  let ambC := (tri.vertices 2).material.ambient
  let diffA := (tri.vertices 0).material.diffuse
  let diffB := (tri.vertices 1).material.diffuse
  let diffC := (tri.vertices 2).material.diffuse
  let bary_amb := R.cadd (R.cadd (R.csmul g.ALPHA ambA) (R.csmul g.BETA ambB))
    (R.csmul g.GAMMA ambC)
  let bary_diff := R.cadd (R.cadd (R.csmul g.ALPHA diffA) (R.csmul g.BETA diffB))
    (R.csmul g.GAMMA diffC)
  let bary_normal := tri.normal_of_fl R g surface_pos
  do
    let tex_color ← tri.compute_texture_fl R g
    Except.ok (R.cmul tex_color (R.cadd (R.cmul scene.ambient_light bary_amb)
      (R.cmul bary_diff (Triangle.compute_diffuse_fl R scene bary_normal surface_pos))))

/-- The interpolated ambient colour `bary_amb` of `Triangle::color_at_pixel`
(triangle.cpp:316-325) in `double` arithmetic. -/
def Triangle.bary_ambient_fl (R : Rounding K) (tri : Triangle K) (g : Globals K) : Color3 K :=
  R.cadd (R.cadd (R.csmul g.ALPHA (tri.vertices 0).material.ambient)
      (R.csmul g.BETA (tri.vertices 1).material.ambient))
    (R.csmul g.GAMMA (tri.vertices 2).material.ambient)

/-- The interpolated diffuse colour `bary_diff` of `Triangle::color_at_pixel`
(triangle.cpp:316-326) in `double` arithmetic. -/
def Triangle.bary_diffuse_fl (R : Rounding K) (tri : Triangle K) (g : Globals K) : Color3 K :=
  R.cadd (R.cadd (R.csmul g.ALPHA (tri.vertices 0).material.diffuse)
      (R.csmul g.BETA (tri.vertices 1).material.diffuse))
    (R.csmul g.GAMMA (tri.vertices 2).material.diffuse)

/-- The interpolated texture coordinate `tex_U` of `Triangle::compute_texture`
(triangle.cpp:215-222) in `double` arithmetic. -/
def Triangle.bary_tex_u_fl (R : Rounding K) (tri : Triangle K) (g : Globals K) : real_t K :=
  R.add (R.add (R.mul g.ALPHA (tri.vertices 0).tex_coord.x)
      (R.mul g.BETA (tri.vertices 1).tex_coord.x))
    (R.mul g.GAMMA (tri.vertices 2).tex_coord.x)

/-- The interpolated texture coordinate `tex_V` of `Triangle::compute_texture`
(triangle.cpp:215-223) in `double` arithmetic. -/
def Triangle.bary_tex_v_fl (R : Rounding K) (tri : Triangle K) (g : Globals K) : real_t K :=
  R.add (R.add (R.mul g.ALPHA (tri.vertices 0).tex_coord.y)
      (R.mul g.BETA (tri.vertices 1).tex_coord.y))
    (R.mul g.GAMMA (tri.vertices 2).tex_coord.y)

/-- No operation of the interpolation `a*col + b*col + c*col` of one colour
rounds. -/
def Rounding.KeepsMix (R : Rounding K) (a b c : real_t K) (col : Color3 K) : Prop :=
  R.KeepsSum a col.r b col.r c col.r ∧ R.KeepsSum a col.g b col.g c col.g ∧
    R.KeepsSum a col.b b col.b c col.b

/-- A material whose colours, refractive index and texture pixel are all the
`double` nearest to 0.3; the texture has one pixel. -/
def ex_tint_material : Material ℚ :=
  ⟨⟨dbl (3 / 10), dbl (3 / 10), dbl (3 / 10)⟩, ⟨dbl (3 / 10), dbl (3 / 10), dbl (3 / 10)⟩,
    ⟨dbl (3 / 10), dbl (3 / 10), dbl (3 / 10)⟩, dbl (3 / 10), 1, 1,
    fun _ _ => ⟨dbl (3 / 10), dbl (3 / 10), dbl (3 / 10)⟩⟩

/-- A vertex of the tinted material at `(x, y, z)` with the normal
`(0, 0, 1)`. -/
def ex_tint_vertex (x y z : ℚ) : Vertex ℚ :=
  ⟨Vector3.lift ⟨x, y, z⟩, Vector3.lift ⟨0, 0, 1⟩, ⟨real_t.fin 0, real_t.fin 0⟩,
    ex_tint_material⟩

/-- The tinted triangle `(0,0,0)`, `(1,0,0)`, `(0,1,0)`, not transformed. -/
def ex_tint_triangle : Triangle ℚ :=
  ⟨Matrix4.identity ℚ, Matrix3.identity ℚ,
    ![ex_tint_vertex 0 0 0, ex_tint_vertex 1 0 0, ex_tint_vertex 0 1 0]⟩

/-- A material with the ambient colour `(1/2, 1/4, 1)`, the diffuse colour
`(1/4, 1/2, 1)`, the specular colour `(1, 1/2, 1/4)`, the refractive index
`3/2` and a texture of one grey pixel. -/
def ex_half_material (K : Type) [LinearOrderedField K] : Material K :=
  ⟨⟨real_t.fin (1 / 2), real_t.fin (1 / 4), real_t.fin 1⟩,
    ⟨real_t.fin (1 / 4), real_t.fin (1 / 2), real_t.fin 1⟩,
    ⟨real_t.fin 1, real_t.fin (1 / 2), real_t.fin (1 / 4)⟩, real_t.fin (3 / 2), 1, 1,
    fun _ _ => ⟨real_t.fin (1 / 2), real_t.fin (1 / 2), real_t.fin (1 / 2)⟩⟩

/-- A vertex of that material at `(x, y, z)` with the normal `(0, 0, 1)`. -/
def ex_half_vertex {K : Type} [LinearOrderedField K] (x y z : K) : Vertex K :=
  ⟨Vector3.lift ⟨x, y, z⟩, Vector3.lift ⟨0, 0, 1⟩, ⟨real_t.fin 0, real_t.fin 0⟩,
    ex_half_material K⟩

/-- The triangle `(0,0,0)`, `(1,0,0)`, `(0,1,0)` of that material, not
transformed. -/
def ex_half_triangle (K : Type) [LinearOrderedField K] : Triangle K :=
  ⟨Matrix4.identity K, Matrix3.identity K,
    ![ex_half_vertex 0 0 0, ex_half_vertex 1 0 0, ex_half_vertex 0 1 0]⟩

end Program

/-! ## Arithmetic and comparison of finite values -/

section Lemmas

variable {K : Type} [LinearOrderedField K]

namespace real_t

@[simp]
theorem fin_add_fin (a b : K) : (fin a + fin b : real_t K) = fin (a + b) := rfl

@[simp]
theorem neg_fin (a : K) : (-(fin a) : real_t K) = fin (-a) := rfl

@[simp]
theorem fin_sub_fin (a b : K) : (fin a - fin b : real_t K) = fin (a - b) := by
  show add (fin a) (neg (fin b)) = fin (a - b)
  simp [add, neg, sub_eq_add_neg]

@[simp]
theorem fin_mul_fin (a b : K) : (fin a * fin b : real_t K) = fin (a * b) := rfl

theorem fin_div_fin (a b : K) :
    (fin a / fin b : real_t K) = if b = 0 then signInf a else fin (a / b) := rfl

theorem fin_div_fin_of_ne (a : K) {b : K} (h : b ≠ 0) :
    (fin a / fin b : real_t K) = fin (a / b) := by
  rw [fin_div_fin, if_neg h]

@[simp]
theorem le_fin_fin (a b : K) : (fin a : real_t K).le (fin b) = decide (a ≤ b) := rfl

@[simp]
theorem lt_fin_fin (a b : K) : (fin a : real_t K).lt (fin b) = decide (a < b) := rfl

@[simp]
theorem ge_fin_fin (a b : K) : (fin a : real_t K).ge (fin b) = decide (b ≤ a) := rfl

@[simp]
theorem eq_fin_fin (a b : K) : (fin a : real_t K).eq (fin b) = decide (a = b) := rfl

theorem signInf_ne_fin (a x : K) : signInf a ≠ fin x := by
  unfold signInf; split_ifs <;> simp

/-- A quotient by zero is not a finite number. -/
theorem div_zero_ne_fin (a : real_t K) (x : K) : a / fin 0 ≠ fin x := by
  show div a (fin 0) ≠ fin x
  cases a <;> simp [div, signInf_ne_fin]

/-- A value between two finite bounds is finite. -/
theorem fin_of_ge_le {a : real_t K} {lo hi : K} (h1 : a.ge (fin lo) = true)
    (h2 : a.le (fin hi) = true) : ∃ x : K, a = fin x ∧ lo ≤ x ∧ x ≤ hi := by
  cases a with
  | fin x => exact ⟨x, rfl, by simpa using h1, by simpa using h2⟩
  | pinf => simp [le] at h2
  | ninf => simp [ge, le] at h1
  | nan => simp [le] at h2

end real_t

open real_t

/-! ## The 3x3 system -/
theorem cramer_lift (a b c d e1 : Vector3 K) :
    cramer (Vector3.lift a) (Vector3.lift b) (Vector3.lift c) (Vector3.lift d) (Vector3.lift e1)
      = ⟨fin (detM a b c d), fin (numBeta a c d e1) / fin (detM a b c d),
          fin (numGamma a b d e1) / fin (detM a b c d),
          fin (numTime a b c e1) / fin (detM a b c d)⟩ := by
  simp [cramer, Vector3.lift, detM, numBeta, numGamma, numTime]

theorem meets_cramer (a b c d e1 : Vector3 K) (hM : detM a b c d ≠ 0) :
    meets a b c d e1 (numBeta a c d e1 / detM a b c d) (numGamma a b d e1 / detM a b c d)
      (numTime a b c e1 / detM a b c d) := by
  unfold meets
  refine ⟨?_, ?_, ?_⟩ <;>
  · field_simp
    simp only [detM, numBeta, numGamma, numTime]
    ring

theorem meets_unique (a b c d e1 : Vector3 K) (hM : detM a b c d ≠ 0) (β γ t : K)
    (h : meets a b c d e1 β γ t) :
    β = numBeta a c d e1 / detM a b c d ∧ γ = numGamma a b d e1 / detM a b c d ∧
      t = numTime a b c e1 / detM a b c d := by
  obtain ⟨h1, h2, h3⟩ := h
  refine ⟨?_, ?_, ?_⟩
  · rw [eq_div_iff hM]
    simp only [detM, numBeta]
    linear_combination (-((a.y - c.y) * d.z - d.y * (a.z - c.z))) * h1
      - (d.x * (a.z - c.z) - (a.x - c.x) * d.z) * h2
      - ((a.x - c.x) * d.y - (a.y - c.y) * d.x) * h3
  · rw [eq_div_iff hM]
    simp only [detM, numGamma]
    linear_combination (-(d.y * (a.z - b.z) - d.z * (a.y - b.y))) * h1
      - (d.z * (a.x - b.x) - d.x * (a.z - b.z)) * h2
      - (d.x * (a.y - b.y) - d.y * (a.x - b.x)) * h3
  · rw [eq_div_iff hM]
    simp only [detM, numTime]
    linear_combination ((a.y - c.y) * (a.z - b.z) - (a.z - c.z) * (a.y - b.y)) * h1
      + ((a.z - c.z) * (a.x - b.x) - (a.x - c.x) * (a.z - b.z)) * h2
      + ((a.x - c.x) * (a.y - b.y) - (a.y - c.y) * (a.x - b.x)) * h3

/-- The checks of `Cramer.valid`, one by one. -/
theorem Cramer.valid_iff (r : Cramer K) :
    r.valid = true ↔ r.TIME.ge (fin 0) = true ∧ r.gamma.ge (fin 0) = true ∧
      r.gamma.le (fin 1) = true ∧ r.beta.ge (fin 0) = true ∧
      r.beta.le (fin 1 - r.gamma) = true := by
  simp [Cramer.valid, and_assoc]

/-- A system that passes the bounds checks has finite weights in range. -/
theorem Cramer.valid_bounds {r : Cramer K} (h : r.valid = true) :
    ∃ β γ : K, r.beta = fin β ∧ r.gamma = fin γ ∧ 0 ≤ β ∧ 0 ≤ γ ∧ γ ≤ 1 ∧ β ≤ 1 - γ := by
  rw [Cramer.valid_iff] at h
  obtain ⟨_, h2, h3, h4, h5⟩ := h
  obtain ⟨γ, hγ, hγ0, hγ1⟩ := fin_of_ge_le h2 h3
  rw [hγ, fin_sub_fin] at h5
  obtain ⟨β, hβ, hβ0, hβ1⟩ := fin_of_ge_le h4 h5
  exact ⟨β, γ, hβ, hγ, hβ0, hγ0, hγ1, hβ1⟩

/-- The quotient `gamma` of a system is a quotient by its determinant. -/
theorem cramer_gamma (a b c d e1 : Vector3 (real_t K)) :
    ∃ X : real_t K, (cramer a b c d e1).gamma = X / (cramer a b c d e1).M :=
  ⟨_, rfl⟩

/-- A singular system fails the bounds checks. -/
theorem cramer_singular (a b c d e1 : Vector3 (real_t K))
    (hM : (cramer a b c d e1).M = fin 0) : (cramer a b c d e1).valid = false := by
  cases hv : (cramer a b c d e1).valid with
  | false => rfl
  | true =>
    obtain ⟨β, γ, _, hγ, _⟩ := Cramer.valid_bounds hv
    obtain ⟨X, hX⟩ := cramer_gamma a b c d e1
    rw [hM] at hX
    rw [hX] at hγ
    exact absurd hγ (div_zero_ne_fin X γ)

theorem Triangle.is_intersecting_eq (tri : Triangle K) (s e : Vector3 (real_t K)) (T : real_t K)
    (g : Globals K) :
    tri.is_intersecting s e T g =
      if (tri.system s e).valid then
        if (tri.system s e).TIME.lt T || T.eq (fin (-1)) then
          ⟨fin (-1), (tri.system s e).TIME,
            { g with camera_eye := tri.transform_point e, ray_direction := tri.transform_vector s,
                     ray_time := (tri.system s e).TIME,
                     ALPHA := fin 1 - (tri.system s e).beta - (tri.system s e).gamma,
                     BETA := (tri.system s e).beta, GAMMA := (tri.system s e).gamma }⟩
        else
          ⟨fin 0, T, { g with camera_eye := tri.transform_point e,
                              ray_direction := tri.transform_vector s,
                              ray_time := (tri.system s e).TIME }⟩
      else
        ⟨fin 0, T, { g with camera_eye := tri.transform_point e,
                            ray_direction := tri.transform_vector s }⟩ := by
  rfl

theorem Model.intersects_triangle_eq (m : Model K) (triangle : MeshTriangle)
    (s e : Vector3 (real_t K)) (T : real_t K) (g : Globals K) :
    m.intersects_triangle triangle s e T g =
      if (m.system triangle s e).valid then
        if (m.system triangle s e).TIME.lt T || T.eq (fin (-1)) then
          ⟨fin 1, (m.system triangle s e).TIME,
            { g with min_triangle := triangle,
                     ALPH := fin 1 - (m.system triangle s e).gamma - (m.system triangle s e).beta,
                     BET := (m.system triangle s e).beta, GAM := (m.system triangle s e).gamma }⟩
        else ⟨fin (-1), T, g⟩
      else ⟨fin (-1), T, g⟩ := by
  rfl

/-- The weights that a system passing the bounds checks yields. -/
theorem Cramer.valid_weights {r : Cramer K} (h : r.valid = true) :
    ∃ α β γ : K, fin 1 - r.beta - r.gamma = fin α ∧ fin 1 - r.gamma - r.beta = fin α ∧
      r.beta = fin β ∧ r.gamma = fin γ ∧
      α + β + γ = 1 ∧ 0 ≤ α ∧ α ≤ 1 ∧ 0 ≤ β ∧ β ≤ 1 ∧ 0 ≤ γ ∧ γ ≤ 1 := by
  obtain ⟨β, γ, hβ, hγ, hβ0, hγ0, hγ1, hβ1⟩ := Cramer.valid_bounds h
  refine ⟨1 - β - γ, β, γ, ?_, ?_, hβ, hγ, by ring, by linarith, by linarith, hβ0, by linarith,
    hγ0, hγ1⟩
  · rw [hβ, hγ]; simp
  · rw [hβ, hγ]; simp; ring

/-! ## Spheres -/

@[simp]
theorem Vector3.lift_sub_lift (a b : Vector3 K) :
    Vector3.lift a - Vector3.lift b = Vector3.lift (a - b) := by
  show Vector3.sub _ _ = _
  simp [Vector3.sub, Vector3.lift]
  exact ⟨rfl, rfl, rfl⟩

@[simp]
theorem Vector3.neg_lift (a : Vector3 K) : -(Vector3.lift a) = Vector3.lift (-a) := by
  show Vector3.neg _ = _
  simp [Vector3.neg, Vector3.lift]
  exact ⟨rfl, rfl, rfl⟩

@[simp]
theorem Vector3.dot_lift_lift (a b : Vector3 K) :
    Vector3.dot (Vector3.lift a) (Vector3.lift b) = fin (Vector3.dot a b) := by
  simp [Vector3.dot, Vector3.lift]

theorem Sphere.is_intersecting_candidate (sqrtK : K → K) (S : Sphere K) (s e : Vector3 (real_t K))
    (T : real_t K) :
    S.is_intersecting sqrtK s e T =
      match S.local_min sqrtK s e with
      | none => (fin 0, T)
      | some t => if t.lt T || T.eq (fin (-1)) then (fin 1, t) else (fin 0, T) := by
  unfold Sphere.is_intersecting Sphere.local_min
  simp only []
  split_ifs <;> simp_all

theorem Sphere.local_min_not_le (sqrtK : K → K) (S : Sphere K) (s e : Vector3 (real_t K))
    (t : real_t K) (h : S.local_min sqrtK s e = some t) : t.le (fin 0) = false := by
  unfold Sphere.local_min at h
  simp only [] at h
  split_ifs at h with h1 h2 h3
  · cases h; simpa using h2
  · cases h; simpa using h3

/-- The candidate time of a sphere on finite data. -/
theorem Sphere.local_min_fin (sqrtK : K → K) (S : Sphere K) (s e : Vector3 (real_t K))
    (E d c : Vector3 K) (R : K)
    (hE : S.transform_point e = Vector3.lift E) (hd : S.transform_vector s = Vector3.lift d)
    (hc : S.transform_point S.position = Vector3.lift c) (hR : S.radius = fin R)
    (hdd : Vector3.dot d d ≠ 0) :
    S.local_min sqrtK s e =
      if 0 ≤ Vector3.dot d (E - c) * Vector3.dot d (E - c)
          - Vector3.dot d d * (Vector3.dot (E - c) (E - c) - R * R) then
        if (Vector3.dot (-d) (E - c) + sqrtK (Vector3.dot d (E - c) * Vector3.dot d (E - c)
          - Vector3.dot d d * (Vector3.dot (E - c) (E - c) - R * R))) / Vector3.dot d d ≤ 0
        then none
        else some (fin (if (Vector3.dot (-d) (E - c) - sqrtK (Vector3.dot d (E - c) * Vector3.dot d (E - c)
          - Vector3.dot d d * (Vector3.dot (E - c) (E - c) - R * R))) / Vector3.dot d d ≤ 0
          then (Vector3.dot (-d) (E - c) + sqrtK (Vector3.dot d (E - c) * Vector3.dot d (E - c)
          - Vector3.dot d d * (Vector3.dot (E - c) (E - c) - R * R))) / Vector3.dot d d
          else (Vector3.dot (-d) (E - c) - sqrtK (Vector3.dot d (E - c) * Vector3.dot d (E - c)
          - Vector3.dot d d * (Vector3.dot (E - c) (E - c) - R * R))) / Vector3.dot d d))
      else none := by
  unfold Sphere.local_min
  simp only [hE, hd, hc, hR, Vector3.lift_sub_lift, Vector3.neg_lift, Vector3.dot_lift_lift,
    fin_mul_fin, fin_sub_fin, ge_fin_fin, decide_eq_true_eq]
  by_cases h0 : 0 ≤ Vector3.dot d (E - c) * Vector3.dot d (E - c)
          - Vector3.dot d d * (Vector3.dot (E - c) (E - c) - R * R)
  · have hn : ¬ (Vector3.dot d (E - c) * Vector3.dot d (E - c)
          - Vector3.dot d d * (Vector3.dot (E - c) (E - c) - R * R) < 0) := not_lt.mpr h0
    simp only [if_pos h0, real_t.sqrt, if_neg hn, fin_add_fin, fin_sub_fin,
      fin_div_fin_of_ne _ hdd, le_fin_fin, decide_eq_true_eq]
    split_ifs <;> rfl
  · simp only [if_neg h0]

theorem quad_roots {dd b c0 sq : K} (t : K) (hdd : 0 < dd) (hsq : sq * sq = b * b - dd * c0) :
    dd * (t * t) + 2 * b * t + c0 = 0 ↔ t = (-b + sq) / dd ∨ t = (-b - sq) / dd := by
  constructor
  · intro h
    have h0 : (dd * t + b - sq) * (dd * t + b + sq) = 0 := by linear_combination dd * h - hsq
    rcases mul_eq_zero.mp h0 with h1 | h1
    · left; rw [eq_div_iff hdd.ne']; linear_combination h1
    · right; rw [eq_div_iff hdd.ne']; linear_combination h1
  · rintro (h | h)
    · rw [eq_div_iff hdd.ne'] at h
      have h0 : dd * (dd * (t * t) + 2 * b * t + c0) = 0 := by
        linear_combination (dd * t + b + sq) * h + hsq
      rcases mul_eq_zero.mp h0 with h1 | h1
      · exact absurd h1 hdd.ne'
      · exact h1
    · rw [eq_div_iff hdd.ne'] at h
      have h0 : dd * (dd * (t * t) + 2 * b * t + c0) = 0 := by
        linear_combination (dd * t + b - sq) * h + hsq
      rcases mul_eq_zero.mp h0 with h1 | h1
      · exact absurd h1 hdd.ne'
      · exact h1

theorem quad_no_roots {dd b c0 : K} (t : K) (hdisc : b * b - dd * c0 < 0) :
    dd * (t * t) + 2 * b * t + c0 ≠ 0 := by
  intro h
  have h0 : (dd * t + b) * (dd * t + b) = b * b - dd * c0 := by linear_combination dd * h
  have h1 := mul_self_nonneg (dd * t + b)
  linarith

theorem on_sphere_iff (E d c : Vector3 K) (R t : K) :
    on_sphere E d c R t ↔
      Vector3.dot d d * (t * t) + 2 * Vector3.dot d (E - c) * t
        + (Vector3.dot (E - c) (E - c) - R * R) = 0 := by
  have hx : (E - c).x = E.x - c.x := rfl
  have hy : (E - c).y = E.y - c.y := rfl
  have hz : (E - c).z = E.z - c.z := rfl
  simp only [on_sphere, Vector3.dot, hx, hy, hz]
  constructor <;> intro h <;> linear_combination h

theorem dot_neg_left (d v : Vector3 K) : Vector3.dot (-d) v = -Vector3.dot d v := by
  have hx : (-d).x = -d.x := rfl
  have hy : (-d).y = -d.y := rfl
  have hz : (-d).z = -d.z := rfl
  simp only [Vector3.dot, hx, hy, hz]
  ring

theorem dot_self_pos (d : Vector3 K) (h : d.x ≠ 0 ∨ d.y ≠ 0 ∨ d.z ≠ 0) : 0 < Vector3.dot d d := by
  simp only [Vector3.dot]
  rcases h with h | h | h
  · have := mul_self_pos.mpr h
    nlinarith [mul_self_nonneg d.y, mul_self_nonneg d.z]
  · have := mul_self_pos.mpr h
    nlinarith [mul_self_nonneg d.x, mul_self_nonneg d.z]
  · have := mul_self_pos.mpr h
    nlinarith [mul_self_nonneg d.x, mul_self_nonneg d.y]

/-- The candidate of a sphere on finite data with a non-zero direction is the
smallest positive root, if there is one. -/
theorem Sphere.local_min_spec (sqrtK : K → K) (hs : IsSqrt sqrtK) (S : Sphere K)
    (s e : Vector3 (real_t K)) (E d c : Vector3 K) (R : K)
    (hE : S.transform_point e = Vector3.lift E) (hd : S.transform_vector s = Vector3.lift d)
    (hc : S.transform_point S.position = Vector3.lift c) (hR : S.radius = fin R)
    (hd0 : d.x ≠ 0 ∨ d.y ≠ 0 ∨ d.z ≠ 0) :
    (S.local_min sqrtK s e = none ∧ ∀ t : K, 0 < t → ¬ on_sphere E d c R t) ∨
    (∃ t : K, S.local_min sqrtK s e = some (fin t) ∧ 0 < t ∧ on_sphere E d c R t ∧
      ∀ t' : K, 0 < t' → on_sphere E d c R t' → t ≤ t') := by
  have hdd := dot_self_pos d hd0
  rw [Sphere.local_min_fin sqrtK S s e E d c R hE hd hc hR hdd.ne']
  simp only [on_sphere_iff, dot_neg_left]
  generalize Vector3.dot d d = dd at hdd ⊢
  generalize Vector3.dot d (E - c) = b
  generalize Vector3.dot (E - c) (E - c) - R * R = c0
  by_cases hdisc : 0 ≤ b * b - dd * c0
  · obtain ⟨hsq0, hsq⟩ := hs _ hdisc
    generalize sqrtK (b * b - dd * c0) = sq at hsq0 hsq ⊢
    have h21 : (-b - sq) / dd ≤ (-b + sq) / dd := by
      apply div_le_div_of_nonneg_right _ hdd.le
      linarith
    rw [if_pos hdisc]
    by_cases h1 : (-b + sq) / dd ≤ 0
    · left
      rw [if_pos h1]
      refine ⟨rfl, ?_⟩
      intro t ht hroot
      rcases (quad_roots t hdd hsq).mp hroot with h | h <;> linarith
    · right
      rw [if_neg h1]
      push_neg at h1
      by_cases h2 : (-b - sq) / dd ≤ 0
      · rw [if_pos h2]
        refine ⟨_, rfl, h1, (quad_roots _ hdd hsq).mpr (Or.inl rfl), ?_⟩
        intro t' ht' hroot
        rcases (quad_roots t' hdd hsq).mp hroot with h | h <;> linarith
      · rw [if_neg h2]
        push_neg at h2
        refine ⟨_, rfl, h2, (quad_roots _ hdd hsq).mpr (Or.inr rfl), ?_⟩
        intro t' ht' hroot
        rcases (quad_roots t' hdd hsq).mp hroot with h | h <;> linarith
  · left
    rw [if_neg hdisc]
    refine ⟨rfl, ?_⟩
    intro t _ hroot
    exact quad_no_roots t (not_le.mp hdisc) hroot

theorem sqrt_mul_self {sqrtK : K → K} (hs : IsSqrt sqrtK) {R : K} (hR : 0 ≤ R) :
    sqrtK (R * R) = R := by
  obtain ⟨h0, h1⟩ := hs (R * R) (mul_self_nonneg R)
  have h2 : (sqrtK (R * R) - R) * (sqrtK (R * R) + R) = 0 := by linear_combination h1
  rcases mul_eq_zero.mp h2 with h | h
  · linarith
  · have : R = 0 := by linarith
    rw [this] at h ⊢
    linarith

/-! ## Order of the non-`NaN` times -/

namespace real_t

theorem lt_irrefl' (a : real_t K) : a.lt a = false := by
  cases a <;> simp [lt]

theorem ne_of_lt' {a b : real_t K} (h : a.lt b = true) : a ≠ b := by
  intro hab
  rw [hab, lt_irrefl'] at h
  exact absurd h (by simp)

theorem lt_trans' {a b c : real_t K} (h1 : a.lt b = true) (h2 : b.lt c = true) :
    a.lt c = true := by
  cases a <;> cases b <;> cases c <;> simp_all [lt]
  exact lt_trans h1 h2

theorem eq_iff {a : real_t K} {x : K} : a.eq (fin x) = true ↔ a = fin x := by
  cases a <;> simp [eq]

theorem le_of_lt' {a b : real_t K} (h : a.lt b = true) : a.le b = true := by
  cases a <;> cases b <;> simp_all [lt, le]
  exact le_of_lt h

theorem le_trans' {a b c : real_t K} (h1 : a.le b = true) (h2 : b.le c = true) :
    a.le c = true := by
  cases a <;> cases b <;> cases c <;> simp_all [le]
  exact le_trans h1 h2

theorem le_antisymm' {a b : real_t K} (h1 : a.le b = true) (h2 : b.le a = true) : a = b := by
  cases a <;> cases b <;> simp_all [le]
  exact le_antisymm h1 h2

end real_t

theorem Good.ne_nan {t : real_t K} (h : Good t) : t ≠ nan := by
  intro h0; rw [h0] at h; simp [Good, le] at h

theorem Good.ne_unset {t : real_t K} (h : Good t) : t ≠ fin (-1) := by
  intro h0; rw [h0] at h; simp [Good] at h
  linarith

theorem Good.eq_unset {t : real_t K} (h : Good t) : t.eq (fin (-1)) = false := by
  cases hh : t.eq (fin (-1)) with
  | false => rfl
  | true => exact absurd (eq_iff.mp hh) h.ne_unset

theorem Good.le_refl {t : real_t K} (h : Good t) : t.le t = true := by
  cases t <;> simp_all [Good, le]

theorem Good.le_of_not_lt {a b : real_t K} (ha : Good a) (hb : Good b) (h : a.lt b = false) :
    b.le a = true := by
  cases a <;> cases b <;> simp_all [Good, lt, le]

theorem Good.lt_of_lt_of_not_lt {m t T : real_t K} (ht : Good t) (h1 : m.lt T = true)
    (h2 : t.lt T = false) : m.lt t = true := by
  cases m <;> cases t <;> cases T <;> simp_all [Good, lt, le]
  exact lt_of_lt_of_le h1 h2

/-- A time that is not `NaN` and not `≤ 0` is good. -/
theorem Good.of_not_le {t : real_t K} (h1 : t.le (fin 0) = false) (h2 : t ≠ nan) : Good t := by
  cases t <;> simp_all [Good, le]
  exact le_of_lt h1

theorem Cramer.valid_good {r : Cramer K} (h : r.valid = true) : Good r.TIME := by
  rw [Cramer.valid_iff] at h
  exact h.1

/-! ## The update policy -/
theorem cand_update_none (T : real_t K) : cand_update none T = (false, T) := rfl

theorem cand_update_some (t T : real_t K) :
    cand_update (some t) T = if t.lt T || T.eq (fin (-1)) then (true, t) else (false, T) := rfl

/-- What a replacement by the policy means. -/
theorem cand_update_spec (c : Option (real_t K)) (T : real_t K)
    (hc : ∀ t, c = some t → t ≠ fin (-1)) :
    ((cand_update c T).1 = true ↔ (cand_update c T).2 ≠ T) ∧
    ((cand_update c T).2 ≠ T →
      c = some (cand_update c T).2 ∧ ((cand_update c T).2.lt T = true ∨ T = fin (-1))) := by
  cases c with
  | none => simp [cand_update_none]
  | some t =>
    rw [cand_update_some]
    by_cases h : (t.lt T || T.eq (fin (-1))) = true
    · rw [if_pos h]
      have hne : t ≠ T := by
        rcases Bool.or_eq_true _ _ ▸ h with h1 | h1
        · exact ne_of_lt' h1
        · rw [eq_iff.mp h1]; exact hc t rfl
      refine ⟨⟨fun _ => hne, fun _ => rfl⟩, fun _ => ⟨rfl, ?_⟩⟩
      rcases Bool.or_eq_true _ _ ▸ h with h1 | h1
      · exact Or.inl h1
      · exact Or.inr (eq_iff.mp h1)
    · rw [if_neg h]
      simp

theorem best_nil : best ([] : List (Option (real_t K))) = none := rfl

theorem best_cons (c : Option (real_t K)) (cs : List (Option (real_t K))) :
    best (c :: cs) =
      match c, best cs with
      | none, b => b
      | some t, none => some t
      | some t, some m => if m.lt t then some m else some t := rfl

theorem best_mem (cs : List (Option (real_t K))) (m : real_t K) (h : best cs = some m) :
    some m ∈ cs := by
  induction cs with
  | nil => simp [best_nil] at h
  | cons c cs ih =>
    rw [best_cons] at h
    cases c with
    | none => exact List.mem_cons_of_mem _ (ih h)
    | some t =>
      cases hb : best cs with
      | none =>
        rw [hb] at h
        simp at h
        rw [h]; exact List.mem_cons_self _ _
      | some m' =>
        rw [hb] at h
        simp only at h
        split_ifs at h
        · cases h; exact List.mem_cons_of_mem _ (ih hb)
        · cases h; exact List.mem_cons_self _ _

theorem best_eq_none (cs : List (Option (real_t K))) :
    best cs = none ↔ ∀ c ∈ cs, c = none := by
  induction cs with
  | nil => simp [best_nil]
  | cons c cs ih =>
    rw [best_cons]
    cases c with
    | none => simp [ih]
    | some t =>
      cases hb : best cs with
      | none => simp
      | some m => simp only; split_ifs <;> simp

theorem best_good (cs : List (Option (real_t K))) (hcs : ∀ t, some t ∈ cs → Good t) (m : real_t K)
    (h : best cs = some m) : Good m :=
  hcs m (best_mem cs m h)

theorem best_le (cs : List (Option (real_t K))) (hcs : ∀ t, some t ∈ cs → Good t) (m : real_t K)
    (h : best cs = some m) : ∀ t, some t ∈ cs → m.le t = true := by
  induction cs generalizing m with
  | nil => intro t ht; simp at ht
  | cons c cs ih =>
    have hcs' : ∀ t, some t ∈ cs → Good t := fun t ht => hcs t (List.mem_cons_of_mem _ ht)
    rw [best_cons] at h
    intro t ht
    cases c with
    | none =>
      simp only at h
      rcases List.mem_cons.mp ht with h1 | h1
      · simp at h1
      · exact ih hcs' m h t h1
    | some t0 =>
      have hg0 : Good t0 := hcs t0 (List.mem_cons_self _ _)
      cases hb : best cs with
      | none =>
        rw [hb] at h
        simp only [Option.some.injEq] at h
        subst h
        rcases List.mem_cons.mp ht with h1 | h1
        · cases h1; exact hg0.le_refl
        · exact absurd ((best_eq_none cs).mp hb _ h1) (by simp)
      | some m' =>
        rw [hb] at h
        simp only at h
        have hgm : Good m' := best_good cs hcs' m' hb
        by_cases hlt : m'.lt t0 = true
        · rw [if_pos hlt] at h
          cases h
          rcases List.mem_cons.mp ht with h1 | h1
          · cases h1; exact le_of_lt' hlt
          · exact ih hcs' m hb t h1
        · rw [if_neg hlt] at h
          cases h
          have hle : m.le m' = true := hgm.le_of_not_lt hg0 (by simpa using hlt)
          rcases List.mem_cons.mp ht with h1 | h1
          · cases h1; exact hg0.le_refl
          · exact le_trans' hle (ih hcs' m' hb t h1)

/-- Two updates in a row are one update by the earlier candidate. -/
theorem cand_update_best_cons (c : Option (real_t K)) (cs : List (Option (real_t K)))
    (hc : ∀ t, c = some t → Good t) (hcs : ∀ t, best cs = some t → Good t) (T : real_t K) :
    cand_update (best (c :: cs)) T =
      ((cand_update c T).1 || (cand_update (best cs) (cand_update c T).2).1,
        (cand_update (best cs) (cand_update c T).2).2) := by
  rw [best_cons]
  cases c with
  | none => simp [cand_update_none]
  | some t =>
    have hgt : Good t := hc t rfl
    cases hb : best cs with
    | none =>
      simp only [cand_update_none, Bool.or_false]
    | some m =>
      have hgm : Good m := hcs m hb
      simp only [cand_update_some]
      by_cases h1 : (t.lt T || T.eq (fin (-1))) = true
      · rw [if_pos h1]
        simp only [hgt.eq_unset, Bool.or_false, Bool.true_or]
        by_cases h2 : m.lt t = true
        · rw [if_pos h2, if_pos h2, cand_update_some]
          have h3 : (m.lt T || T.eq (fin (-1))) = true := by
            rcases Bool.or_eq_true _ _ ▸ h1 with h | h
            · simp [lt_trans' h2 h]
            · simp [h]
          rw [if_pos h3]
        · rw [if_neg h2, if_neg h2, cand_update_some, if_pos h1]
      · rw [if_neg h1]
        simp only [Bool.false_or]
        have hT : T.eq (fin (-1)) = false := by
          cases hh : T.eq (fin (-1)) with
          | false => rfl
          | true => simp [hh] at h1
        have htT : t.lt T = false := by
          cases hh : t.lt T with
          | false => rfl
          | true => simp [hh] at h1
        simp only [hT, Bool.or_false]
        by_cases h2 : m.lt T = true
        · have h3 : m.lt t = true := hgt.lt_of_lt_of_not_lt h2 htT
          rw [if_pos h2, if_pos h3, cand_update_some]
          simp [h2]
        · rw [if_neg h2]
          by_cases h3 : m.lt t = true
          · rw [if_pos h3, cand_update_some]
            simp [h2, hT]
          · rw [if_neg h3, cand_update_some]
            simp [htT, hT]

/-! ## The mesh -/
theorem Model.hit_time_good (m : Model K) (s e : Vector3 (real_t K)) (tris : List MeshTriangle) :
    ∀ t, some t ∈ tris.map (m.hit_time s e) → Good t := by
  intro t ht
  obtain ⟨tri, _, h⟩ := List.mem_map.mp ht
  unfold Model.hit_time at h
  split_ifs at h with hv
  cases h
  exact Cramer.valid_good hv

/-- A test of a member triangle is an update by its hit time. -/
theorem Model.intersects_triangle_step (m : Model K) (triangle : MeshTriangle)
    (s e : Vector3 (real_t K)) (T : real_t K) (g : Globals K) :
    (m.intersects_triangle triangle s e T g).T = (cand_update (m.hit_time s e triangle) T).2 ∧
    (m.intersects_triangle triangle s e T g).ret
      = (if (cand_update (m.hit_time s e triangle) T).1 then fin 1 else fin (-1)) := by
  rw [Model.intersects_triangle_eq]
  unfold Model.hit_time
  by_cases hv : (m.system triangle s e).valid = true
  · rw [if_pos hv, if_pos hv, cand_update_some]
    by_cases hu : ((m.system triangle s e).TIME.lt T || T.eq (fin (-1))) = true
    · rw [if_pos hu, if_pos hu]; simp
    · rw [if_neg hu, if_neg hu]; simp
  · rw [if_neg hv, if_neg hv, cand_update_none]; simp

/-- The loop of `Model::is_intersecting` is one update by the earliest hit
time of the triangles. -/
theorem Model.is_intersecting_loop_spec (m : Model K) (s e : Vector3 (real_t K))
    (tris : List MeshTriangle) (hi T : real_t K) (g : Globals K) :
    (m.is_intersecting_loop s e tris hi T g).T
      = (cand_update (best (tris.map (m.hit_time s e))) T).2 ∧
    (m.is_intersecting_loop s e tris hi T g).ret
      = (if (cand_update (best (tris.map (m.hit_time s e))) T).1 then fin 1 else hi) := by
  induction tris generalizing hi T g with
  | nil => simp [Model.is_intersecting_loop, best_nil, cand_update_none]
  | cons tri rest ih =>
    obtain ⟨h1, h2⟩ := m.intersects_triangle_step tri s e T g
    have hgood := m.hit_time_good s e (tri :: rest)
    have hc : ∀ t, m.hit_time s e tri = some t → Good t := fun t ht =>
      hgood t (by rw [List.map_cons, ← ht]; exact List.mem_cons_self _ _)
    have hcs : ∀ t, best (rest.map (m.hit_time s e)) = some t → Good t := fun t ht =>
      best_good _ (m.hit_time_good s e rest) t ht
    rw [List.map_cons, cand_update_best_cons _ _ hc hcs]
    simp only [Model.is_intersecting_loop]
    obtain ⟨ih1, ih2⟩ := ih
      (if (m.intersects_triangle tri s e T g).ret.ne (fin (-1)) = true then fin 1 else hi)
      (m.intersects_triangle tri s e T g).T (m.intersects_triangle tri s e T g).g
    rw [ih1, ih2, h1, h2]
    refine ⟨rfl, ?_⟩
    cases (cand_update (m.hit_time s e tri) T).1 <;>
      cases (cand_update (best (List.map (m.hit_time s e) rest))
        (cand_update (m.hit_time s e tri) T).2).1 <;> simp [real_t.ne]
    norm_num

theorem real_t.le_refl' {a : real_t K} (h : a ≠ nan) : a.le a = true := by
  cases a <;> simp_all [le]

theorem Good.le_of_not_lt' {m T : real_t K} (hm : Good m) (hT : T ≠ nan) (h : m.lt T = false) :
    T.le m = true := by
  cases m <;> cases T <;> simp_all [Good, lt, le]

/-- The state that the loop of `Model::is_intersecting` leaves: untouched, or
the last member triangle that replaced the running best, with its time and
weights. -/
theorem Model.is_intersecting_loop_state (m : Model K) (s e : Vector3 (real_t K))
    (tris : List MeshTriangle) (hi T : real_t K) (g : Globals K) :
    ((m.is_intersecting_loop s e tris hi T g).ret = hi ∧
      (m.is_intersecting_loop s e tris hi T g).T = T ∧
      (m.is_intersecting_loop s e tris hi T g).g = g) ∨
    ((m.is_intersecting_loop s e tris hi T g).ret = fin 1 ∧
      ∃ tri ∈ tris, (m.system tri s e).valid = true ∧
        (m.is_intersecting_loop s e tris hi T g).T = (m.system tri s e).TIME ∧
        (m.is_intersecting_loop s e tris hi T g).g.min_triangle = tri ∧
        (m.is_intersecting_loop s e tris hi T g).g.ALPH
          = fin 1 - (m.system tri s e).gamma - (m.system tri s e).beta ∧
        (m.is_intersecting_loop s e tris hi T g).g.BET = (m.system tri s e).beta ∧
        (m.is_intersecting_loop s e tris hi T g).g.GAM = (m.system tri s e).gamma) := by
  induction tris generalizing hi T g with
  | nil => left; exact ⟨rfl, rfl, rfl⟩
  | cons tri rest ih =>
    simp only [Model.is_intersecting_loop]
    rcases ih (if (m.intersects_triangle tri s e T g).ret.ne (fin (-1)) = true then fin 1 else hi)
      (m.intersects_triangle tri s e T g).T (m.intersects_triangle tri s e T g).g with
      ⟨h1, h2, h3⟩ | ⟨h1, tri', hmem, h2⟩
    · rw [h1, h2, h3, Model.intersects_triangle_eq]
      by_cases hv : (m.system tri s e).valid = true
      · by_cases hu : ((m.system tri s e).TIME.lt T || T.eq (fin (-1))) = true
        · right
          rw [if_pos hv, if_pos hu]
          refine ⟨by simp [real_t.ne]; norm_num, tri, List.mem_cons_self _ _, hv, rfl, rfl, rfl, rfl, rfl⟩
        · left
          rw [if_pos hv, if_neg hu]
          simp [real_t.ne]
      · left
        rw [if_neg hv]
        simp [real_t.ne]
    · right
      exact ⟨h1, tri', List.mem_cons_of_mem _ hmem, h2⟩

/-- Whether the loop of `Model::is_intersecting` reports an intersection: it
did before, or a member triangle has a hit time below the running best at the
moment it is tested. -/
theorem Model.is_intersecting_loop_ret (m : Model K) (s e : Vector3 (real_t K))
    (tris : List MeshTriangle) (hi T : real_t K) (g : Globals K) :
    (m.is_intersecting_loop s e tris hi T g).ret.ne NOINTERSECTION = true ↔
      hi.ne NOINTERSECTION = true ∨
      ∃ pre tri post, tris = pre ++ tri :: post ∧ ∃ t, m.hit_time s e tri = some t ∧
        (t.lt (m.is_intersecting_loop s e pre hi T g).T = true ∨
          (m.is_intersecting_loop s e pre hi T g).T = UNINITIALIZED) := by
  induction tris generalizing hi T g with
  | nil => simp [Model.is_intersecting_loop]
  | cons x rest ih =>
    obtain ⟨hT, hret⟩ := m.intersects_triangle_step x s e T g
    have hstep : Model.is_intersecting_loop m s e (x :: rest) hi T g
        = Model.is_intersecting_loop m s e rest
            (if (m.intersects_triangle x s e T g).ret.ne (fin (-1)) = true then fin 1 else hi)
            (m.intersects_triangle x s e T g).T (m.intersects_triangle x s e T g).g := rfl
    have himp : (cand_update (m.hit_time s e x) T).1 = true ↔
        ∃ t, m.hit_time s e x = some t ∧ (t.lt T = true ∨ T = UNINITIALIZED) := by
      cases hx : m.hit_time s e x with
      | none => simp [cand_update_none]
      | some t =>
        rw [cand_update_some]
        by_cases hu : (t.lt T || T.eq (fin (-1))) = true
        · rw [if_pos hu]
          simp only [true_iff]
          refine ⟨t, rfl, ?_⟩
          rcases Bool.or_eq_true _ _ ▸ hu with h | h
          · exact Or.inl h
          · exact Or.inr (eq_iff.mp h)
        · rw [if_neg hu]
          simp only [Bool.false_eq_true, false_iff]
          rintro ⟨t', ht', h | h⟩
          · cases ht'; simp [h] at hu
          · rw [h] at hu; simp [UNINITIALIZED] at hu
    rw [hstep, ih]
    constructor
    · rintro (h | ⟨pre, tri, post, hsplit, t, ht, hlt⟩)
      · rw [hret] at h
        by_cases hc : (cand_update (m.hit_time s e x) T).1 = true
        · right
          obtain ⟨t, ht, hlt⟩ := himp.mp hc
          exact ⟨[], x, rest, rfl, t, ht, hlt⟩
        · left
          rw [if_neg hc] at h
          simpa [real_t.ne] using h
      · right
        refine ⟨x :: pre, tri, post, by rw [hsplit]; rfl, t, ht, ?_⟩
        exact hlt
    · rintro (h | ⟨pre, tri, post, hsplit, t, ht, hlt⟩)
      · left
        rw [hret]
        split_ifs <;> simp_all [real_t.ne, NOINTERSECTION]
      · cases pre with
        | nil =>
          left
          simp only [List.nil_append, List.cons.injEq] at hsplit
          obtain ⟨rfl, rfl⟩ := hsplit
          have hc : (cand_update (m.hit_time s e x) T).1 = true := himp.mpr ⟨t, ht, hlt⟩
          have h11 : ¬ ((1 : K) = -1) := by norm_num
          rw [hret, hc]
          simp [real_t.ne, NOINTERSECTION, h11]
        | cons y pre' =>
          right
          simp only [List.cons_append, List.cons.injEq] at hsplit
          obtain ⟨rfl, rfl⟩ := hsplit
          exact ⟨pre', tri, post, rfl, t, ht, hlt⟩

/-! ## Primitives as updates -/

/-- Every intersection test is an update of the running best by the candidate
of the primitive. -/
theorem Geometry.is_intersecting_step (sqrtK : K → K) (geo : Geometry K)
    (s e : Vector3 (real_t K)) (T : real_t K) (g : Globals K) :
    (geo.is_intersecting sqrtK s e T g).T = (cand_update (geo.candidate sqrtK s e) T).2 ∧
    (geo.is_intersecting sqrtK s e T g).ret.ne NOINTERSECTION
      = (cand_update (geo.candidate sqrtK s e) T).1 := by
  cases geo with
  | sphere S =>
    simp only [Geometry.is_intersecting, Geometry.candidate]
    rw [Sphere.is_intersecting_candidate]
    cases hl : S.local_min sqrtK s e with
    | none => simp [cand_update_none, real_t.ne, NOINTERSECTION]
    | some t =>
      simp only [cand_update_some]
      split_ifs <;> simp [real_t.ne, NOINTERSECTION]
  | triangle t =>
    simp only [Geometry.is_intersecting, Geometry.candidate]
    rw [Triangle.is_intersecting_eq]
    by_cases hv : (t.system s e).valid = true
    · rw [if_pos hv, if_pos hv, cand_update_some]
      split_ifs <;> simp [real_t.ne, NOINTERSECTION]
    · rw [if_neg hv, if_neg hv, cand_update_none]
      simp [real_t.ne, NOINTERSECTION]
  | model m =>
    simp only [Geometry.is_intersecting, Geometry.candidate, Model.is_intersecting]
    obtain ⟨h1, h2⟩ := m.is_intersecting_loop_spec s e m.mesh.triangles (fin 0) T g
    rw [h1, h2]
    refine ⟨rfl, ?_⟩
    split_ifs with h <;> simp [real_t.ne, NOINTERSECTION, h]

/-- The candidate of a primitive is never the unset value. -/
theorem Geometry.candidate_ne_unset (sqrtK : K → K) (geo : Geometry K)
    (s e : Vector3 (real_t K)) (t : real_t K) (h : geo.candidate sqrtK s e = some t) :
    t ≠ fin (-1) := by
  cases geo with
  | sphere S =>
    have h1 := S.local_min_not_le sqrtK s e t h
    intro h2
    rw [h2] at h1
    simp at h1
  | triangle tr =>
    simp only [Geometry.candidate] at h
    split_ifs at h with hv
    cases h
    exact (Cramer.valid_good hv).ne_unset
  | model m =>
    simp only [Geometry.candidate] at h
    exact (best_good _ (m.hit_time_good s e m.mesh.triangles) t h).ne_unset

/-- The own hit time of a primitive is its candidate, whatever the
file-scope variables hold. -/
theorem Geometry.own_hit_eq (sqrtK : K → K) (geo : Geometry K) (s e : Vector3 (real_t K))
    (g : Globals K) : geo.own_hit sqrtK s e g = geo.candidate sqrtK s e := by
  obtain ⟨h1, h2⟩ := geo.is_intersecting_step sqrtK s e UNINITIALIZED g
  unfold Geometry.own_hit
  simp only [h1, h2]
  cases geo.candidate sqrtK s e with
  | none => simp [cand_update_none]
  | some t => simp [cand_update_some, UNINITIALIZED]

/-! ## The nearest-hit loop -/
theorem cand_update_fst (c : Option (real_t K)) (T : real_t K)
    (h : (cand_update c T).1 = true) : c = some (cand_update c T).2 := by
  cases c with
  | none => simp [cand_update_none] at h
  | some t =>
    rw [cand_update_some] at h ⊢
    split_ifs at h ⊢ with hu
    rfl

theorem cand_update_fst_false (c : Option (real_t K)) (T : real_t K)
    (h : (cand_update c T).1 = false) : (cand_update c T).2 = T := by
  cases c with
  | none => rfl
  | some t =>
    rw [cand_update_some] at h ⊢
    split_ifs at h ⊢ with hu
    rfl

/-- The running time after the nearest-hit loop is one update by the
earliest candidate. -/
theorem nearest_hit_loop_time (sqrtK : K → K) (dir e : Vector3 (real_t K))
    (objs : List (Geometry K)) (i : Nat) (T : real_t K) (geo : Nat) (g : Globals K)
    (hgood : ∀ t, some t ∈ objs.map (fun x => x.candidate sqrtK dir e) → Good t) :
    (nearest_hit_loop sqrtK dir e objs i T geo g).1
      = (cand_update (best (objs.map (fun x => x.candidate sqrtK dir e))) T).2 := by
  induction objs generalizing i T geo g with
  | nil => rfl
  | cons x rest ih =>
    have hrest : ∀ t, some t ∈ rest.map (fun x => x.candidate sqrtK dir e) → Good t :=
      fun t ht => hgood t (by rw [List.map_cons]; exact List.mem_cons_of_mem _ ht)
    have hx : ∀ t, x.candidate sqrtK dir e = some t → Good t :=
      fun t ht => hgood t (by rw [List.map_cons, ← ht]; exact List.mem_cons_self _ _)
    obtain ⟨h1, _⟩ := x.is_intersecting_step sqrtK dir e T g
    rw [List.map_cons, cand_update_best_cons _ _ hx (fun t ht => best_good _ hrest t ht)]
    simp only [nearest_hit_loop]
    rw [ih _ _ _ _ hrest, h1]

/-- The primitive selected by the nearest-hit loop: the initial one when the
running time was never replaced, else a primitive whose candidate is the
final running time. -/
theorem nearest_hit_loop_selected (sqrtK : K → K) (dir e : Vector3 (real_t K))
    (objs : List (Geometry K)) (i : Nat) (T : real_t K) (geo : Nat) (g : Globals K) :
    ((nearest_hit_loop sqrtK dir e objs i T geo g).1 = T ∧
      (nearest_hit_loop sqrtK dir e objs i T geo g).2.1 = geo) ∨
    (∃ k sel, objs.get? k = some sel ∧
      (nearest_hit_loop sqrtK dir e objs i T geo g).2.1 = i + k ∧
      sel.candidate sqrtK dir e = some (nearest_hit_loop sqrtK dir e objs i T geo g).1) := by
  induction objs generalizing i T geo g with
  | nil => left; exact ⟨rfl, rfl⟩
  | cons x rest ih =>
    obtain ⟨h1, h2⟩ := x.is_intersecting_step sqrtK dir e T g
    simp only [nearest_hit_loop]
    rcases ih (i + 1) (x.is_intersecting sqrtK dir e T g).T
      (if (x.is_intersecting sqrtK dir e T g).ret.ne NOINTERSECTION = true then i else geo)
      (x.is_intersecting sqrtK dir e T g).g with ⟨h3, h4⟩ | ⟨k, sel, h3, h4, h5⟩
    · rw [h3, h4, h2, h1]
      cases hc : (cand_update (x.candidate sqrtK dir e) T).1 with
      | true =>
        right
        exact ⟨0, x, rfl, by simp, cand_update_fst _ _ hc⟩
      | false =>
        left
        exact ⟨cand_update_fst_false _ _ hc, by simp⟩
    · right
      exact ⟨k + 1, sel, by simpa using h3, by rw [h4]; ring, h5⟩

/-! ## The scene -/

/-- The candidates of a scene are good times when no sphere stores `NaN`. -/
theorem scene_candidates_good (sqrtK : K → K) (dir e : Vector3 (real_t K))
    (objs : List (Geometry K))
    (hnan : ∀ S, Geometry.sphere S ∈ objs → (S.is_intersecting sqrtK dir e UNINITIALIZED).2 ≠ nan) :
    ∀ t, some t ∈ objs.map (fun x => x.candidate sqrtK dir e) → Good t := by
  intro t ht
  obtain ⟨geo, hgeo, hc⟩ := List.mem_map.mp ht
  cases geo with
  | sphere S =>
    simp only [Geometry.candidate] at hc
    have h1 := S.local_min_not_le sqrtK dir e t hc
    have h2 := hnan S hgeo
    rw [Sphere.is_intersecting_candidate, hc] at h2
    simp [UNINITIALIZED] at h2
    exact Good.of_not_le h1 h2
  | triangle tr =>
    simp only [Geometry.candidate] at hc
    split_ifs at hc with hv
    cases hc
    exact Cramer.valid_good hv
  | model m =>
    simp only [Geometry.candidate] at hc
    exact best_good _ (m.hit_time_good dir e m.mesh.triangles) t hc

/-- A loop over primitives without a candidate leaves the running time and
the selection as they were. -/
theorem nearest_hit_loop_miss (sqrtK : K → K) (dir e : Vector3 (real_t K))
    (objs : List (Geometry K)) (i : Nat) (T : real_t K) (geo : Nat) (g : Globals K)
    (h : ∀ x ∈ objs, x.candidate sqrtK dir e = none) :
    (nearest_hit_loop sqrtK dir e objs i T geo g).1 = T := by
  induction objs generalizing i T geo g with
  | nil => rfl
  | cons x rest ih =>
    obtain ⟨h1, _⟩ := x.is_intersecting_step sqrtK dir e T g
    simp only [nearest_hit_loop]
    rw [ih _ _ _ _ (fun y hy => h y (List.mem_cons_of_mem _ hy)), h1,
      h x (List.mem_cons_self _ _), cand_update_none]

/-- On a scene with at least one primitive, a pixel whose viewing ray is hit
by no primitive gets the background colour. -/
theorem trace_pixel_miss_background (sqrtK : K → K) (sh : Shading K) (rt : Raytracer K)
    (scene : Scene K) (x y width height : Nat) (g : Globals K)
    (hne : scene.geometries ≠ []) (hx : x < width) (hy : y < height)
    (hmiss : ∀ geo ∈ scene.geometries, ∀ g',
      geo.own_hit sqrtK (rt.viewing_ray sqrtK x y width height) rt.e g' = none) :
    rt.trace_pixel sqrtK sh scene x y width height g = some scene.background_color := by
  have hc : ∀ geo ∈ scene.geometries,
      geo.candidate sqrtK (rt.viewing_ray sqrtK x y width height) rt.e = none := by
    intro geo hgeo
    rw [← Geometry.own_hit_eq sqrtK geo _ _ g]
    exact hmiss geo hgeo g
  have hloop := nearest_hit_loop_miss sqrtK (rt.viewing_ray sqrtK x y width height) rt.e
    scene.geometries 0 UNINITIALIZED 0 g hc
  unfold Raytracer.viewing_ray at hloop
  unfold Raytracer.trace_pixel
  simp only [] at hloop ⊢
  rw [if_neg (by simp [hx]), if_neg (by simp [hy])]
  cases hg : scene.geometries with
  | nil => exact absurd hg hne
  | cons a rest =>
    rw [hg] at hloop
    simp only [List.get?_cons_zero, hloop]
    simp [real_t.ne, UNINITIALIZED]

/-- On finite data and a non-zero local direction a sphere never stores
`NaN`. -/
theorem Sphere.stored_ne_nan (sqrtK : K → K) (hs : IsSqrt sqrtK) (S : Sphere K)
    (s e : Vector3 (real_t K)) (E d c : Vector3 K) (R : K)
    (hE : S.transform_point e = Vector3.lift E) (hd : S.transform_vector s = Vector3.lift d)
    (hc : S.transform_point S.position = Vector3.lift c) (hR : S.radius = fin R)
    (hd0 : d.x ≠ 0 ∨ d.y ≠ 0 ∨ d.z ≠ 0) :
    (S.is_intersecting sqrtK s e UNINITIALIZED).2 ≠ nan := by
  rw [Sphere.is_intersecting_candidate]
  rcases Sphere.local_min_spec sqrtK hs S s e E d c R hE hd hc hR hd0 with
    ⟨hnone, _⟩ | ⟨t, hsome, _⟩
  · rw [hnone]; simp [UNINITIALIZED]
  · rw [hsome]; simp [UNINITIALIZED]

/-- The real square root is a square root. -/
theorem isSqrt_real : IsSqrt Real.sqrt :=
  fun x hx => ⟨Real.sqrt_nonneg x, Real.mul_self_sqrt hx⟩

/-! ## Shadow queries -/

/-- The shadow test of a member triangle is its hit time, or -1. -/
theorem Model.shadow_intersect_triangle_eq (m : Model K) (triangle : MeshTriangle)
    (s e : Vector3 (real_t K)) :
    m.shadow_intersect_triangle triangle s e =
      match m.hit_time s e triangle with
      | none => fin (-1)
      | some t => t := by
  unfold Model.shadow_intersect_triangle Model.hit_time Model.system
  simp only []
  split_ifs <;> rfl

/-- The loop of `Model::shadow_intersection` is one update by the earliest
hit time of the triangles. -/
theorem Model.shadow_intersection_loop_spec (m : Model K) (s e : Vector3 (real_t K))
    (tris : List MeshTriangle) (T : real_t K) :
    m.shadow_intersection_loop s e tris T
      = (cand_update (best (tris.map (m.hit_time s e))) T).2 := by
  induction tris generalizing T with
  | nil => simp [Model.shadow_intersection_loop, best_nil, cand_update_none]
  | cons tri rest ih =>
    have hc : ∀ t, m.hit_time s e tri = some t → Good t := fun t ht =>
      m.hit_time_good s e [tri] t (by simp [ht])
    have hcs : ∀ t, best (rest.map (m.hit_time s e)) = some t → Good t := fun t ht =>
      best_good _ (m.hit_time_good s e rest) t ht
    rw [List.map_cons, cand_update_best_cons _ _ hc hcs]
    simp only [Model.shadow_intersection_loop]
    rw [ih, Model.shadow_intersect_triangle_eq]
    cases hh : m.hit_time s e tri with
    | none => simp [cand_update_none, real_t.ne]
    | some t =>
      have hne : t.ne (fin (-1)) = true := by
        simp [real_t.ne, (hc t hh).eq_unset]
      simp only [hne, if_true, cand_update_some]
      split_ifs <;> rfl

/-- A shadow query returns the candidate of the primitive, or -1. -/
theorem Geometry.shadow_intersection_eq (sqrtK : K → K) (geo : Geometry K)
    (s e : Vector3 (real_t K)) :
    geo.shadow_intersection sqrtK s e =
      match geo.candidate sqrtK s e with
      | none => fin (-1)
      | some t => t := by
  cases geo with
  | sphere S =>
    simp only [Geometry.shadow_intersection, Geometry.candidate]
    unfold Sphere.shadow_intersection Sphere.local_min
    simp only []
    split_ifs <;> rfl
  | triangle t =>
    simp only [Geometry.shadow_intersection, Geometry.candidate]
    unfold Triangle.shadow_intersection Triangle.system
    simp only []
    split_ifs <;> rfl
  | model m =>
    simp only [Geometry.shadow_intersection, Geometry.candidate, Model.shadow_intersection]
    rw [Model.shadow_intersection_loop_spec]
    cases best (m.mesh.triangles.map (m.hit_time s e)) with
    | none => rfl
    | some t => simp [cand_update_some]

/-- An update of the unset time by a candidate. -/
theorem cand_update_unset (c : Option (real_t K)) :
    cand_update c (fin (-1)) = match c with
      | none => (false, fin (-1))
      | some t => (true, t) := by
  cases c with
  | none => rfl
  | some t => simp [cand_update_some]

/-! ## Occlusion -/

theorem Vector3.lift_add_lift (a b : Vector3 K) :
    Vector3.lift a + Vector3.lift b = Vector3.lift (a + b) := by
  show Vector3.add _ _ = _
  simp [Vector3.add, Vector3.lift]
  exact ⟨rfl, rfl, rfl⟩

theorem Vector3.smul_lift (k : K) (a : Vector3 K) :
    Vector3.smul (fin k) (Vector3.lift a) = Vector3.lift (Vector3.smul k a) := by
  simp [Vector3.smul, Vector3.lift]

theorem Vector3.muls_lift (a : Vector3 K) (k : K) :
    Vector3.muls (Vector3.lift a) (fin k) = Vector3.lift (Vector3.muls a k) := by
  simp [Vector3.muls, Vector3.lift]

/-- The square root of a square is the absolute value. -/
theorem sqrt_mul_self_abs {sqrtK : K → K} (hs : IsSqrt sqrtK) (x : K) :
    sqrtK (x * x) = |x| := by
  rw [← abs_mul_abs_self x]
  exact sqrt_mul_self hs (abs_nonneg x)

/-- The length of a finite vector. -/
theorem Vector3.length_lift (sqrtK : K → K) (v : Vector3 K) :
    Vector3.length sqrtK (Vector3.lift v) = fin (sqrtK (Vector3.dot v v)) := by
  have h : ¬ Vector3.dot v v < 0 := by
    simp only [Vector3.dot, not_lt]
    nlinarith [mul_self_nonneg v.x, mul_self_nonneg v.y, mul_self_nonneg v.z]
  simp [Vector3.length, real_t.sqrt, h]

/-- The length of a non-zero finite vector is positive. -/
theorem length_pos {sqrtK : K → K} (hs : IsSqrt sqrtK) (v : Vector3 K)
    (hv : v.x ≠ 0 ∨ v.y ≠ 0 ∨ v.z ≠ 0) : 0 < sqrtK (Vector3.dot v v) := by
  have h := dot_self_pos v hv
  obtain ⟨h0, h1⟩ := hs _ (le_of_lt h)
  rcases lt_or_eq_of_le h0 with h2 | h2
  · exact h2
  · rw [← h2] at h1; linarith

/-- The unit vector of a non-zero finite vector. -/
theorem Vector3.normalize_lift {sqrtK : K → K} (hs : IsSqrt sqrtK) (v : Vector3 K)
    (hv : v.x ≠ 0 ∨ v.y ≠ 0 ∨ v.z ≠ 0) :
    Vector3.normalize sqrtK (Vector3.lift v) =
      Vector3.lift (Vector3.unit sqrtK v) := by
  have hD := ne_of_gt (length_pos hs v hv)
  have h : ¬ Vector3.dot v v < 0 := not_lt.mpr (le_of_lt (dot_self_pos v hv))
  simp only [Vector3.normalize, Vector3.dot_lift_lift, real_t.sqrt, if_neg h]
  simp [Vector3.lift, Vector3.unit, fin_div_fin_of_ne _ hD]

/-- The unit vector of a non-zero vector has length one. -/
theorem unit_dot_self {sqrtK : K → K} (hs : IsSqrt sqrtK) (v : Vector3 K)
    (hv : v.x ≠ 0 ∨ v.y ≠ 0 ∨ v.z ≠ 0) :
    Vector3.dot (Vector3.unit sqrtK v) (Vector3.unit sqrtK v) = 1 := by
  have hD := ne_of_gt (length_pos hs v hv)
  obtain ⟨-, h1⟩ := hs _ (le_of_lt (dot_self_pos v hv))
  have h2 : v.x * v.x + v.y * v.y + v.z * v.z
      = sqrtK (Vector3.dot v v) * sqrtK (Vector3.dot v v) := by
    rw [h1]; rfl
  unfold Vector3.unit
  generalize sqrtK (Vector3.dot v v) = D at *
  simp only [Vector3.dot]
  field_simp
  linear_combination h2

/-- A vector is its length times its unit vector. -/
theorem unit_scale {sqrtK : K → K} (hs : IsSqrt sqrtK) (v : Vector3 K)
    (hv : v.x ≠ 0 ∨ v.y ≠ 0 ∨ v.z ≠ 0) :
    v.x = sqrtK (Vector3.dot v v) * (Vector3.unit sqrtK v).x ∧
    v.y = sqrtK (Vector3.dot v v) * (Vector3.unit sqrtK v).y ∧
    v.z = sqrtK (Vector3.dot v v) * (Vector3.unit sqrtK v).z := by
  have hD := ne_of_gt (length_pos hs v hv)
  simp only [Vector3.unit]
  refine ⟨?_, ?_, ?_⟩ <;> field_simp

/-- The square of the distance between the point at time `t` on the offset
ray and the surface point. -/
theorem hit_offset_sq (L p : Vector3 K) (hu : Vector3.dot L L = 1) (ε t : K) :
    Vector3.dot ((p + Vector3.smul ε L + Vector3.muls L t) - p)
      ((p + Vector3.smul ε L + Vector3.muls L t) - p) = (ε + t) * (ε + t) := by
  show Vector3.dot (Vector3.sub (Vector3.add (Vector3.add _ _) _) _)
    (Vector3.sub (Vector3.add (Vector3.add _ _) _) _) = _
  simp only [Vector3.dot, Vector3.sub, Vector3.add, Vector3.smul, Vector3.muls] at hu ⊢
  linear_combination (ε + t) * (ε + t) * hu

/-- The square of the distance between the offset point and the light. -/
theorem offset_light_sq (L p q : Vector3 K) (D : K) (hu : Vector3.dot L L = 1)
    (hx : q.x - p.x = D * L.x) (hy : q.y - p.y = D * L.y) (hz : q.z - p.z = D * L.z) (ε : K) :
    Vector3.dot ((p + Vector3.smul ε L) - q) ((p + Vector3.smul ε L) - q)
      = (D - ε) * (D - ε) := by
  show Vector3.dot (Vector3.sub (Vector3.add _ _) _) (Vector3.sub (Vector3.add _ _) _) = _
  simp only [Vector3.dot, Vector3.sub, Vector3.add, Vector3.smul] at hu ⊢
  linear_combination (-((p.x + ε * L.x - q.x) + (ε - D) * L.x)) * hx
    + (-((p.y + ε * L.y - q.y) + (ε - D) * L.y)) * hy
    + (-((p.z + ε * L.z - q.z) + (ε - D) * L.z)) * hz + (ε - D) * (ε - D) * hu

/-- The candidate of a primitive is a finite time that is not negative, or
`+inf`, or `NaN`. -/
theorem Geometry.candidate_cases (sqrtK : K → K) (geo : Geometry K)
    (s e : Vector3 (real_t K)) (t : real_t K) (h : geo.candidate sqrtK s e = some t) :
    (∃ τ : K, t = fin τ ∧ 0 ≤ τ) ∨ t = pinf ∨ t = nan := by
  have key : t.le (fin 0) = false ∨ Good t := by
    cases geo with
    | sphere S => exact Or.inl (S.local_min_not_le sqrtK s e t h)
    | triangle tri =>
      right
      simp only [Geometry.candidate] at h
      split_ifs at h with hv
      cases h
      exact Cramer.valid_good hv
    | model m =>
      right
      simp only [Geometry.candidate] at h
      exact best_good _ (m.hit_time_good s e m.mesh.triangles) t h
  cases t with
  | fin τ =>
    left
    refine ⟨τ, rfl, ?_⟩
    rcases key with h1 | h1
    · have : ¬ τ ≤ 0 := by simpa using h1
      exact le_of_lt (not_le.mp this)
    · simpa [Good] using h1
  | pinf => right; left; rfl
  | ninf =>
    rcases key with h1 | h1
    · simp [le] at h1
    · simp [Good, le] at h1
  | nan => right; right; rfl

/-- What a shadow query can return. -/
theorem Geometry.shadow_intersection_cases (sqrtK : K → K) (geo : Geometry K)
    (s e : Vector3 (real_t K)) :
    geo.shadow_intersection sqrtK s e = fin (-1) ∨
    (∃ τ : K, geo.shadow_intersection sqrtK s e = fin τ ∧ 0 ≤ τ) ∨
    geo.shadow_intersection sqrtK s e = pinf ∨ geo.shadow_intersection sqrtK s e = nan := by
  rw [Geometry.shadow_intersection_eq]
  cases hc : geo.candidate sqrtK s e with
  | none => left; rfl
  | some t => right; exact geo.candidate_cases sqrtK s e t hc

/-- A point at an infinite or undefined time on a finite ray is not nearer
than a finite distance. -/
theorem distance_at_nonfinite (sqrtK : K → K) (a L p : Vector3 K) (t : real_t K)
    (ht : t = pinf ∨ t = nan) (D : K) :
    (Vector3.distance sqrtK (Vector3.lift a + Vector3.muls (Vector3.lift L) t)
      (Vector3.lift p)).lt (fin D) = false := by
  have hsq : ∀ l : K, ∀ b c : K,
      (fin b + fin l * t - fin c) * (fin b + fin l * t - fin c) = (pinf : real_t K) ∨
      (fin b + fin l * t - fin c) * (fin b + fin l * t - fin c) = (nan : real_t K) := by
    intro l b c
    rcases ht with h | h <;> subst h
    · have hm : (fin l * pinf : real_t K) = signInf l := rfl
      rw [hm]
      unfold signInf
      split_ifs <;> first
        | (left; rfl)
        | (right; rfl)
    · right; rfl
  have hsum : ∀ x y z : real_t K, (x = pinf ∨ x = nan) → (y = pinf ∨ y = nan) →
      (z = pinf ∨ z = nan) → real_t.sqrt sqrtK (x + y + z) = pinf ∨
        real_t.sqrt sqrtK (x + y + z) = nan := by
    intro x y z hx hy hz
    rcases hx with h | h <;> rcases hy with h' | h' <;> rcases hz with h'' | h'' <;>
      subst h <;> subst h' <;> subst h'' <;>
      first
        | (left; rfl)
        | (right; rfl)
  have hd : Vector3.distance sqrtK (Vector3.lift a + Vector3.muls (Vector3.lift L) t)
      (Vector3.lift p) = real_t.sqrt sqrtK
        ((fin a.x + fin L.x * t - fin p.x) * (fin a.x + fin L.x * t - fin p.x)
          + (fin a.y + fin L.y * t - fin p.y) * (fin a.y + fin L.y * t - fin p.y)
          + (fin a.z + fin L.z * t - fin p.z) * (fin a.z + fin L.z * t - fin p.z)) := rfl
  rw [hd]
  rcases hsum _ _ _ (hsq L.x a.x p.x) (hsq L.y a.y p.y) (hsq L.z a.z p.z) with h | h <;>
    rw [h] <;> rfl

/-- The inner loop of `compute_diffuse` leaves 0 when a primitive passes the
occlusion test, else 1. -/
theorem shadow_loop_eq (sqrtK : K → K) (light_vector slope_pos surface_pos : Vector3 (real_t K))
    (dist : real_t K) (objs : List (Geometry K)) :
    shadow_loop sqrtK light_vector slope_pos surface_pos dist objs =
      if objs.any (fun geo =>
        (geo.shadow_intersection sqrtK light_vector slope_pos).ne (fin (-1)) &&
          (Vector3.distance sqrtK (slope_pos + Vector3.muls light_vector
            (geo.shadow_intersection sqrtK light_vector slope_pos)) surface_pos).lt dist)
      then fin 0 else fin 1 := by
  induction objs with
  | nil => rfl
  | cons geo rest ih =>
    simp only [shadow_loop, List.any_cons, ih]
    by_cases h1 : (geo.shadow_intersection sqrtK light_vector slope_pos).ne (fin (-1)) = true
    · by_cases h2 : (Vector3.distance sqrtK (slope_pos + Vector3.muls light_vector
          (geo.shadow_intersection sqrtK light_vector slope_pos)) surface_pos).lt dist = true
      · simp [h1, h2]
      · simp [h1, h2]
    · simp [h1]

/-- The unit direction from a finite point to a different finite point. -/
theorem light_vector_lift {sqrtK : K → K} (hs : IsSqrt sqrtK) (p q : Vector3 K)
    (hv : (q - p).x ≠ 0 ∨ (q - p).y ≠ 0 ∨ (q - p).z ≠ 0) :
    Vector3.normalize sqrtK (Vector3.lift q - Vector3.lift p)
      = Vector3.lift (Vector3.unit sqrtK (q - p)) := by
  rw [Vector3.lift_sub_lift, Vector3.normalize_lift hs _ hv]

/-- The distance between two finite points. -/
theorem distance_lift (sqrtK : K → K) (a b : Vector3 K) :
    Vector3.distance sqrtK (Vector3.lift a) (Vector3.lift b)
      = fin (sqrtK (Vector3.dot (a - b) (a - b))) := by
  rw [Vector3.distance, Vector3.lift_sub_lift, Vector3.length_lift]

/-- The offset point of a finite surface point. -/
theorem slope_pos_lift (p L : Vector3 K) :
    Vector3.lift p + Vector3.smul EPSILON (Vector3.lift L)
      = Vector3.lift (p + Vector3.smul (1 / 1000000) L) := by
  rw [EPSILON, Vector3.smul_lift, Vector3.lift_add_lift]

/-- The point at a time `t ≥ 0` on the offset ray is at the distance
`EPSILON + t` from the surface point. -/
theorem hit_distance_lift {sqrtK : K → K} (hs : IsSqrt sqrtK) (p L : Vector3 K)
    (hu : Vector3.dot L L = 1) (t : K) (ht : 0 ≤ t) :
    Vector3.distance sqrtK (Vector3.lift (p + Vector3.smul (1 / 1000000) L)
        + Vector3.muls (Vector3.lift L) (fin t)) (Vector3.lift p)
      = fin (1 / 1000000 + t) := by
  rw [Vector3.muls_lift, Vector3.lift_add_lift, distance_lift, hit_offset_sq L p hu,
    sqrt_mul_self hs]
  have : (0 : K) < 1 / 1000000 := by norm_num
  linarith

/-- The distance from the offset point to the light. -/
theorem offset_light_distance {sqrtK : K → K} (hs : IsSqrt sqrtK) (p q : Vector3 K)
    (hv : (q - p).x ≠ 0 ∨ (q - p).y ≠ 0 ∨ (q - p).z ≠ 0) :
    Vector3.distance sqrtK
        (Vector3.lift (p + Vector3.smul (1 / 1000000) (Vector3.unit sqrtK (q - p))))
        (Vector3.lift q)
      = fin |sqrtK (Vector3.dot (q - p) (q - p)) - 1 / 1000000| := by
  obtain ⟨hx, hy, hz⟩ := unit_scale hs (q - p) hv
  rw [distance_lift, offset_light_sq (Vector3.unit sqrtK (q - p)) p q
    (sqrtK (Vector3.dot (q - p) (q - p))) (unit_dot_self hs _ hv) hx hy hz, sqrt_mul_self_abs hs]

/-- The occlusion test of the code on finite points: a primitive is hit at a
finite time `t ≥ 0` with `EPSILON + t` less than the distance to the
light. -/
theorem occluded_iff {sqrtK : K → K} (hs : IsSqrt sqrtK) (scene : Scene K) (p q : Vector3 K)
    (hv : (q - p).x ≠ 0 ∨ (q - p).y ≠ 0 ∨ (q - p).z ≠ 0) :
    occluded sqrtK scene (Vector3.lift p) (Vector3.lift q) = true ↔
      ∃ geo ∈ scene.geometries, ∃ t : K,
        geo.shadow_intersection sqrtK (Vector3.lift (Vector3.unit sqrtK (q - p)))
          (Vector3.lift (p + Vector3.smul (1 / 1000000) (Vector3.unit sqrtK (q - p)))) = fin t ∧
        0 ≤ t ∧ 1 / 1000000 + t < sqrtK (Vector3.dot (q - p) (q - p)) := by
  have hu := unit_dot_self hs _ hv
  simp only [occluded, light_vector_lift hs p q hv, slope_pos_lift, distance_lift,
    List.any_eq_true, Bool.and_eq_true]
  constructor
  · rintro ⟨geo, hmem, hne, hlt⟩
    refine ⟨geo, hmem, ?_⟩
    rcases geo.shadow_intersection_cases sqrtK (Vector3.lift (Vector3.unit sqrtK (q - p)))
      (Vector3.lift (p + Vector3.smul (1 / 1000000) (Vector3.unit sqrtK (q - p))))
      with h | ⟨t, h, h0⟩ | h | h
    · rw [h] at hne; simp [real_t.ne] at hne
    · refine ⟨t, h, h0, ?_⟩
      rw [h, Vector3.muls_lift, Vector3.lift_add_lift, distance_lift,
        hit_offset_sq _ p hu, sqrt_mul_self hs (by
          have : (0 : K) < 1 / 1000000 := by norm_num
          linarith)] at hlt
      simpa using hlt
    · rw [h] at hlt
      have := distance_at_nonfinite sqrtK
        (p + Vector3.smul (1 / 1000000) (Vector3.unit sqrtK (q - p)))
        (Vector3.unit sqrtK (q - p)) p pinf (Or.inl rfl) (sqrtK (Vector3.dot (q - p) (q - p)))
      rw [this] at hlt
      exact absurd hlt (by simp)
    · rw [h] at hlt
      have := distance_at_nonfinite sqrtK
        (p + Vector3.smul (1 / 1000000) (Vector3.unit sqrtK (q - p)))
        (Vector3.unit sqrtK (q - p)) p nan (Or.inr rfl) (sqrtK (Vector3.dot (q - p) (q - p)))
      rw [this] at hlt
      exact absurd hlt (by simp)
  · rintro ⟨geo, hmem, t, h, h0, hlt⟩
    refine ⟨geo, hmem, ?_, ?_⟩
    · rw [h]
      have : ¬ t = -1 := by linarith
      simp [real_t.ne, this]
    · rw [h, Vector3.muls_lift, Vector3.lift_add_lift, distance_lift,
        hit_offset_sq _ p hu, sqrt_mul_self hs (by
          have : (0 : K) < 1 / 1000000 := by norm_num
          linarith)]
      simpa using hlt

/-- The occlusion test in the words of the specification on finite points: a
primitive is hit at a finite time `t ≥ 0` less than the distance from the
offset point to the light. -/
theorem occluded_by_time_iff {sqrtK : K → K} (hs : IsSqrt sqrtK) (scene : Scene K)
    (p q : Vector3 K) (hv : (q - p).x ≠ 0 ∨ (q - p).y ≠ 0 ∨ (q - p).z ≠ 0) :
    occluded_by_time sqrtK scene (Vector3.lift p) (Vector3.lift q) = true ↔
      ∃ geo ∈ scene.geometries, ∃ t : K,
        geo.shadow_intersection sqrtK (Vector3.lift (Vector3.unit sqrtK (q - p)))
          (Vector3.lift (p + Vector3.smul (1 / 1000000) (Vector3.unit sqrtK (q - p)))) = fin t ∧
        0 ≤ t ∧ t < |sqrtK (Vector3.dot (q - p) (q - p)) - 1 / 1000000| := by
  simp only [occluded_by_time, light_vector_lift hs p q hv, slope_pos_lift,
    offset_light_distance hs p q hv, List.any_eq_true, Bool.and_eq_true]
  constructor
  · rintro ⟨geo, hmem, hne, hlt⟩
    refine ⟨geo, hmem, ?_⟩
    rcases geo.shadow_intersection_cases sqrtK (Vector3.lift (Vector3.unit sqrtK (q - p)))
      (Vector3.lift (p + Vector3.smul (1 / 1000000) (Vector3.unit sqrtK (q - p))))
      with h | ⟨t, h, h0⟩ | h | h
    · rw [h] at hne; simp [real_t.ne] at hne
    · refine ⟨t, h, h0, ?_⟩
      rw [h] at hlt
      simpa using hlt
    · rw [h] at hlt; simp [real_t.lt] at hlt
    · rw [h] at hlt; simp [real_t.lt] at hlt
  · rintro ⟨geo, hmem, t, h, h0, hlt⟩
    refine ⟨geo, hmem, ?_, ?_⟩
    · rw [h]
      have : ¬ t = -1 := by linarith
      simp [real_t.ne, this]
    · rw [h]
      simpa using hlt

/-- When the light is at least `EPSILON` away from the surface point, the
test of the code and the test in the words of the specification agree. -/
theorem occluded_eq_occluded_by_time {sqrtK : K → K} (hs : IsSqrt sqrtK) (scene : Scene K)
    (p q : Vector3 K) (hv : (q - p).x ≠ 0 ∨ (q - p).y ≠ 0 ∨ (q - p).z ≠ 0)
    (hfar : 1 / 1000000 ≤ sqrtK (Vector3.dot (q - p) (q - p))) :
    occluded sqrtK scene (Vector3.lift p) (Vector3.lift q)
      = occluded_by_time sqrtK scene (Vector3.lift p) (Vector3.lift q) := by
  rw [Bool.eq_iff_iff, occluded_iff hs scene p q hv, occluded_by_time_iff hs scene p q hv,
    abs_of_nonneg (sub_nonneg.mpr hfar)]
  constructor
  · rintro ⟨geo, hmem, t, h, h0, hlt⟩
    exact ⟨geo, hmem, t, h, h0, by linarith⟩
  · rintro ⟨geo, hmem, t, h, h0, hlt⟩
    exact ⟨geo, hmem, t, h, h0, by linarith⟩

/-- The step of `Sphere::compute_diffuse` for one light. -/
theorem Sphere.sphere_diffuse_light_eq (sqrtK : K → K) (scene : Scene K)
    (normal surface_pos : Vector3 (real_t K)) (total : Color3 K) (light : PointLight K) :
    Sphere.diffuse_light sqrtK scene normal surface_pos total light =
      if occluded sqrtK scene surface_pos light.position then total
      else total + (Sphere.attenuation (Vector3.distance sqrtK light.position surface_pos) light
          light.position surface_pos).muls
        (max_of (Vector3.dot (Vector3.normalize sqrtK (light.position - surface_pos)) normal)
          (fin 0)) := by
  simp only [Sphere.diffuse_light, shadow_loop_eq, occluded]
  split_ifs <;> simp_all

/-- The step of `Triangle::compute_diffuse` for one light. -/
theorem Triangle.triangle_diffuse_light_eq (sqrtK : K → K) (scene : Scene K)
    (normal surface_pos : Vector3 (real_t K)) (total : Color3 K) (light : PointLight K) :
    Triangle.diffuse_light sqrtK scene normal surface_pos total light =
      if occluded sqrtK scene surface_pos light.position then total
      else total + (Triangle.attenuation (Vector3.distance sqrtK light.position surface_pos) light
          light.position surface_pos).muls
        (Triangle.max (Vector3.dot (Vector3.normalize sqrtK (light.position - surface_pos)) normal)
          (fin 0)) := by
  simp only [Triangle.diffuse_light, shadow_loop_eq, occluded]
  split_ifs <;> simp_all

/-- The step of `Model::compute_diffuse` for one light. -/
theorem Model.model_diffuse_light_eq (sqrtK : K → K) (scene : Scene K)
    (normal surface_pos : Vector3 (real_t K)) (total : Color3 K) (light : PointLight K) :
    Model.diffuse_light sqrtK scene normal surface_pos total light =
      if occluded sqrtK scene surface_pos light.position then total
      else total + (Model.attenuation (Vector3.distance sqrtK light.position surface_pos) light
          light.position surface_pos).muls
        (Model.max (Vector3.dot (Vector3.normalize sqrtK (light.position - surface_pos)) normal)
          (fin 0)) := by
  simp only [Model.diffuse_light, shadow_loop_eq, occluded]
  split_ifs <;> simp_all

/-- The light of the near-light scene is at the distance `1/2000000` from the
origin. -/
theorem ex_near_light_distance :
    Real.sqrt (Vector3.dot ((⟨0, 0, 1 / 2000000⟩ : Vector3 ℝ) - ⟨0, 0, 0⟩)
      ((⟨0, 0, 1 / 2000000⟩ : Vector3 ℝ) - ⟨0, 0, 0⟩)) = 1 / 2000000 := by
  have h : Vector3.dot ((⟨0, 0, 1 / 2000000⟩ : Vector3 ℝ) - ⟨0, 0, 0⟩)
      ((⟨0, 0, 1 / 2000000⟩ : Vector3 ℝ) - ⟨0, 0, 0⟩) = (1 / 2000000) * (1 / 2000000) := by
    show Vector3.dot (Vector3.sub _ _) (Vector3.sub _ _) = _
    simp only [Vector3.dot, Vector3.sub]
    norm_num
  rw [h]
  exact Real.sqrt_mul_self (by norm_num)

/-- The unit direction from the origin to the light of the near-light
scene. -/
theorem ex_near_light_unit :
    Vector3.unit Real.sqrt ((⟨0, 0, 1 / 2000000⟩ : Vector3 ℝ) - ⟨0, 0, 0⟩) = ⟨0, 0, 1⟩ := by
  unfold Vector3.unit
  rw [ex_near_light_distance]
  show Vector3.mk _ _ _ = _
  have hx : ((⟨0, 0, 1 / 2000000⟩ : Vector3 ℝ) - ⟨0, 0, 0⟩).x = 0 - 0 := rfl
  have hy : ((⟨0, 0, 1 / 2000000⟩ : Vector3 ℝ) - ⟨0, 0, 0⟩).y = 0 - 0 := rfl
  have hz : ((⟨0, 0, 1 / 2000000⟩ : Vector3 ℝ) - ⟨0, 0, 0⟩).z = 1 / 2000000 - 0 := rfl
  rw [hx, hy, hz]
  norm_num

/-- The shadow time of the low triangle for the ray from the offset point of
the origin straight up. -/
theorem ex_low_triangle_shadow :
    (Geometry.triangle (ex_low_triangle ℝ)).shadow_intersection Real.sqrt
      (Vector3.lift (Vector3.unit Real.sqrt ((⟨0, 0, 1 / 2000000⟩ : Vector3 ℝ) - ⟨0, 0, 0⟩)))
      (Vector3.lift ((⟨0, 0, 0⟩ : Vector3 ℝ) + Vector3.smul (1 / 1000000)
        (Vector3.unit Real.sqrt ((⟨0, 0, 1 / 2000000⟩ : Vector3 ℝ) - ⟨0, 0, 0⟩))))
      = fin (1 / 4000000) := by
  rw [ex_near_light_unit]
  have hp : ((⟨0, 0, 0⟩ : Vector3 ℝ) + Vector3.smul (1 / 1000000) ⟨0, 0, 1⟩)
      = ⟨0, 0, 1 / 1000000⟩ := by
    show Vector3.add _ _ = _
    simp [Vector3.add, Vector3.smul]
  rw [hp]
  simp [Geometry.shadow_intersection, Triangle.shadow_intersection, cramer, Cramer.valid,
    ex_low_triangle, ex_vertex, Triangle.transform_vector, Triangle.transform_point,
    Matrix4.identity, Vector3.lift, fin_div_fin]
  norm_num

/-- The inner loop of `compute_diffuse` for a light, by the occlusion test. -/
theorem shadow_loop_occluded (sqrtK : K → K) (scene : Scene K)
    (surface_pos light_pos : Vector3 (real_t K)) :
    shadow_loop sqrtK (Vector3.normalize sqrtK (light_pos - surface_pos))
        (surface_pos + Vector3.smul EPSILON (Vector3.normalize sqrtK (light_pos - surface_pos)))
        surface_pos (Vector3.distance sqrtK light_pos surface_pos) scene.geometries
      = if occluded sqrtK scene surface_pos light_pos then fin 0 else fin 1 := by
  rw [shadow_loop_eq]
  rfl

/-! ## The diffuse sum -/

namespace real_t

theorem mul_comm' (a b : real_t K) : a * b = b * a := by
  show mul a b = mul b a
  cases a <;> cases b <;> simp [mul, mul_comm]

theorem one_mul' (a : real_t K) : fin 1 * a = a := by
  show mul (fin 1) a = a
  cases a <;> simp [mul, signInf]

theorem sub_mul_self_comm (a b : real_t K) : (a - b) * (a - b) = (b - a) * (b - a) := by
  show mul (add a (neg b)) (add a (neg b)) = mul (add b (neg a)) (add b (neg a))
  cases a <;> cases b <;> simp [mul, add, neg]
  ring

theorem pow_two' (a : real_t K) : real_t.pow a 2 = a * a := by
  show real_t.pow a 0 * a * a = a * a
  rw [show real_t.pow a 0 = fin 1 from rfl, one_mul']

end real_t

theorem Vector3.dot_comm' (a b : Vector3 (real_t K)) : Vector3.dot a b = Vector3.dot b a := by
  simp only [Vector3.dot]
  rw [real_t.mul_comm' a.x, real_t.mul_comm' a.y, real_t.mul_comm' a.z]

theorem Vector3.distance_comm (sqrtK : K → K) (a b : Vector3 (real_t K)) :
    Vector3.distance sqrtK a b = Vector3.distance sqrtK b a := by
  show real_t.sqrt sqrtK ((a.x - b.x) * (a.x - b.x) + (a.y - b.y) * (a.y - b.y)
      + (a.z - b.z) * (a.z - b.z))
    = real_t.sqrt sqrtK ((b.x - a.x) * (b.x - a.x) + (b.y - a.y) * (b.y - a.y)
      + (b.z - a.z) * (b.z - a.z))
  rw [real_t.sub_mul_self_comm a.x, real_t.sub_mul_self_comm a.y, real_t.sub_mul_self_comm a.z]

/-- The term that the code adds for a light is the term of the
specification. -/
theorem attenuated_term_eq (sqrtK : K → K) (normal surface_pos : Vector3 (real_t K))
    (light : PointLight K) :
    (Sphere.attenuation (Vector3.distance sqrtK light.position surface_pos) light
        light.position surface_pos).muls
      (max_of (Vector3.dot (Vector3.normalize sqrtK (light.position - surface_pos)) normal)
        (fin 0))
    = light_term sqrtK normal surface_pos light := by
  simp only [Sphere.attenuation, light_term, real_t.pow_two',
    Vector3.distance_comm sqrtK surface_pos light.position,
    Vector3.dot_comm' normal]
  rfl

/-- A loop that adds a term for the elements that pass a test is the sum of
the terms of the elements that pass. -/
theorem foldl_cond_add (lights : List (PointLight K)) (skip : PointLight K → Bool)
    (term : PointLight K → Color3 K) (total : Color3 K) :
    lights.foldl (fun acc light => if skip light then acc else acc + term light) total
      = ((lights.filter (fun light => !skip light)).map term).foldl
          (fun acc x => acc + x) total := by
  induction lights generalizing total with
  | nil => rfl
  | cons light rest ih =>
    simp only [List.foldl_cons, List.filter_cons]
    cases h : skip light
    · simp [ih]
    · simp [ih]

/-- The loop of `Sphere::compute_diffuse` is the diffuse sum. -/
theorem Sphere.sphere_diffuse_eq_sum (sqrtK : K → K) (scene : Scene K)
    (normal surface_pos : Vector3 (real_t K)) :
    Sphere.compute_diffuse sqrtK scene normal surface_pos
      = diffuse_sum sqrtK scene normal surface_pos := by
  have hS : Sphere.diffuse_light sqrtK scene normal surface_pos
      = fun acc light => if occluded sqrtK scene surface_pos light.position then acc
          else acc + light_term sqrtK normal surface_pos light := by
    funext acc light
    rw [Sphere.sphere_diffuse_light_eq, attenuated_term_eq]
  rw [Sphere.compute_diffuse, hS, foldl_cond_add]; rfl

/-- The loop of `Triangle::compute_diffuse` is the diffuse sum. -/
theorem Triangle.triangle_diffuse_eq_sum (sqrtK : K → K) (scene : Scene K)
    (normal surface_pos : Vector3 (real_t K)) :
    Triangle.compute_diffuse sqrtK scene normal surface_pos
      = diffuse_sum sqrtK scene normal surface_pos := by
  have hT : Triangle.diffuse_light sqrtK scene normal surface_pos
      = fun acc light => if occluded sqrtK scene surface_pos light.position then acc
          else acc + light_term sqrtK normal surface_pos light := by
    funext acc light
    rw [Triangle.triangle_diffuse_light_eq, ← attenuated_term_eq]
    rfl
  rw [Triangle.compute_diffuse, hT, foldl_cond_add]; rfl

/-- The loop of `Model::compute_diffuse` is the diffuse sum. -/
theorem Model.model_diffuse_eq_sum (sqrtK : K → K) (scene : Scene K)
    (normal surface_pos : Vector3 (real_t K)) :
    Model.compute_diffuse sqrtK scene normal surface_pos
      = diffuse_sum sqrtK scene normal surface_pos := by
  have hM : Model.diffuse_light sqrtK scene normal surface_pos
      = fun acc light => if occluded sqrtK scene surface_pos light.position then acc
          else acc + light_term sqrtK normal surface_pos light := by
    funext acc light
    rw [Model.model_diffuse_light_eq, ← attenuated_term_eq]
    rfl
  rw [Model.compute_diffuse, hM, foldl_cond_add]; rfl

/-! ## Local colour -/

theorem Vector3.vec_add_mk {α : Type} [Add α] (a b c d e f : α) :
    (⟨a, b, c⟩ + ⟨d, e, f⟩ : Vector3 α) = ⟨a + d, b + e, c + f⟩ := rfl

theorem Vector3.vec_sub_mk {α : Type} [Sub α] (a b c d e f : α) :
    (⟨a, b, c⟩ - ⟨d, e, f⟩ : Vector3 α) = ⟨a - d, b - e, c - f⟩ := rfl

theorem Color3.col_add_mk (a b c d e f : real_t K) :
    (⟨a, b, c⟩ + ⟨d, e, f⟩ : Color3 K) = ⟨a + d, b + e, c + f⟩ := rfl

theorem Color3.col_mul_mk (a b c d e f : real_t K) :
    (⟨a, b, c⟩ * ⟨d, e, f⟩ : Color3 K) = ⟨a * d, b * e, c * f⟩ := rfl

/-- The light of the lit scene is at the distance 1 from the point
`(1/4, 1/4, 1)`. -/
theorem ex_lit_distance :
    Real.sqrt (Vector3.dot ((⟨1 / 4, 1 / 4, 2⟩ : Vector3 ℝ) - ⟨1 / 4, 1 / 4, 1⟩)
      ((⟨1 / 4, 1 / 4, 2⟩ : Vector3 ℝ) - ⟨1 / 4, 1 / 4, 1⟩)) = 1 := by
  have h : Vector3.dot ((⟨1 / 4, 1 / 4, 2⟩ : Vector3 ℝ) - ⟨1 / 4, 1 / 4, 1⟩)
      ((⟨1 / 4, 1 / 4, 2⟩ : Vector3 ℝ) - ⟨1 / 4, 1 / 4, 1⟩) = 1 := by
    show Vector3.dot (Vector3.sub _ _) (Vector3.sub _ _) = _
    simp only [Vector3.dot, Vector3.sub]
    norm_num
  rw [h, Real.sqrt_one]

/-- The same distance, measured from the light. -/
theorem ex_lit_distance_rev :
    Real.sqrt (Vector3.dot ((⟨1 / 4, 1 / 4, 1⟩ : Vector3 ℝ) - ⟨1 / 4, 1 / 4, 2⟩)
      ((⟨1 / 4, 1 / 4, 1⟩ : Vector3 ℝ) - ⟨1 / 4, 1 / 4, 2⟩)) = 1 := by
  have h : Vector3.dot ((⟨1 / 4, 1 / 4, 1⟩ : Vector3 ℝ) - ⟨1 / 4, 1 / 4, 2⟩)
      ((⟨1 / 4, 1 / 4, 1⟩ : Vector3 ℝ) - ⟨1 / 4, 1 / 4, 2⟩) = 1 := by
    show Vector3.dot (Vector3.sub _ _) (Vector3.sub _ _) = _
    simp only [Vector3.dot, Vector3.sub]
    norm_num
  rw [h, Real.sqrt_one]

/-- The unit direction from the point `(1/4, 1/4, 1)` to the light of the lit
scene. -/
theorem ex_lit_unit :
    Vector3.unit Real.sqrt ((⟨1 / 4, 1 / 4, 2⟩ : Vector3 ℝ) - ⟨1 / 4, 1 / 4, 1⟩) = ⟨0, 0, 1⟩ := by
  unfold Vector3.unit
  rw [ex_lit_distance]
  have hx : ((⟨1 / 4, 1 / 4, 2⟩ : Vector3 ℝ) - ⟨1 / 4, 1 / 4, 1⟩).x = 1 / 4 - 1 / 4 := rfl
  have hy : ((⟨1 / 4, 1 / 4, 2⟩ : Vector3 ℝ) - ⟨1 / 4, 1 / 4, 1⟩).y = 1 / 4 - 1 / 4 := rfl
  have hz : ((⟨1 / 4, 1 / 4, 2⟩ : Vector3 ℝ) - ⟨1 / 4, 1 / 4, 1⟩).z = 2 - 1 := rfl
  rw [hx, hy, hz]
  norm_num

/-- The example mesh casts no shadow on the ray from the offset point of
`(1/4, 1/4, 1)` straight up. -/
theorem ex_model_shadow :
    (Geometry.model (ex_model ℝ)).shadow_intersection Real.sqrt
      (Vector3.lift (Vector3.unit Real.sqrt
        ((⟨1 / 4, 1 / 4, 2⟩ : Vector3 ℝ) - ⟨1 / 4, 1 / 4, 1⟩)))
      (Vector3.lift ((⟨1 / 4, 1 / 4, 1⟩ : Vector3 ℝ) + Vector3.smul (1 / 1000000)
        (Vector3.unit Real.sqrt ((⟨1 / 4, 1 / 4, 2⟩ : Vector3 ℝ) - ⟨1 / 4, 1 / 4, 1⟩))))
      = fin (-1) := by
  rw [ex_lit_unit]
  have hp : ((⟨1 / 4, 1 / 4, 1⟩ : Vector3 ℝ) + Vector3.smul (1 / 1000000) ⟨0, 0, 1⟩)
      = ⟨1 / 4, 1 / 4, 1 + 1 / 1000000⟩ := by
    show Vector3.add _ _ = _
    simp [Vector3.add, Vector3.smul]
  rw [hp]
  simp [Geometry.shadow_intersection, Model.shadow_intersection, Model.shadow_intersection_loop,
    Model.shadow_intersect_triangle, cramer, Cramer.valid, ex_model, ex_mesh_vertex, ex_face0,
    ex_face1, Mesh.get_vertex, Model.transform_vector, Model.transform_point,
    Matrix4.identity, Vector3.lift, fin_div_fin, real_t.ne]
  norm_num

/-- The normal of the example mesh at the example hit. -/
theorem ex_model_normal :
    Model.normal_of Real.sqrt (ex_model ℝ) (ex_hit_globals ℝ) (Vector3.lift ⟨1 / 4, 1 / 4, 1⟩)
      = Vector3.lift ⟨0, 0, 1⟩ := by
  simp [Model.normal_of, ex_model, ex_hit_globals, ex_globals, ex_mesh_vertex, ex_face1,
    Mesh.get_vertex, Matrix3.identity, Vector3.lift, Vector3.smul, Vector3.normalize,
    Vector3.dot, real_t.sqrt, fin_div_fin, Vector3.vec_add_mk]
  norm_num
  simp [fin_div_fin]

/-- The diffuse sum of the lit scene at the point `(1/4, 1/4, 1)` of the
upper triangle is white. -/
theorem ex_lit_diffuse_sum :
    diffuse_sum Real.sqrt (ex_lit_scene ℝ) (Vector3.lift ⟨0, 0, 1⟩)
      (Vector3.lift ⟨1 / 4, 1 / 4, 1⟩) = ⟨fin 1, fin 1, fin 1⟩ := by
  have hv : ((⟨1 / 4, 1 / 4, 2⟩ : Vector3 ℝ) - ⟨1 / 4, 1 / 4, 1⟩).x ≠ 0 ∨
      ((⟨1 / 4, 1 / 4, 2⟩ : Vector3 ℝ) - ⟨1 / 4, 1 / 4, 1⟩).y ≠ 0 ∨
      ((⟨1 / 4, 1 / 4, 2⟩ : Vector3 ℝ) - ⟨1 / 4, 1 / 4, 1⟩).z ≠ 0 := by
    right; right
    show (2 : ℝ) - 1 ≠ 0
    norm_num
  have hocc : occluded Real.sqrt (ex_lit_scene ℝ) (Vector3.lift ⟨1 / 4, 1 / 4, 1⟩)
      (Vector3.lift ⟨1 / 4, 1 / 4, 2⟩) = false := by
    rw [Bool.eq_false_iff]
    intro h
    rw [occluded_iff isSqrt_real _ _ _ hv] at h
    obtain ⟨geo, hmem, t, h1, h0, -⟩ := h
    have hg : geo = Geometry.model (ex_model ℝ) := by simpa [ex_lit_scene] using hmem
    rw [hg, ex_model_shadow] at h1
    have : (-1 : ℝ) = t := by simpa using h1
    linarith
  have hterm : light_term Real.sqrt (Vector3.lift ⟨0, 0, 1⟩) (Vector3.lift ⟨1 / 4, 1 / 4, 1⟩)
      (ex_light (1 / 4 : ℝ) (1 / 4) 2) = ⟨fin 1, fin 1, fin 1⟩ := by
    have hpos : (ex_light (1 / 4 : ℝ) (1 / 4) 2).position
        = Vector3.lift ⟨1 / 4, 1 / 4, 2⟩ := rfl
    simp only [light_term, hpos, distance_lift, ex_lit_distance_rev,
      light_vector_lift isSqrt_real _ _ hv, ex_lit_unit]
    simp [ex_light, Color3.muls, real_t.max, Vector3.lift, Vector3.dot, fin_div_fin]
  have hpos : (ex_light (1 / 4 : ℝ) (1 / 4) 2).position
      = Vector3.lift ⟨1 / 4, 1 / 4, 2⟩ := rfl
  have hl : (ex_lit_scene ℝ).point_lights = [ex_light (1 / 4) (1 / 4) 2] := rfl
  unfold diffuse_sum
  rw [hl, List.filter_cons, hpos, hocc]
  simp only [Bool.not_false, if_true, List.filter_nil, List.map_cons, List.map_nil,
    List.foldl_cons, List.foldl_nil]
  rw [hterm]
  simp [Color3.Black, Color3.col_add_mk]

/-! ## Textures -/

theorem trunc_intCast [FloorRing K] (z : Int) : trunc (z : K) = z := by
  unfold trunc
  split_ifs
  · exact Int.floor_intCast z
  · exact Int.ceil_intCast z

/-- The C++ `%` by a non-zero divisor has a value. -/
theorem c_mod_ok (a : Int) {b : Int} (hb : b ≠ 0) : c_mod a b = Except.ok (Int.tmod a b) := by
  simp [c_mod, hb]

/-- The texture lookup of a sphere has a value. -/
theorem Sphere.sphere_texture_ok [FloorRing K] (lib : Libm K) (S : Sphere K)
    (normal : Vector3 (real_t K)) : ∃ c, S.compute_texture lib normal = Except.ok c := by
  unfold Sphere.compute_texture
  simp only []
  split_ifs with h
  · exact ⟨_, rfl⟩
  · have hw : S.material.tex_width ≠ 0 := fun h0 => h (Or.inl h0)
    have hh : S.material.tex_height ≠ 0 := fun h0 => h (Or.inr h0)
    rw [c_mod_ok _ hw, c_mod_ok _ hh]
    exact ⟨_, rfl⟩

/-- The texture lookup of a triangle for one vertex material has a value. -/
theorem Triangle.triangle_texture_at_vertex_ok [FloorRing K] (u v : real_t K)
    (material : Material K) :
    ∃ c, Triangle.compute_texture_at_vertex u v material = Except.ok c := by
  unfold Triangle.compute_texture_at_vertex
  simp only []
  split_ifs with h
  · exact ⟨_, rfl⟩
  · have hw : material.tex_width ≠ 0 := fun h0 => h (Or.inl h0)
    have hh : material.tex_height ≠ 0 := fun h0 => h (Or.inr h0)
    rw [c_mod_ok _ hw, c_mod_ok _ hh]
    exact ⟨_, rfl⟩

/-- The texture lookup of a mesh has a value. -/
theorem Model.model_texture_at_vertex_ok [FloorRing K] (m : Model K) (u v : real_t K) :
    ∃ c, m.compute_texture_at_vertex u v = Except.ok c := by
  unfold Model.compute_texture_at_vertex
  simp only []
  split_ifs with h
  · exact ⟨_, rfl⟩
  · have hw : m.material.tex_width ≠ 0 := fun h0 => h (Or.inl h0)
    have hh : m.material.tex_height ≠ 0 := fun h0 => h (Or.inr h0)
    rw [c_mod_ok _ hw, c_mod_ok _ hh]
    exact ⟨_, rfl⟩

/-- The texture colour of a triangle at a hit has a value. -/
theorem Triangle.triangle_texture_ok [FloorRing K] (tri : Triangle K) (g : Globals K) :
    ∃ c, tri.compute_texture g = Except.ok c := by
  unfold Triangle.compute_texture
  simp only []
  obtain ⟨a, ha⟩ := Triangle.triangle_texture_at_vertex_ok
    (g.ALPHA * (tri.vertices 0).tex_coord.x + g.BETA * (tri.vertices 1).tex_coord.x
      + g.GAMMA * (tri.vertices 2).tex_coord.x)
    (g.ALPHA * (tri.vertices 0).tex_coord.y + g.BETA * (tri.vertices 1).tex_coord.y
      + g.GAMMA * (tri.vertices 2).tex_coord.y) (tri.vertices 0).material
  obtain ⟨b, hb⟩ := Triangle.triangle_texture_at_vertex_ok
    (g.ALPHA * (tri.vertices 0).tex_coord.x + g.BETA * (tri.vertices 1).tex_coord.x
      + g.GAMMA * (tri.vertices 2).tex_coord.x)
    (g.ALPHA * (tri.vertices 0).tex_coord.y + g.BETA * (tri.vertices 1).tex_coord.y
      + g.GAMMA * (tri.vertices 2).tex_coord.y) (tri.vertices 1).material
  obtain ⟨c, hc⟩ := Triangle.triangle_texture_at_vertex_ok
    (g.ALPHA * (tri.vertices 0).tex_coord.x + g.BETA * (tri.vertices 1).tex_coord.x
      + g.GAMMA * (tri.vertices 2).tex_coord.x)
    (g.ALPHA * (tri.vertices 0).tex_coord.y + g.BETA * (tri.vertices 1).tex_coord.y
      + g.GAMMA * (tri.vertices 2).tex_coord.y) (tri.vertices 2).material
  rw [ha, hb, hc]
  exact ⟨_, rfl⟩

/-- The texture colour of a mesh at a hit has a value. -/
theorem Model.model_texture_ok [FloorRing K] (m : Model K) (g : Globals K) :
    ∃ c, m.compute_texture g = Except.ok c :=
  m.model_texture_at_vertex_ok _ _

/-- The local colour of a primitive has a value. -/
theorem Geometry.color_at_pixel_ok [FloorRing K] (lib : Libm K) (geo : Geometry K)
    (g : Globals K) (scene : Scene K) (surface_pos : Vector3 (real_t K)) :
    ∃ c, geo.color_at_pixel lib g scene surface_pos = Except.ok c := by
  cases geo with
  | sphere S =>
    obtain ⟨c, hc⟩ := S.sphere_texture_ok lib (S.normal_of lib.sqrt surface_pos)
    simp only [Geometry.color_at_pixel, Sphere.color_at_pixel, hc]
    exact ⟨_, rfl⟩
  | triangle t =>
    obtain ⟨c, hc⟩ := t.triangle_texture_ok g
    simp only [Geometry.color_at_pixel, Triangle.color_at_pixel, hc]
    exact ⟨_, rfl⟩
  | model m =>
    obtain ⟨c, hc⟩ := m.model_texture_ok g
    simp only [Geometry.color_at_pixel, Model.color_at_pixel, hc]
    exact ⟨_, rfl⟩

/-! ## Recursive specular colour -/

/-- In a scene with a primitive, the nearest-hit loop selects a primitive of
the scene. -/
theorem nearest_hit_loop_index_some (sqrtK : K → K) (dir e : Vector3 (real_t K))
    (objs : List (Geometry K)) (hne : objs ≠ []) (T : real_t K) (g : Globals K) :
    ∃ sel, objs.get? (nearest_hit_loop sqrtK dir e objs 0 T 0 g).2.1 = some sel := by
  rcases nearest_hit_loop_selected sqrtK dir e objs 0 T 0 g with ⟨-, h⟩ | ⟨k, sel, hk, h, -⟩
  · rw [h]
    cases objs with
    | nil => exact absurd rfl hne
    | cons x rest => exact ⟨x, rfl⟩
  · rw [h, Nat.zero_add]
    exact ⟨sel, hk⟩

/-- A call of `Triangle::compute_specular` returns when the calls it makes
return; it makes at most one call, with the depth lowered by one, and none
at depth 1. -/
theorem Triangle.triangle_specular_calls [FloorRing K] (lib : Libm K) (call : SpecularCall K)
    (tri : Triangle K) (g : Globals K) (scene : Scene K)
    (normal incoming_ray surface_pos : Vector3 (real_t K)) (depth : Int) (N : Nat)
    (hne : scene.geometries ≠ [])
    (hcall : depth ≠ 1 → ∀ geo1 g1 n1 i1 s1, ∃ r1,
      call geo1 g1 scene n1 i1 s1 (depth - 1) = Except.ok r1 ∧ r1.calls.count ≤ N) :
    ∃ r, tri.compute_specular lib call g scene normal incoming_ray surface_pos depth
        = Except.ok r ∧
      r.calls.count ≤ 1 + N ∧ (∀ x ∈ r.calls.depths, x = depth - 1) ∧
      (depth = 1 → r.calls = Calls.none) := by
  obtain ⟨x0, hx0⟩ : ∃ x0, scene.geometries.get? 0 = some x0 := by
    cases hg : scene.geometries with
    | nil => exact absurd hg hne
    | cons x rest => exact ⟨x, rfl⟩
  obtain ⟨tex, htex⟩ := tri.triangle_texture_ok g
  simp only [Triangle.compute_specular, hx0, htex]
  generalize Vector3.normalize lib.sqrt
    (incoming_ray - Vector3.smul (fin 2 * Vector3.dot incoming_ray normal) normal) = refl_ray
  obtain ⟨sel, hsel⟩ := nearest_hit_loop_index_some lib.sqrt refl_ray
    (surface_pos + Vector3.smul EPSILON refl_ray) scene.geometries hne UNINITIALIZED g
  generalize nearest_hit_loop lib.sqrt refl_ray (surface_pos + Vector3.smul EPSILON refl_ray)
    scene.geometries 0 UNINITIALIZED 0 g = r1 at hsel ⊢
  by_cases hmin : r1.1.ne UNINITIALIZED = true
  · obtain ⟨col, hcol⟩ := sel.color_at_pixel_ok lib r1.2.2 scene
      (surface_pos + Vector3.muls refl_ray r1.1)
    simp only [hmin, if_true, hsel, hcol]
    by_cases hd : depth = 1
    · simp only [hd, if_true]
      exact ⟨_, rfl, by simp [Calls.count], by simp [Calls.depths], fun _ => rfl⟩
    · obtain ⟨r', hr', hN⟩ := hcall hd sel r1.2.2
        (sel.normal_of lib.sqrt r1.2.2 (surface_pos + Vector3.muls refl_ray r1.1)) refl_ray
        (surface_pos + Vector3.muls refl_ray r1.1)
      simp only [hd, if_false, hr']
      refine ⟨_, rfl, ?_, ?_, fun h => h.elim⟩
      · simp only [Calls.count]; omega
      · simp [Calls.depths]
  · simp only [hmin]
    exact ⟨_, rfl, by simp [Calls.count], by simp [Calls.depths], fun _ => rfl⟩

/-- A call of `Model::compute_specular` returns when the calls it makes
return; it makes at most one call, with the depth lowered by one, and none
at depth 1. -/
theorem Model.model_specular_calls [FloorRing K] (lib : Libm K) (call : SpecularCall K)
    (m : Model K) (g : Globals K) (scene : Scene K)
    (normal incoming_ray surface_pos : Vector3 (real_t K)) (depth : Int) (N : Nat)
    (hne : scene.geometries ≠ [])
    (hcall : depth ≠ 1 → ∀ geo1 g1 n1 i1 s1, ∃ r1,
      call geo1 g1 scene n1 i1 s1 (depth - 1) = Except.ok r1 ∧ r1.calls.count ≤ N) :
    ∃ r, m.compute_specular lib call g scene normal incoming_ray surface_pos depth
        = Except.ok r ∧
      r.calls.count ≤ 1 + N ∧ (∀ x ∈ r.calls.depths, x = depth - 1) ∧
      (depth = 1 → r.calls = Calls.none) := by
  obtain ⟨x0, hx0⟩ : ∃ x0, scene.geometries.get? 0 = some x0 := by
    cases hg : scene.geometries with
    | nil => exact absurd hg hne
    | cons x rest => exact ⟨x, rfl⟩
  obtain ⟨tex, htex⟩ := m.model_texture_ok g
  simp only [Model.compute_specular, hx0, htex]
  generalize Vector3.normalize lib.sqrt
    (incoming_ray - Vector3.smul (fin 2 * Vector3.dot incoming_ray normal) normal) = refl_ray
  obtain ⟨sel, hsel⟩ := nearest_hit_loop_index_some lib.sqrt refl_ray
    (surface_pos + Vector3.smul EPSILON refl_ray) scene.geometries hne UNINITIALIZED g
  generalize nearest_hit_loop lib.sqrt refl_ray (surface_pos + Vector3.smul EPSILON refl_ray)
    scene.geometries 0 UNINITIALIZED 0 g = r1 at hsel ⊢
  by_cases hmin : r1.1.ne UNINITIALIZED = true
  · obtain ⟨col, hcol⟩ := sel.color_at_pixel_ok lib r1.2.2 scene
      (surface_pos + Vector3.muls refl_ray r1.1)
    simp only [hmin, if_true, hsel, hcol]
    by_cases hd : depth = 1
    · simp only [hd, if_true]
      exact ⟨_, rfl, by simp [Calls.count], by simp [Calls.depths], fun _ => rfl⟩
    · obtain ⟨r', hr', hN⟩ := hcall hd sel r1.2.2
        (sel.normal_of lib.sqrt r1.2.2 (surface_pos + Vector3.muls refl_ray r1.1)) refl_ray
        (surface_pos + Vector3.muls refl_ray r1.1)
      simp only [hd, if_false, hr']
      refine ⟨_, rfl, ?_, ?_, fun h => h.elim⟩
      · simp only [Calls.count]; omega
      · simp [Calls.depths]
  · simp only [hmin]
    exact ⟨_, rfl, by simp [Calls.count], by simp [Calls.depths], fun _ => rfl⟩

theorem Calls.count_append (a b : Calls) : (a.append b).count = a.count + b.count := by
  induction a with
  | none => simp [Calls.append, Calls.count]
  | call d inner next _ ih => simp only [Calls.append, Calls.count, ih]; omega

theorem Calls.depths_append (a b : Calls) : (a.append b).depths = a.depths ++ b.depths := by
  induction a with
  | none => rfl
  | call d inner next _ ih => simp only [Calls.append, Calls.depths, ih, List.cons_append]

/-- The refracted ray of a sphere makes at most one call, with the depth
lowered by one, and none unless the depth exceeds 1. -/
theorem Sphere.specular_refraction_calls [FloorRing K] (lib : Libm K) (dflt : Color3 K)
    (call : SpecularCall K) (S : Sphere K) (g1 : Globals K) (scene : Scene K)
    (normal incoming_ray surface_pos : Vector3 (real_t K)) (depth : Int) (tex_color : Color3 K)
    (N : Nat) (hne : scene.geometries ≠ [])
    (hcall : 1 < depth → ∀ geo1 g1 n1 i1 s1, ∃ r1,
      call geo1 g1 scene n1 i1 s1 (depth - 1) = Except.ok r1 ∧ r1.calls.count ≤ N) :
    ∃ r, S.specular_refraction lib dflt call g1 scene normal incoming_ray surface_pos depth
        tex_color = Except.ok r ∧
      r.2.2.2.count ≤ 1 + N ∧ (∀ x ∈ r.2.2.2.depths, x = depth - 1) ∧
      (¬ 1 < depth → r.2.2.2 = Calls.none) := by
  simp only [Sphere.specular_refraction]
  by_cases hrefr : S.get_refractive_index.ne (fin 0) = true
  · simp only [hrefr, if_true]
    generalize (if (Vector3.dot incoming_ray normal).lt (fin 0) = true then
        Sphere.compute_refr_ray lib.sqrt (fin 1) S.get_refractive_index normal incoming_ray
      else Sphere.compute_refr_ray lib.sqrt S.get_refractive_index (fin 1) normal incoming_ray)
      = refr_ray
    by_cases hlen : (Vector3.length lib.sqrt refr_ray).ne (fin 0) = true
    · simp only [hlen, if_true]
      obtain ⟨sel, hsel⟩ := nearest_hit_loop_index_some lib.sqrt refr_ray
        (surface_pos + Vector3.smul EPSILON refr_ray) scene.geometries hne UNINITIALIZED g1
      generalize nearest_hit_loop lib.sqrt refr_ray (surface_pos + Vector3.smul EPSILON refr_ray)
        scene.geometries 0 UNINITIALIZED 0 g1 = r2 at hsel ⊢
      by_cases hmin : r2.1.ne UNINITIALIZED = true
      · obtain ⟨col, hcol⟩ := sel.color_at_pixel_ok lib r2.2.2 scene
          (surface_pos + Vector3.muls refr_ray r2.1)
        simp only [hmin, if_true, hsel, hcol]
        by_cases hd : depth > 1
        · obtain ⟨r', hr', hN⟩ := hcall hd sel r2.2.2
            (sel.normal_of lib.sqrt r2.2.2 (surface_pos + Vector3.muls refr_ray r2.1)) refr_ray
            (surface_pos + Vector3.muls refr_ray r2.1)
          simp only [hd, if_true, hr']
          refine ⟨_, rfl, ?_, ?_, fun h => absurd trivial h⟩
          · simp only [Calls.count]; omega
          · simp [Calls.depths]
        · simp only [hd, if_false]
          exact ⟨_, rfl, by simp [Calls.count], by simp [Calls.depths], fun _ => rfl⟩
      · simp only [hmin]
        exact ⟨_, rfl, by simp [Calls.count], by simp [Calls.depths], fun _ => rfl⟩
    · simp only [hlen]
      exact ⟨_, rfl, by simp [Calls.count], by simp [Calls.depths], fun _ => rfl⟩
  · simp only [hrefr]
    exact ⟨_, rfl, by simp [Calls.count], by simp [Calls.depths], fun _ => rfl⟩

/-- The reflected ray of a sphere makes at most one call, with the depth
lowered by one, and none unless the depth exceeds 1. -/
theorem Sphere.specular_reflection_calls [FloorRing K] (lib : Libm K) (call : SpecularCall K)
    (scene : Scene K) (surface_pos refl_ray : Vector3 (real_t K)) (minTime : real_t K)
    (geo1 : Nat) (g2 : Globals K) (depth : Int) (tex_color : Color3 K) (N : Nat)
    (hsel : ∃ sel, scene.geometries.get? geo1 = some sel)
    (hcall : 1 < depth → ∀ geo1 g1 n1 i1 s1, ∃ r1,
      call geo1 g1 scene n1 i1 s1 (depth - 1) = Except.ok r1 ∧ r1.calls.count ≤ N) :
    ∃ r, Sphere.specular_reflection lib call scene surface_pos refl_ray minTime geo1 g2 depth
        tex_color = Except.ok r ∧
      r.2.2.count ≤ 1 + N ∧ (∀ x ∈ r.2.2.depths, x = depth - 1) ∧
      (¬ 1 < depth → r.2.2 = Calls.none) := by
  obtain ⟨sel, hsel⟩ := hsel
  simp only [Sphere.specular_reflection]
  by_cases hmin : minTime.ne UNINITIALIZED = true
  · obtain ⟨col, hcol⟩ := sel.color_at_pixel_ok lib g2 scene
      (surface_pos + Vector3.muls refl_ray minTime)
    simp only [hmin, if_true, hsel, hcol]
    by_cases hd : depth > 1
    · obtain ⟨r', hr', hN⟩ := hcall hd sel g2
        (sel.normal_of lib.sqrt g2 (surface_pos + Vector3.muls refl_ray minTime)) refl_ray
        (surface_pos + Vector3.muls refl_ray minTime)
      simp only [hd, if_true, hr']
      refine ⟨_, rfl, ?_, ?_, fun h => absurd trivial h⟩
      · simp only [Calls.count]; omega
      · simp [Calls.depths]
    · simp only [hd, if_false]
      exact ⟨_, rfl, by simp [Calls.count], by simp [Calls.depths], fun _ => rfl⟩
  · simp only [hmin]
    exact ⟨_, rfl, by simp [Calls.count], by simp [Calls.depths], fun _ => rfl⟩

/-- A call of `Sphere::compute_specular` returns when the calls it makes
return; it makes at most two calls, with the depth lowered by one, and none
unless the depth exceeds 1. -/
theorem Sphere.sphere_specular_calls [FloorRing K] (lib : Libm K) (dflt : Color3 K)
    (call : SpecularCall K) (S : Sphere K) (g : Globals K) (scene : Scene K)
    (normal incoming_ray surface_pos : Vector3 (real_t K)) (depth : Int) (N : Nat)
    (hne : scene.geometries ≠ [])
    (hcall : 1 < depth → ∀ geo1 g1 n1 i1 s1, ∃ r1,
      call geo1 g1 scene n1 i1 s1 (depth - 1) = Except.ok r1 ∧ r1.calls.count ≤ N) :
    ∃ r, S.compute_specular lib dflt call g scene normal incoming_ray surface_pos depth
        = Except.ok r ∧
      r.calls.count ≤ 2 * (1 + N) ∧ (∀ x ∈ r.calls.depths, x = depth - 1) ∧
      (¬ 1 < depth → r.calls = Calls.none) := by
  obtain ⟨x0, hx0⟩ : ∃ x0, scene.geometries.get? 0 = some x0 := by
    cases hg : scene.geometries with
    | nil => exact absurd hg hne
    | cons x rest => exact ⟨x, rfl⟩
  obtain ⟨tex, htex⟩ := S.sphere_texture_ok lib normal
  simp only [Sphere.compute_specular, hx0, htex]
  generalize (if (Vector3.dot incoming_ray normal).lt (fin 0) = true then
      Vector3.normalize lib.sqrt
        (incoming_ray - Vector3.smul (fin 2 * Vector3.dot incoming_ray normal) normal)
    else Vector3.normalize lib.sqrt
        (incoming_ray + Vector3.smul (fin 2 * Vector3.dot incoming_ray (-normal)) normal))
    = refl_ray
  have hsel := nearest_hit_loop_index_some lib.sqrt refl_ray
    (surface_pos + Vector3.smul EPSILON refl_ray) scene.geometries hne UNINITIALIZED g
  generalize nearest_hit_loop lib.sqrt refl_ray (surface_pos + Vector3.smul EPSILON refl_ray)
    scene.geometries 0 UNINITIALIZED 0 g = r1 at hsel ⊢
  obtain ⟨refr, hrefr, hc1, hd1, hn1⟩ := S.specular_refraction_calls lib dflt call r1.2.2 scene
    normal incoming_ray surface_pos depth tex N hne hcall
  obtain ⟨refl, hrefl, hc2, hd2, hn2⟩ := Sphere.specular_reflection_calls lib call scene
    surface_pos refl_ray r1.1 r1.2.1 refr.2.2.1 depth tex N hsel hcall
  have hcount : (refr.2.2.2.append refl.2.2).count ≤ 2 * (1 + N) := by
    rw [Calls.count_append]; omega
  have hdepths : ∀ x ∈ (refr.2.2.2.append refl.2.2).depths, x = depth - 1 := by
    intro x hx
    rw [Calls.depths_append, List.mem_append] at hx
    rcases hx with h | h
    · exact hd1 x h
    · exact hd2 x h
  have hnone : ¬ 1 < depth → refr.2.2.2.append refl.2.2 = Calls.none := by
    intro h
    rw [hn1 h, hn2 h]
    rfl
  simp only [bind, Except.bind, hrefr, hrefl]
  split_ifs
  · exact ⟨_, rfl, hcount, hdepths, hnone⟩
  · exact ⟨_, rfl, hcount, hdepths, hnone⟩

/-- In a scene with a primitive, a call of `compute_specular` with a depth
`d ≥ 1` returns when at least `d` nested calls are allowed; the calls it
makes are passed `d - 1`, there are at most `2^d - 2` calls below it, and
none at depth 1. -/
theorem Geometry.compute_specular_calls [FloorRing K] (lib : Libm K) (dflt : Color3 K)
    (scene : Scene K) (hne : scene.geometries ≠ []) (d : Nat) (hd : 1 ≤ d) :
    ∀ (fuel : Nat), d ≤ fuel → ∀ (geo : Geometry K) (g : Globals K)
      (normal incoming_ray surface_pos : Vector3 (real_t K)),
      ∃ r, Geometry.compute_specular lib dflt fuel geo g scene normal incoming_ray surface_pos
          (d : Int) = Except.ok r ∧
        r.calls.count ≤ 2 ^ d - 2 ∧ (∀ x ∈ r.calls.depths, x = (d : Int) - 1) ∧
        (d = 1 → r.calls = Calls.none) := by
  induction d, hd using Nat.le_induction with
  | base =>
    intro fuel hfuel geo g normal incoming_ray surface_pos
    obtain ⟨f, rfl⟩ : ∃ f, fuel = f + 1 := ⟨fuel - 1, by omega⟩
    have hno : ¬ ((1 : Int) < ((1 : Nat) : Int)) := by simp
    have hno' : ¬ (((1 : Nat) : Int) ≠ 1) := by simp
    cases geo with
    | sphere S =>
      obtain ⟨r, hr, -, hdep, hnone⟩ := S.sphere_specular_calls lib dflt
        (Geometry.compute_specular lib dflt f) g scene normal incoming_ray surface_pos
        ((1 : Nat) : Int) 0 hne (fun h => absurd h hno)
      refine ⟨r, hr, ?_, hdep, fun _ => hnone hno⟩
      rw [hnone hno]; simp [Calls.count]
    | triangle t =>
      obtain ⟨r, hr, -, hdep, hnone⟩ := t.triangle_specular_calls lib
        (Geometry.compute_specular lib dflt f) g scene normal incoming_ray surface_pos
        ((1 : Nat) : Int) 0 hne (fun h => absurd h hno')
      refine ⟨r, hr, ?_, hdep, fun _ => hnone (by simp)⟩
      rw [hnone (by simp)]; simp [Calls.count]
    | model m =>
      obtain ⟨r, hr, -, hdep, hnone⟩ := m.model_specular_calls lib
        (Geometry.compute_specular lib dflt f) g scene normal incoming_ray surface_pos
        ((1 : Nat) : Int) 0 hne (fun h => absurd h hno')
      refine ⟨r, hr, ?_, hdep, fun _ => hnone (by simp)⟩
      rw [hnone (by simp)]; simp [Calls.count]
  | succ d hd ih =>
    intro fuel hfuel geo g normal incoming_ray surface_pos
    obtain ⟨f, rfl⟩ : ∃ f, fuel = f + 1 := ⟨fuel - 1, by omega⟩
    have hf : d ≤ f := by omega
    have hcast : (((d + 1 : Nat) : Int) - 1) = (d : Int) := by push_cast; ring
    have hcall : ∀ geo1 g1 n1 i1 s1, ∃ r1,
        Geometry.compute_specular lib dflt f geo1 g1 scene n1 i1 s1 (((d + 1 : Nat) : Int) - 1)
          = Except.ok r1 ∧ r1.calls.count ≤ 2 ^ d - 2 := by
      intro geo1 g1 n1 i1 s1
      rw [hcast]
      obtain ⟨r1, h1, h2, -⟩ := ih f hf geo1 g1 n1 i1 s1
      exact ⟨r1, h1, h2⟩
    have h2 : 2 ≤ 2 ^ d := by
      calc 2 = 2 ^ 1 := rfl
        _ ≤ 2 ^ d := Nat.pow_le_pow_right (by norm_num) hd
    have hp : 2 ^ (d + 1) = 2 * 2 ^ d := by rw [pow_succ]; ring
    have hd1 : ¬ (d + 1 = 1) := by omega
    cases geo with
    | sphere S =>
      obtain ⟨r, hr, hcount, hdep, -⟩ := S.sphere_specular_calls lib dflt
        (Geometry.compute_specular lib dflt f) g scene normal incoming_ray surface_pos
        ((d + 1 : Nat) : Int) (2 ^ d - 2) hne (fun _ => hcall)
      refine ⟨r, hr, ?_, hdep, fun h => absurd h hd1⟩
      rw [hp]; omega
    | triangle t =>
      obtain ⟨r, hr, hcount, hdep, -⟩ := t.triangle_specular_calls lib
        (Geometry.compute_specular lib dflt f) g scene normal incoming_ray surface_pos
        ((d + 1 : Nat) : Int) (2 ^ d - 2) hne (fun _ => hcall)
      refine ⟨r, hr, ?_, hdep, fun h => absurd h hd1⟩
      rw [hp]; omega
    | model m =>
      obtain ⟨r, hr, hcount, hdep, -⟩ := m.model_specular_calls lib
        (Geometry.compute_specular lib dflt f) g scene normal incoming_ray surface_pos
        ((d + 1 : Nat) : Int) (2 ^ d - 2) hne (fun _ => hcall)
      refine ⟨r, hr, ?_, hdep, fun h => absurd h hd1⟩
      rw [hp]; omega

/-- The ray straight up from a point between the triangles of the mirror
scene hits the upper triangle, at the weights `(1/2, 1/4, 1/4)`. -/
theorem ex_mirror_up (z : ℝ) (hz0 : 0 < z) (hz1 : z < 1) (g : Globals ℝ) :
    (nearest_hit_loop Real.sqrt (Vector3.lift ⟨0, 0, 1⟩) (Vector3.lift ⟨1 / 4, 1 / 4, z⟩)
      (ex_mirror_scene ℝ).geometries 0 UNINITIALIZED 0 g).1 = fin (1 - z) ∧
    (nearest_hit_loop Real.sqrt (Vector3.lift ⟨0, 0, 1⟩) (Vector3.lift ⟨1 / 4, 1 / 4, z⟩)
      (ex_mirror_scene ℝ).geometries 0 UNINITIALIZED 0 g).2.1 = 1 ∧
    (nearest_hit_loop Real.sqrt (Vector3.lift ⟨0, 0, 1⟩) (Vector3.lift ⟨1 / 4, 1 / 4, z⟩)
      (ex_mirror_scene ℝ).geometries 0 UNINITIALIZED 0 g).2.2.ALPHA = fin (1 / 2) ∧
    (nearest_hit_loop Real.sqrt (Vector3.lift ⟨0, 0, 1⟩) (Vector3.lift ⟨1 / 4, 1 / 4, z⟩)
      (ex_mirror_scene ℝ).geometries 0 UNINITIALIZED 0 g).2.2.BETA = fin (1 / 4) ∧
    (nearest_hit_loop Real.sqrt (Vector3.lift ⟨0, 0, 1⟩) (Vector3.lift ⟨1 / 4, 1 / 4, z⟩)
      (ex_mirror_scene ℝ).geometries 0 UNINITIALIZED 0 g).2.2.GAMMA = fin (1 / 4) := by
  have h1 : ¬ (0 ≤ -z) := by linarith
  have h2 : (0 : ℝ) ≤ 1 - z := by linarith
  have h3 : ¬ (1 - z = -1) := by linarith
  simp [nearest_hit_loop, ex_mirror_scene, Geometry.is_intersecting, Triangle.is_intersecting,
    cramer, Cramer.valid, ex_triangle, ex_top_triangle, ex_vertex, Triangle.transform_vector,
    Triangle.transform_point, Matrix4.identity, Vector3.lift, UNINITIALIZED, NOINTERSECTION,
    fin_div_fin, real_t.ne, h1, h2, h3]
  norm_num [h1, h2, h3]

/-- The ray straight down from a point between the triangles of the mirror
scene hits the lower triangle, at the weights `(1/2, 1/4, 1/4)`. -/
theorem ex_mirror_down (z : ℝ) (hz0 : 0 < z) (hz1 : z < 1) (g : Globals ℝ) :
    (nearest_hit_loop Real.sqrt (Vector3.lift ⟨0, 0, -1⟩) (Vector3.lift ⟨1 / 4, 1 / 4, z⟩)
      (ex_mirror_scene ℝ).geometries 0 UNINITIALIZED 0 g).1 = fin z ∧
    (nearest_hit_loop Real.sqrt (Vector3.lift ⟨0, 0, -1⟩) (Vector3.lift ⟨1 / 4, 1 / 4, z⟩)
      (ex_mirror_scene ℝ).geometries 0 UNINITIALIZED 0 g).2.1 = 0 ∧
    (nearest_hit_loop Real.sqrt (Vector3.lift ⟨0, 0, -1⟩) (Vector3.lift ⟨1 / 4, 1 / 4, z⟩)
      (ex_mirror_scene ℝ).geometries 0 UNINITIALIZED 0 g).2.2.ALPHA = fin (1 / 2) ∧
    (nearest_hit_loop Real.sqrt (Vector3.lift ⟨0, 0, -1⟩) (Vector3.lift ⟨1 / 4, 1 / 4, z⟩)
      (ex_mirror_scene ℝ).geometries 0 UNINITIALIZED 0 g).2.2.BETA = fin (1 / 4) ∧
    (nearest_hit_loop Real.sqrt (Vector3.lift ⟨0, 0, -1⟩) (Vector3.lift ⟨1 / 4, 1 / 4, z⟩)
      (ex_mirror_scene ℝ).geometries 0 UNINITIALIZED 0 g).2.2.GAMMA = fin (1 / 4) := by
  have h1 : ¬ (0 ≤ z - 1) := by linarith
  have h2 : (0 : ℝ) ≤ z := by linarith
  have h3 : ¬ (z = -1) := by linarith
  have h4 : ¬ (1 ≤ z) := by linarith
  have h5 : ¬ (0 ≤ (1 - z) / -1) := by
    rw [div_neg, div_one]
    linarith
  simp [nearest_hit_loop, ex_mirror_scene, Geometry.is_intersecting, Triangle.is_intersecting,
    cramer, Cramer.valid, ex_triangle, ex_top_triangle, ex_vertex, Triangle.transform_vector,
    Triangle.transform_point, Matrix4.identity, Vector3.lift, UNINITIALIZED, NOINTERSECTION,
    fin_div_fin, real_t.ne, h1, h2, h3, h4, h5]
  norm_num [h1, h2, h3, h4, h5]

/-- The normal of a triangle of the mirror scene at the weights
`(1/2, 1/4, 1/4)`. -/
theorem ex_mirror_normal (geo : Geometry ℝ)
    (hgeo : geo = Geometry.triangle (ex_triangle ℝ) ∨ geo = Geometry.triangle (ex_top_triangle ℝ))
    (g : Globals ℝ) (ha : g.ALPHA = fin (1 / 2)) (hb : g.BETA = fin (1 / 4))
    (hc : g.GAMMA = fin (1 / 4)) (p : Vector3 (real_t ℝ)) :
    geo.normal_of Real.sqrt g p = Vector3.lift ⟨0, 0, 1⟩ := by
  rcases hgeo with h | h <;> subst h
  · simp [Geometry.normal_of, Triangle.normal_of, ha, hb, hc, ex_triangle, ex_vertex,
      Matrix3.identity, Vector3.lift, Vector3.smul, Vector3.normalize, Vector3.dot, real_t.sqrt,
      fin_div_fin, Vector3.vec_add_mk]
    norm_num
    simp [fin_div_fin]
  · simp [Geometry.normal_of, Triangle.normal_of, ha, hb, hc, ex_top_triangle, ex_vertex,
      Matrix3.identity, Vector3.lift, Vector3.smul, Vector3.normalize, Vector3.dot, real_t.sqrt,
      fin_div_fin, Vector3.vec_add_mk]
    norm_num
    simp [fin_div_fin]

/-- The reflection of the ray straight down at a surface that faces up. -/
theorem ex_reflect_down :
    Vector3.normalize Real.sqrt (Vector3.lift ⟨0, 0, -1⟩
        - Vector3.smul (fin 2 * Vector3.dot (Vector3.lift (⟨0, 0, -1⟩ : Vector3 ℝ))
            (Vector3.lift ⟨0, 0, 1⟩)) (Vector3.lift ⟨0, 0, 1⟩)) = Vector3.lift ⟨0, 0, 1⟩ := by
  simp [Vector3.lift, Vector3.smul, Vector3.dot, Vector3.vec_sub_mk, Vector3.normalize,
    real_t.sqrt, fin_div_fin]
  norm_num
  simp [fin_div_fin]

/-- The reflection of the ray straight up at a surface whose normal points
up. -/
theorem ex_reflect_up :
    Vector3.normalize Real.sqrt (Vector3.lift ⟨0, 0, 1⟩
        - Vector3.smul (fin 2 * Vector3.dot (Vector3.lift (⟨0, 0, 1⟩ : Vector3 ℝ))
            (Vector3.lift ⟨0, 0, 1⟩)) (Vector3.lift ⟨0, 0, 1⟩)) = Vector3.lift ⟨0, 0, -1⟩ := by
  simp [Vector3.lift, Vector3.smul, Vector3.dot, Vector3.vec_sub_mk, Vector3.normalize,
    real_t.sqrt, fin_div_fin]
  norm_num
  simp [fin_div_fin]

/-- One call of `Triangle::compute_specular` in the mirror scene for a ray
that comes straight down on a point between the triangles, at a depth other
than 1: it ends as the call it makes on the upper triangle ends. -/
theorem ex_mirror_step_up [FloorRing ℝ] (lib : Libm ℝ) (hl : lib.sqrt = Real.sqrt)
    (call : SpecularCall ℝ) (tri : Triangle ℝ) (g : Globals ℝ) (z : ℝ) (hz0 : 0 ≤ z)
    (hz1 : z + 1 / 1000000 < 1) (depth : Int) (hd : depth ≠ 1) (e : Fault)
    (hcall : ∀ g1, call (Geometry.triangle (ex_top_triangle ℝ)) g1 (ex_mirror_scene ℝ)
      (Vector3.lift ⟨0, 0, 1⟩) (Vector3.lift ⟨0, 0, 1⟩)
      (Vector3.lift ⟨1 / 4, 1 / 4, 1 - 1 / 1000000⟩) (depth - 1) = Except.error e) :
    tri.compute_specular lib call g (ex_mirror_scene ℝ) (Vector3.lift ⟨0, 0, 1⟩)
      (Vector3.lift ⟨0, 0, -1⟩) (Vector3.lift ⟨1 / 4, 1 / 4, z⟩) depth = Except.error e := by
  have hx0 : (ex_mirror_scene ℝ).geometries.get? 0
      = some (Geometry.triangle (ex_triangle ℝ)) := rfl
  have hx1 : (ex_mirror_scene ℝ).geometries.get? 1
      = some (Geometry.triangle (ex_top_triangle ℝ)) := rfl
  obtain ⟨tex, htex⟩ := tri.triangle_texture_ok g
  have hslop : Vector3.lift (⟨1 / 4, 1 / 4, z⟩ : Vector3 ℝ)
      + Vector3.smul EPSILON (Vector3.lift ⟨0, 0, 1⟩)
      = Vector3.lift ⟨1 / 4, 1 / 4, z + 1 / 1000000⟩ := by
    simp [EPSILON, Vector3.lift, Vector3.smul, Vector3.vec_add_mk]
  obtain ⟨h1, h2, ha, hb, hc⟩ := ex_mirror_up (z + 1 / 1000000) (by linarith) hz1 g
  simp only [Triangle.compute_specular, hx0, htex, hl, ex_reflect_down, hslop]
  generalize nearest_hit_loop Real.sqrt (Vector3.lift ⟨0, 0, 1⟩)
    (Vector3.lift ⟨1 / 4, 1 / 4, z + 1 / 1000000⟩) (ex_mirror_scene ℝ).geometries 0
    UNINITIALIZED 0 g = r1 at h1 h2 ha hb hc ⊢
  have hmin : r1.1.ne UNINITIALIZED = true := by
    rw [h1]
    simp only [real_t.ne, UNINITIALIZED, eq_fin_fin, Bool.not_eq_true', decide_eq_false_iff_not]
    intro h
    linarith
  have hpos : Vector3.lift (⟨1 / 4, 1 / 4, z⟩ : Vector3 ℝ)
      + Vector3.muls (Vector3.lift ⟨0, 0, 1⟩) r1.1
      = Vector3.lift ⟨1 / 4, 1 / 4, 1 - 1 / 1000000⟩ := by
    rw [h1]
    simp [Vector3.lift, Vector3.muls, Vector3.vec_add_mk]
    ring
  obtain ⟨col, hcol⟩ := (Geometry.triangle (ex_top_triangle ℝ)).color_at_pixel_ok lib r1.2.2
    (ex_mirror_scene ℝ) (Vector3.lift ⟨1 / 4, 1 / 4, 1 - 1 / 1000000⟩)
  simp only [hmin, if_true, h2, hx1, hpos, hcol, hd, if_false,
    ex_mirror_normal _ (Or.inr rfl) r1.2.2 ha hb hc, hcall]
  rfl

/-- One call of `Triangle::compute_specular` in the mirror scene for a ray
that comes straight up to a point between the triangles, at a depth other
than 1: it ends as the call it makes on the lower triangle ends. -/
theorem ex_mirror_step_down [FloorRing ℝ] (lib : Libm ℝ) (hl : lib.sqrt = Real.sqrt)
    (call : SpecularCall ℝ) (tri : Triangle ℝ) (g : Globals ℝ) (z : ℝ)
    (hz0 : 1 / 1000000 < z) (hz1 : z ≤ 1) (depth : Int) (hd : depth ≠ 1) (e : Fault)
    (hcall : ∀ g1, call (Geometry.triangle (ex_triangle ℝ)) g1 (ex_mirror_scene ℝ)
      (Vector3.lift ⟨0, 0, 1⟩) (Vector3.lift ⟨0, 0, -1⟩)
      (Vector3.lift ⟨1 / 4, 1 / 4, 1 / 1000000⟩) (depth - 1) = Except.error e) :
    tri.compute_specular lib call g (ex_mirror_scene ℝ) (Vector3.lift ⟨0, 0, 1⟩)
      (Vector3.lift ⟨0, 0, 1⟩) (Vector3.lift ⟨1 / 4, 1 / 4, z⟩) depth = Except.error e := by
  have hx0 : (ex_mirror_scene ℝ).geometries.get? 0
      = some (Geometry.triangle (ex_triangle ℝ)) := rfl
  obtain ⟨tex, htex⟩ := tri.triangle_texture_ok g
  have hslop : Vector3.lift (⟨1 / 4, 1 / 4, z⟩ : Vector3 ℝ)
      + Vector3.smul EPSILON (Vector3.lift ⟨0, 0, -1⟩)
      = Vector3.lift ⟨1 / 4, 1 / 4, z - 1 / 1000000⟩ := by
    simp [EPSILON, Vector3.lift, Vector3.smul, Vector3.vec_add_mk]
    ring
  obtain ⟨h1, h2, ha, hb, hc⟩ := ex_mirror_down (z - 1 / 1000000) (by linarith) (by linarith) g
  simp only [Triangle.compute_specular, hx0, htex, hl, ex_reflect_up, hslop]
  generalize nearest_hit_loop Real.sqrt (Vector3.lift ⟨0, 0, -1⟩)
    (Vector3.lift ⟨1 / 4, 1 / 4, z - 1 / 1000000⟩) (ex_mirror_scene ℝ).geometries 0
    UNINITIALIZED 0 g = r1 at h1 h2 ha hb hc ⊢
  have hmin : r1.1.ne UNINITIALIZED = true := by
    rw [h1]
    simp only [real_t.ne, UNINITIALIZED, eq_fin_fin, Bool.not_eq_true', decide_eq_false_iff_not]
    intro h
    linarith
  have hpos : Vector3.lift (⟨1 / 4, 1 / 4, z⟩ : Vector3 ℝ)
      + Vector3.muls (Vector3.lift ⟨0, 0, -1⟩) r1.1
      = Vector3.lift ⟨1 / 4, 1 / 4, 1 / 1000000⟩ := by
    rw [h1]
    simp [Vector3.lift, Vector3.muls, Vector3.vec_add_mk]
  obtain ⟨col, hcol⟩ := (Geometry.triangle (ex_triangle ℝ)).color_at_pixel_ok lib r1.2.2
    (ex_mirror_scene ℝ) (Vector3.lift ⟨1 / 4, 1 / 4, 1 / 1000000⟩)
  simp only [hmin, if_true, h2, hx0, hpos, hcol, hd, if_false,
    ex_mirror_normal _ (Or.inl rfl) r1.2.2 ha hb hc, hcall]
  rfl

/-- In the mirror scene a call of `compute_specular` at a depth below 1, for
a vertical ray that arrives at a point between the triangles, does not
return, however many nested calls are allowed. -/
theorem ex_mirror_diverges [FloorRing ℝ] (lib : Libm ℝ) (hl : lib.sqrt = Real.sqrt)
    (dflt : Color3 ℝ) (fuel : Nat) :
    ∀ (depth : Int), depth ≤ 0 → ∀ (tri : Triangle ℝ) (g : Globals ℝ) (z : ℝ),
      (0 ≤ z → z + 1 / 1000000 < 1 →
        Geometry.compute_specular lib dflt fuel (Geometry.triangle tri) g (ex_mirror_scene ℝ)
          (Vector3.lift ⟨0, 0, 1⟩) (Vector3.lift ⟨0, 0, -1⟩) (Vector3.lift ⟨1 / 4, 1 / 4, z⟩)
          depth = Except.error Fault.out_of_fuel) ∧
      (1 / 1000000 < z → z ≤ 1 →
        Geometry.compute_specular lib dflt fuel (Geometry.triangle tri) g (ex_mirror_scene ℝ)
          (Vector3.lift ⟨0, 0, 1⟩) (Vector3.lift ⟨0, 0, 1⟩) (Vector3.lift ⟨1 / 4, 1 / 4, z⟩)
          depth = Except.error Fault.out_of_fuel) := by
  induction fuel with
  | zero => intro depth _ tri g z; exact ⟨fun _ _ => rfl, fun _ _ => rfl⟩
  | succ fuel ih =>
    intro depth hdepth tri g z
    have hd : depth ≠ 1 := by omega
    have hd1 : depth - 1 ≤ 0 := by omega
    constructor
    · intro hz0 hz1
      exact ex_mirror_step_up lib hl _ tri g z hz0 hz1 depth hd _
        (fun g1 => (ih (depth - 1) hd1 (ex_top_triangle ℝ) g1 (1 - 1 / 1000000)).2
          (by norm_num) (by norm_num))
    · intro hz0 hz1
      exact ex_mirror_step_down lib hl _ tri g z hz0 hz1 depth hd _
        (fun g1 => (ih (depth - 1) hd1 (ex_triangle ℝ) g1 (1 / 1000000)).1
          (by norm_num) (by norm_num))

/-! ## Refraction -/

/-- `Sphere::compute_refr_ray` by its discriminant. -/
theorem Sphere.compute_refr_ray_eq (sqrtK : K → K) (n nt : real_t K)
    (normal dir : Vector3 (real_t K)) :
    Sphere.compute_refr_ray sqrtK n nt normal dir =
      if (Sphere.refr_discriminant n nt normal dir).lt (fin 0) then ⟨fin 0, fin 0, fin 0⟩
      else Vector3.normalize sqrtK
        (Vector3.divs (Vector3.smul n (dir - Vector3.muls normal (Vector3.dot dir normal))) nt
          - Vector3.muls normal (real_t.sqrt sqrtK (Sphere.refr_discriminant n nt normal dir))) :=
  rfl

/-- With a negative discriminant the refracted direction is the zero
vector. -/
theorem Sphere.refracted_ray_degenerate (sqrtK : K → K) (S : Sphere K)
    (normal incoming_ray : Vector3 (real_t K))
    (hdisc : (S.discriminant_at normal incoming_ray).lt (fin 0) = true) :
    S.refracted_ray sqrtK normal incoming_ray = ⟨fin 0, fin 0, fin 0⟩ := by
  unfold Sphere.refracted_ray
  unfold Sphere.discriminant_at at hdisc
  split_ifs at hdisc ⊢ with h
  · rw [Sphere.compute_refr_ray_eq, if_pos hdisc]
  · rw [Sphere.compute_refr_ray_eq, if_pos hdisc]

/-- The refracted ray in `Sphere::compute_specular`, by the refracted
direction. -/
theorem Sphere.specular_refraction_eq [FloorRing K] (lib : Libm K) (dflt : Color3 K)
    (call : SpecularCall K) (S : Sphere K) (g1 : Globals K) (scene : Scene K)
    (normal incoming_ray surface_pos : Vector3 (real_t K)) (depth : Int)
    (tex_color : Color3 K) :
    S.specular_refraction lib dflt call g1 scene normal incoming_ray surface_pos depth tex_color =
      if S.get_refractive_index.ne (fin 0) then
        let refr_ray := S.refracted_ray lib.sqrt normal incoming_ray
        let R :=
          if (Vector3.dot incoming_ray normal).lt (fin 0) then
            Sphere.compute_refraction (fin 1) S.get_refractive_index refr_ray normal
          else
            Sphere.compute_refraction S.get_refractive_index (fin 1) (-incoming_ray) normal
        if (Vector3.length lib.sqrt refr_ray).ne (fin 0) then
          let r2 := nearest_hit_loop lib.sqrt refr_ray (surface_pos + Vector3.smul EPSILON refr_ray)
            scene.geometries 0 UNINITIALIZED 0 g1
          if r2.1.ne UNINITIALIZED then
            match scene.geometries.get? r2.2.1 with
            | none => Except.error Fault.out_of_bounds
            | some geo2 => do
              let temp_color ← geo2.color_at_pixel lib r2.2.2 scene
                (surface_pos + Vector3.muls refr_ray r2.1)
              if depth > 1 then
                let rec_refr ← call geo2 r2.2.2 scene
                  (geo2.normal_of lib.sqrt r2.2.2 (surface_pos + Vector3.muls refr_ray r2.1))
                  refr_ray (surface_pos + Vector3.muls refr_ray r2.1) (depth - 1)
                Except.ok (R, tex_color * (temp_color + geo2.get_specular r2.2.2 * rec_refr.color),
                  rec_refr.g, Calls.call (depth - 1) rec_refr.calls Calls.none)
              else
                Except.ok (R, dflt, r2.2.2, Calls.none)
          else
            Except.ok (R, tex_color * scene.background_color, r2.2.2, Calls.none)
        else
          Except.ok (fin 1, dflt, g1, Calls.none)
      else
        Except.ok (fin 1, dflt, g1, Calls.none) :=
  rfl

/-- With a negative discriminant the refracted ray contributes nothing: the
coefficient is 1, no ray is cast and no call is made. -/
theorem Sphere.specular_refraction_degenerate [FloorRing K] (lib : Libm K) (dflt : Color3 K)
    (call : SpecularCall K) (S : Sphere K) (g1 : Globals K) (scene : Scene K)
    (normal incoming_ray surface_pos : Vector3 (real_t K)) (depth : Int)
    (tex_color : Color3 K) (hsqrt : lib.sqrt 0 = 0)
    (hdisc : (S.discriminant_at normal incoming_ray).lt (fin 0) = true) :
    S.specular_refraction lib dflt call g1 scene normal incoming_ray surface_pos depth tex_color
      = Except.ok (fin 1, dflt, g1, Calls.none) := by
  rw [Sphere.specular_refraction_eq]
  have hlen : (Vector3.length lib.sqrt (S.refracted_ray lib.sqrt normal incoming_ray)).ne (fin 0)
      = false := by
    rw [S.refracted_ray_degenerate lib.sqrt normal incoming_ray hdisc]
    simp [Vector3.length, Vector3.dot, real_t.sqrt, real_t.ne, hsqrt]
  simp only [hlen, Bool.false_eq_true, if_false]
  split_ifs <;> rfl

namespace real_t

theorem add_zero' (a : real_t K) : a + fin 0 = a := by
  show add a (fin 0) = a
  cases a <;> simp [add]

theorem sub_self_fin (a : K) : (fin a - fin a : real_t K) = fin 0 := by
  show add (fin a) (neg (fin a)) = fin 0
  simp [add, neg]

end real_t

/-- The reflectance that `Sphere::compute_refraction` returns is the one of
the specification, for the cosine `dot(ray, normal)`. -/
theorem Sphere.compute_refraction_eq (n nt : real_t K) (ray normal : Vector3 (real_t K)) :
    Sphere.compute_refraction n nt ray normal = schlick nt (Vector3.dot ray normal) := by
  simp only [Sphere.compute_refraction, schlick, real_t.pow, real_t.one_mul']

/-- What `Sphere::compute_specular` returns, from the results of its two
rays. -/
theorem Sphere.compute_specular_of_parts [FloorRing K] (lib : Libm K) (dflt : Color3 K)
    (call : SpecularCall K) (S : Sphere K) (g : Globals K) (scene : Scene K)
    (normal incoming_ray surface_pos : Vector3 (real_t K)) (depth : Int)
    (hne : scene.geometries ≠ []) (tex : Color3 K)
    (refr : real_t K × Color3 K × Globals K × Calls) (refl : Color3 K × Globals K × Calls)
    (htex : S.compute_texture lib normal = Except.ok tex)
    (hrefr : S.specular_refraction lib dflt call
      (cast_ray lib.sqrt scene (Sphere.reflected_ray lib.sqrt normal incoming_ray) surface_pos
        g).2.2 scene normal incoming_ray surface_pos depth tex = Except.ok refr)
    (hrefl : Sphere.specular_reflection lib call scene surface_pos
      (Sphere.reflected_ray lib.sqrt normal incoming_ray)
      (cast_ray lib.sqrt scene (Sphere.reflected_ray lib.sqrt normal incoming_ray) surface_pos
        g).1
      (cast_ray lib.sqrt scene (Sphere.reflected_ray lib.sqrt normal incoming_ray) surface_pos
        g).2.1 refr.2.2.1 depth tex = Except.ok refl) :
    S.compute_specular lib dflt call g scene normal incoming_ray surface_pos depth =
      Except.ok ⟨if refr.1.eq (fin 1) then refl.1
        else Color3.smul refr.1 refl.1 + Color3.smul (fin 1 - refr.1) refr.2.1,
        refl.2.1, refr.2.2.2.append refl.2.2⟩ := by
  obtain ⟨x0, hx0⟩ : ∃ x0, scene.geometries.get? 0 = some x0 := by
    cases hg : scene.geometries with
    | nil => exact absurd hg hne
    | cons x rest => exact ⟨x, rfl⟩
  unfold cast_ray Sphere.reflected_ray at hrefr hrefl
  simp only [Sphere.compute_specular, hx0, htex, bind, Except.bind, hrefr, hrefl]
  split_ifs <;> rfl

/-- The coefficient that the refracted ray leaves when the sphere is
transmissive and the refracted direction is not degenerate. -/
theorem Sphere.specular_refraction_coefficient [FloorRing K] (lib : Libm K) (dflt : Color3 K)
    (call : SpecularCall K) (S : Sphere K) (g1 : Globals K) (scene : Scene K)
    (normal incoming_ray surface_pos : Vector3 (real_t K)) (depth : Int) (tex : Color3 K)
    (refr : real_t K × Color3 K × Globals K × Calls)
    (htrans : S.get_refractive_index.ne (fin 0) = true)
    (hnd : (Vector3.length lib.sqrt (S.refracted_ray lib.sqrt normal incoming_ray)).ne (fin 0)
      = true)
    (hrefr : S.specular_refraction lib dflt call g1 scene normal incoming_ray surface_pos depth
      tex = Except.ok refr) :
    refr.1 =
      if (Vector3.dot incoming_ray normal).lt (fin 0) then
        Sphere.compute_refraction (fin 1) S.get_refractive_index
          (S.refracted_ray lib.sqrt normal incoming_ray) normal
      else
        Sphere.compute_refraction S.get_refractive_index (fin 1) (-incoming_ray) normal := by
  rw [Sphere.specular_refraction_eq] at hrefr
  simp only [htrans, hnd, if_true] at hrefr
  split at hrefr
  · split at hrefr
    · cases hrefr
    · cases hc : Geometry.color_at_pixel lib _ _ scene _ with
      | error e => rw [hc] at hrefr; cases hrefr
      | ok col =>
        rw [hc] at hrefr
        simp only [bind, Except.bind] at hrefr
        split at hrefr
        · split at hrefr
          · cases hrefr
          · cases hrefr; rfl
        · cases hrefr; rfl
  · cases hrefr; rfl

/-- With at least `d - 1` nested calls allowed, the calls that a call of
depth `d ≥ 1` makes return, and each has at most `2^(d-1) - 2` calls below
it. -/
theorem Geometry.compute_specular_callee [FloorRing K] (lib : Libm K) (dflt : Color3 K)
    (scene : Scene K) (hne : scene.geometries ≠ []) (d f : Nat) (hf : d ≤ f + 1) :
    (1 : Int) < (d : Int) → ∀ (geo1 : Geometry K) (g1 : Globals K)
      (n1 i1 s1 : Vector3 (real_t K)), ∃ r1,
      Geometry.compute_specular lib dflt f geo1 g1 scene n1 i1 s1 ((d : Int) - 1) = Except.ok r1 ∧
        r1.calls.count ≤ 2 ^ (d - 1) - 2 := by
  intro h1 geo1 g1 n1 i1 s1
  have hd2 : 1 ≤ d - 1 := by omega
  have hcast : ((d : Int) - 1) = ((d - 1 : Nat) : Int) := by omega
  rw [hcast]
  obtain ⟨r1, hr1, hc, -⟩ := Geometry.compute_specular_calls lib dflt scene hne (d - 1) hd2 f
    (by omega) geo1 g1 n1 i1 s1
  exact ⟨r1, hr1, hc⟩

/-- A ray that misses every primitive leaves the running time unset. -/
theorem cast_ray_miss (sqrtK : K → K) (scene : Scene K) (dir surface_pos : Vector3 (real_t K))
    (g : Globals K)
    (hmiss : ∀ x ∈ scene.geometries, ∀ g1,
      x.own_hit sqrtK dir (surface_pos + Vector3.smul EPSILON dir) g1 = none) :
    (cast_ray sqrtK scene dir surface_pos g).1 = UNINITIALIZED := by
  unfold cast_ray
  apply nearest_hit_loop_miss
  intro x hx
  rw [← Geometry.own_hit_eq sqrtK x _ _ g]
  exact hmiss x hx g

/-! ## The pixel driver -/

/-- When the nearest-hit loop, started unset, ends with a set time, the
primitive it selected is in the list and that time is its own hit time. -/
theorem nearest_hit_loop_hit (sqrtK : K → K) (dir e : Vector3 (real_t K))
    (objs : List (Geometry K)) (g : Globals K)
    (hhit : (nearest_hit_loop sqrtK dir e objs 0 UNINITIALIZED 0 g).1.ne UNINITIALIZED = true) :
    ∃ geo, objs.get? (nearest_hit_loop sqrtK dir e objs 0 UNINITIALIZED 0 g).2.1 = some geo ∧
      ∀ g1, geo.own_hit sqrtK dir e g1
        = some (nearest_hit_loop sqrtK dir e objs 0 UNINITIALIZED 0 g).1 := by
  rcases nearest_hit_loop_selected sqrtK dir e objs 0 UNINITIALIZED 0 g with
    ⟨h, -⟩ | ⟨k, sel, hk, hidx, hc⟩
  · rw [h] at hhit
    simp [real_t.ne, UNINITIALIZED] at hhit
  · refine ⟨sel, ?_, fun g1 => ?_⟩
    · rw [hidx, Nat.zero_add]; exact hk
    · rw [Geometry.own_hit_eq]; exact hc

/-- The viewing ray of the only pixel of a 1 x 1 image of the example
camera is the forward axis `(0, 0, -1)`. -/
theorem ex_view_ray :
    (ex_raytracer ℝ).viewing_ray Real.sqrt 0 0 1 1 = Vector3.lift ⟨0, 0, -1⟩ := by
  simp [Raytracer.viewing_ray, ex_raytracer, Vector3.lift, Vector3.smul,
      Vector3.normalize, Vector3.dot, Vector3.divs, real_t.sqrt, Vector3.length,
      Vector3.vec_add_mk, fin_div_fin]
  norm_num
  simp [fin_div_fin]

/-! ## The basis of the camera -/

/-- The cross product of finite vectors. -/
theorem Vector3.cross_lift (a b : Vector3 K) :
    Vector3.cross (Vector3.lift a) (Vector3.lift b) = Vector3.lift (Vector3.cross a b) := by
  simp [Vector3.cross, Vector3.lift, fin_mul_fin, fin_sub_fin]

/-- The cross product is orthogonal to its first operand. -/
theorem cross_dot_left (a b : Vector3 K) : Vector3.dot (Vector3.cross a b) a = 0 := by
  simp only [Vector3.cross, Vector3.dot]; ring

/-- The cross product is orthogonal to its second operand. -/
theorem cross_dot_right (a b : Vector3 K) : Vector3.dot (Vector3.cross a b) b = 0 := by
  simp only [Vector3.cross, Vector3.dot]; ring

/-- The squared length of a cross product (Lagrange). -/
theorem cross_dot_self (a b : Vector3 K) :
    Vector3.dot (Vector3.cross a b) (Vector3.cross a b)
      = Vector3.dot a a * Vector3.dot b b - Vector3.dot a b * Vector3.dot a b := by
  simp only [Vector3.cross, Vector3.dot]; ring

/-- The dot product with a unit vector. -/
theorem unit_dot (sqrtK : K → K) (v w : Vector3 K) :
    Vector3.dot (Vector3.unit sqrtK v) w = Vector3.dot v w / sqrtK (Vector3.dot v v) := by
  simp only [Vector3.unit, Vector3.dot]; ring

/-- The dot product of the negated vectors. -/
theorem vec_neg_dot_neg (a b : Vector3 K) : Vector3.dot (-a) (-b) = Vector3.dot a b := by
  show Vector3.dot (Vector3.neg a) (Vector3.neg b) = _
  simp only [Vector3.neg, Vector3.dot]; ring

/-- The dot product with a negated vector. -/
theorem vec_neg_dot (a b : Vector3 K) : Vector3.dot (-a) b = -Vector3.dot a b := by
  show Vector3.dot (Vector3.neg a) b = _
  simp only [Vector3.neg, Vector3.dot]; ring

/-- The dot product of finite vectors is symmetric. -/
theorem dot_symm (a b : Vector3 K) : Vector3.dot a b = Vector3.dot b a := by
  simp only [Vector3.dot]; ring

/-- A square root of one is one. -/
theorem sqrt_one_eq {sqrtK : K → K} (hs : IsSqrt sqrtK) : sqrtK 1 = 1 := by
  obtain ⟨h0, h1⟩ := hs 1 zero_le_one
  have h : (sqrtK 1 - 1) * (sqrtK 1 + 1) = 0 := by linear_combination h1
  rcases mul_eq_zero.mp h with h2 | h2
  · linarith
  · linarith

/-- The cross product of an up vector with a non-zero direction that it is
not a multiple of is not zero. -/
theorem cross_ne_zero (tv gv : Vector3 K) (hg : gv.x ≠ 0 ∨ gv.y ≠ 0 ∨ gv.z ≠ 0)
    (hpar : ∀ c : K, tv ≠ ⟨c * gv.x, c * gv.y, c * gv.z⟩) :
    (Vector3.cross tv gv).x ≠ 0 ∨ (Vector3.cross tv gv).y ≠ 0 ∨ (Vector3.cross tv gv).z ≠ 0 := by
  by_contra hc
  push_neg at hc
  obtain ⟨hx, hy, hz⟩ := hc
  simp only [Vector3.cross] at hx hy hz
  obtain ⟨tx, ty, tz⟩ := tv
  obtain ⟨gx, gy, gz⟩ := gv
  simp only at hx hy hz hg hpar
  rcases hg with h | h | h
  · apply hpar (tx / gx)
    congr 1
    · field_simp
    · field_simp; linear_combination -hz
    · field_simp; linear_combination hy
  · apply hpar (ty / gy)
    congr 1
    · field_simp; linear_combination hz
    · field_simp
    · field_simp; linear_combination -hx
  · apply hpar (tz / gz)
    congr 1
    · field_simp; linear_combination -hy
    · field_simp; linear_combination hx
    · field_simp

/-- The members `u`, `v`, `w` that `initialize` computes for a finite
direction `gv` and a finite up vector `tv` with non-zero cross product. -/
theorem initialize_basis (sqrtK : K → K) (tanK : real_t K → real_t K) (camera : Camera K)
    (width height : Nat) (gv tv : Vector3 K) (hs : IsSqrt sqrtK)
    (hdir : camera.direction = Vector3.lift gv) (hup : camera.up = Vector3.lift tv)
    (hg : gv.x ≠ 0 ∨ gv.y ≠ 0 ∨ gv.z ≠ 0)
    (hc : (Vector3.cross tv (Vector3.unit sqrtK gv)).x ≠ 0 ∨
      (Vector3.cross tv (Vector3.unit sqrtK gv)).y ≠ 0 ∨
      (Vector3.cross tv (Vector3.unit sqrtK gv)).z ≠ 0) :
    ( Raytracer.initialize sqrtK tanK camera width height).w
        = Vector3.lift (Vector3.unit sqrtK gv) ∧
      ( Raytracer.initialize sqrtK tanK camera width height).u
        = Vector3.lift (-(Vector3.unit sqrtK (Vector3.cross tv (Vector3.unit sqrtK gv)))) ∧
      ( Raytracer.initialize sqrtK tanK camera width height).v
        = Vector3.lift (Vector3.cross (Vector3.unit sqrtK gv)
            (Vector3.unit sqrtK (Vector3.cross tv (Vector3.unit sqrtK gv)))) := by
  simp only [ Raytracer.initialize, hdir, hup, Vector3.normalize_lift hs gv hg,
    Vector3.cross_lift, Vector3.normalize_lift hs _ hc, Vector3.neg_lift]
  exact ⟨trivial, trivial, trivial⟩

/-- The cross product with the unit vector of a direction is the cross
product with the direction, divided by the length of the direction. -/
theorem cross_unit (sqrtK : K → K) (tv gv : Vector3 K) :
    Vector3.cross tv (Vector3.unit sqrtK gv) =
      ⟨(Vector3.cross tv gv).x / sqrtK (Vector3.dot gv gv),
        (Vector3.cross tv gv).y / sqrtK (Vector3.dot gv gv),
        (Vector3.cross tv gv).z / sqrtK (Vector3.dot gv gv)⟩ := by
  simp only [Vector3.cross, Vector3.unit]
  congr 1 <;> ring

/-! ## The loop over the rows -/

/-- The loop over `x` traces the pixels of the current row in order. -/
theorem raytrace_row_eq {F : Type} (trace : PixelTrace F) (width : Nat) (xs : List Nat)
    (st : RaytraceState F) :
    Raytracer.raytrace_row trace width xs st =
      (trace_all trace width (xs.map (fun x => (x, st.current_row))) st.writes st.g).map
        (fun r => { st with writes := r.1, g := r.2 }) := by
  induction xs generalizing st with
  | nil => rfl
  | cons x rest ih =>
    simp only [Raytracer.raytrace_row, List.map_cons, trace_all]
    cases trace x st.current_row st.g with
    | error e => rfl
    | ok traced =>
      simp only [bind, Except.bind]
      rw [ih]

/-- Tracing two lists of pixels one after the other. -/
theorem trace_all_append {F : Type} (trace : PixelTrace F) (width : Nat)
    (l1 l2 : List (Nat × Nat)) (ws : List (Nat × Color3 F)) (g : Globals F) :
    trace_all trace width (l1 ++ l2) ws g =
      (trace_all trace width l1 ws g).bind (fun r => trace_all trace width l2 r.1 r.2) := by
  induction l1 generalizing ws g with
  | nil => rfl
  | cons p rest ih =>
    obtain ⟨x, y⟩ := p
    simp only [List.cons_append, trace_all]
    cases trace x y g with
    | error e => rfl
    | ok traced =>
      simp only [bind, Except.bind]
      exact ih _ _

/-- The pixels from a row that is not the last. -/
theorem pixels_from_succ (width height row : Nat) (h : row < height) :
    pixels_from width height row =
      (List.range width).map (fun x => (x, row)) ++ pixels_from width height (row + 1) := by
  unfold pixels_from
  have h1 : height - row = (height - (row + 1)) + 1 := by omega
  rw [h1, List.range'_succ, List.flatMap_cons]

/-- No pixel is left from the row `height`. -/
theorem pixels_from_height (width height : Nat) : pixels_from width height height = [] := by
  simp [pixels_from]

/-- Every pixel from a row on lies in the image and not above that row. -/
theorem mem_pixels_from (width height row : Nat) (p : Nat × Nat)
    (hp : p ∈ pixels_from width height row) : p.1 < width ∧ row ≤ p.2 ∧ p.2 < height := by
  simp only [pixels_from, List.mem_flatMap, List.mem_range', List.mem_map, List.mem_range] at hp
  obtain ⟨y, ⟨i, hi, hy⟩, x, hx, hxy⟩ := hp
  subst hxy
  simp only
  omega

/-- Without a time budget the loop over the rows traces all pixels from the
current row on and ends with `is_done` true and `current_row == height`,
when the loop condition may be evaluated once more than rows are left. -/
theorem raytrace_loop_untimed {F : Type} (trace : PixelTrace F) (width height : Nat)
    (end_time : Nat) (clock : Nat → Nat) (n : Nat) :
    ∀ (fuel : Nat) (st : RaytraceState F), st.current_row ≤ height →
      height - st.current_row = n → n < fuel →
      Raytracer.raytrace_loop trace width height false end_time clock fuel st =
        (trace_all trace width (pixels_from width height st.current_row) st.writes st.g).map
          (fun r => ⟨height, r.1, r.2, st.clock_reads, some true⟩) := by
  induction n with
  | zero =>
    intro fuel st hrow hn hfuel
    obtain ⟨f, rfl⟩ : ∃ f, fuel = f + 1 := ⟨fuel - 1, by omega⟩
    have hr : st.current_row = height := by omega
    simp only [Raytracer.raytrace_loop, hr, pixels_from_height, trace_all]
    simp [Except.map, ← hr]
  | succ n ih =>
    intro fuel st hrow hn hfuel
    obtain ⟨f, rfl⟩ : ∃ f, fuel = f + 1 := ⟨fuel - 1, by omega⟩
    have hr : st.current_row ≠ height := by omega
    have hlt : st.current_row < height := by omega
    rw [pixels_from_succ width height _ hlt, trace_all_append]
    simp only [Raytracer.raytrace_loop, Bool.not_false, Bool.true_or, if_true, hr,
      decide_False, Bool.false_eq_true, if_false, raytrace_row_eq]
    cases trace_all trace width ((List.range width).map (fun x => (x, st.current_row)))
        st.writes st.g with
    | error e => rfl
    | ok r =>
      simp only [bind, Except.bind, Except.map]
      rw [ih f _ (by simpa using hlt) (by simp; omega) (by omega)]
      rfl

/-- Tracing pixels of the image returns when `trace_pixel` returns on every
pixel of the image, and the offsets written are those of the pixels, in
order, after the offsets written before. -/
theorem trace_all_ok {F : Type} (trace : PixelTrace F) (width height : Nat)
    (htrace : ∀ x y g, x < width → y < height → ∃ c g1, trace x y g = Except.ok (c, g1))
    (l : List (Nat × Nat)) (hl : ∀ p ∈ l, p.1 < width ∧ p.2 < height) :
    ∀ (ws : List (Nat × Color3 F)) (g : Globals F),
      ∃ ws1 g1, trace_all trace width l ws g = Except.ok (ws1, g1) ∧
        ws1.map Prod.fst = ws.map Prod.fst ++ l.map (fun p => 4 * (p.2 * width + p.1)) := by
  induction l with
  | nil => intro ws g; exact ⟨ws, g, rfl, by simp⟩
  | cons p rest ih =>
    intro ws g
    obtain ⟨x, y⟩ := p
    obtain ⟨hx, hy⟩ := hl (x, y) (List.mem_cons_self _ _)
    obtain ⟨c, g1, hc⟩ := htrace x y g hx hy
    obtain ⟨ws1, g2, h1, h2⟩ := ih (fun q hq => hl q (List.mem_cons_of_mem _ hq))
      (ws ++ [(4 * (y * width + x), c)]) g1
    refine ⟨ws1, g2, ?_, ?_⟩
    · simp only [trace_all, hc, bind, Except.bind]
      exact h1
    · rw [h2]; simp

/-- The offsets of the pixels from a row on are pairwise different. -/
theorem pixels_from_offsets_nodup (width height row : Nat) :
    ((pixels_from width height row).map (fun p => 4 * (p.2 * width + p.1))).Nodup := by
  generalize hn : height - row = n
  induction n generalizing row with
  | zero =>
    have h : pixels_from width height row = [] := by simp [pixels_from, hn]
    rw [h]; exact List.nodup_nil
  | succ n ih =>
    have hlt : row < height := by omega
    rw [pixels_from_succ width height row hlt, List.map_append, List.nodup_append]
    refine ⟨?_, ih (row + 1) (by omega), ?_⟩
    · rw [List.map_map]
      refine List.Nodup.map ?_ (List.nodup_range width)
      intro a b hab
      simp only [Function.comp] at hab
      omega
    · intro a ha hb
      simp only [List.mem_map, List.mem_range] at ha hb
      obtain ⟨q, ⟨x, hx, rfl⟩, rfl⟩ := ha
      obtain ⟨p, hp, hpa⟩ := hb
      obtain ⟨hp1, hp2, -⟩ := mem_pixels_from width height (row + 1) p hp
      dsimp only at hpa
      have h3 : (row + 1) * width ≤ p.2 * width := Nat.mul_le_mul_right _ hp2
      have h4 : (row + 1) * width = row * width + width := by ring
      omega

/-! ## The value that an intersection test returns -/

/-- An intersection test returns 0 exactly when it leaves `*T` as it was. -/
theorem Geometry.is_intersecting_ret_zero (sqrtK : K → K) (geo : Geometry K)
    (s e : Vector3 (real_t K)) (T : real_t K) (g : Globals K) :
    (geo.is_intersecting sqrtK s e T g).ret.ne NOINTERSECTION = true ↔
      (geo.is_intersecting sqrtK s e T g).T ≠ T := by
  obtain ⟨h1, h2⟩ := geo.is_intersecting_step sqrtK s e T g
  rw [h1, h2]
  exact (cand_update_spec _ T (fun t ht => geo.candidate_ne_unset sqrtK s e t ht)).1

/-- The values that the intersection test of each class can return. -/
theorem Geometry.is_intersecting_ret_values (sqrtK : K → K) (geo : Geometry K)
    (s e : Vector3 (real_t K)) (T : real_t K) (g : Globals K) :
    (geo.is_intersecting sqrtK s e T g).ret = fin 0 ∨
      (geo.is_intersecting sqrtK s e T g).ret =
        (match geo with
          | Geometry.sphere _ => fin 1
          | Geometry.triangle _ => fin (-1)
          | Geometry.model _ => fin 1) := by
  cases geo with
  | sphere S =>
    simp only [Geometry.is_intersecting]
    rw [Sphere.is_intersecting_candidate]
    cases S.local_min sqrtK s e with
    | none => left; rfl
    | some t =>
      simp only []
      split_ifs
      · right; rfl
      · left; rfl
  | triangle t =>
    simp only [Geometry.is_intersecting]
    rw [Triangle.is_intersecting_eq]
    split_ifs
    · right; rfl
    · left; rfl
    · left; rfl
  | model m =>
    simp only [Geometry.is_intersecting, Model.is_intersecting]
    rw [(m.is_intersecting_loop_spec s e m.mesh.triangles (fin 0) T g).2]
    split_ifs
    · right; rfl
    · left; rfl

/-- The negation of a vector given by its components. -/
theorem Vector3.vec_neg_mk {α : Type} [Neg α] (a b c : α) :
    (-(⟨a, b, c⟩ : Vector3 α)) = ⟨-a, -b, -c⟩ := rfl

/-! ## The refracted ray at the base depth -/

/-- At a depth of at most 1, when the refracted ray of a transmissive sphere
hits a primitive whose local colour is computed, the refracted ray leaves
`refr_color` as it was declared. -/
theorem Sphere.specular_refraction_base_hit [FloorRing K] (lib : Libm K) (dflt : Color3 K)
    (call : SpecularCall K) (S : Sphere K) (g1 : Globals K) (scene : Scene K)
    (normal incoming_ray surface_pos : Vector3 (real_t K)) (depth : Int) (tex : Color3 K)
    (geo2 : Geometry K) (temp : Color3 K)
    (hdepth : depth ≤ 1)
    (htrans : S.get_refractive_index.ne (fin 0) = true)
    (hnd : (Vector3.length lib.sqrt (S.refracted_ray lib.sqrt normal incoming_ray)).ne (fin 0)
      = true)
    (hhit : (cast_ray lib.sqrt scene (S.refracted_ray lib.sqrt normal incoming_ray) surface_pos
      g1).1.ne UNINITIALIZED = true)
    (hgeo : scene.geometries.get? (cast_ray lib.sqrt scene
      (S.refracted_ray lib.sqrt normal incoming_ray) surface_pos g1).2.1 = some geo2)
    (hcol : geo2.color_at_pixel lib (cast_ray lib.sqrt scene
        (S.refracted_ray lib.sqrt normal incoming_ray) surface_pos g1).2.2 scene
      (surface_pos + Vector3.muls (S.refracted_ray lib.sqrt normal incoming_ray)
        (cast_ray lib.sqrt scene (S.refracted_ray lib.sqrt normal incoming_ray) surface_pos
          g1).1) = Except.ok temp) :
    ∃ R, S.specular_refraction lib dflt call g1 scene normal incoming_ray surface_pos depth tex
      = Except.ok (R, dflt, (cast_ray lib.sqrt scene
          (S.refracted_ray lib.sqrt normal incoming_ray) surface_pos g1).2.2, Calls.none) := by
  rw [Sphere.specular_refraction_eq]
  unfold cast_ray at hhit hgeo hcol ⊢
  have hd : ¬ depth > 1 := by omega
  simp only [htrans, hnd, hhit, if_true, hgeo, hcol, bind, Except.bind, if_neg hd]
  exact ⟨_, rfl⟩

/-- The lens has no texture: its texture colour is white. -/
theorem ex_lens_texture (lib : Libm ℝ) (normal : Vector3 (real_t ℝ)) :
    Sphere.compute_texture lib (ex_lens ℝ) normal = Except.ok ⟨fin 1, fin 1, fin 1⟩ := by
  simp [Sphere.compute_texture, ex_lens, ex_lens_material, Color3.White]

/-- The local colour of the lens in its scene is white at every point. -/
theorem ex_lens_local_colour (lib : Libm ℝ) (g : Globals ℝ) (p : Vector3 (real_t ℝ)) :
    Geometry.color_at_pixel lib (Geometry.sphere (ex_lens ℝ)) g (ex_lens_scene ℝ) p
      = Except.ok ⟨fin 1, fin 1, fin 1⟩ := by
  simp only [Geometry.color_at_pixel, Sphere.color_at_pixel, ex_lens_texture, bind, Except.bind]
  simp [Sphere.compute_diffuse, ex_lens_scene, ex_lens, ex_lens_material, ex_black,
    Color3.Black, Color3.col_mul_mk, Color3.col_add_mk, fin_mul_fin, fin_add_fin]

/-- The ray that comes straight down on the top of the lens is reflected
straight up. -/
theorem ex_lens_reflected :
    Sphere.reflected_ray Real.sqrt (Vector3.lift (⟨0, 0, 1⟩ : Vector3 ℝ))
      (Vector3.lift ⟨0, 0, -1⟩) = Vector3.lift ⟨0, 0, 1⟩ := by
  have h : (Vector3.dot (Vector3.lift (⟨0, 0, -1⟩ : Vector3 ℝ)) (Vector3.lift ⟨0, 0, 1⟩)).lt
      (fin 0) = true := by
    simp [Vector3.dot, Vector3.lift]
  rw [Sphere.reflected_ray, if_pos h, ex_reflect_down]

/-- The ray that comes straight down on the top of the lens is refracted
straight down. -/
theorem ex_lens_refracted :
    Sphere.refracted_ray Real.sqrt (ex_lens ℝ) (Vector3.lift ⟨0, 0, 1⟩)
      (Vector3.lift ⟨0, 0, -1⟩) = Vector3.lift ⟨0, 0, -1⟩ := by
  simp [Sphere.refracted_ray, Sphere.compute_refr_ray, Sphere.get_refractive_index,
    ex_lens, ex_lens_material, real_t.pow, Vector3.dot, Vector3.lift,
    Vector3.normalize, Vector3.divs, Vector3.smul, Vector3.muls, Vector3.vec_sub_mk,
    real_t.sqrt, fin_div_fin]
  norm_num
  simp [fin_div_fin, real_t.sqrt]

/-- The ray straight up from the top of the lens hits nothing. -/
theorem ex_lens_cast_up (g : Globals ℝ) :
    cast_ray Real.sqrt (ex_lens_scene ℝ) (Vector3.lift ⟨0, 0, 1⟩) (Vector3.lift ⟨0, 0, 2⟩) g
      = (UNINITIALIZED, 0, g) := by
  have h4 : Real.sqrt 4 = 2 := by
    rw [show (4 : ℝ) = 2 ^ 2 by norm_num]
    exact Real.sqrt_sq (by norm_num)
  simp [cast_ray, nearest_hit_loop, ex_lens_scene, Geometry.is_intersecting,
    Sphere.is_intersecting, ex_lens, Sphere.transform_point, Sphere.transform_vector,
    Matrix4.identity, Vector3.lift, Vector3.smul, Vector3.vec_add_mk, EPSILON, UNINITIALIZED,
    NOINTERSECTION, fin_div_fin, real_t.sqrt, Vector3.dot, Vector3.vec_sub_mk,
    Vector3.vec_neg_mk, real_t.ne]
  norm_num [h4]
  simp [fin_div_fin]

/-- The ray straight down from the top of the lens hits the lens from inside
at its bottom, at the time `4 - EPSILON`. -/
theorem ex_lens_cast_down (g : Globals ℝ) :
    cast_ray Real.sqrt (ex_lens_scene ℝ) (Vector3.lift ⟨0, 0, -1⟩) (Vector3.lift ⟨0, 0, 2⟩) g
      = (fin (4 - 1 / 1000000), 0, g) := by
  have h4 : Real.sqrt 4 = 2 := by
    rw [show (4 : ℝ) = 2 ^ 2 by norm_num]
    exact Real.sqrt_sq (by norm_num)
  simp [cast_ray, nearest_hit_loop, ex_lens_scene, Geometry.is_intersecting,
    Sphere.is_intersecting, ex_lens, Sphere.transform_point, Sphere.transform_vector,
    Matrix4.identity, Vector3.lift, Vector3.smul, Vector3.vec_add_mk, EPSILON, UNINITIALIZED,
    NOINTERSECTION, fin_div_fin, real_t.sqrt, Vector3.dot, Vector3.vec_sub_mk,
    Vector3.vec_neg_mk, real_t.ne]
  norm_num [h4]
  simp [fin_div_fin]
  norm_num

/-- What the refracted ray of the lens leaves at depth 1 for the ray that
comes straight down on its top: the coefficient 1/25, and `refr_color` as it
was declared. -/
theorem ex_lens_refraction (dflt : Color3 ℝ) (call : SpecularCall ℝ) (g : Globals ℝ)
    (tex : Color3 ℝ) :
    Sphere.specular_refraction (⟨Real.sqrt, fun _ => nan, fun _ _ => nan, fin Real.pi⟩ : Libm ℝ)
      dflt call (ex_lens ℝ) g (ex_lens_scene ℝ) (Vector3.lift ⟨0, 0, 1⟩)
      (Vector3.lift ⟨0, 0, -1⟩) (Vector3.lift ⟨0, 0, 2⟩) 1 tex
      = Except.ok (fin (1 / 25), dflt, g, Calls.none) := by
  have htrans : (ex_lens ℝ).get_refractive_index.ne (fin 0) = true := by
    simp [Sphere.get_refractive_index, ex_lens, ex_lens_material, real_t.ne]
  have hnd : (Vector3.length Real.sqrt (Sphere.refracted_ray Real.sqrt (ex_lens ℝ)
      (Vector3.lift ⟨0, 0, 1⟩) (Vector3.lift ⟨0, 0, -1⟩))).ne (fin 0) = true := by
    rw [ex_lens_refracted, Vector3.length_lift]
    simp [Vector3.dot, real_t.ne]
  have hcast : cast_ray Real.sqrt (ex_lens_scene ℝ) (Sphere.refracted_ray Real.sqrt (ex_lens ℝ)
      (Vector3.lift ⟨0, 0, 1⟩) (Vector3.lift ⟨0, 0, -1⟩)) (Vector3.lift ⟨0, 0, 2⟩) g
      = (fin (4 - 1 / 1000000), 0, g) := by
    rw [ex_lens_refracted, ex_lens_cast_down]
  have hhit : (cast_ray Real.sqrt (ex_lens_scene ℝ) (Sphere.refracted_ray Real.sqrt (ex_lens ℝ)
      (Vector3.lift ⟨0, 0, 1⟩) (Vector3.lift ⟨0, 0, -1⟩)) (Vector3.lift ⟨0, 0, 2⟩) g).1.ne
      UNINITIALIZED = true := by
    rw [hcast]
    simp [real_t.ne, UNINITIALIZED]; norm_num
  have hgeo : (ex_lens_scene ℝ).geometries.get? (cast_ray Real.sqrt (ex_lens_scene ℝ)
      (Sphere.refracted_ray Real.sqrt (ex_lens ℝ) (Vector3.lift ⟨0, 0, 1⟩)
        (Vector3.lift ⟨0, 0, -1⟩)) (Vector3.lift ⟨0, 0, 2⟩) g).2.1
      = some (Geometry.sphere (ex_lens ℝ)) := by
    rw [hcast]
    rfl
  obtain ⟨R, hR⟩ := Sphere.specular_refraction_base_hit
    (⟨Real.sqrt, fun _ => nan, fun _ _ => nan, fin Real.pi⟩ : Libm ℝ) dflt call (ex_lens ℝ) g
    (ex_lens_scene ℝ) (Vector3.lift ⟨0, 0, 1⟩) (Vector3.lift ⟨0, 0, -1⟩) (Vector3.lift ⟨0, 0, 2⟩)
    1 tex (Geometry.sphere (ex_lens ℝ)) ⟨fin 1, fin 1, fin 1⟩ (le_refl 1) htrans hnd
    hhit hgeo (ex_lens_local_colour _ _ _)
  have hc := Sphere.specular_refraction_coefficient
    (⟨Real.sqrt, fun _ => nan, fun _ _ => nan, fin Real.pi⟩ : Libm ℝ) dflt call (ex_lens ℝ) g
    (ex_lens_scene ℝ) (Vector3.lift ⟨0, 0, 1⟩) (Vector3.lift ⟨0, 0, -1⟩) (Vector3.lift ⟨0, 0, 2⟩)
    1 tex (R, dflt, (cast_ray Real.sqrt (ex_lens_scene ℝ) (Sphere.refracted_ray Real.sqrt
      (ex_lens ℝ) (Vector3.lift ⟨0, 0, 1⟩) (Vector3.lift ⟨0, 0, -1⟩)) (Vector3.lift ⟨0, 0, 2⟩)
      g).2.2, Calls.none) htrans hnd hR
  have hRv : R = fin (1 / 25) := by
    have h : R = if (Vector3.dot (Vector3.lift (⟨0, 0, -1⟩ : Vector3 ℝ))
          (Vector3.lift ⟨0, 0, 1⟩)).lt (fin 0) then
        Sphere.compute_refraction (fin 1) (ex_lens ℝ).get_refractive_index
          (Sphere.refracted_ray Real.sqrt (ex_lens ℝ) (Vector3.lift ⟨0, 0, 1⟩)
            (Vector3.lift ⟨0, 0, -1⟩)) (Vector3.lift ⟨0, 0, 1⟩)
      else
        Sphere.compute_refraction (ex_lens ℝ).get_refractive_index (fin 1)
          (-(Vector3.lift ⟨0, 0, -1⟩)) (Vector3.lift ⟨0, 0, 1⟩) := hc
    rw [h, ex_lens_refracted]
    simp [Sphere.compute_refraction, Sphere.get_refractive_index, ex_lens, ex_lens_material,
      real_t.pow, Vector3.dot, Vector3.lift, fin_div_fin]
    norm_num
  rw [hR, hRv]
  show Except.ok (_, _, (cast_ray Real.sqrt (ex_lens_scene ℝ) (Sphere.refracted_ray Real.sqrt
    (ex_lens ℝ) (Vector3.lift ⟨0, 0, 1⟩) (Vector3.lift ⟨0, 0, -1⟩)) (Vector3.lift ⟨0, 0, 2⟩)
    g).2.2, _) = _
  rw [hcast]

/-- What the reflected ray of the lens leaves for the ray that comes straight
down on its top: the texture colour times the background colour. -/
theorem ex_lens_reflection (call : SpecularCall ℝ) (g : Globals ℝ) (depth : Int)
    (tex : Color3 ℝ) :
    Sphere.specular_reflection (⟨Real.sqrt, fun _ => nan, fun _ _ => nan, fin Real.pi⟩ : Libm ℝ)
      call (ex_lens_scene ℝ) (Vector3.lift ⟨0, 0, 2⟩) (Vector3.lift ⟨0, 0, 1⟩) UNINITIALIZED 0 g
      depth tex = Except.ok (tex * (ex_lens_scene ℝ).background_color, g, Calls.none) := by
  simp [Sphere.specular_reflection, real_t.ne, UNINITIALIZED]

/-! ## The mirror direction -/

/-- The mirror vector of finite vectors. -/
theorem mirror_vector_lift (N I : Vector3 K) :
    mirror_vector (Vector3.lift N) (Vector3.lift I)
      = Vector3.lift ⟨I.x - 2 * Vector3.dot I N * N.x, I.y - 2 * Vector3.dot I N * N.y,
          I.z - 2 * Vector3.dot I N * N.z⟩ := by
  simp only [mirror_vector, Vector3.dot_lift_lift, fin_mul_fin, Vector3.smul_lift,
    Vector3.lift_sub_lift]
  rfl

/-- The mirror vector of the other branch of the sphere, on finite vectors,
is the same vector. -/
theorem mirror_vector_leaving_lift (N I : Vector3 K) :
    mirror_vector_leaving (Vector3.lift N) (Vector3.lift I)
      = Vector3.lift ⟨I.x - 2 * Vector3.dot I N * N.x, I.y - 2 * Vector3.dot I N * N.y,
          I.z - 2 * Vector3.dot I N * N.z⟩ := by
  simp only [mirror_vector_leaving, Vector3.neg_lift, Vector3.dot_lift_lift, fin_mul_fin,
    Vector3.smul_lift, Vector3.lift_add_lift]
  congr 1
  show Vector3.add _ _ = _
  simp only [Vector3.add, Vector3.smul]
  have h : Vector3.dot I (-N) = -Vector3.dot I N := by
    show Vector3.dot I (Vector3.neg N) = _
    simp only [Vector3.neg, Vector3.dot]; ring
  rw [h]
  congr 1 <;> ring

/-- The mirror vector has the squared length of the incoming vector and the
opposite component along a unit normal. -/
theorem mirror_dot (N I : Vector3 K) (hN : Vector3.dot N N = 1) :
    Vector3.dot (⟨I.x - 2 * Vector3.dot I N * N.x, I.y - 2 * Vector3.dot I N * N.y,
        I.z - 2 * Vector3.dot I N * N.z⟩ : Vector3 K)
      ⟨I.x - 2 * Vector3.dot I N * N.x, I.y - 2 * Vector3.dot I N * N.y,
        I.z - 2 * Vector3.dot I N * N.z⟩ = Vector3.dot I I ∧
    Vector3.dot (⟨I.x - 2 * Vector3.dot I N * N.x, I.y - 2 * Vector3.dot I N * N.y,
        I.z - 2 * Vector3.dot I N * N.z⟩ : Vector3 K) N = -Vector3.dot I N := by
  simp only [Vector3.dot] at hN ⊢
  constructor
  · linear_combination (4 * (I.x * N.x + I.y * N.y + I.z * N.z) ^ 2) * hN
  · linear_combination (-2 * (I.x * N.x + I.y * N.y + I.z * N.z)) * hN

/-- A vector of length one is its own unit vector. -/
theorem normalize_unit_lift {sqrtK : K → K} (hs : IsSqrt sqrtK) (v : Vector3 K)
    (hv : Vector3.dot v v = 1) :
    Vector3.normalize sqrtK (Vector3.lift v) = Vector3.lift v := by
  have hne : v.x ≠ 0 ∨ v.y ≠ 0 ∨ v.z ≠ 0 := by
    by_contra h
    push_neg at h
    obtain ⟨h1, h2, h3⟩ := h
    simp [Vector3.dot, h1, h2, h3] at hv
  rw [Vector3.normalize_lift hs v hne]
  simp only [Vector3.unit, hv, sqrt_one_eq hs, div_one]

/-! ## The refracted direction -/

/-- The discriminant of the refraction on finite data. -/
theorem Sphere.refr_discriminant_fin (n nt : K) (N d : Vector3 K) (hnt : nt ≠ 0) :
    Sphere.refr_discriminant (fin n) (fin nt) (Vector3.lift N) (Vector3.lift d)
      = fin (1 - n * n * (1 - Vector3.dot d N * Vector3.dot d N) / (nt * nt)) := by
  have h2 : nt * nt ≠ 0 := mul_ne_zero hnt hnt
  simp only [Sphere.refr_discriminant, real_t.pow_two', Vector3.dot_lift_lift, fin_mul_fin,
    fin_sub_fin, fin_div_fin_of_ne _ h2]

/-- The vector that `compute_refr_ray` normalises, on finite data with a
discriminant that is not negative. -/
theorem Sphere.refr_vector_lift (sqrtK : K → K) (n nt : K) (N d : Vector3 K) (hnt : nt ≠ 0)
    (hD : 0 ≤ 1 - n * n * (1 - Vector3.dot d N * Vector3.dot d N) / (nt * nt)) :
    Sphere.refr_vector sqrtK (fin n) (fin nt) (Vector3.lift N) (Vector3.lift d)
      = Vector3.lift
        ⟨n * (d.x - N.x * Vector3.dot d N) / nt - N.x * sqrtK
            (1 - n * n * (1 - Vector3.dot d N * Vector3.dot d N) / (nt * nt)),
          n * (d.y - N.y * Vector3.dot d N) / nt - N.y * sqrtK
            (1 - n * n * (1 - Vector3.dot d N * Vector3.dot d N) / (nt * nt)),
          n * (d.z - N.z * Vector3.dot d N) / nt - N.z * sqrtK
            (1 - n * n * (1 - Vector3.dot d N * Vector3.dot d N) / (nt * nt))⟩ := by
  have hlt : ¬ 1 - n * n * (1 - Vector3.dot d N * Vector3.dot d N) / (nt * nt) < 0 :=
    not_lt.mpr hD
  simp only [Sphere.refr_vector, Sphere.refr_discriminant_fin n nt N d hnt, real_t.sqrt,
    if_neg hlt, Vector3.dot_lift_lift, Vector3.muls_lift, Vector3.lift_sub_lift,
    Vector3.smul_lift]
  simp only [Vector3.divs, Vector3.lift, fin_div_fin_of_ne _ hnt]
  show Vector3.sub _ _ = _
  simp only [Vector3.sub, fin_sub_fin]
  rfl

/-- The refracted vector built from unit vectors has the squared length 1,
and its part across the normal is `n/nt` times the part of the direction
across the normal. -/
theorem refr_vector_algebra (n nt s : K) (N d : Vector3 K)
    (hd : Vector3.dot d d = 1) (hN : Vector3.dot N N = 1)
    (hs : s * s = 1 - n * n * (1 - Vector3.dot d N * Vector3.dot d N) / (nt * nt)) :
    Vector3.dot (⟨n * (d.x - N.x * Vector3.dot d N) / nt - N.x * s,
        n * (d.y - N.y * Vector3.dot d N) / nt - N.y * s,
        n * (d.z - N.z * Vector3.dot d N) / nt - N.z * s⟩ : Vector3 K)
      ⟨n * (d.x - N.x * Vector3.dot d N) / nt - N.x * s,
        n * (d.y - N.y * Vector3.dot d N) / nt - N.y * s,
        n * (d.z - N.z * Vector3.dot d N) / nt - N.z * s⟩ = 1 ∧
    Vector3.dot (⟨n * (d.x - N.x * Vector3.dot d N) / nt - N.x * s,
        n * (d.y - N.y * Vector3.dot d N) / nt - N.y * s,
        n * (d.z - N.z * Vector3.dot d N) / nt - N.z * s⟩ : Vector3 K) N = -s := by
  simp only [Vector3.dot] at hd hN hs ⊢
  constructor
  · linear_combination (n / nt) ^ 2 * hd
      + ((n / nt) ^ 2 * (d.x * N.x + d.y * N.y + d.z * N.z) ^ 2
        + 2 * (n / nt) * s * (d.x * N.x + d.y * N.y + d.z * N.z) + s ^ 2) * hN + hs
  · linear_combination ((-(n / nt)) * (d.x * N.x + d.y * N.y + d.z * N.z) - s) * hN

/-! ## The reflectance -/

/-- Weights that sum to 1 interpolate three equal finite colours to that
colour. -/
theorem Color3.interpolate_same (α β γ : K) (hsum : α + β + γ = 1) (c : Color3 K)
    (hc : c.IsFinite) :
    Color3.smul (fin α) c + Color3.smul (fin β) c + Color3.smul (fin γ) c = c := by
  obtain ⟨r, g, b, rfl⟩ := hc
  simp only [Color3.smul, fin_mul_fin, Color3.col_add_mk, fin_add_fin]
  have h : ∀ x : K, α * x + β * x + γ * x = x := fun x => by
    linear_combination x * hsum
  rw [h, h, h]

/-- `Triangle::color_at_pixel` by its interpolated colours. -/
theorem Triangle.color_at_pixel_eq [FloorRing K] (sqrtK : K → K) (tri : Triangle K)
    (g : Globals K) (scene : Scene K) (surface_pos : Vector3 (real_t K)) :
    tri.color_at_pixel sqrtK g scene surface_pos =
      (tri.compute_texture g).bind (fun tex_color =>
        Except.ok (tex_color * (scene.ambient_light * tri.bary_ambient g
          + tri.bary_diffuse g
            * Triangle.compute_diffuse sqrtK scene (tri.normal_of sqrtK g surface_pos)
                surface_pos))) :=
  rfl

/-! ## Ties in the nearest-hit loop -/

/-- The nearest-hit loop from a running time that is unset or good: either
nothing replaced the running time, or the selected primitive is the first one
whose candidate is the final time, which is below the candidates of all
primitives before it and at most the candidates of all primitives. -/
theorem nearest_hit_loop_first (sqrtK : K → K) (dir e : Vector3 (real_t K))
    (objs : List (Geometry K))
    (hgood : ∀ t, some t ∈ objs.map (fun x => x.candidate sqrtK dir e) → Good t) :
    ∀ (i : Nat) (T : real_t K) (geo : Nat) (g : Globals K), (T = fin (-1) ∨ Good T) →
      ((nearest_hit_loop sqrtK dir e objs i T geo g).1 = T ∧
        (nearest_hit_loop sqrtK dir e objs i T geo g).2.1 = geo ∧
        ∀ x ∈ objs, ∀ t, x.candidate sqrtK dir e = some t → T.le t = true) ∨
      (∃ k sel, objs.get? k = some sel ∧
        (nearest_hit_loop sqrtK dir e objs i T geo g).2.1 = i + k ∧
        sel.candidate sqrtK dir e = some (nearest_hit_loop sqrtK dir e objs i T geo g).1 ∧
        ((nearest_hit_loop sqrtK dir e objs i T geo g).1.lt T = true ∨ T = fin (-1)) ∧
        (∀ j x t, j < k → objs.get? j = some x → x.candidate sqrtK dir e = some t →
          (nearest_hit_loop sqrtK dir e objs i T geo g).1.lt t = true) ∧
        (∀ x ∈ objs, ∀ t, x.candidate sqrtK dir e = some t →
          (nearest_hit_loop sqrtK dir e objs i T geo g).1.le t = true)) := by
  induction objs with
  | nil =>
    intro i T geo g _
    left
    exact ⟨rfl, rfl, fun x hx => absurd hx (List.not_mem_nil x)⟩
  | cons x rest ih =>
    intro i T geo g hT
    have hrest : ∀ t, some t ∈ rest.map (fun x => x.candidate sqrtK dir e) → Good t :=
      fun t ht => hgood t (by rw [List.map_cons]; exact List.mem_cons_of_mem _ ht)
    have hx : ∀ t, x.candidate sqrtK dir e = some t → Good t :=
      fun t ht => hgood t (by rw [List.map_cons, ← ht]; exact List.mem_cons_self _ _)
    obtain ⟨h1, h2⟩ := x.is_intersecting_step sqrtK dir e T g
    simp only [nearest_hit_loop]
    rw [h1, h2]
    cases hc : x.candidate sqrtK dir e with
    | none =>
      simp only [cand_update_none, Bool.false_eq_true, if_false]
      rcases ih hrest (i + 1) T geo (x.is_intersecting sqrtK dir e T g).g hT with
        ⟨e1, e2, e3⟩ | ⟨k, sel, e1, e2, e3, e4, e5, e6⟩
      · left
        refine ⟨e1, e2, ?_⟩
        intro y hy t ht
        rcases List.mem_cons.mp hy with rfl | hy'
        · rw [hc] at ht; cases ht
        · exact e3 y hy' t ht
      · right
        refine ⟨k + 1, sel, by simpa using e1, by rw [e2]; ring, e3, e4, ?_, ?_⟩
        · intro j y t hj hy ht
          cases j with
          | zero =>
            simp only [List.get?_cons_zero, Option.some.injEq] at hy
            subst hy
            rw [hc] at ht; cases ht
          | succ j =>
            exact e5 j y t (by omega) (by simpa using hy) ht
        · intro y hy t ht
          rcases List.mem_cons.mp hy with rfl | hy'
          · rw [hc] at ht; cases ht
          · exact e6 y hy' t ht
    | some tx =>
      have hgx : Good tx := hx tx hc
      rw [cand_update_some]
      by_cases hb : (tx.lt T || T.eq (fin (-1))) = true
      · -- the candidate of `x` replaces the running time
        simp only [hb, if_true]
        have hTx : tx.lt T = true ∨ T = fin (-1) := by
          rcases (Bool.or_eq_true _ _).mp hb with h | h
          · exact Or.inl h
          · exact Or.inr (eq_iff.mp h)
        rcases ih hrest (i + 1) tx i (x.is_intersecting sqrtK dir e T g).g (Or.inr hgx) with
          ⟨e1, e2, e3⟩ | ⟨k, sel, e1, e2, e3, e4, e5, e6⟩
        · right
          refine ⟨0, x, rfl, by rw [e2]; rfl, by rw [e1]; exact hc, by rw [e1]; exact hTx, ?_, ?_⟩
          · intro j y t hj; omega
          · intro y hy t ht
            rw [e1]
            rcases List.mem_cons.mp hy with rfl | hy'
            · rw [hc] at ht; cases ht; exact hgx.le_refl
            · exact e3 y hy' t ht
        · have hlt : (nearest_hit_loop sqrtK dir e rest (i + 1) tx i
              (x.is_intersecting sqrtK dir e T g).g).1.lt tx = true := by
            rcases e4 with h | h
            · exact h
            · exact absurd h hgx.ne_unset
          right
          refine ⟨k + 1, sel, by simpa using e1, by rw [e2]; ring, e3, ?_, ?_, ?_⟩
          · rcases hTx with h | h
            · exact Or.inl (lt_trans' hlt h)
            · exact Or.inr h
          · intro j y t hj hy ht
            cases j with
            | zero =>
              simp only [List.get?_cons_zero, Option.some.injEq] at hy
              subst hy
              rw [hc] at ht; cases ht
              exact hlt
            | succ j =>
              exact e5 j y t (by omega) (by simpa using hy) ht
          · intro y hy t ht
            rcases List.mem_cons.mp hy with rfl | hy'
            · rw [hc] at ht; cases ht; exact le_of_lt' hlt
            · exact e6 y hy' t ht
      · -- the candidate of `x` does not replace the running time
        have hb' : (tx.lt T || T.eq (fin (-1))) = false := by simpa using hb
        obtain ⟨hlt, heq⟩ := (Bool.or_eq_false_iff).mp hb'
        have hTne : T ≠ fin (-1) := fun h => by rw [h] at heq; simp at heq
        have hgT : Good T := by
          rcases hT with h | h
          · exact absurd h hTne
          · exact h
        simp only [hb', Bool.false_eq_true, if_false]
        rcases ih hrest (i + 1) T geo (x.is_intersecting sqrtK dir e T g).g hT with
          ⟨e1, e2, e3⟩ | ⟨k, sel, e1, e2, e3, e4, e5, e6⟩
        · left
          refine ⟨e1, e2, ?_⟩
          intro y hy t ht
          rcases List.mem_cons.mp hy with rfl | hy'
          · rw [hc] at ht; cases ht
            exact hgx.le_of_not_lt hgT hlt
          · exact e3 y hy' t ht
        · have hltT : (nearest_hit_loop sqrtK dir e rest (i + 1) T geo
              (x.is_intersecting sqrtK dir e T g).g).1.lt T = true := by
            rcases e4 with h | h
            · exact h
            · exact absurd h hTne
          have hltx := hgx.lt_of_lt_of_not_lt hltT hlt
          right
          refine ⟨k + 1, sel, by simpa using e1, by rw [e2]; ring, e3, e4, ?_, ?_⟩
          · intro j y t hj hy ht
            cases j with
            | zero =>
              simp only [List.get?_cons_zero, Option.some.injEq] at hy
              subst hy
              rw [hc] at ht; cases ht
              exact hltx
            | succ j =>
              exact e5 j y t (by omega) (by simpa using hy) ht
          · intro y hy t ht
            rcases List.mem_cons.mp hy with rfl | hy'
            · rw [hc] at ht; cases ht; exact le_of_lt' hltx
            · exact e6 y hy' t ht

/-- Twice the example triangle, hit from `(1/4, 1/4, 5)` straight down: both
have the hit time 5, and the loop selects the first. -/
theorem ex_tie_loop (g : Globals ℝ) :
    (nearest_hit_loop Real.sqrt (Vector3.lift ⟨0, 0, -1⟩) (Vector3.lift ⟨1 / 4, 1 / 4, 5⟩)
      [Geometry.triangle (ex_triangle ℝ), Geometry.triangle (ex_triangle ℝ)] 0 UNINITIALIZED 0
      g).1 = fin 5 ∧
    (nearest_hit_loop Real.sqrt (Vector3.lift ⟨0, 0, -1⟩) (Vector3.lift ⟨1 / 4, 1 / 4, 5⟩)
      [Geometry.triangle (ex_triangle ℝ), Geometry.triangle (ex_triangle ℝ)] 0 UNINITIALIZED 0
      g).2.1 = 0 := by
  simp [nearest_hit_loop, Geometry.is_intersecting, Triangle.is_intersecting,
    cramer, Cramer.valid, ex_triangle, ex_vertex, Triangle.transform_vector,
    Triangle.transform_point, Matrix4.identity, Vector3.lift, UNINITIALIZED, NOINTERSECTION,
    fin_div_fin, real_t.ne]
  norm_num

/-! ## The sign of the hit times -/

/-- One call of `Triangle::compute_specular` in the mirror scene at a depth
other than 1, for the ray that comes straight down on the point
`(1/4, 1/4, 0)` of the lower triangle: the reflected ray hits the upper
triangle, which is shaded, and called, at the point `(1/4, 1/4, 1 - EPSILON)`. -/
theorem ex_mirror_call_up [FloorRing ℝ] (lib : Libm ℝ) (hl : lib.sqrt = Real.sqrt)
    (call : SpecularCall ℝ) (tri : Triangle ℝ) (g : Globals ℝ) (depth : Int) (hd : depth ≠ 1) :
    ∃ tex col,
      tri.compute_texture g = Except.ok tex ∧
      Geometry.color_at_pixel lib (Geometry.triangle (ex_top_triangle ℝ))
        (cast_ray Real.sqrt (ex_mirror_scene ℝ) (Vector3.lift ⟨0, 0, 1⟩)
          (Vector3.lift ⟨1 / 4, 1 / 4, 0⟩) g).2.2 (ex_mirror_scene ℝ)
        (Vector3.lift ⟨1 / 4, 1 / 4, 1 - 1 / 1000000⟩) = Except.ok col ∧
      tri.compute_specular lib call g (ex_mirror_scene ℝ) (Vector3.lift ⟨0, 0, 1⟩)
        (Vector3.lift ⟨0, 0, -1⟩) (Vector3.lift ⟨1 / 4, 1 / 4, 0⟩) depth
      = (call (Geometry.triangle (ex_top_triangle ℝ))
          (cast_ray Real.sqrt (ex_mirror_scene ℝ) (Vector3.lift ⟨0, 0, 1⟩)
            (Vector3.lift ⟨1 / 4, 1 / 4, 0⟩) g).2.2 (ex_mirror_scene ℝ)
          (Vector3.lift ⟨0, 0, 1⟩) (Vector3.lift ⟨0, 0, 1⟩)
          (Vector3.lift ⟨1 / 4, 1 / 4, 1 - 1 / 1000000⟩) (depth - 1)).bind
        (fun rec_refl => Except.ok ⟨tex * (col
            + Geometry.get_specular (Geometry.triangle (ex_top_triangle ℝ))
                (cast_ray Real.sqrt (ex_mirror_scene ℝ) (Vector3.lift ⟨0, 0, 1⟩)
                  (Vector3.lift ⟨1 / 4, 1 / 4, 0⟩) g).2.2 * rec_refl.color),
          rec_refl.g, Calls.call (depth - 1) rec_refl.calls Calls.none⟩) := by
  have hx0 : (ex_mirror_scene ℝ).geometries.get? 0
      = some (Geometry.triangle (ex_triangle ℝ)) := rfl
  have hx1 : (ex_mirror_scene ℝ).geometries.get? 1
      = some (Geometry.triangle (ex_top_triangle ℝ)) := rfl
  obtain ⟨tex, htex⟩ := tri.triangle_texture_ok g
  have hslop : Vector3.lift (⟨1 / 4, 1 / 4, 0⟩ : Vector3 ℝ)
      + Vector3.smul EPSILON (Vector3.lift ⟨0, 0, 1⟩)
      = Vector3.lift ⟨1 / 4, 1 / 4, 1 / 1000000⟩ := by
    simp [EPSILON, Vector3.lift, Vector3.smul, Vector3.vec_add_mk]
  obtain ⟨h1, h2, ha, hb, hc⟩ := ex_mirror_up (1 / 1000000) (by norm_num) (by norm_num) g
  simp only [Triangle.compute_specular, cast_ray, hx0, htex, hl, ex_reflect_down, hslop]
  generalize nearest_hit_loop Real.sqrt (Vector3.lift ⟨0, 0, 1⟩)
    (Vector3.lift ⟨1 / 4, 1 / 4, 1 / 1000000⟩) (ex_mirror_scene ℝ).geometries 0
    UNINITIALIZED 0 g = r1 at h1 h2 ha hb hc ⊢
  have hmin : r1.1.ne UNINITIALIZED = true := by
    rw [h1]
    simp [real_t.ne, UNINITIALIZED]
    norm_num
  have hpos : Vector3.lift (⟨1 / 4, 1 / 4, 0⟩ : Vector3 ℝ)
      + Vector3.muls (Vector3.lift ⟨0, 0, 1⟩) r1.1
      = Vector3.lift ⟨1 / 4, 1 / 4, 1 - 1 / 1000000⟩ := by
    rw [h1]
    simp [Vector3.lift, Vector3.muls, Vector3.vec_add_mk]
  obtain ⟨col, hcol⟩ := (Geometry.triangle (ex_top_triangle ℝ)).color_at_pixel_ok lib r1.2.2
    (ex_mirror_scene ℝ) (Vector3.lift ⟨1 / 4, 1 / 4, 1 - 1 / 1000000⟩)
  refine ⟨tex, col, rfl, hcol, ?_⟩
  simp only [hmin, if_true, h2, hx1, hpos, hcol, hd, if_false,
    ex_mirror_normal _ (Or.inr rfl) r1.2.2 ha hb hc]
  rfl

/-! ## The texture factor of the specular colour -/

/-- The texture colour of the grey triangle at the weights `(1/2, 1/4, 1/4)`
is the grey of its texture. -/
theorem ex_grey_texture :
    (ex_grey_triangle ℝ).compute_texture (ex_tri_globals ℝ)
      = Except.ok ⟨fin (1 / 2), fin (1 / 2), fin (1 / 2)⟩ := by
  simp [Triangle.compute_texture, Triangle.compute_texture_at_vertex, ex_grey_triangle,
    ex_grey_vertex, ex_grey_material, ex_tri_globals, ex_globals, c_mod, real_t.to_int, trunc,
    bind, Except.bind, Color3.smul, Color3.col_add_mk, fin_mul_fin, fin_add_fin]
  norm_num

/-- The texture colour of the grey sphere is the grey of its texture. -/
theorem ex_grey_sphere_texture (normal : Vector3 (real_t ℝ)) :
    Sphere.compute_texture (⟨Real.sqrt, fun _ => nan, fun _ _ => nan, fin Real.pi⟩ : Libm ℝ)
      (ex_grey_sphere ℝ) normal = Except.ok ⟨fin (1 / 2), fin (1 / 2), fin (1 / 2)⟩ := by
  simp [Sphere.compute_texture, ex_grey_sphere, ex_grey_material, c_mod, bind, Except.bind]

/-- The ray straight up from the point `(0, 0, -5)` of the grey triangle hits
the lens, primitive 0, at the time `3 - EPSILON`. -/
theorem ex_grey_cast_up (g : Globals ℝ) :
    (cast_ray Real.sqrt (ex_grey_scene ℝ) (Vector3.lift ⟨0, 0, 1⟩) (Vector3.lift ⟨0, 0, -5⟩)
      g).1 = fin (3 - 1 / 1000000) ∧
    (cast_ray Real.sqrt (ex_grey_scene ℝ) (Vector3.lift ⟨0, 0, 1⟩) (Vector3.lift ⟨0, 0, -5⟩)
      g).2.1 = 0 := by
  have h4 : Real.sqrt 4 = 2 := by
    rw [show (4 : ℝ) = 2 ^ 2 by norm_num]
    exact Real.sqrt_sq (by norm_num)
  simp [cast_ray, nearest_hit_loop, ex_grey_scene, Geometry.is_intersecting,
    Sphere.is_intersecting, ex_lens, Sphere.transform_point, Sphere.transform_vector,
    Triangle.is_intersecting, cramer, Cramer.valid, ex_grey_triangle, ex_grey_vertex,
    Triangle.transform_vector, Triangle.transform_point,
    Matrix4.identity, Vector3.lift, Vector3.smul, Vector3.vec_add_mk, EPSILON, UNINITIALIZED,
    NOINTERSECTION, fin_div_fin, real_t.sqrt, Vector3.dot, Vector3.vec_sub_mk,
    Vector3.vec_neg_mk, real_t.ne]
  norm_num [h4]
  simp [fin_div_fin]
  norm_num

/-- The local colour of the lens in the grey scene is white at every point. -/
theorem ex_grey_lens_colour (lib : Libm ℝ) (g : Globals ℝ) (p : Vector3 (real_t ℝ)) :
    Geometry.color_at_pixel lib (Geometry.sphere (ex_lens ℝ)) g (ex_grey_scene ℝ) p
      = Except.ok ⟨fin 1, fin 1, fin 1⟩ := by
  simp only [Geometry.color_at_pixel, Sphere.color_at_pixel, ex_lens_texture, bind, Except.bind]
  simp [Sphere.compute_diffuse, ex_grey_scene, ex_lens, ex_lens_material, ex_black,
    Color3.Black, Color3.col_mul_mk, Color3.col_add_mk, fin_mul_fin, fin_add_fin]

/-- In the grey scene, `Triangle::compute_specular` with depth 1 for the ray
that comes straight down on `(0, 0, -5)` returns the local colour of the lens,
white, whatever the texture colour of the triangle is. -/
theorem ex_grey_triangle_base (call : SpecularCall ℝ) (tri : Triangle ℝ) (g : Globals ℝ) :
    (tri.compute_specular (⟨Real.sqrt, fun _ => nan, fun _ _ => nan, fin Real.pi⟩ : Libm ℝ)
      call g (ex_grey_scene ℝ) (Vector3.lift ⟨0, 0, 1⟩) (Vector3.lift ⟨0, 0, -1⟩)
      (Vector3.lift ⟨0, 0, -5⟩) 1).map Shaded.color = Except.ok ⟨fin 1, fin 1, fin 1⟩ := by
  have hx0 : (ex_grey_scene ℝ).geometries.get? 0 = some (Geometry.sphere (ex_lens ℝ)) := rfl
  obtain ⟨tex, htex⟩ := tri.triangle_texture_ok g
  obtain ⟨h1, h2⟩ := ex_grey_cast_up g
  unfold cast_ray at h1 h2
  simp only [Triangle.compute_specular, hx0, htex, ex_reflect_down]
  generalize nearest_hit_loop Real.sqrt (Vector3.lift ⟨0, 0, 1⟩)
    (Vector3.lift ⟨0, 0, -5⟩ + Vector3.smul EPSILON (Vector3.lift ⟨0, 0, 1⟩))
    (ex_grey_scene ℝ).geometries 0 UNINITIALIZED 0 g = r1 at h1 h2 ⊢
  have hmin : r1.1.ne UNINITIALIZED = true := by
    rw [h1]
    simp [real_t.ne, UNINITIALIZED]
    norm_num
  simp only [hmin, if_true, h2, hx0, ex_grey_lens_colour, bind, Except.bind]
  rfl

/-- In the grey scene, `Sphere::compute_specular` of an opaque sphere with
depth 1 for the same ray returns the texture colour of the sphere times the
local colour of the lens. -/
theorem ex_grey_sphere_base (dflt : Color3 ℝ) (call : SpecularCall ℝ) (S : Sphere ℝ)
    (g : Globals ℝ) (tex : Color3 ℝ)
    (hindex : S.get_refractive_index.ne (fin 0) = false)
    (htex : S.compute_texture (⟨Real.sqrt, fun _ => nan, fun _ _ => nan, fin Real.pi⟩ : Libm ℝ)
      (Vector3.lift ⟨0, 0, 1⟩) = Except.ok tex) :
    (S.compute_specular (⟨Real.sqrt, fun _ => nan, fun _ _ => nan, fin Real.pi⟩ : Libm ℝ) dflt
      call g (ex_grey_scene ℝ) (Vector3.lift ⟨0, 0, 1⟩) (Vector3.lift ⟨0, 0, -1⟩)
      (Vector3.lift ⟨0, 0, -5⟩) 1).map Shaded.color
      = Except.ok (tex * ⟨fin 1, fin 1, fin 1⟩) := by
  have hx0 : (ex_grey_scene ℝ).geometries.get? 0 = some (Geometry.sphere (ex_lens ℝ)) := rfl
  obtain ⟨h1, h2⟩ := ex_grey_cast_up g
  unfold cast_ray at h1 h2
  have hprod : (Vector3.dot (Vector3.lift (⟨0, 0, -1⟩ : Vector3 ℝ)) (Vector3.lift ⟨0, 0, 1⟩)).lt
      (fin 0) = true := by
    simp [Vector3.dot, Vector3.lift]
  simp only [Sphere.compute_specular, hx0, htex, hprod, if_true, ex_reflect_down,
    Sphere.specular_refraction, hindex, Bool.false_eq_true, if_false, bind, Except.bind,
    Sphere.specular_reflection]
  generalize nearest_hit_loop Real.sqrt (Vector3.lift ⟨0, 0, 1⟩)
    (Vector3.lift ⟨0, 0, -5⟩ + Vector3.smul EPSILON (Vector3.lift ⟨0, 0, 1⟩))
    (ex_grey_scene ℝ).geometries 0 UNINITIALIZED 0 g = r1 at h1 h2 ⊢
  have hmin : r1.1.ne UNINITIALIZED = true := by
    rw [h1]
    simp [real_t.ne, UNINITIALIZED]
    norm_num
  simp only [hmin, if_true, h2, hx0, ex_grey_lens_colour, bind, Except.bind]
  simp [Except.map, real_t.eq]

/-- In the grey scene, `Model::compute_specular` with depth 1 for the same
ray returns the local colour of the lens, white, whatever the texture colour
of the model is. -/
theorem ex_grey_model_base (call : SpecularCall ℝ) (m : Model ℝ) (g : Globals ℝ) :
    (m.compute_specular (⟨Real.sqrt, fun _ => nan, fun _ _ => nan, fin Real.pi⟩ : Libm ℝ)
      call g (ex_grey_scene ℝ) (Vector3.lift ⟨0, 0, 1⟩) (Vector3.lift ⟨0, 0, -1⟩)
      (Vector3.lift ⟨0, 0, -5⟩) 1).map Shaded.color = Except.ok ⟨fin 1, fin 1, fin 1⟩ := by
  have hx0 : (ex_grey_scene ℝ).geometries.get? 0 = some (Geometry.sphere (ex_lens ℝ)) := rfl
  obtain ⟨tex, htex⟩ := m.model_texture_ok g
  obtain ⟨h1, h2⟩ := ex_grey_cast_up g
  unfold cast_ray at h1 h2
  simp only [Model.compute_specular, hx0, htex, ex_reflect_down]
  generalize nearest_hit_loop Real.sqrt (Vector3.lift ⟨0, 0, 1⟩)
    (Vector3.lift ⟨0, 0, -5⟩ + Vector3.smul EPSILON (Vector3.lift ⟨0, 0, 1⟩))
    (ex_grey_scene ℝ).geometries 0 UNINITIALIZED 0 g = r1 at h1 h2 ⊢
  have hmin : r1.1.ne UNINITIALIZED = true := by
    rw [h1]
    simp [real_t.ne, UNINITIALIZED]
    norm_num
  simp only [hmin, if_true, h2, hx0, ex_grey_lens_colour, bind, Except.bind]
  rfl

/-! ## Where the texture factor is present -/

/-- White times a colour is that colour. -/
theorem Color3.white_mul (c : Color3 K) : (Color3.White : Color3 K) * c = c := by
  show Color3.mul _ _ = _
  simp only [Color3.mul, Color3.White, real_t.one_mul']

/-- The colour that the reflected ray of a sphere leaves is the texture
colour times a colour that does not depend on the texture colour, in every
branch: the reflected hit at the base depth, the reflected hit with a
recursive call, the reflected miss. -/
theorem Sphere.specular_reflection_factor [FloorRing K] (lib : Libm K) (call : SpecularCall K)
    (scene : Scene K) (surface_pos refl_ray : Vector3 (real_t K)) (minTime : real_t K)
    (geo1 : Nat) (g2 : Globals K) (depth : Int) :
    ∃ Y : Res (Color3 K × Globals K × Calls), ∀ tex : Color3 K,
      Sphere.specular_reflection lib call scene surface_pos refl_ray minTime geo1 g2 depth tex
        = Y.map (fun y => (tex * y.1, y.2.1, y.2.2)) := by
  refine ⟨Sphere.specular_reflection lib call scene surface_pos refl_ray minTime geo1 g2 depth
    Color3.White, fun tex => ?_⟩
  unfold Sphere.specular_reflection
  by_cases h1 : minTime.ne UNINITIALIZED = true
  · simp only [h1, if_true]
    cases scene.geometries.get? geo1 with
    | none => rfl
    | some geo =>
      simp only []
      cases geo.color_at_pixel lib g2 scene (surface_pos + Vector3.muls refl_ray minTime) with
      | error e => rfl
      | ok col =>
        simp only [bind, Except.bind]
        by_cases h2 : depth > 1
        · simp only [h2, if_true]
          cases call geo g2 scene (geo.normal_of lib.sqrt g2
            (surface_pos + Vector3.muls refl_ray minTime)) refl_ray
            (surface_pos + Vector3.muls refl_ray minTime) (depth - 1) with
          | error e => rfl
          | ok r => simp only [Except.map, Color3.white_mul]
        · simp only [h2, if_false, Except.map, Color3.white_mul]
  · simp only [h1, if_false, Except.map, Color3.white_mul]
    rfl

/-- At a depth other than 1, in a scene with a primitive, the colour that
`Triangle::compute_specular` returns is the texture colour of the triangle
times a colour that depends on neither the triangle nor its texture, in the
branch of the reflected hit with a recursive call and in the branch of the
reflected miss. -/
theorem Triangle.triangle_specular_factor [FloorRing K] (lib : Libm K) (call : SpecularCall K)
    (g : Globals K) (scene : Scene K) (normal incoming_ray surface_pos : Vector3 (real_t K))
    (depth : Int) (hd : depth ≠ 1) (hne : scene.geometries ≠ []) :
    ∃ Y : Res (Color3 K × Globals K × Calls), ∀ (tri : Triangle K) (tex : Color3 K),
      tri.compute_texture g = Except.ok tex →
      tri.compute_specular lib call g scene normal incoming_ray surface_pos depth
        = Y.map (fun y => (⟨tex * y.1, y.2.1, y.2.2⟩ : Shaded K)) := by
  obtain ⟨x0, hx0⟩ : ∃ x0, scene.geometries.get? 0 = some x0 := by
    cases hg : scene.geometries with
    | nil => exact absurd hg hne
    | cons x rest => exact ⟨x, rfl⟩
  refine ⟨
    (if (cast_ray lib.sqrt scene (mirror_ray lib.sqrt normal incoming_ray) surface_pos g).1.ne
        UNINITIALIZED then
      match scene.geometries.get?
        (cast_ray lib.sqrt scene (mirror_ray lib.sqrt normal incoming_ray) surface_pos g).2.1 with
      | none => Except.error Fault.out_of_bounds
      | some geo =>
        (geo.color_at_pixel lib
          (cast_ray lib.sqrt scene (mirror_ray lib.sqrt normal incoming_ray) surface_pos g).2.2
          scene (surface_pos + Vector3.muls (mirror_ray lib.sqrt normal incoming_ray)
            (cast_ray lib.sqrt scene (mirror_ray lib.sqrt normal incoming_ray) surface_pos
              g).1)).bind (fun col =>
          (call geo
            (cast_ray lib.sqrt scene (mirror_ray lib.sqrt normal incoming_ray) surface_pos g).2.2
            scene
            (geo.normal_of lib.sqrt
              (cast_ray lib.sqrt scene (mirror_ray lib.sqrt normal incoming_ray) surface_pos
                g).2.2
              (surface_pos + Vector3.muls (mirror_ray lib.sqrt normal incoming_ray)
                (cast_ray lib.sqrt scene (mirror_ray lib.sqrt normal incoming_ray) surface_pos
                  g).1))
            (mirror_ray lib.sqrt normal incoming_ray)
            (surface_pos + Vector3.muls (mirror_ray lib.sqrt normal incoming_ray)
              (cast_ray lib.sqrt scene (mirror_ray lib.sqrt normal incoming_ray) surface_pos
                g).1) (depth - 1)).bind (fun r =>
            Except.ok (col + geo.get_specular
              (cast_ray lib.sqrt scene (mirror_ray lib.sqrt normal incoming_ray) surface_pos
                g).2.2 * r.color, r.g, Calls.call (depth - 1) r.calls Calls.none)))
    else
      Except.ok (scene.background_color,
        (cast_ray lib.sqrt scene (mirror_ray lib.sqrt normal incoming_ray) surface_pos g).2.2,
        Calls.none)), fun tri tex htex => ?_⟩
  unfold cast_ray mirror_ray
  simp only [Triangle.compute_specular, hx0, htex, bind, Except.bind]
  generalize nearest_hit_loop lib.sqrt _ _ scene.geometries 0 UNINITIALIZED 0 g = r1
  by_cases h1 : r1.1.ne UNINITIALIZED = true
  · simp only [h1, if_true]
    cases scene.geometries.get? r1.2.1 with
    | none => rfl
    | some geo =>
      simp only []
      cases geo.color_at_pixel lib r1.2.2 scene _ with
      | error e => rfl
      | ok col =>
        simp only [hd, if_false]
        cases call geo r1.2.2 scene _ _ _ (depth - 1) with
        | error e => rfl
        | ok r => rfl
  · simp only [h1, if_false]
    rfl

/-- At a depth other than 1, in a scene with a primitive, the colour that
`Model::compute_specular` returns is the texture colour of the model times
a colour that depends on neither the model nor its texture, in the
branch of the reflected hit with a recursive call and in the branch of the
reflected miss. -/
theorem Model.model_specular_factor [FloorRing K] (lib : Libm K) (call : SpecularCall K)
    (g : Globals K) (scene : Scene K) (normal incoming_ray surface_pos : Vector3 (real_t K))
    (depth : Int) (hd : depth ≠ 1) (hne : scene.geometries ≠ []) :
    ∃ Y : Res (Color3 K × Globals K × Calls), ∀ (m : Model K) (tex : Color3 K),
      m.compute_texture g = Except.ok tex →
      m.compute_specular lib call g scene normal incoming_ray surface_pos depth
        = Y.map (fun y => (⟨tex * y.1, y.2.1, y.2.2⟩ : Shaded K)) := by
  obtain ⟨x0, hx0⟩ : ∃ x0, scene.geometries.get? 0 = some x0 := by
    cases hg : scene.geometries with
    | nil => exact absurd hg hne
    | cons x rest => exact ⟨x, rfl⟩
  refine ⟨
    (if (cast_ray lib.sqrt scene (mirror_ray lib.sqrt normal incoming_ray) surface_pos g).1.ne
        UNINITIALIZED then
      match scene.geometries.get?
        (cast_ray lib.sqrt scene (mirror_ray lib.sqrt normal incoming_ray) surface_pos g).2.1 with
      | none => Except.error Fault.out_of_bounds
      | some geo =>
        (geo.color_at_pixel lib
          (cast_ray lib.sqrt scene (mirror_ray lib.sqrt normal incoming_ray) surface_pos g).2.2
          scene (surface_pos + Vector3.muls (mirror_ray lib.sqrt normal incoming_ray)
            (cast_ray lib.sqrt scene (mirror_ray lib.sqrt normal incoming_ray) surface_pos
              g).1)).bind (fun col =>
          (call geo
            (cast_ray lib.sqrt scene (mirror_ray lib.sqrt normal incoming_ray) surface_pos g).2.2
            scene
            (geo.normal_of lib.sqrt
              (cast_ray lib.sqrt scene (mirror_ray lib.sqrt normal incoming_ray) surface_pos
                g).2.2
              (surface_pos + Vector3.muls (mirror_ray lib.sqrt normal incoming_ray)
                (cast_ray lib.sqrt scene (mirror_ray lib.sqrt normal incoming_ray) surface_pos
                  g).1))
            (mirror_ray lib.sqrt normal incoming_ray)
            (surface_pos + Vector3.muls (mirror_ray lib.sqrt normal incoming_ray)
              (cast_ray lib.sqrt scene (mirror_ray lib.sqrt normal incoming_ray) surface_pos
                g).1) (depth - 1)).bind (fun r =>
            Except.ok (col + geo.get_specular
              (cast_ray lib.sqrt scene (mirror_ray lib.sqrt normal incoming_ray) surface_pos
                g).2.2 * r.color, r.g, Calls.call (depth - 1) r.calls Calls.none)))
    else
      Except.ok (scene.background_color,
        (cast_ray lib.sqrt scene (mirror_ray lib.sqrt normal incoming_ray) surface_pos g).2.2,
        Calls.none)), fun m tex htex => ?_⟩
  unfold cast_ray mirror_ray
  simp only [Model.compute_specular, hx0, htex, bind, Except.bind]
  generalize nearest_hit_loop lib.sqrt _ _ scene.geometries 0 UNINITIALIZED 0 g = r1
  by_cases h1 : r1.1.ne UNINITIALIZED = true
  · simp only [h1, if_true]
    cases scene.geometries.get? r1.2.1 with
    | none => rfl
    | some geo =>
      simp only []
      cases geo.color_at_pixel lib r1.2.2 scene _ with
      | error e => rfl
      | ok col =>
        simp only [hd, if_false]
        cases call geo r1.2.2 scene _ _ _ (depth - 1) with
        | error e => rfl
        | ok r => rfl
  · simp only [h1, if_false]
    rfl

/-! ## The weights at the time of shading -/

/-- The ray straight up from the top of the lens hits the coloured triangle,
primitive 1, at the time `1 - EPSILON` and the weights `(3/4, 1/8, 1/8)`. -/
theorem ex_rgb_cast_up (g : Globals ℝ) :
    (cast_ray Real.sqrt (ex_rgb_scene ℝ) (Vector3.lift ⟨0, 0, 1⟩) (Vector3.lift ⟨0, 0, 2⟩)
      g).1 = fin (1 - 1 / 1000000) ∧
    (cast_ray Real.sqrt (ex_rgb_scene ℝ) (Vector3.lift ⟨0, 0, 1⟩) (Vector3.lift ⟨0, 0, 2⟩)
      g).2.1 = 1 ∧
    (cast_ray Real.sqrt (ex_rgb_scene ℝ) (Vector3.lift ⟨0, 0, 1⟩) (Vector3.lift ⟨0, 0, 2⟩)
      g).2.2.ALPHA = fin (3 / 4) ∧
    (cast_ray Real.sqrt (ex_rgb_scene ℝ) (Vector3.lift ⟨0, 0, 1⟩) (Vector3.lift ⟨0, 0, 2⟩)
      g).2.2.BETA = fin (1 / 8) ∧
    (cast_ray Real.sqrt (ex_rgb_scene ℝ) (Vector3.lift ⟨0, 0, 1⟩) (Vector3.lift ⟨0, 0, 2⟩)
      g).2.2.GAMMA = fin (1 / 8) := by
  have h4 : Real.sqrt 4 = 2 := by
    rw [show (4 : ℝ) = 2 ^ 2 by norm_num]
    exact Real.sqrt_sq (by norm_num)
  simp [cast_ray, nearest_hit_loop, ex_rgb_scene, Geometry.is_intersecting,
    Sphere.is_intersecting, ex_lens, Sphere.transform_point, Sphere.transform_vector,
    Triangle.is_intersecting, cramer, Cramer.valid, ex_rgb_triangle, ex_colour_vertex,
    ex_inner_triangle, ex_vertex, Triangle.transform_vector, Triangle.transform_point,
    Matrix4.identity, Vector3.lift, Vector3.smul, Vector3.vec_add_mk, EPSILON, UNINITIALIZED,
    NOINTERSECTION, fin_div_fin, real_t.sqrt, Vector3.dot, Vector3.vec_sub_mk,
    Vector3.vec_neg_mk, real_t.ne]
  norm_num [h4]
  simp [fin_div_fin]

/-- The ray straight down from the top of the lens hits the black triangle
inside the lens, primitive 2, at the time `2 - EPSILON` and the weights
`(1/2, 1/4, 1/4)`, before it meets the lens again. -/
theorem ex_rgb_cast_down (g : Globals ℝ) :
    (cast_ray Real.sqrt (ex_rgb_scene ℝ) (Vector3.lift ⟨0, 0, -1⟩) (Vector3.lift ⟨0, 0, 2⟩)
      g).1 = fin (2 - 1 / 1000000) ∧
    (cast_ray Real.sqrt (ex_rgb_scene ℝ) (Vector3.lift ⟨0, 0, -1⟩) (Vector3.lift ⟨0, 0, 2⟩)
      g).2.1 = 2 ∧
    (cast_ray Real.sqrt (ex_rgb_scene ℝ) (Vector3.lift ⟨0, 0, -1⟩) (Vector3.lift ⟨0, 0, 2⟩)
      g).2.2.ALPHA = fin (1 / 2) ∧
    (cast_ray Real.sqrt (ex_rgb_scene ℝ) (Vector3.lift ⟨0, 0, -1⟩) (Vector3.lift ⟨0, 0, 2⟩)
      g).2.2.BETA = fin (1 / 4) ∧
    (cast_ray Real.sqrt (ex_rgb_scene ℝ) (Vector3.lift ⟨0, 0, -1⟩) (Vector3.lift ⟨0, 0, 2⟩)
      g).2.2.GAMMA = fin (1 / 4) := by
  have h4 : Real.sqrt 4 = 2 := by
    rw [show (4 : ℝ) = 2 ^ 2 by norm_num]
    exact Real.sqrt_sq (by norm_num)
  simp [cast_ray, nearest_hit_loop, ex_rgb_scene, Geometry.is_intersecting,
    Sphere.is_intersecting, ex_lens, Sphere.transform_point, Sphere.transform_vector,
    Triangle.is_intersecting, cramer, Cramer.valid, ex_rgb_triangle, ex_colour_vertex,
    ex_inner_triangle, ex_vertex, Triangle.transform_vector, Triangle.transform_point,
    Matrix4.identity, Vector3.lift, Vector3.smul, Vector3.vec_add_mk, EPSILON, UNINITIALIZED,
    NOINTERSECTION, fin_div_fin, real_t.sqrt, Vector3.dot, Vector3.vec_sub_mk,
    Vector3.vec_neg_mk, real_t.ne]
  norm_num [h4]
  simp [fin_div_fin]
  all_goals norm_num

/-- The local colour of the coloured triangle in its scene at weights that
sum to 1 is the colour whose channels are the weights. -/
theorem ex_rgb_local_colour (sqrtK : ℝ → ℝ) (g : Globals ℝ) (p : Vector3 (real_t ℝ))
    (a b c : ℝ) (ha : g.ALPHA = fin a) (hb : g.BETA = fin b) (hc : g.GAMMA = fin c)
    (hsum : a + b + c = 1) :
    (ex_rgb_triangle ℝ).color_at_pixel sqrtK g (ex_rgb_scene ℝ) p
      = Except.ok ⟨fin a, fin b, fin c⟩ := by
  simp [Triangle.color_at_pixel, Triangle.compute_texture, Triangle.compute_texture_at_vertex,
    Triangle.compute_diffuse, ex_rgb_triangle, ex_colour_vertex, ex_colour_material, ex_rgb_scene,
    ex_black, ha, hb, hc, bind, Except.bind, Color3.White, Color3.Black, Color3.smul,
    Color3.col_add_mk, Color3.col_mul_mk, fin_mul_fin, fin_add_fin]
  refine ⟨?_, ?_, ?_⟩
  · linear_combination a * hsum
  · linear_combination b * hsum
  · linear_combination c * hsum

/-- What the refracted ray of the lens leaves in the coloured scene at depth
1, for the ray that comes straight down on its top: the coefficient 1/25,
`refr_color` as it was declared, and the file-scope variables that the loop
for the refracted ray left. -/
theorem ex_rgb_refraction (dflt : Color3 ℝ) (call : SpecularCall ℝ) (g1 : Globals ℝ)
    (tex : Color3 ℝ) :
    Sphere.specular_refraction (⟨Real.sqrt, fun _ => nan, fun _ _ => nan, fin Real.pi⟩ : Libm ℝ)
      dflt call (ex_lens ℝ) g1 (ex_rgb_scene ℝ) (Vector3.lift ⟨0, 0, 1⟩)
      (Vector3.lift ⟨0, 0, -1⟩) (Vector3.lift ⟨0, 0, 2⟩) 1 tex
      = Except.ok (fin (1 / 25), dflt,
          (cast_ray Real.sqrt (ex_rgb_scene ℝ) (Vector3.lift ⟨0, 0, -1⟩) (Vector3.lift ⟨0, 0, 2⟩)
            g1).2.2, Calls.none) := by
  have htrans : (ex_lens ℝ).get_refractive_index.ne (fin 0) = true := by
    simp [Sphere.get_refractive_index, ex_lens, ex_lens_material, real_t.ne]
  have hnd : (Vector3.length Real.sqrt (Sphere.refracted_ray Real.sqrt (ex_lens ℝ)
      (Vector3.lift ⟨0, 0, 1⟩) (Vector3.lift ⟨0, 0, -1⟩))).ne (fin 0) = true := by
    rw [ex_lens_refracted, Vector3.length_lift]
    simp [Vector3.dot, real_t.ne]
  obtain ⟨c1, c2, -, -, -⟩ := ex_rgb_cast_down g1
  have hhit : (cast_ray Real.sqrt (ex_rgb_scene ℝ) (Sphere.refracted_ray Real.sqrt (ex_lens ℝ)
      (Vector3.lift ⟨0, 0, 1⟩) (Vector3.lift ⟨0, 0, -1⟩)) (Vector3.lift ⟨0, 0, 2⟩) g1).1.ne
      UNINITIALIZED = true := by
    rw [ex_lens_refracted, c1]
    simp [real_t.ne, UNINITIALIZED]; norm_num
  have hgeo : (ex_rgb_scene ℝ).geometries.get? (cast_ray Real.sqrt (ex_rgb_scene ℝ)
      (Sphere.refracted_ray Real.sqrt (ex_lens ℝ) (Vector3.lift ⟨0, 0, 1⟩)
        (Vector3.lift ⟨0, 0, -1⟩)) (Vector3.lift ⟨0, 0, 2⟩) g1).2.1
      = some (Geometry.triangle (ex_inner_triangle ℝ)) := by
    rw [ex_lens_refracted, c2]
    rfl
  obtain ⟨col, hcol⟩ := (Geometry.triangle (ex_inner_triangle ℝ)).color_at_pixel_ok
    (⟨Real.sqrt, fun _ => nan, fun _ _ => nan, fin Real.pi⟩ : Libm ℝ)
    (cast_ray Real.sqrt (ex_rgb_scene ℝ) (Sphere.refracted_ray Real.sqrt (ex_lens ℝ)
      (Vector3.lift ⟨0, 0, 1⟩) (Vector3.lift ⟨0, 0, -1⟩)) (Vector3.lift ⟨0, 0, 2⟩) g1).2.2
    (ex_rgb_scene ℝ)
    (Vector3.lift ⟨0, 0, 2⟩ + Vector3.muls (Sphere.refracted_ray Real.sqrt (ex_lens ℝ)
        (Vector3.lift ⟨0, 0, 1⟩) (Vector3.lift ⟨0, 0, -1⟩))
      (cast_ray Real.sqrt (ex_rgb_scene ℝ) (Sphere.refracted_ray Real.sqrt (ex_lens ℝ)
        (Vector3.lift ⟨0, 0, 1⟩) (Vector3.lift ⟨0, 0, -1⟩)) (Vector3.lift ⟨0, 0, 2⟩) g1).1)
  obtain ⟨R, hR⟩ := Sphere.specular_refraction_base_hit
    (⟨Real.sqrt, fun _ => nan, fun _ _ => nan, fin Real.pi⟩ : Libm ℝ) dflt call (ex_lens ℝ) g1
    (ex_rgb_scene ℝ) (Vector3.lift ⟨0, 0, 1⟩) (Vector3.lift ⟨0, 0, -1⟩) (Vector3.lift ⟨0, 0, 2⟩)
    1 tex (Geometry.triangle (ex_inner_triangle ℝ)) col (le_refl 1) htrans hnd
    hhit hgeo hcol
  have hc := Sphere.specular_refraction_coefficient
    (⟨Real.sqrt, fun _ => nan, fun _ _ => nan, fin Real.pi⟩ : Libm ℝ) dflt call (ex_lens ℝ) g1
    (ex_rgb_scene ℝ) (Vector3.lift ⟨0, 0, 1⟩) (Vector3.lift ⟨0, 0, -1⟩) (Vector3.lift ⟨0, 0, 2⟩)
    1 tex (R, dflt, (cast_ray Real.sqrt (ex_rgb_scene ℝ) (Sphere.refracted_ray Real.sqrt
      (ex_lens ℝ) (Vector3.lift ⟨0, 0, 1⟩) (Vector3.lift ⟨0, 0, -1⟩)) (Vector3.lift ⟨0, 0, 2⟩)
      g1).2.2, Calls.none) htrans hnd hR
  have hRv : R = fin (1 / 25) := by
    have h : R = if (Vector3.dot (Vector3.lift (⟨0, 0, -1⟩ : Vector3 ℝ))
          (Vector3.lift ⟨0, 0, 1⟩)).lt (fin 0) then
        Sphere.compute_refraction (fin 1) (ex_lens ℝ).get_refractive_index
          (Sphere.refracted_ray Real.sqrt (ex_lens ℝ) (Vector3.lift ⟨0, 0, 1⟩)
            (Vector3.lift ⟨0, 0, -1⟩)) (Vector3.lift ⟨0, 0, 1⟩)
      else
        Sphere.compute_refraction (ex_lens ℝ).get_refractive_index (fin 1)
          (-(Vector3.lift ⟨0, 0, -1⟩)) (Vector3.lift ⟨0, 0, 1⟩) := hc
    rw [h, ex_lens_refracted]
    simp [Sphere.compute_refraction, Sphere.get_refractive_index, ex_lens, ex_lens_material,
      real_t.pow, Vector3.dot, Vector3.lift, fin_div_fin]
    norm_num
  rw [hR, hRv, ex_lens_refracted]

/-! ## A running time that is `NaN` -/

/-- The flat sphere stores `NaN` for every ray. -/
theorem ex_flat_sphere_stores_nan (s e : Vector3 (real_t ℝ)) :
    Sphere.is_intersecting Real.sqrt (ex_flat_sphere ℝ) s e (fin (-1)) = (fin 1, nan) := by
  simp [Sphere.is_intersecting, ex_flat_sphere, Sphere.transform_point, Sphere.transform_vector,
    Vector3.lift, UNINITIALIZED, fin_div_fin, real_t.sqrt, Vector3.dot,
    Vector3.vec_sub_mk, Vector3.vec_neg_mk, signInf, real_t.le, real_t.lt]

/-- The example triangle is hit at the time 5 by the example ray. -/
theorem ex_triangle_own_hit (g : Globals ℝ) :
    (Geometry.triangle (ex_triangle ℝ)).own_hit Real.sqrt (Vector3.lift (ex_down ℝ))
      (Vector3.lift (ex_origin ℝ)) g = some (fin 5) := by
  simp [Geometry.own_hit, Geometry.is_intersecting, Triangle.is_intersecting,
    cramer, Cramer.valid, ex_triangle, ex_vertex, Triangle.transform_vector,
    Triangle.transform_point, Matrix4.identity, Vector3.lift, UNINITIALIZED, NOINTERSECTION,
    fin_div_fin, real_t.ne, ex_down, ex_origin]
  norm_num

/-- After the flat sphere the nearest-hit loop keeps `NaN` and the index 0,
whatever triangles follow. -/
theorem ex_flat_first_loop (g : Globals ℝ) :
    (nearest_hit_loop Real.sqrt (Vector3.lift (ex_down ℝ)) (Vector3.lift (ex_origin ℝ))
      [Geometry.sphere (ex_flat_sphere ℝ), Geometry.triangle (ex_triangle ℝ),
        Geometry.triangle (ex_triangle ℝ)] 0 UNINITIALIZED 0 g).1 = nan ∧
    (nearest_hit_loop Real.sqrt (Vector3.lift (ex_down ℝ)) (Vector3.lift (ex_origin ℝ))
      [Geometry.sphere (ex_flat_sphere ℝ), Geometry.triangle (ex_triangle ℝ),
        Geometry.triangle (ex_triangle ℝ)] 0 UNINITIALIZED 0 g).2.1 = 0 ∧
    (nearest_hit_loop Real.sqrt (Vector3.lift (ex_down ℝ)) (Vector3.lift (ex_origin ℝ))
      [Geometry.sphere (ex_flat_sphere ℝ), Geometry.triangle (ex_triangle ℝ)]
      0 UNINITIALIZED 0 g).1 = nan ∧
    (nearest_hit_loop Real.sqrt (Vector3.lift (ex_down ℝ)) (Vector3.lift (ex_origin ℝ))
      [Geometry.sphere (ex_flat_sphere ℝ), Geometry.triangle (ex_triangle ℝ)]
      0 UNINITIALIZED 0 g).2.1 = 0 := by
  simp [nearest_hit_loop, Geometry.is_intersecting, ex_flat_sphere_stores_nan,
    Triangle.is_intersecting,
    cramer, Cramer.valid, ex_triangle, ex_vertex, Triangle.transform_vector,
    Triangle.transform_point, Matrix4.identity, Vector3.lift, UNINITIALIZED, NOINTERSECTION,
    fin_div_fin, real_t.ne, ex_down, ex_origin, real_t.lt, real_t.eq]
  norm_num

/-- From the running time `NaN` the example mesh reports no intersection and
leaves `NaN`, although its first triangle is hit at the time 5. -/
theorem ex_model_from_nan :
    ((ex_model ℚ).is_intersecting (Vector3.lift (ex_down ℚ)) (Vector3.lift (ex_origin ℚ)) nan
      (ex_globals ℚ)).T = nan ∧
    ((ex_model ℚ).is_intersecting (Vector3.lift (ex_down ℚ)) (Vector3.lift (ex_origin ℚ)) nan
      (ex_globals ℚ)).ret = fin 0 ∧
    (ex_model ℚ).hit_time (Vector3.lift (ex_down ℚ)) (Vector3.lift (ex_origin ℚ)) ex_face0
      = some (fin 5) := by
  refine ⟨by decide!, by decide!, by decide!⟩

/-- For the ray with the zero direction the nearest-hit loop over the example
sphere ends with `NaN`, which is the own hit time of the sphere. -/
theorem ex_zero_direction_loop (g : Globals ℝ) :
    (nearest_hit_loop Real.sqrt (Vector3.lift ⟨0, 0, 0⟩) (Vector3.lift ⟨0, 0, 5⟩)
      [Geometry.sphere (ex_sphere ℝ)] 0 UNINITIALIZED 0 g).1 = nan ∧
    (Geometry.sphere (ex_sphere ℝ)).own_hit Real.sqrt (Vector3.lift ⟨0, 0, 0⟩)
      (Vector3.lift ⟨0, 0, 5⟩) g = some nan := by
  simp [nearest_hit_loop, Geometry.own_hit, Geometry.is_intersecting, Sphere.is_intersecting,
    ex_sphere, Sphere.transform_point, Sphere.transform_vector,
    Matrix4.identity, Vector3.lift, UNINITIALIZED, NOINTERSECTION, fin_div_fin, real_t.sqrt,
    Vector3.dot, Vector3.vec_sub_mk, Vector3.vec_neg_mk, signInf, real_t.le, real_t.lt,
    real_t.ne, real_t.eq]

/-- The example sphere and the cap triangle are both hit at the time 3 by the
ray from `(0, 0, 5)` straight down; the loop selects the sphere, which comes
first. -/
theorem ex_cap_tie_loop (g : Globals ℝ) :
    (nearest_hit_loop Real.sqrt (Vector3.lift ⟨0, 0, -1⟩) (Vector3.lift ⟨0, 0, 5⟩)
      [Geometry.sphere (ex_sphere ℝ), Geometry.triangle (ex_cap_triangle ℝ)] 0 UNINITIALIZED 0
      g).1 = fin 3 ∧
    (nearest_hit_loop Real.sqrt (Vector3.lift ⟨0, 0, -1⟩) (Vector3.lift ⟨0, 0, 5⟩)
      [Geometry.sphere (ex_sphere ℝ), Geometry.triangle (ex_cap_triangle ℝ)] 0 UNINITIALIZED 0
      g).2.1 = 0 ∧
    (Geometry.triangle (ex_cap_triangle ℝ)).own_hit Real.sqrt (Vector3.lift ⟨0, 0, -1⟩)
      (Vector3.lift ⟨0, 0, 5⟩) g = some (fin 3) := by
  have h4 : Real.sqrt 4 = 2 := by
    rw [show (4 : ℝ) = 2 ^ 2 by norm_num]
    exact Real.sqrt_sq (by norm_num)
  simp [nearest_hit_loop, Geometry.own_hit, Geometry.is_intersecting, Sphere.is_intersecting,
    Triangle.is_intersecting, cramer, Cramer.valid, ex_cap_triangle, ex_vertex,
    Triangle.transform_vector, Triangle.transform_point, ex_sphere, Sphere.transform_point,
    Sphere.transform_vector, Matrix4.identity, Vector3.lift, UNINITIALIZED, NOINTERSECTION,
    fin_div_fin, real_t.sqrt, Vector3.dot, Vector3.vec_sub_mk, Vector3.vec_neg_mk, real_t.ne]
  norm_num [h4]
  simp [fin_div_fin]
  norm_num

/-! ## The base depth of the three versions -/

/-- The Sphere version of `compute_specular` tests `depth > 1`: called with
any depth that is not above 1 it returns without a call. -/
theorem Geometry.sphere_specular_below_base [FloorRing K] (lib : Libm K) (dflt : Color3 K)
    (fuel : Nat) (S : Sphere K) (g : Globals K) (scene : Scene K)
    (normal incoming_ray surface_pos : Vector3 (real_t K)) (depth : Int)
    (hne : scene.geometries ≠ []) (hdepth : depth ≤ 1) :
    ∃ r, Geometry.compute_specular lib dflt (fuel + 1) (Geometry.sphere S) g scene normal
        incoming_ray surface_pos depth = Except.ok r ∧ r.calls = Calls.none := by
  obtain ⟨r, hr, -, -, hnone⟩ := Sphere.sphere_specular_calls lib dflt
    (Geometry.compute_specular lib dflt fuel) S g scene normal incoming_ray surface_pos depth 0
    hne (fun h => absurd h (by omega))
  exact ⟨r, hr, hnone (by omega)⟩

/-- In a scene with a primitive, `trace_pixel` returns for every pixel of the
image when three nested `compute_specular` calls are allowed. -/
theorem Raytracer.trace_pixel_shaded_ok [FloorRing K] (lib : Libm K) (dflt : Color3 K)
    (fuel : Nat) (specular_first : Bool) (rt : Raytracer K) (scene : Scene K)
    (width height : Nat) (hne : scene.geometries ≠ []) (hfuel : 3 ≤ fuel)
    (x y : Nat) (g : Globals K) (hx : x < width) (hy : y < height) :
    ∃ c g1, Raytracer.trace_pixel_shaded lib dflt fuel specular_first rt scene x y width height g
      = Except.ok (c, g1) := by
  unfold Raytracer.trace_pixel_shaded
  have h0 : ∃ x0, scene.geometries.get? 0 = some x0 := by
    cases hsc : scene.geometries with
    | nil => exact absurd hsc hne
    | cons a rest => exact ⟨a, rfl⟩
  obtain ⟨x0, hx0⟩ := h0
  simp only [Nat.zero_le, true_and, hx, hy, not_true_eq_false, if_false, hx0]
  generalize hr : nearest_hit_loop lib.sqrt _ rt.e scene.geometries 0 UNINITIALIZED 0 g = r
  obtain ⟨sel, hsel⟩ := nearest_hit_loop_index_some lib.sqrt
    (Vector3.normalize lib.sqrt (Vector3.smul (rt.left + (rt.right - rt.left)
      * real_t.fin ((x : K) + 1 / 2) / real_t.fin (width : K)) rt.u
      + Vector3.smul (rt.bottom + (rt.top - rt.bottom) * real_t.fin ((y : K) + 1 / 2)
        / real_t.fin (height : K)) rt.v + Vector3.smul rt.nearClip rt.w))
    rt.e scene.geometries hne UNINITIALIZED g
  rw [hr] at hsel
  by_cases hm : r.1.ne UNINITIALIZED = true
  · simp only [hm, if_true, hsel]
    obtain ⟨s, hs, -⟩ := Geometry.compute_specular_calls lib dflt scene hne 3 (by norm_num) fuel
      hfuel sel r.2.2 (sel.normal_of lib.sqrt r.2.2 (rt.e + Vector3.muls
        (Vector3.normalize lib.sqrt (Vector3.smul (rt.left + (rt.right - rt.left)
          * real_t.fin ((x : K) + 1 / 2) / real_t.fin (width : K)) rt.u
          + Vector3.smul (rt.bottom + (rt.top - rt.bottom) * real_t.fin ((y : K) + 1 / 2)
            / real_t.fin (height : K)) rt.v + Vector3.smul rt.nearClip rt.w)) r.1))
      (Vector3.normalize lib.sqrt (Vector3.smul (rt.left + (rt.right - rt.left)
          * real_t.fin ((x : K) + 1 / 2) / real_t.fin (width : K)) rt.u
          + Vector3.smul (rt.bottom + (rt.top - rt.bottom) * real_t.fin ((y : K) + 1 / 2)
            / real_t.fin (height : K)) rt.v + Vector3.smul rt.nearClip rt.w))
      (rt.e + Vector3.muls
        (Vector3.normalize lib.sqrt (Vector3.smul (rt.left + (rt.right - rt.left)
          * real_t.fin ((x : K) + 1 / 2) / real_t.fin (width : K)) rt.u
          + Vector3.smul (rt.bottom + (rt.top - rt.bottom) * real_t.fin ((y : K) + 1 / 2)
            / real_t.fin (height : K)) rt.v + Vector3.smul rt.nearClip rt.w)) r.1)
    have hs3 : ((3 : Nat) : Int) = 3 := rfl
    rw [hs3] at hs
    by_cases hri : (sel.get_refractive_index r.2.2).ne (fin 0) = true
    · simp only [hri, if_true, hs, bind, Except.bind]
      exact ⟨_, _, rfl⟩
    · simp only [hri, if_false]
      cases specular_first with
      | true =>
        obtain ⟨c, hc⟩ := sel.color_at_pixel_ok lib s.g scene (rt.e + Vector3.muls
          (Vector3.normalize lib.sqrt (Vector3.smul (rt.left + (rt.right - rt.left)
            * real_t.fin ((x : K) + 1 / 2) / real_t.fin (width : K)) rt.u
            + Vector3.smul (rt.bottom + (rt.top - rt.bottom) * real_t.fin ((y : K) + 1 / 2)
              / real_t.fin (height : K)) rt.v + Vector3.smul rt.nearClip rt.w)) r.1)
        simp only [if_true, hs, hc, bind, Except.bind]
        exact ⟨_, _, rfl⟩
      | false =>
        obtain ⟨c, hc⟩ := sel.color_at_pixel_ok lib r.2.2 scene (rt.e + Vector3.muls
          (Vector3.normalize lib.sqrt (Vector3.smul (rt.left + (rt.right - rt.left)
            * real_t.fin ((x : K) + 1 / 2) / real_t.fin (width : K)) rt.u
            + Vector3.smul (rt.bottom + (rt.top - rt.bottom) * real_t.fin ((y : K) + 1 / 2)
              / real_t.fin (height : K)) rt.v + Vector3.smul rt.nearClip rt.w)) r.1)
        simp only [Bool.false_eq_true, if_false, hs, hc, bind, Except.bind]
        exact ⟨_, _, rfl⟩
  · simp only [hm, if_false]
    exact ⟨_, _, rfl⟩

/-- In a scene with a primitive, with `max_time` null and `current_row <=
height` on entry, `Raytracer::raytrace` over the embedded `trace_pixel`
returns true once three nested `compute_specular` calls are allowed and the
loop condition may be evaluated one time more than rows are left; it leaves
`current_row == height` and has written every pixel of the rows left once, at
the offset `4*(row*width + x)`. -/
theorem raytrace_completes_on_scene_with_primitives [FloorRing K] (lib : Libm K)
    (dflt : Color3 K) (nesting : Nat) (specular_first : Bool) (rt : Raytracer K)
    (scene : Scene K) (width height : Nat) (clock : Nat → Nat) (fuel : Nat)
    (st : RaytraceState K) (hne : scene.geometries ≠ []) (hnest : 3 ≤ nesting)
    (hrow : st.current_row ≤ height) (hfuel : height - st.current_row < fuel) :
    ∃ ws g1,
      trace_all (fun x y g => Raytracer.trace_pixel_shaded lib dflt nesting specular_first rt
          scene x y width height g) width (pixels_from width height st.current_row) st.writes
          st.g = Except.ok (ws, g1) ∧
      Raytracer.raytrace (fun x y g => Raytracer.trace_pixel_shaded lib dflt nesting
          specular_first rt scene x y width height g) width height none clock fuel st
        = Except.ok (some true, ⟨height, ws, g1, st.clock_reads, some true⟩) ∧
      ws.map Prod.fst = st.writes.map Prod.fst ++
        (pixels_from width height st.current_row).map (fun p => 4 * (p.2 * width + p.1)) ∧
      ((pixels_from width height st.current_row).map
        (fun p => 4 * (p.2 * width + p.1))).Nodup := by
  have htrace : ∀ x y g, x < width → y < height → ∃ c g1,
      (fun x y g => Raytracer.trace_pixel_shaded lib dflt nesting specular_first rt
          scene x y width height g) x y g = Except.ok (c, g1) := fun x y g hx hy =>
    Raytracer.trace_pixel_shaded_ok lib dflt nesting specular_first rt scene width height hne
      hnest x y g hx hy
  obtain ⟨ws, g1, h1, h2⟩ := trace_all_ok _ width height htrace
    (pixels_from width height st.current_row)
    (fun p hp => ⟨(mem_pixels_from width height _ p hp).1, (mem_pixels_from width height _ p hp).2.2⟩)
    st.writes st.g
  refine ⟨ws, g1, h1, ?_, h2, pixels_from_offsets_nodup width height _⟩
  have h := raytrace_loop_untimed (fun x y g => Raytracer.trace_pixel_shaded lib dflt nesting
    specular_first rt scene x y width height g) width height 0 clock (height - st.current_row)
    fuel { st with is_done := none } hrow rfl hfuel
  simp only [Raytracer.raytrace, bind, Except.bind]
  rw [h]
  simp only [h1, Except.map]

/-! ## Rounding and the embedding of the rationals -/

/-- The whole part of a rational in any ordered field. -/
theorem natFloor_ratCast [FloorRing K] (a : ℚ) : ⌊((a : ℚ) : K)⌋₊ = ⌊a⌋₊ := by
  rw [← Int.floor_toNat, ← Int.floor_toNat, Rat.floor_cast]

/-- The binary exponent of a rational is its binary exponent in any ordered
field. -/
theorem ilog2_cast [FloorRing K] (a : ℚ) : ilog2 ((a : ℚ) : K) = ilog2 a := by
  have h1 : (1 ≤ ((a : ℚ) : K)) ↔ 1 ≤ a := by exact_mod_cast Iff.rfl
  have hf : ⌊((a : ℚ) : K)⌋₊ = ⌊a⌋₊ := natFloor_ratCast a
  have hi : ⌊(1 : K) / ((a : ℚ) : K)⌋₊ = ⌊(1 : ℚ) / a⌋₊ := by
    have h := @natFloor_ratCast K _ _ (1 / a)
    rw [← h]
    push_cast
    rfl
  have h2 : ∀ n : Nat, (((a : ℚ) : K) * 2 ^ n = 1) ↔ a * 2 ^ n = 1 := by
    intro n
    exact_mod_cast Iff.rfl
  unfold ilog2
  simp only [h1, hf, hi, h2]

/-- Rounding to a whole number does not depend on the field. -/
theorem round_half_even_cast [FloorRing K] (y : ℚ) :
    round_half_even ((y : ℚ) : K) = round_half_even y := by
  have hf : ⌊((y : ℚ) : K)⌋ = ⌊y⌋ := Rat.floor_cast y
  have hd : ((y : ℚ) : K) - ((⌊y⌋ : Int) : K) = ((y - ((⌊y⌋ : Int) : ℚ) : ℚ) : K) := by
    push_cast; rfl
  have hh : (1 : K) / 2 = (((1 : ℚ) / 2 : ℚ) : K) := by
    push_cast; rfl
  have h1 : (((y : ℚ) : K) - ((⌊y⌋ : Int) : K) < 1 / 2) ↔ y - ((⌊y⌋ : Int) : ℚ) < 1 / 2 := by
    rw [hd, hh]
    exact Rat.cast_lt
  have h2 : ((1 : K) / 2 < ((y : ℚ) : K) - ((⌊y⌋ : Int) : K)) ↔ 1 / 2 < y - ((⌊y⌋ : Int) : ℚ) := by
    rw [hd, hh]
    exact Rat.cast_lt
  unfold round_half_even
  simp only [hf, h1, h2]

/-- The `double` nearest to a rational is the same in every ordered field. -/
theorem binary64_rnd_cast [FloorRing K] (x : ℚ) :
    binary64_rnd ((x : ℚ) : K) = real_t.of_rat (binary64_rnd x) := by
  unfold binary64_rnd
  have h0 : (((x : ℚ) : K) = 0) ↔ x = 0 := Rat.cast_eq_zero
  have habs : |((x : ℚ) : K)| = ((|x| : ℚ) : K) := (Rat.cast_abs x).symm
  have hpos : ((0 : K) < ((x : ℚ) : K)) ↔ 0 < x := Rat.cast_pos
  by_cases hx : x = 0
  · simp [hx, real_t.of_rat]
  · simp only [h0, hx, if_false, habs, ilog2_cast, hpos]
    have hdiv : ∀ q : Int, ((|x| : ℚ) : K) / 2 ^ q = ((|x| / 2 ^ q : ℚ) : K) := by
      intro q; push_cast; rfl
    have hr : ∀ (q : Int) (m : Int), (m : K) * 2 ^ q = (((m : ℚ) * 2 ^ q : ℚ) : K) := by
      intro q m; push_cast; rfl
    simp only [hdiv, round_half_even_cast, hr]
    have hle : ∀ r : ℚ, ((2 : K) ^ (1024 : Int) ≤ ((r : ℚ) : K)) ↔ (2 : ℚ) ^ (1024 : Int) ≤ r := by
      intro r
      exact_mod_cast Iff.rfl
    simp only [hle]
    split_ifs <;> simp [real_t.of_rat]

/-- An exact operation on rationals is exact in every ordered field. -/
theorem binary64_rnd_exact_cast [FloorRing K] (x : ℚ) (h : binary64_rnd x = real_t.fin x) :
    binary64_rnd ((x : ℚ) : K) = real_t.fin ((x : ℚ) : K) := by
  rw [binary64_rnd_cast, h]
  rfl

/-! ## Operations that do not round -/

/-- A difference of vectors whose operations do not round. -/
theorem Rounding.vsub_eq (R : Rounding K) {a b : Vector3 (real_t K)} (h : R.KeepsSub a b) :
    R.vsub a b = a - b := by
  obtain ⟨h1, h2, h3⟩ := h
  show (⟨R.round (a.x - b.x), R.round (a.y - b.y), R.round (a.z - b.z)⟩ : Vector3 (real_t K))
    = ⟨a.x - b.x, a.y - b.y, a.z - b.z⟩
  rw [h1, h2, h3]

/-- A sum of vectors whose operations do not round. -/
theorem Rounding.vadd_eq (R : Rounding K) {a b : Vector3 (real_t K)} (h : R.KeepsAdd a b) :
    R.vadd a b = a + b := by
  obtain ⟨h1, h2, h3⟩ := h
  show (⟨R.round (a.x + b.x), R.round (a.y + b.y), R.round (a.z + b.z)⟩ : Vector3 (real_t K))
    = ⟨a.x + b.x, a.y + b.y, a.z + b.z⟩
  rw [h1, h2, h3]

/-- A dot product whose operations do not round. -/
theorem Rounding.dot_eq (R : Rounding K) {a b : Vector3 (real_t K)} (h : R.KeepsDot a b) :
    R.dot a b = Vector3.dot a b := by
  obtain ⟨h1, h2, h3, h4, h5⟩ := h
  show R.round (R.round (R.round (a.x * b.x) + R.round (a.y * b.y)) + R.round (a.z * b.z))
    = a.x * b.x + a.y * b.y + a.z * b.z
  rw [h1, h2, h3, h4, h5]

/-- An operation that does not round. -/
theorem Rounding.add_eq (R : Rounding K) {a b : real_t K} (h : R.Keeps (a + b)) :
    R.add a b = a + b := h

/-- An operation that does not round. -/
theorem Rounding.sub_eq (R : Rounding K) {a b : real_t K} (h : R.Keeps (a - b)) :
    R.sub a b = a - b := h

/-- An operation that does not round. -/
theorem Rounding.mul_eq (R : Rounding K) {a b : real_t K} (h : R.Keeps (a * b)) :
    R.mul a b = a * b := h

/-- An operation that does not round. -/
theorem Rounding.div_eq (R : Rounding K) {a b : real_t K} (h : R.Keeps (a / b)) :
    R.div a b = a / b := h

/-- A square root that is returned as it is. -/
theorem Rounding.sqrt_eq (R : Rounding K) {sqrtK : K → K} {v : real_t K}
    (h : R.KeepsSqrt sqrtK v) : R.sqrt_t v = real_t.sqrt sqrtK v := h

/-- When no operation of the query rounds, `Sphere::is_intersecting` in
`double` arithmetic returns what it returns in exact arithmetic. -/
theorem Sphere.is_intersecting_fl_eq (R : Rounding K) (sqrtK : K → K) (S : Sphere K)
    (s e : Vector3 (real_t K)) (T : real_t K) (h : S.is_intersecting_exact R sqrtK s e) :
    S.is_intersecting_fl R s e T = S.is_intersecting sqrtK s e T := by
  obtain ⟨h1, h2, h3, h4, h5, h6, h7, h8, h9, h10, h11, h12, h13, h14, h15⟩ := h
  unfold Sphere.is_intersecting_fl Sphere.is_intersecting
  simp only [R.vsub_eq h1, R.dot_eq h2, R.dot_eq h3, R.dot_eq h4, R.dot_eq h5, R.mul_eq h6,
    R.mul_eq h7, R.sub_eq h8, R.mul_eq h9, R.sub_eq h10, R.sqrt_eq h11, R.add_eq h12, R.sub_eq h13,
    R.div_eq h14, R.div_eq h15]

/-! ## The sphere test in double arithmetic -/

/-- Rounding to `double` leaves a `double` as it is, in every ordered
field. -/
theorem binary64_round_int [FloorRing K] (sqrtK : K → K) (n : Int)
    (h : binary64_rnd ((n : Int) : ℚ) = fin ((n : Int) : ℚ)) :
    (Rounding.binary64 sqrtK).round (fin ((n : Int) : K)) = fin ((n : Int) : K) := by
  have h1 := @binary64_rnd_exact_cast K _ _ ((n : Int) : ℚ) h
  simpa [Rounding.round, Rounding.binary64] using h1

/-- Some whole numbers that are `double`s. -/
theorem ieee_keeps_whole :
    ∀ n ∈ ([0, 1, 2, 3, 4, 5, 7, 21, 25, -1, -5] : List Int),
      binary64_rnd ((n : Int) : ℚ) = fin ((n : Int) : ℚ) := by
  decide!

/-- No operation rounds when the example sphere is queried from `(0, 0, 5)`
straight down. -/
theorem ex_sphere_query_exact :
    (ex_sphere ℝ).is_intersecting_exact (Rounding.binary64 Real.sqrt) Real.sqrt
      (Vector3.lift (ex_down ℝ)) (Vector3.lift ⟨0, 0, 5⟩) := by
  have key : ∀ n : Int, n ∈ ([0, 1, 2, 3, 4, 5, 7, 21, 25, -1, -5] : List Int) →
      (Rounding.binary64 Real.sqrt).round (fin ((n : Int) : ℝ)) = fin ((n : Int) : ℝ) :=
    fun n hn => binary64_round_int Real.sqrt n (ieee_keeps_whole n hn)
  have k0 := key 0 (by simp)
  have k1 := key 1 (by simp)
  have k2 := key 2 (by simp)
  have k3 := key 3 (by simp)
  have k4 := key 4 (by simp)
  have k5 := key 5 (by simp)
  have k7 := key 7 (by simp)
  have k21 := key 21 (by simp)
  have k25 := key 25 (by simp)
  have km5 := key (-5) (by simp)
  norm_num at k0 k1 k2 k3 k4 k5 k7 k21 k25 km5
  have h4 : Real.sqrt 4 = 2 := by
    rw [show (4 : ℝ) = 2 ^ 2 by norm_num]
    exact Real.sqrt_sq (by norm_num)
  have hs4 : (Rounding.binary64 Real.sqrt).sqrt 4 = fin 2 := by
    show binary64_rnd (Real.sqrt 4) = fin 2
    rw [h4]
    exact k2
  simp [Sphere.is_intersecting_exact, Rounding.KeepsSub, Rounding.KeepsDot, Rounding.Keeps,
    Rounding.KeepsSqrt, ex_sphere, ex_down, Sphere.transform_point, Sphere.transform_vector,
    Matrix4.identity, Vector3.lift, Vector3.dot, Vector3.vec_sub_mk, Vector3.vec_neg_mk,
    fin_div_fin, real_t.sqrt, Rounding.sqrt_t]
  norm_num [k0, k1, k2, k3, k4, k5, k7, k21, k25, km5, h4, hs4]
  simp [fin_div_fin, k3, k7]

/-! ## The triangle tests in double arithmetic -/

/-- A difference of two products whose operations do not round. -/
theorem Rounding.det_eq (R : Rounding K) {x y z w : real_t K} (h : R.KeepsDet x y z w) :
    R.sub (R.mul x y) (R.mul z w) = x * y - z * w := by
  obtain ⟨h1, h2, h3⟩ := h
  show R.round (R.round (x * y) - R.round (z * w)) = x * y - z * w
  rw [h1, h2, h3]

/-- A sum of three products whose operations do not round. -/
theorem Rounding.sum_eq (R : Rounding K) {x y z w u v : real_t K}
    (h : R.KeepsSum x y z w u v) :
    R.add (R.add (R.mul x y) (R.mul z w)) (R.mul u v) = x * y + z * w + u * v := by
  obtain ⟨h1, h2, h3, h4, h5⟩ := h
  show R.round (R.round (R.round (x * y) + R.round (z * w)) + R.round (u * v))
    = x * y + z * w + u * v
  rw [h1, h2, h3, h4, h5]

/-- When no operation of the block rounds, the system and its solution in
`double` arithmetic are those of exact arithmetic. -/
theorem cramer_fl_eq (R : Rounding K) (a b c d e1 : Vector3 (real_t K))
    (h : cramer_exact R a b c d e1) : cramer_fl R a b c d e1 = cramer a b c d e1 := by
  obtain ⟨⟨⟨a1, a2, a3⟩, ⟨b1, b2, b3⟩, ⟨c1, c2, c3⟩⟩, ⟨h4, h5, h6, h7, h8, h9⟩,
    ⟨h10, h11, h12, h13⟩, h14, h15, h16⟩ := h
  unfold cramer_fl cramer
  simp only [R.sub_eq a1, R.sub_eq a2, R.sub_eq a3, R.sub_eq b1, R.sub_eq b2, R.sub_eq b3,
    R.sub_eq c1, R.sub_eq c2, R.sub_eq c3, R.det_eq h4, R.det_eq h5, R.det_eq h6, R.det_eq h7,
    R.det_eq h8, R.det_eq h9, R.sum_eq h10, R.sum_eq h11, R.sum_eq h12, R.sum_eq h13,
    R.div_eq h14, R.div_eq h15, R.div_eq h16]

/-- When `1.0 - gamma` does not round, the condition of the tests in `double`
arithmetic is the condition of exact arithmetic on the same record. -/
theorem Cramer.valid_fl_eq (R : Rounding K) (r : Cramer K) (h : R.Keeps (fin 1 - r.gamma)) :
    r.valid_fl R = r.valid := by
  unfold Cramer.valid_fl Cramer.valid
  rw [R.sub_eq h]

/-- `Triangle::is_intersecting` in `double` arithmetic, by its record. -/
theorem Triangle.is_intersecting_fl_record (R : Rounding K) (tri : Triangle K)
    (s e : Vector3 (real_t K)) (T : real_t K) (g : Globals K) :
    tri.is_intersecting_fl R s e T g =
      if (tri.system_fl R s e).valid_fl R then
        if (tri.system_fl R s e).TIME.lt T || T.eq (fin (-1)) then
          ⟨fin (-1), (tri.system_fl R s e).TIME,
            { g with camera_eye := tri.transform_point e, ray_direction := tri.transform_vector s,
                     ray_time := (tri.system_fl R s e).TIME,
                     ALPHA := R.sub (R.sub (fin 1) (tri.system_fl R s e).beta)
                       (tri.system_fl R s e).gamma,
                     BETA := (tri.system_fl R s e).beta, GAMMA := (tri.system_fl R s e).gamma }⟩
        else
          ⟨fin 0, T, { g with camera_eye := tri.transform_point e,
                              ray_direction := tri.transform_vector s,
                              ray_time := (tri.system_fl R s e).TIME }⟩
      else
        ⟨fin 0, T, { g with camera_eye := tri.transform_point e,
                            ray_direction := tri.transform_vector s }⟩ := rfl

/-- `Model::intersects_triangle` in `double` arithmetic, by its record. -/
theorem Model.intersects_triangle_fl_eq (R : Rounding K) (m : Model K) (triangle : MeshTriangle)
    (s e : Vector3 (real_t K)) (T : real_t K) (g : Globals K) :
    m.intersects_triangle_fl R triangle s e T g =
      if (m.system_fl R triangle s e).valid_fl R then
        if (m.system_fl R triangle s e).TIME.lt T || T.eq (fin (-1)) then
          ⟨fin 1, (m.system_fl R triangle s e).TIME,
            { g with min_triangle := triangle,
                     ALPH := R.sub (R.sub (fin 1) (m.system_fl R triangle s e).gamma)
                       (m.system_fl R triangle s e).beta,
                     BET := (m.system_fl R triangle s e).beta,
                     GAM := (m.system_fl R triangle s e).gamma }⟩
        else ⟨fin (-1), T, g⟩
      else ⟨fin (-1), T, g⟩ := rfl

/-- `Triangle::is_intersecting` in `double` arithmetic reports a hit from the
unset time exactly when the condition of the test holds. -/
theorem Triangle.is_intersecting_fl_hit (R : Rounding K) (tri : Triangle K)
    (s e : Vector3 (real_t K)) (g : Globals K) :
    (tri.is_intersecting_fl R s e UNINITIALIZED g).ret.ne (fin 0) = true ↔
      (tri.system_fl R s e).valid_fl R = true := by
  rw [Triangle.is_intersecting_fl_record]
  by_cases hv : (tri.system_fl R s e).valid_fl R = true
  · simp [hv, UNINITIALIZED, real_t.ne]
  · simp [hv, real_t.ne]

/-- `Model::intersects_triangle` in `double` arithmetic records a hit from
the unset time exactly when the condition of the test holds. -/
theorem Model.intersects_triangle_fl_hit (R : Rounding K) (m : Model K) (triangle : MeshTriangle)
    (s e : Vector3 (real_t K)) (g : Globals K) :
    (m.intersects_triangle_fl R triangle s e UNINITIALIZED g).ret.eq (fin 1) = true ↔
      (m.system_fl R triangle s e).valid_fl R = true := by
  rw [Model.intersects_triangle_fl_eq]
  by_cases hv : (m.system_fl R triangle s e).valid_fl R = true
  · simp [hv, UNINITIALIZED]
  · simp [hv]
    norm_num

/-- `Triangle::is_intersecting` in exact arithmetic reports a hit from the
unset time exactly when the condition of the test holds. -/
theorem Triangle.is_intersecting_hit (tri : Triangle K) (s e : Vector3 (real_t K))
    (g : Globals K) :
    (tri.is_intersecting s e UNINITIALIZED g).ret.ne (fin 0) = true ↔
      (tri.system s e).valid = true := by
  rw [Triangle.is_intersecting_eq]
  by_cases hv : (tri.system s e).valid = true
  · simp [hv, UNINITIALIZED, real_t.ne]
  · simp [hv, real_t.ne]

/-! ## The mirror direction in double arithmetic -/

/-- A product of a scalar and a vector whose operations do not round. -/
theorem Rounding.smul_eq (R : Rounding K) {k : real_t K} {v : Vector3 (real_t K)}
    (h : R.KeepsSmul k v) : R.smul k v = Vector3.smul k v := by
  obtain ⟨h1, h2, h3⟩ := h
  show (⟨R.round (k * v.x), R.round (k * v.y), R.round (k * v.z)⟩ : Vector3 (real_t K))
    = ⟨k * v.x, k * v.y, k * v.z⟩
  rw [h1, h2, h3]

/-- A length that is computed without rounding. -/
theorem Rounding.length_eq (R : Rounding K) {sqrtK : K → K} {v : Vector3 (real_t K)}
    (h1 : R.KeepsDot v v) (h2 : R.KeepsSqrt sqrtK (Vector3.dot v v)) :
    R.length v = Vector3.length sqrtK v := by
  show R.sqrt_t (R.dot v v) = real_t.sqrt sqrtK (Vector3.dot v v)
  rw [R.dot_eq h1, R.sqrt_eq h2]

/-- A vector of `double`s whose length is computed as 1 is its own unit
vector. -/
theorem Rounding.normalize_unit (R : Rounding K) (v : Vector3 K)
    (hx : R.round (fin v.x) = fin v.x) (hy : R.round (fin v.y) = fin v.y)
    (hz : R.round (fin v.z) = fin v.z) (hl : R.length (Vector3.lift v) = fin 1) :
    R.normalize (Vector3.lift v) = Vector3.lift v := by
  have hl' : R.sqrt_t (R.dot (Vector3.lift v) (Vector3.lift v)) = fin 1 := hl
  unfold Rounding.normalize
  rw [hl']
  simp only [Rounding.div, Vector3.lift, fin_div_fin_of_ne _ (one_ne_zero : (1 : K) ≠ 0),
    div_one, hx, hy, hz]

/-- The mirror vector in `double` arithmetic, when no operation rounds. -/
theorem mirror_vector_fl_eq (R : Rounding K) (normal incoming_ray : Vector3 (real_t K))
    (h : R.KeepsDot incoming_ray normal ∧
      R.Keeps (fin 2 * Vector3.dot incoming_ray normal) ∧
      R.KeepsSmul (fin 2 * Vector3.dot incoming_ray normal) normal ∧
      R.KeepsSub incoming_ray
        (Vector3.smul (fin 2 * Vector3.dot incoming_ray normal) normal)) :
    mirror_vector_fl R normal incoming_ray = mirror_vector normal incoming_ray := by
  obtain ⟨h1, h2, h3, h4⟩ := h
  unfold mirror_vector_fl mirror_vector
  rw [R.dot_eq h1, R.mul_eq h2, R.smul_eq h3, R.vsub_eq h4]

/-- The mirror vector of the other branch in `double` arithmetic, when no
operation rounds. -/
theorem mirror_vector_leaving_fl_eq (R : Rounding K) (normal incoming_ray : Vector3 (real_t K))
    (h : R.KeepsDot incoming_ray (-normal) ∧
      R.Keeps (fin 2 * Vector3.dot incoming_ray (-normal)) ∧
      R.KeepsSmul (fin 2 * Vector3.dot incoming_ray (-normal)) normal ∧
      R.KeepsAdd incoming_ray
        (Vector3.smul (fin 2 * Vector3.dot incoming_ray (-normal)) normal)) :
    mirror_vector_leaving_fl R normal incoming_ray
      = mirror_vector_leaving normal incoming_ray := by
  obtain ⟨h1, h2, h3, h4⟩ := h
  unfold mirror_vector_leaving_fl mirror_vector_leaving
  rw [R.dot_eq h1, R.mul_eq h2, R.smul_eq h3, R.vadd_eq h4]

/-- More whole numbers that are `double`s. -/
theorem ieee_keeps_whole_more :
    ∀ n ∈ ([-2, -3, -4, 6, 8, 9, 16] : List Int),
      binary64_rnd ((n : Int) : ℚ) = fin ((n : Int) : ℚ) := by
  decide!

/-- No operation rounds when the vector `(0, 0, -1)` is mirrored at the
normal `(0, 0, 1)`. -/
theorem ex_mirror_exact :
    mirror_exact (Rounding.binary64 Real.sqrt) Real.sqrt (Vector3.lift ⟨0, 0, 1⟩)
      (Vector3.lift ⟨0, 0, -1⟩) := by
  have key : ∀ n : Int, n ∈ ([0, 1, 2, 3, 4, 5, 7, 21, 25, -1, -5] : List Int) →
      (Rounding.binary64 Real.sqrt).round (fin ((n : Int) : ℝ)) = fin ((n : Int) : ℝ) :=
    fun n hn => binary64_round_int Real.sqrt n (ieee_keeps_whole n hn)
  have key' : ∀ n : Int, n ∈ ([-2, -3, -4, 6, 8, 9, 16] : List Int) →
      (Rounding.binary64 Real.sqrt).round (fin ((n : Int) : ℝ)) = fin ((n : Int) : ℝ) :=
    fun n hn => binary64_round_int Real.sqrt n (ieee_keeps_whole_more n hn)
  have k0 := key 0 (by simp)
  have k1 := key 1 (by simp)
  have k2 := key 2 (by simp)
  have km1 := key (-1) (by simp)
  have km2 := key' (-2) (by simp)
  norm_num at k0 k1 k2 km1 km2
  have hs1 : (Rounding.binary64 Real.sqrt).sqrt 1 = fin 1 := by
    show binary64_rnd (Real.sqrt 1) = fin 1
    rw [Real.sqrt_one]
    exact k1
  simp [mirror_exact, Rounding.KeepsSub, Rounding.KeepsAdd, Rounding.KeepsDot, Rounding.Keeps,
    Rounding.KeepsSmul, Rounding.KeepsSqrt, Vector3.lift, Vector3.dot, Vector3.smul,
    Vector3.vec_sub_mk, Vector3.vec_add_mk, Vector3.vec_neg_mk, real_t.sqrt, Rounding.sqrt_t]
  norm_num [k0, k1, k2, km1, km2, hs1]

/-! ## The refracted direction in double arithmetic -/

/-- A product of a vector and a scalar whose operations do not round. -/
theorem Rounding.muls_eq (R : Rounding K) {k : real_t K} {v : Vector3 (real_t K)}
    (h : R.KeepsMuls v k) : R.muls v k = Vector3.muls v k := by
  obtain ⟨h1, h2, h3⟩ := h
  show (⟨R.round (v.x * k), R.round (v.y * k), R.round (v.z * k)⟩ : Vector3 (real_t K))
    = ⟨v.x * k, v.y * k, v.z * k⟩
  rw [h1, h2, h3]

/-- A quotient of a vector and a scalar whose operations do not round. -/
theorem Rounding.divs_eq (R : Rounding K) {k : real_t K} {v : Vector3 (real_t K)}
    (h : R.KeepsDivs v k) : R.divs v k = Vector3.divs v k := by
  obtain ⟨h1, h2, h3⟩ := h
  show (⟨R.round (v.x / k), R.round (v.y / k), R.round (v.z / k)⟩ : Vector3 (real_t K))
    = ⟨v.x / k, v.y / k, v.z / k⟩
  rw [h1, h2, h3]

/-- A square that does not round. -/
theorem Rounding.pow2_eq (R : Rounding K) {x : real_t K} (h : R.Keeps (x * x)) :
    R.pow2 x = x * x := h

/-- `Sphere::compute_refr_ray` in `double` arithmetic by its discriminant. -/
theorem Sphere.compute_refr_ray_fl_eq (R : Rounding K) (n nt : real_t K)
    (normal dir : Vector3 (real_t K)) :
    Sphere.compute_refr_ray_fl R n nt normal dir =
      if (Sphere.refr_discriminant_fl R n nt normal dir).lt (fin 0) then ⟨fin 0, fin 0, fin 0⟩
      else R.normalize (Sphere.refr_vector_fl R n nt normal dir) := rfl

/-- The discriminant of the refraction in `double` arithmetic, when no
operation rounds. -/
theorem Sphere.refr_discriminant_fl_eq (R : Rounding K) (n nt : real_t K)
    (normal dir : Vector3 (real_t K))
    (h : R.Keeps (n * n) ∧ R.KeepsDot dir normal ∧
      R.Keeps (Vector3.dot dir normal * Vector3.dot dir normal) ∧
      R.Keeps (fin 1 - Vector3.dot dir normal * Vector3.dot dir normal) ∧
      R.Keeps (n * n * (fin 1 - Vector3.dot dir normal * Vector3.dot dir normal)) ∧
      R.Keeps (nt * nt) ∧
      R.Keeps ((n * n * (fin 1 - Vector3.dot dir normal * Vector3.dot dir normal))
        / (nt * nt)) ∧
      R.Keeps (fin 1 - (n * n * (fin 1 - Vector3.dot dir normal * Vector3.dot dir normal))
        / (nt * nt))) :
    Sphere.refr_discriminant_fl R n nt normal dir = Sphere.refr_discriminant n nt normal dir := by
  obtain ⟨h1, h2, h3, h4, h5, h6, h7, h8⟩ := h
  unfold Sphere.refr_discriminant_fl Sphere.refr_discriminant
  simp only [real_t.pow_two']
  rw [R.pow2_eq h1, R.dot_eq h2, R.pow2_eq h3, R.sub_eq h4, R.mul_eq h5, R.pow2_eq h6,
    R.div_eq h7, R.sub_eq h8]

/-- The vector that `compute_refr_ray` normalises in `double` arithmetic,
when no operation rounds. -/
theorem Sphere.refr_vector_fl_eq (R : Rounding K) (sqrtK : K → K) (n nt : real_t K)
    (normal dir : Vector3 (real_t K)) (h : refr_exact R sqrtK n nt normal dir) :
    Sphere.refr_discriminant_fl R n nt normal dir = Sphere.refr_discriminant n nt normal dir ∧
    Sphere.refr_vector_fl R n nt normal dir = Sphere.refr_vector sqrtK n nt normal dir := by
  obtain ⟨h1, ⟨g1, g2, g3, g4, g5, g6, g7⟩, -⟩ := h
  have hd := Sphere.refr_discriminant_fl_eq R n nt normal dir h1
  have hD : Sphere.refr_discriminant n nt normal dir
      = fin 1 - (n * n * (fin 1 - Vector3.dot dir normal * Vector3.dot dir normal))
        / (nt * nt) := by
    unfold Sphere.refr_discriminant
    simp only [real_t.pow_two']
  refine ⟨hd, ?_⟩
  unfold Sphere.refr_vector_fl Sphere.refr_vector
  rw [hd, hD, R.dot_eq h1.2.1, R.muls_eq g1, R.vsub_eq g2, R.smul_eq g3, R.divs_eq g4,
    R.sqrt_eq g5, R.muls_eq g6, R.vsub_eq g7]

/-- No operation rounds when the direction `(0, 0, -1)` is refracted at the
normal `(0, 0, 1)` from the index 1 to the index 2. -/
theorem ex_refr_exact :
    refr_exact (Rounding.binary64 Real.sqrt) Real.sqrt (fin 1) (fin 2) (Vector3.lift ⟨0, 0, 1⟩)
      (Vector3.lift ⟨0, 0, -1⟩) := by
  have key : ∀ n : Int, n ∈ ([0, 1, 2, 3, 4, 5, 7, 21, 25, -1, -5] : List Int) →
      (Rounding.binary64 Real.sqrt).round (fin ((n : Int) : ℝ)) = fin ((n : Int) : ℝ) :=
    fun n hn => binary64_round_int Real.sqrt n (ieee_keeps_whole n hn)
  have k0 := key 0 (by simp)
  have k1 := key 1 (by simp)
  have k4 := key 4 (by simp)
  have km1 := key (-1) (by simp)
  norm_num at k0 k1 k4 km1
  have hs1 : (Rounding.binary64 Real.sqrt).sqrt 1 = fin 1 := by
    show binary64_rnd (Real.sqrt 1) = fin 1
    rw [Real.sqrt_one]
    exact k1
  simp [refr_exact, Rounding.KeepsSub, Rounding.KeepsDot, Rounding.Keeps, Rounding.KeepsSmul,
    Rounding.KeepsMuls, Rounding.KeepsDivs, Rounding.KeepsSqrt, Vector3.lift, Vector3.dot,
    Vector3.smul, Vector3.muls, Vector3.divs, Vector3.vec_sub_mk, real_t.sqrt, Rounding.sqrt_t,
    fin_div_fin]
  norm_num [k0, k1, k4, km1, hs1]

/-! ## The basis of the camera in double arithmetic -/

/-- A cross product whose operations do not round. -/
theorem Rounding.cross_eq (R : Rounding K) {a b : Vector3 (real_t K)} (h : R.KeepsCross a b) :
    R.cross a b = Vector3.cross a b := by
  obtain ⟨h1, h2, h3⟩ := h
  unfold Rounding.cross Vector3.cross
  rw [R.det_eq h1, R.det_eq h2, R.det_eq h3]

/-- A unit vector that is computed without rounding. -/
theorem Rounding.normalize_eq (R : Rounding K) {sqrtK : K → K} {v : Vector3 (real_t K)}
    (h : R.KeepsNormalize sqrtK v) : R.normalize v = Vector3.normalize sqrtK v := by
  obtain ⟨h1, h2, h3, h4, h5⟩ := h
  unfold Rounding.normalize Vector3.normalize
  simp only [R.dot_eq h1, R.sqrt_eq h2, R.div_eq h3, R.div_eq h4, R.div_eq h5]

/-- The basis that `Raytracer::initialize` computes in `double` arithmetic,
when no operation rounds. -/
theorem Raytracer.initialize_fl_basis (R : Rounding K) (sqrtK : K → K)
    (tanK : real_t K → real_t K) (camera : Camera K) (width height : Nat)
    (h : basis_exact R sqrtK camera.direction camera.up) :
    ( Raytracer.initialize_fl R tanK camera width height).u
      = ( Raytracer.initialize sqrtK tanK camera width height).u ∧
    ( Raytracer.initialize_fl R tanK camera width height).v
      = ( Raytracer.initialize sqrtK tanK camera width height).v ∧
    ( Raytracer.initialize_fl R tanK camera width height).w
      = ( Raytracer.initialize sqrtK tanK camera width height).w := by
  obtain ⟨h1, h2, h3, h4⟩ := h
  unfold Raytracer.initialize_fl Raytracer.initialize
  simp only [R.normalize_eq h1, R.cross_eq h2, R.normalize_eq h3, R.cross_eq h4, and_self]

/-- No operation rounds when the basis of the example camera is computed. -/
theorem ex_camera_basis_exact :
    basis_exact (Rounding.binary64 Real.sqrt) Real.sqrt (ex_camera ℝ).direction
      (ex_camera ℝ).up := by
  have key : ∀ n : Int, n ∈ ([0, 1, 2, 3, 4, 5, 7, 21, 25, -1, -5] : List Int) →
      (Rounding.binary64 Real.sqrt).round (fin ((n : Int) : ℝ)) = fin ((n : Int) : ℝ) :=
    fun n hn => binary64_round_int Real.sqrt n (ieee_keeps_whole n hn)
  have k0 := key 0 (by simp)
  have k1 := key 1 (by simp)
  have km1 := key (-1) (by simp)
  norm_num at k0 k1 km1
  have hs1 : (Rounding.binary64 Real.sqrt).sqrt 1 = fin 1 := by
    show binary64_rnd (Real.sqrt 1) = fin 1
    rw [Real.sqrt_one]
    exact k1
  simp [basis_exact, Rounding.KeepsNormalize, Rounding.KeepsCross, Rounding.KeepsDet,
    Rounding.KeepsDot, Rounding.Keeps, Rounding.KeepsDivs, Rounding.KeepsSqrt, ex_camera,
    Vector3.lift, Vector3.dot, Vector3.cross, Vector3.normalize, real_t.sqrt, Rounding.sqrt_t,
    fin_div_fin]
  norm_num [k0, k1, km1, hs1, fin_div_fin]

/-! ## Occlusion in double arithmetic -/

/-- The inner loop of `compute_diffuse` in `double` arithmetic leaves 0 when
a primitive passes the occlusion test, else 1. -/
theorem shadow_loop_fl_eq (R : Rounding K)
    (light_vector slope_pos surface_pos : Vector3 (real_t K)) (dist : real_t K)
    (objs : List (Geometry K)) :
    shadow_loop_fl R light_vector slope_pos surface_pos dist objs =
      if objs.any (fun geo =>
        (geo.shadow_intersection_fl R light_vector slope_pos).ne (fin (-1)) &&
          (R.distance (R.vadd slope_pos (R.muls light_vector
            (geo.shadow_intersection_fl R light_vector slope_pos))) surface_pos).lt dist)
      then fin 0 else fin 1 := by
  induction objs with
  | nil => rfl
  | cons geo rest ih =>
    simp only [shadow_loop_fl, List.any_cons, ih]
    by_cases h1 : (geo.shadow_intersection_fl R light_vector slope_pos).ne (fin (-1)) = true
    · by_cases h2 : (R.distance (R.vadd slope_pos (R.muls light_vector
          (geo.shadow_intersection_fl R light_vector slope_pos))) surface_pos).lt dist = true
      · simp [h1, h2]
      · simp [h1, h2]
    · simp [h1]

/-! ## A triangle of one material in double arithmetic -/

/-- The interpolation of one colour at three vertices in `double`
arithmetic, when no operation rounds. -/
theorem Rounding.mix_eq (R : Rounding K) (a b c : real_t K) (col : Color3 K)
    (h : R.KeepsMix a b c col) :
    R.cadd (R.cadd (R.csmul a col) (R.csmul b col)) (R.csmul c col)
      = Color3.smul a col + Color3.smul b col + Color3.smul c col := by
  obtain ⟨h1, h2, h3⟩ := h
  show (⟨R.add (R.add (R.mul a col.r) (R.mul b col.r)) (R.mul c col.r),
      R.add (R.add (R.mul a col.g) (R.mul b col.g)) (R.mul c col.g),
      R.add (R.add (R.mul a col.b) (R.mul b col.b)) (R.mul c col.b)⟩ : Color3 K)
    = ⟨a * col.r + b * col.r + c * col.r, a * col.g + b * col.g + c * col.g,
        a * col.b + b * col.b + c * col.b⟩
  rw [R.sum_eq h1, R.sum_eq h2, R.sum_eq h3]

/-- `Triangle::color_at_pixel` in `double` arithmetic by its interpolated
colours. -/
theorem Triangle.color_at_pixel_fl_eq [FloorRing K] (R : Rounding K) (tri : Triangle K)
    (g : Globals K) (scene : Scene K) (surface_pos : Vector3 (real_t K)) :
    tri.color_at_pixel_fl R g scene surface_pos =
      (tri.compute_texture_fl R g).bind (fun tex_color =>
        Except.ok (R.cmul tex_color (R.cadd (R.cmul scene.ambient_light (tri.bary_ambient_fl R g))
          (R.cmul (tri.bary_diffuse_fl R g)
            (Triangle.compute_diffuse_fl R scene (tri.normal_of_fl R g surface_pos)
              surface_pos))))) :=
  rfl

/-! ## The claims -/

/-- In the scene of the example sphere and the example triangle no sphere
stores `NaN` for the example ray. -/
theorem ex_objs_spheres_ne_nan :
    ∀ S, Geometry.sphere S ∈ [Geometry.sphere (ex_sphere ℝ), Geometry.triangle (ex_triangle ℝ)] →
      (S.is_intersecting Real.sqrt (Vector3.lift (ex_down ℝ)) (Vector3.lift (ex_origin ℝ))
        UNINITIALIZED).2 ≠ nan := by
  intro S hS
  simp only [List.mem_cons, Geometry.sphere.injEq, List.mem_singleton, reduceCtorEq, or_false,
    List.not_mem_nil] at hS
  subst hS
  exact Sphere.stored_ne_nan Real.sqrt isSqrt_real (ex_sphere ℝ) _ _ (ex_origin ℝ) (ex_down ℝ)
    ⟨0, 0, 0⟩ 2 rfl rfl rfl rfl (Or.inr (Or.inr (by norm_num [ex_down])))

/-- Claim C1, amended.  Nearest-hit search: when no sphere of the scene stores `NaN`
for the ray, the running time after the loop over all primitives, started
from the unset time -1, is -1 exactly when no primitive has an own hit time;
it is at most the own hit time of every primitive that the ray hits; and when
some primitive is hit, the selected primitive is in the scene and its own hit
time is the running time, so the running time is the minimum of the own hit
times. -/
theorem nearest_hit_is_minimum (sqrtK : K → K) (dir e : Vector3 (real_t K))
    (objs : List (Geometry K)) (g : Globals K)
    (hnan : ∀ S, Geometry.sphere S ∈ objs →
      (S.is_intersecting sqrtK dir e UNINITIALIZED).2 ≠ nan) :
    ((nearest_hit_loop sqrtK dir e objs 0 UNINITIALIZED 0 g).1 = UNINITIALIZED ↔
      ∀ geo ∈ objs, ∀ g', geo.own_hit sqrtK dir e g' = none) ∧
    (∀ geo ∈ objs, ∀ g' t, geo.own_hit sqrtK dir e g' = some t →
      (nearest_hit_loop sqrtK dir e objs 0 UNINITIALIZED 0 g).1.le t = true) ∧
    ((∃ geo ∈ objs, ∃ g' t, geo.own_hit sqrtK dir e g' = some t) →
      ∃ sel, objs.get? (nearest_hit_loop sqrtK dir e objs 0 UNINITIALIZED 0 g).2.1 = some sel ∧
        ∀ g', sel.own_hit sqrtK dir e g'
          = some (nearest_hit_loop sqrtK dir e objs 0 UNINITIALIZED 0 g).1) := by
  have hgood := scene_candidates_good sqrtK dir e objs hnan
  have hT := nearest_hit_loop_time sqrtK dir e objs 0 UNINITIALIZED 0 g hgood
  simp only [Geometry.own_hit_eq]
  have hmem : ∀ geo ∈ objs, ∀ t, geo.candidate sqrtK dir e = some t →
      some t ∈ objs.map (fun x => x.candidate sqrtK dir e) := fun geo hgeo t ht =>
    List.mem_map.mpr ⟨geo, hgeo, ht⟩
  have hunset : ((nearest_hit_loop sqrtK dir e objs 0 UNINITIALIZED 0 g).1 = UNINITIALIZED ↔
      ∀ geo ∈ objs, geo.candidate sqrtK dir e = none) := by
    rw [hT]
    cases hb : best (objs.map (fun x => x.candidate sqrtK dir e)) with
    | none =>
      simp only [cand_update_none, true_iff]
      intro geo hgeo
      exact (best_eq_none _).mp hb _ (List.mem_map.mpr ⟨geo, hgeo, rfl⟩)
    | some b =>
      have hgb : Good b := best_good _ hgood b hb
      obtain ⟨geo, hgeo, hc⟩ := List.mem_map.mp (best_mem _ b hb)
      simp only [cand_update_some, UNINITIALIZED, eq_fin_fin, decide_True, Bool.or_true, if_true]
      constructor
      · intro h; exact absurd h hgb.ne_unset
      · intro h
        have hc' : geo.candidate sqrtK dir e = some b := hc
        rw [h geo hgeo] at hc'
        exact absurd hc' (by simp)
  refine ⟨?_, ?_, ?_⟩
  · rw [hunset]
    constructor
    · intro h geo hgeo _; exact h geo hgeo
    · intro h geo hgeo; exact h geo hgeo g
  · intro geo hgeo _ t ht
    have hm := hmem geo hgeo t ht
    rw [hT]
    cases hb : best (objs.map (fun x => x.candidate sqrtK dir e)) with
    | none => exact absurd ((best_eq_none _).mp hb _ hm) (by simp)
    | some b =>
      simp only [cand_update_some, UNINITIALIZED, eq_fin_fin, decide_True, Bool.or_true, if_true]
      exact best_le _ hgood b hb t hm
  · rintro ⟨geo, hgeo, _, t, ht⟩
    rcases nearest_hit_loop_selected sqrtK dir e objs 0 UNINITIALIZED 0 g with
      ⟨h1, _⟩ | ⟨k, sel, h1, h2, h3⟩
    · rw [hunset.mp h1 geo hgeo] at ht
      exact absurd ht (by simp)
    · refine ⟨sel, ?_, fun _ => h3⟩
      rw [h2, Nat.zero_add]
      exact h1

theorem nearest_hit_is_minimum_witness :
    ((nearest_hit_loop Real.sqrt (Vector3.lift (ex_down ℝ)) (Vector3.lift (ex_origin ℝ))
        [Geometry.sphere (ex_sphere ℝ), Geometry.triangle (ex_triangle ℝ)] 0 UNINITIALIZED 0
        (ex_globals ℝ)).1 = UNINITIALIZED ↔
      ∀ geo ∈ [Geometry.sphere (ex_sphere ℝ), Geometry.triangle (ex_triangle ℝ)], ∀ g',
        geo.own_hit Real.sqrt (Vector3.lift (ex_down ℝ)) (Vector3.lift (ex_origin ℝ)) g' = none) ∧
    (∀ geo ∈ [Geometry.sphere (ex_sphere ℝ), Geometry.triangle (ex_triangle ℝ)], ∀ g' t,
      geo.own_hit Real.sqrt (Vector3.lift (ex_down ℝ)) (Vector3.lift (ex_origin ℝ)) g' = some t →
      (nearest_hit_loop Real.sqrt (Vector3.lift (ex_down ℝ)) (Vector3.lift (ex_origin ℝ))
        [Geometry.sphere (ex_sphere ℝ), Geometry.triangle (ex_triangle ℝ)] 0 UNINITIALIZED 0
        (ex_globals ℝ)).1.le t = true) ∧
    ((∃ geo ∈ [Geometry.sphere (ex_sphere ℝ), Geometry.triangle (ex_triangle ℝ)], ∃ g' t,
        geo.own_hit Real.sqrt (Vector3.lift (ex_down ℝ)) (Vector3.lift (ex_origin ℝ)) g'
          = some t) →
      ∃ sel, [Geometry.sphere (ex_sphere ℝ), Geometry.triangle (ex_triangle ℝ)].get?
          (nearest_hit_loop Real.sqrt (Vector3.lift (ex_down ℝ)) (Vector3.lift (ex_origin ℝ))
            [Geometry.sphere (ex_sphere ℝ), Geometry.triangle (ex_triangle ℝ)] 0 UNINITIALIZED 0
            (ex_globals ℝ)).2.1 = some sel ∧
        ∀ g', sel.own_hit Real.sqrt (Vector3.lift (ex_down ℝ)) (Vector3.lift (ex_origin ℝ)) g'
          = some (nearest_hit_loop Real.sqrt (Vector3.lift (ex_down ℝ))
            (Vector3.lift (ex_origin ℝ))
            [Geometry.sphere (ex_sphere ℝ), Geometry.triangle (ex_triangle ℝ)] 0 UNINITIALIZED 0
            (ex_globals ℝ)).1) :=
  nearest_hit_is_minimum Real.sqrt (Vector3.lift (ex_down ℝ)) (Vector3.lift (ex_origin ℝ))
    [Geometry.sphere (ex_sphere ℝ), Geometry.triangle (ex_triangle ℝ)] (ex_globals ℝ)
    ex_objs_spheres_ne_nan

/-- Claim C2.  On the scene without primitives, for the in-range pixel (0, 0)
of a 1 x 1 image, `trace_pixel` does not return the background colour: the
read of `sceneObjects[0]` is past the end of the array. -/
theorem trace_pixel_empty_scene_reads_past_end :
    Raytracer.trace_pixel Rat.sqrt (ex_shading ℚ) (ex_raytracer ℚ) (ex_empty_scene ℚ) 0 0 1 1
      (ex_globals ℚ) = none ∧
    Raytracer.trace_pixel Rat.sqrt (ex_shading ℚ) (ex_raytracer ℚ) (ex_empty_scene ℚ) 0 0 1 1
      (ex_globals ℚ) ≠ some (ex_empty_scene ℚ).background_color := by
  have h : Raytracer.trace_pixel Rat.sqrt (ex_shading ℚ) (ex_raytracer ℚ) (ex_empty_scene ℚ)
      0 0 1 1 (ex_globals ℚ) = none := by
    simp [Raytracer.trace_pixel, ex_empty_scene]
  exact ⟨h, by rw [h]; simp⟩

/-- The sphere test in exact arithmetic.  For a sphere and a ray with finite local data `E`, `d`, `c`,
`R` and a non-zero local direction `d`, `Sphere::is_intersecting` queried from
the unset time reports a hit if and only if some `t > 0` satisfies
`|E + t d - c|² = R²`, and then the time it stores is the smallest such
positive `t`. -/
theorem sphere_hit_iff_positive_root (sqrtK : K → K) (hs : IsSqrt sqrtK) (S : Sphere K)
    (s e : Vector3 (real_t K)) (E d c : Vector3 K) (R : K)
    (hE : S.transform_point e = Vector3.lift E) (hd : S.transform_vector s = Vector3.lift d)
    (hc : S.transform_point S.position = Vector3.lift c) (hR : S.radius = fin R)
    (hd0 : d.x ≠ 0 ∨ d.y ≠ 0 ∨ d.z ≠ 0) :
    ((S.is_intersecting sqrtK s e UNINITIALIZED).1.ne NOINTERSECTION = true ↔
      ∃ t : K, 0 < t ∧ on_sphere E d c R t) ∧
    ((S.is_intersecting sqrtK s e UNINITIALIZED).1.ne NOINTERSECTION = true →
      ∃ t : K, (S.is_intersecting sqrtK s e UNINITIALIZED).2 = fin t ∧ 0 < t ∧
        on_sphere E d c R t ∧ ∀ t' : K, 0 < t' → on_sphere E d c R t' → t ≤ t') := by
  rw [Sphere.is_intersecting_candidate]
  rcases Sphere.local_min_spec sqrtK hs S s e E d c R hE hd hc hR hd0 with
    ⟨hnone, hno⟩ | ⟨t, hsome, ht, hon, hmin⟩
  · rw [hnone]
    simp only [real_t.ne, NOINTERSECTION, eq_fin_fin, decide_True, Bool.not_true]
    constructor
    · constructor
      · intro h; exact absurd h (by simp)
      · rintro ⟨t, ht, hon⟩; exact absurd hon (hno t ht)
    · intro h; exact absurd h (by simp)
  · rw [hsome]
    have hu : ((fin t).lt (UNINITIALIZED : real_t K) || (UNINITIALIZED : real_t K).eq (fin (-1))) = true := by
      simp [UNINITIALIZED]
    simp only [hu, if_true]
    constructor
    · constructor
      · intro _; exact ⟨t, ht, hon⟩
      · intro _; simp [real_t.ne, NOINTERSECTION]
    · intro _; exact ⟨t, rfl, ht, hon, hmin⟩

/-- The centred sphere in exact arithmetic.  For a sphere of radius `R ≥ 0` centred at the origin with the
identity transform and a ray whose origin `o` is at distance `D > R` from the
centre and whose unit direction `dir` points at the centre (`o + D dir` is
the centre), `Sphere::is_intersecting` queried from the unset time reports a
hit (returns 1) and stores `t = D - R`. -/
theorem sphere_centered_hit_time (sqrtK : K → K) (hs : IsSqrt sqrtK) (S : Sphere K)
    (o dir : Vector3 K) (R D : K)
    (hpos : S.position = Vector3.lift ⟨0, 0, 0⟩) (hI : S.inv_trans = Matrix4.identity K)
    (hrad : S.radius = fin R) (hR : 0 ≤ R) (hDR : R < D)
    (hunit : Vector3.dot dir dir = 1)
    (hx : o.x + D * dir.x = 0) (hy : o.y + D * dir.y = 0) (hz : o.z + D * dir.z = 0) :
    S.is_intersecting sqrtK (Vector3.lift dir) (Vector3.lift o) UNINITIALIZED
      = (fin 1, fin (D - R)) := by
  have hE : S.transform_point (Vector3.lift o) = Vector3.lift o := by
    simp [Sphere.transform_point, hI, Matrix4.identity]
  have hd : S.transform_vector (Vector3.lift dir) = Vector3.lift dir := by
    simp [Sphere.transform_vector, hI, Matrix4.identity]
  have hc : S.transform_point S.position = Vector3.lift ⟨0, 0, 0⟩ := by
    simp [Sphere.transform_point, hI, Matrix4.identity, hpos]
  have hdd : Vector3.dot dir dir ≠ 0 := by rw [hunit]; exact one_ne_zero
  have hox : (o - (⟨0, 0, 0⟩ : Vector3 K)).x = o.x - 0 := rfl
  have hoy : (o - (⟨0, 0, 0⟩ : Vector3 K)).y = o.y - 0 := rfl
  have hoz : (o - (⟨0, 0, 0⟩ : Vector3 K)).z = o.z - 0 := rfl
  have hu : dir.x * dir.x + dir.y * dir.y + dir.z * dir.z = 1 := hunit
  have hb : Vector3.dot dir (o - ⟨0, 0, 0⟩) = -D := by
    simp only [Vector3.dot, hox, hoy, hoz]
    linear_combination dir.x * hx + dir.y * hy + dir.z * hz - D * hu
  have hec : Vector3.dot (o - ⟨0, 0, 0⟩) (o - ⟨0, 0, 0⟩) = D * D := by
    simp only [Vector3.dot, hox, hoy, hoz]
    linear_combination (o.x - D * dir.x) * hx + (o.y - D * dir.y) * hy + (o.z - D * dir.z) * hz
      + D * D * hu
  have hdisc : (-D) * (-D) - 1 * (D * D - R * R) = R * R := by ring
  rw [Sphere.is_intersecting_candidate, Sphere.local_min_fin sqrtK S _ _ o dir ⟨0, 0, 0⟩ R hE hd hc hrad hdd]
  simp only [dot_neg_left, hb, hec, hunit, hdisc, sqrt_mul_self hs hR]
  have h0 : 0 ≤ R * R := mul_self_nonneg R
  have h1 : ¬ ((- -D + R) / 1 ≤ 0) := by
    rw [div_one]; linarith
  have h2 : ¬ ((- -D - R) / 1 ≤ 0) := by
    rw [div_one]; linarith
  simp only [if_pos h0, if_neg h1, if_neg h2]
  simp [UNINITIALIZED]

/-- The triangle test in exact arithmetic.  For a triangle with finite local vertices `a`, `b`, `c` and a
ray with finite local origin `e1` and direction `d` whose determinant `M` is
not zero, the values `beta`, `gamma`, `TIME` that `Triangle::is_intersecting`
computes are finite and are the unique solution of
`a + β (b - a) + γ (c - a) = e1 + t d`; a query from the unset time reports a
hit if and only if `t ≥ 0`, `β ≥ 0`, `γ ≥ 0` and `β + γ ≤ 1`; and
`Model::intersects_triangle` on the same system records a hit under the same
condition. -/
theorem triangle_cramer_solution (tri : Triangle K) (s e : Vector3 (real_t K)) (g : Globals K)
    (a b c d e1 : Vector3 K)
    (ha : (tri.vertices 0).position = Vector3.lift a)
    (hb : (tri.vertices 1).position = Vector3.lift b)
    (hc : (tri.vertices 2).position = Vector3.lift c)
    (hd : tri.transform_vector s = Vector3.lift d)
    (he : tri.transform_point e = Vector3.lift e1)
    (hM : (tri.system s e).M ≠ fin 0) :
    ∃ β γ t : K,
      (tri.system s e).beta = fin β ∧ (tri.system s e).gamma = fin γ ∧
      (tri.system s e).TIME = fin t ∧
      meets a b c d e1 β γ t ∧
      (∀ β' γ' t' : K, meets a b c d e1 β' γ' t' → β' = β ∧ γ' = γ ∧ t' = t) ∧
      ((tri.is_intersecting s e UNINITIALIZED g).ret.ne (fin 0) = true ↔
        0 ≤ t ∧ 0 ≤ β ∧ 0 ≤ γ ∧ β + γ ≤ 1) ∧
      (∀ (m : Model K) (triangle : MeshTriangle) (s' e' : Vector3 (real_t K)) (g' : Globals K),
        m.system triangle s' e' = tri.system s e →
        ((m.intersects_triangle triangle s' e' UNINITIALIZED g').ret.eq (fin 1) = true ↔
          0 ≤ t ∧ 0 ≤ β ∧ 0 ≤ γ ∧ β + γ ≤ 1)) := by
  have hsys : tri.system s e = ⟨fin (detM a b c d), fin (numBeta a c d e1) / fin (detM a b c d),
          fin (numGamma a b d e1) / fin (detM a b c d),
          fin (numTime a b c e1) / fin (detM a b c d)⟩ := by
    unfold Triangle.system
    rw [ha, hb, hc, hd, he, cramer_lift]
  have hdet : detM a b c d ≠ 0 := by
    intro h0
    apply hM
    rw [hsys, h0]
  have hsys' : tri.system s e = ⟨fin (detM a b c d), fin (numBeta a c d e1 / detM a b c d),
      fin (numGamma a b d e1 / detM a b c d), fin (numTime a b c e1 / detM a b c d)⟩ := by
    rw [hsys]
    simp only [fin_div_fin_of_ne _ hdet]
  have hvalid : ∀ r : Cramer K, r = ⟨fin (detM a b c d), fin (numBeta a c d e1 / detM a b c d),
      fin (numGamma a b d e1 / detM a b c d), fin (numTime a b c e1 / detM a b c d)⟩ →
      (r.valid = true ↔ 0 ≤ numTime a b c e1 / detM a b c d ∧ 0 ≤ numBeta a c d e1 / detM a b c d ∧
        0 ≤ numGamma a b d e1 / detM a b c d ∧
        numBeta a c d e1 / detM a b c d + numGamma a b d e1 / detM a b c d ≤ 1) := by
    intro r hr
    subst hr
    rw [Cramer.valid_iff]
    simp only [ge_fin_fin, le_fin_fin, fin_sub_fin, decide_eq_true_eq]
    constructor
    · rintro ⟨h1, h2, h3, h4, h5⟩
      exact ⟨h1, h4, h2, by linarith⟩
    · rintro ⟨h1, h2, h3, h4⟩
      exact ⟨h1, h3, by linarith, h2, by linarith⟩
  refine ⟨_, _, _, by rw [hsys'], by rw [hsys'], by rw [hsys'], meets_cramer a b c d e1 hdet,
    ?_, ?_, ?_⟩
  · intro β' γ' t' h
    exact meets_unique a b c d e1 hdet β' γ' t' h
  · rw [Triangle.is_intersecting_eq, ← hvalid _ hsys']
    by_cases hv : (tri.system s e).valid = true
    · simp [hv, UNINITIALIZED, real_t.ne]
    · simp [hv, real_t.ne]
  · intro m triangle s' e' g' hsame
    rw [Model.intersects_triangle_eq, ← hvalid _ (hsame.trans hsys')]
    by_cases hv : (m.system triangle s' e').valid = true
    · simp [hv, UNINITIALIZED]
    · simp [hv]
      norm_num

/-- Claim C6.  When the 3x3 system of a triangle (stand-alone, or member of a
mesh) and a ray is singular (`M = 0`), the intersection test reports no
intersection (`Triangle::is_intersecting` returns 0,
`Model::intersects_triangle` returns -1) and leaves the running best time
unchanged, and the shadow test returns -1. -/
theorem singular_system_no_intersection (tri : Triangle K) (m : Model K) (triangle : MeshTriangle)
    (s e : Vector3 (real_t K)) (T : real_t K) (g : Globals K) :
    ((tri.system s e).M = fin 0 →
      (tri.is_intersecting s e T g).ret = fin 0 ∧ (tri.is_intersecting s e T g).T = T ∧
        tri.shadow_intersection s e = fin (-1)) ∧
    ((m.system triangle s e).M = fin 0 →
      (m.intersects_triangle triangle s e T g).ret = fin (-1) ∧
        (m.intersects_triangle triangle s e T g).T = T ∧
        m.shadow_intersect_triangle triangle s e = fin (-1)) := by
  constructor
  · intro hM
    have hv : (tri.system s e).valid = false := cramer_singular _ _ _ _ _ hM
    have hsh : tri.shadow_intersection s e
        = if (tri.system s e).valid then (tri.system s e).TIME else fin (-1) := rfl
    rw [Triangle.is_intersecting_eq, hsh, hv]
    simp
  · intro hM
    have hv : (m.system triangle s e).valid = false := cramer_singular _ _ _ _ _ hM
    have hsh : m.shadow_intersect_triangle triangle s e
        = if (m.system triangle s e).valid then (m.system triangle s e).TIME else fin (-1) := rfl
    rw [Model.intersects_triangle_eq, hsh, hv]
    simp

theorem singular_system_no_intersection_witness :
    (((ex_triangle ℚ).system (Vector3.lift ⟨1, 0, 0⟩) (Vector3.lift ⟨1 / 4, 1 / 4, 0⟩)).M = fin 0 ∧
      ((ex_triangle ℚ).is_intersecting (Vector3.lift ⟨1, 0, 0⟩) (Vector3.lift ⟨1 / 4, 1 / 4, 0⟩)
        (fin 7) (ex_globals ℚ)).ret = fin 0 ∧
      ((ex_triangle ℚ).is_intersecting (Vector3.lift ⟨1, 0, 0⟩) (Vector3.lift ⟨1 / 4, 1 / 4, 0⟩)
        (fin 7) (ex_globals ℚ)).T = fin 7 ∧
      (ex_triangle ℚ).shadow_intersection (Vector3.lift ⟨1, 0, 0⟩) (Vector3.lift ⟨1 / 4, 1 / 4, 0⟩)
        = fin (-1)) ∧
    (((ex_model ℚ).system ex_face0 (Vector3.lift ⟨1, 0, 0⟩) (Vector3.lift ⟨1 / 4, 1 / 4, 0⟩)).M
        = fin 0 ∧
      ((ex_model ℚ).intersects_triangle ex_face0 (Vector3.lift ⟨1, 0, 0⟩)
        (Vector3.lift ⟨1 / 4, 1 / 4, 0⟩) (fin 7) (ex_globals ℚ)).ret = fin (-1) ∧
      ((ex_model ℚ).intersects_triangle ex_face0 (Vector3.lift ⟨1, 0, 0⟩)
        (Vector3.lift ⟨1 / 4, 1 / 4, 0⟩) (fin 7) (ex_globals ℚ)).T = fin 7 ∧
      (ex_model ℚ).shadow_intersect_triangle ex_face0 (Vector3.lift ⟨1, 0, 0⟩)
        (Vector3.lift ⟨1 / 4, 1 / 4, 0⟩) = fin (-1)) := by
  have h1 : ((ex_triangle ℚ).system (Vector3.lift ⟨1, 0, 0⟩)
      (Vector3.lift ⟨1 / 4, 1 / 4, 0⟩)).M = fin 0 := by
    simp [Triangle.system, cramer, ex_triangle, ex_vertex, Triangle.transform_vector,
      Triangle.transform_point, Matrix4.identity, Vector3.lift]
  have h2 : ((ex_model ℚ).system ex_face0 (Vector3.lift ⟨1, 0, 0⟩)
      (Vector3.lift ⟨1 / 4, 1 / 4, 0⟩)).M = fin 0 := by
    simp [Model.system, cramer, Mesh.get_vertex, ex_model, ex_face0, ex_mesh_vertex,
      Model.transform_vector, Model.transform_point, Matrix4.identity, Vector3.lift]
  exact ⟨⟨h1, (singular_system_no_intersection (ex_triangle ℚ) (ex_model ℚ) ex_face0
      (Vector3.lift ⟨1, 0, 0⟩) (Vector3.lift ⟨1 / 4, 1 / 4, 0⟩) (fin 7) (ex_globals ℚ)).1 h1⟩,
    ⟨h2, (singular_system_no_intersection (ex_triangle ℚ) (ex_model ℚ) ex_face0
      (Vector3.lift ⟨1, 0, 0⟩) (Vector3.lift ⟨1 / 4, 1 / 4, 0⟩) (fin 7) (ex_globals ℚ)).2 h2⟩⟩

/-- The stored weights in exact arithmetic.  Whenever `Triangle::is_intersecting` records a hit (returns a
non-zero value) or `Model::intersects_triangle` records a hit (returns 1), the
weights it stores are finite, satisfy `alpha + beta + gamma = 1`, and each of
them lies in `[0, 1]`. -/
theorem barycentric_partition_of_unity (tri : Triangle K) (m : Model K) (triangle : MeshTriangle)
    (s e : Vector3 (real_t K)) (T : real_t K) (g : Globals K) :
    ((tri.is_intersecting s e T g).ret.ne (fin 0) = true →
      ∃ α β γ : K, (tri.is_intersecting s e T g).g.ALPHA = fin α ∧
        (tri.is_intersecting s e T g).g.BETA = fin β ∧
        (tri.is_intersecting s e T g).g.GAMMA = fin γ ∧
        α + β + γ = 1 ∧ 0 ≤ α ∧ α ≤ 1 ∧ 0 ≤ β ∧ β ≤ 1 ∧ 0 ≤ γ ∧ γ ≤ 1) ∧
    ((m.intersects_triangle triangle s e T g).ret.eq (fin 1) = true →
      ∃ α β γ : K, (m.intersects_triangle triangle s e T g).g.ALPH = fin α ∧
        (m.intersects_triangle triangle s e T g).g.BET = fin β ∧
        (m.intersects_triangle triangle s e T g).g.GAM = fin γ ∧
        α + β + γ = 1 ∧ 0 ≤ α ∧ α ≤ 1 ∧ 0 ≤ β ∧ β ≤ 1 ∧ 0 ≤ γ ∧ γ ≤ 1) := by
  constructor
  · rw [Triangle.is_intersecting_eq]
    intro h
    by_cases hv : (tri.system s e).valid = true
    · by_cases hu : ((tri.system s e).TIME.lt T || T.eq (fin (-1))) = true
      · obtain ⟨α, β, γ, h1, _, h2, h3, h4⟩ := Cramer.valid_weights hv
        rw [if_pos hv, if_pos hu]
        exact ⟨α, β, γ, h1, h2, h3, h4⟩
      · rw [if_pos hv, if_neg hu] at h
        simp [real_t.ne] at h
    · rw [if_neg hv] at h
      simp [real_t.ne] at h
  · rw [Model.intersects_triangle_eq]
    intro h
    by_cases hv : (m.system triangle s e).valid = true
    · by_cases hu : ((m.system triangle s e).TIME.lt T || T.eq (fin (-1))) = true
      · obtain ⟨α, β, γ, _, h1, h2, h3, h4⟩ := Cramer.valid_weights hv
        rw [if_pos hv, if_pos hu]
        exact ⟨α, β, γ, h1, h2, h3, h4⟩
      · rw [if_pos hv, if_neg hu] at h
        norm_num at h
    · rw [if_neg hv] at h
      norm_num at h

/-- Claim C8.  For Sphere, Triangle and Model alike, `is_intersecting` returns
a non-zero value if and only if it changes the running best time `*T`; and
when it changes `*T`, the new value is the hit time it found (its own hit
time) and is strictly less than the previous `*T`, or the previous `*T` was
the unset value -1.  In every other case `*T` is unchanged. -/
theorem is_intersecting_update_policy (sqrtK : K → K) (geo : Geometry K)
    (s e : Vector3 (real_t K)) (T : real_t K) (g : Globals K) :
    ((geo.is_intersecting sqrtK s e T g).ret.ne NOINTERSECTION = true ↔
      (geo.is_intersecting sqrtK s e T g).T ≠ T) ∧
    ((geo.is_intersecting sqrtK s e T g).T ≠ T →
      geo.own_hit sqrtK s e g = some (geo.is_intersecting sqrtK s e T g).T ∧
      ((geo.is_intersecting sqrtK s e T g).T.lt T = true ∨ T = UNINITIALIZED)) := by
  obtain ⟨h1, h2⟩ := geo.is_intersecting_step sqrtK s e T g
  rw [h1, h2, Geometry.own_hit_eq]
  exact cand_update_spec _ T (geo.candidate_ne_unset sqrtK s e)

/-- Claim C9, amended.  For a mesh, a ray and a running best `T0` that is not `NaN`,
`Model::is_intersecting` leaves a running best that is `T0` or the hit time
of a member triangle, that is at most the hit time of every member triangle
with a valid hit and at most `T0` when `T0` is set, and that is set when `T0`
is unset and some member triangle has a valid hit: the minimum of `T0` (when
set) and the valid hit times.  It returns a non-zero value if and only if some
member triangle has a valid hit time strictly below the running best at the
moment it is tested, or the running best is unset at that moment. -/
theorem model_is_intersecting_minimum (m : Model K) (s e : Vector3 (real_t K))
    (T0 : real_t K) (g : Globals K) (hT0 : T0 ≠ nan) :
    ((m.is_intersecting s e T0 g).T = T0 ∨
      ∃ tri ∈ m.mesh.triangles, m.hit_time s e tri = some (m.is_intersecting s e T0 g).T) ∧
    (∀ tri ∈ m.mesh.triangles, ∀ t, m.hit_time s e tri = some t →
      (m.is_intersecting s e T0 g).T.le t = true) ∧
    (T0 ≠ UNINITIALIZED → (m.is_intersecting s e T0 g).T.le T0 = true) ∧
    (T0 = UNINITIALIZED → (∃ tri ∈ m.mesh.triangles, ∃ t, m.hit_time s e tri = some t) →
      (m.is_intersecting s e T0 g).T ≠ UNINITIALIZED) ∧
    ((m.is_intersecting s e T0 g).ret.ne NOINTERSECTION = true ↔
      ∃ pre tri post, m.mesh.triangles = pre ++ tri :: post ∧ ∃ t, m.hit_time s e tri = some t ∧
        (t.lt (m.is_intersecting_loop s e pre (fin 0) T0 g).T = true ∨
          (m.is_intersecting_loop s e pre (fin 0) T0 g).T = UNINITIALIZED)) := by
  have hgood := m.hit_time_good s e m.mesh.triangles
  obtain ⟨hT, _⟩ := m.is_intersecting_loop_spec s e m.mesh.triangles (fin 0) T0 g
  have hmemmap : ∀ tri ∈ m.mesh.triangles, ∀ t, m.hit_time s e tri = some t →
      some t ∈ m.mesh.triangles.map (m.hit_time s e) := fun tri htri t ht =>
    List.mem_map.mpr ⟨tri, htri, ht⟩
  unfold Model.is_intersecting
  rw [hT]
  refine ⟨?_, ?_, ?_, ?_, ?_⟩
  · cases hb : best (m.mesh.triangles.map (m.hit_time s e)) with
    | none => left; rfl
    | some b =>
      rw [cand_update_some]
      split_ifs
      · right
        obtain ⟨tri, htri, h⟩ := List.mem_map.mp (best_mem _ b hb)
        exact ⟨tri, htri, h⟩
      · left; rfl
  · intro tri htri t ht
    have hmem := hmemmap tri htri t ht
    cases hb : best (m.mesh.triangles.map (m.hit_time s e)) with
    | none => exact absurd ((best_eq_none _).mp hb _ hmem) (by simp)
    | some b =>
      have hgb : Good b := best_good _ hgood b hb
      have hle := best_le _ hgood b hb t hmem
      rw [cand_update_some]
      by_cases hu : (b.lt T0 || T0.eq (fin (-1))) = true
      · rw [if_pos hu]; exact hle
      · rw [if_neg hu]
        have hlt : b.lt T0 = false := by
          cases hh : b.lt T0 with
          | false => rfl
          | true => simp [hh] at hu
        exact le_trans' (hgb.le_of_not_lt' hT0 hlt) hle
  · intro hset
    cases hb : best (m.mesh.triangles.map (m.hit_time s e)) with
    | none => exact real_t.le_refl' hT0
    | some b =>
      rw [cand_update_some]
      by_cases hu : (b.lt T0 || T0.eq (fin (-1))) = true
      · rw [if_pos hu]
        rcases Bool.or_eq_true _ _ ▸ hu with h | h
        · exact le_of_lt' h
        · exact absurd (eq_iff.mp h) hset
      · rw [if_neg hu]; exact real_t.le_refl' hT0
  · rintro hunset ⟨tri, htri, t, ht⟩
    have hmem := hmemmap tri htri t ht
    cases hb : best (m.mesh.triangles.map (m.hit_time s e)) with
    | none => exact absurd ((best_eq_none _).mp hb _ hmem) (by simp)
    | some b =>
      have hgb : Good b := best_good _ hgood b hb
      rw [cand_update_some, hunset]
      simp only [UNINITIALIZED, eq_fin_fin, decide_True, Bool.or_true, if_true]
      exact hgb.ne_unset
  · have := m.is_intersecting_loop_ret s e m.mesh.triangles (fin 0) T0 g
    rw [this]
    simp [real_t.ne, NOINTERSECTION]

theorem model_is_intersecting_minimum_witness :
    ((ex_model ℚ).is_intersecting (Vector3.lift (ex_down ℚ)) (Vector3.lift (ex_origin ℚ))
        UNINITIALIZED (ex_globals ℚ)).T.le (fin 5) = true :=
  (model_is_intersecting_minimum (ex_model ℚ) (Vector3.lift (ex_down ℚ))
    (Vector3.lift (ex_origin ℚ)) UNINITIALIZED (ex_globals ℚ)
    (by simp [UNINITIALIZED])).2.1 ex_face0 (by simp [ex_model]) (fin 5)
    (by
      simp [Model.hit_time, Model.system, cramer, Cramer.valid, Mesh.get_vertex, ex_model,
        ex_face0, ex_mesh_vertex, Model.transform_vector, Model.transform_point,
        Matrix4.identity, Vector3.lift, ex_down, ex_origin, fin_div_fin]
      norm_num)

/-- Claim C10.  Whenever `Model::is_intersecting` reports success, the
remembered state is a member triangle with a valid hit whose hit time is the
final running best: `min_triangle` is that triangle and `ALPH`, `BET`, `GAM`
are the barycentric weights `1 - gamma - beta`, `beta`, `gamma` of that
hit. -/
theorem model_remembers_winning_triangle (m : Model K) (s e : Vector3 (real_t K))
    (T0 : real_t K) (g : Globals K)
    (h : (m.is_intersecting s e T0 g).ret.ne NOINTERSECTION = true) :
    ∃ tri ∈ m.mesh.triangles, (m.system tri s e).valid = true ∧
      (m.is_intersecting s e T0 g).T = (m.system tri s e).TIME ∧
      (m.is_intersecting s e T0 g).g.min_triangle = tri ∧
      (m.is_intersecting s e T0 g).g.ALPH
        = fin 1 - (m.system tri s e).gamma - (m.system tri s e).beta ∧
      (m.is_intersecting s e T0 g).g.BET = (m.system tri s e).beta ∧
      (m.is_intersecting s e T0 g).g.GAM = (m.system tri s e).gamma := by
  unfold Model.is_intersecting at h ⊢
  rcases m.is_intersecting_loop_state s e m.mesh.triangles (fin 0) T0 g with ⟨h1, _⟩ | ⟨_, h2⟩
  · rw [h1] at h
    simp [real_t.ne, NOINTERSECTION] at h
  · exact h2

theorem model_remembers_winning_triangle_witness :
    ∃ tri ∈ (ex_model ℚ).mesh.triangles,
      ((ex_model ℚ).system tri (Vector3.lift (ex_down ℚ)) (Vector3.lift (ex_origin ℚ))).valid
        = true ∧
      ((ex_model ℚ).is_intersecting (Vector3.lift (ex_down ℚ)) (Vector3.lift (ex_origin ℚ))
        UNINITIALIZED (ex_globals ℚ)).T
        = ((ex_model ℚ).system tri (Vector3.lift (ex_down ℚ)) (Vector3.lift (ex_origin ℚ))).TIME ∧
      ((ex_model ℚ).is_intersecting (Vector3.lift (ex_down ℚ)) (Vector3.lift (ex_origin ℚ))
        UNINITIALIZED (ex_globals ℚ)).g.min_triangle = tri ∧
      ((ex_model ℚ).is_intersecting (Vector3.lift (ex_down ℚ)) (Vector3.lift (ex_origin ℚ))
        UNINITIALIZED (ex_globals ℚ)).g.ALPH
        = fin 1
          - ((ex_model ℚ).system tri (Vector3.lift (ex_down ℚ)) (Vector3.lift (ex_origin ℚ))).gamma
          - ((ex_model ℚ).system tri (Vector3.lift (ex_down ℚ)) (Vector3.lift (ex_origin ℚ))).beta ∧
      ((ex_model ℚ).is_intersecting (Vector3.lift (ex_down ℚ)) (Vector3.lift (ex_origin ℚ))
        UNINITIALIZED (ex_globals ℚ)).g.BET
        = ((ex_model ℚ).system tri (Vector3.lift (ex_down ℚ)) (Vector3.lift (ex_origin ℚ))).beta ∧
      ((ex_model ℚ).is_intersecting (Vector3.lift (ex_down ℚ)) (Vector3.lift (ex_origin ℚ))
        UNINITIALIZED (ex_globals ℚ)).g.GAM
        = ((ex_model ℚ).system tri (Vector3.lift (ex_down ℚ)) (Vector3.lift (ex_origin ℚ))).gamma :=
  model_remembers_winning_triangle (ex_model ℚ) (Vector3.lift (ex_down ℚ))
    (Vector3.lift (ex_origin ℚ)) UNINITIALIZED (ex_globals ℚ)
    (by
      simp [Model.is_intersecting, Model.is_intersecting_loop, Model.intersects_triangle, cramer,
        Cramer.valid, Mesh.get_vertex, ex_model, ex_face0, ex_face1, ex_mesh_vertex,
        Model.transform_vector, Model.transform_point, Matrix4.identity, Vector3.lift, ex_down,
        ex_origin, real_t.ne, NOINTERSECTION, UNINITIALIZED, fin_div_fin]
      norm_num)

/-- Claim C11.  For every Sphere, Triangle and Model and every ray,
`shadow_intersection` returns the time that `is_intersecting`, started from
the unset time -1, stores in `*T` when that call reports a hit, and -1 when
it reports none; and it returns -1 only when `is_intersecting` reports no
hit. -/
theorem shadow_intersection_agrees_with_is_intersecting (sqrtK : K → K) (geo : Geometry K)
    (s e : Vector3 (real_t K)) (g : Globals K) :
    (geo.shadow_intersection sqrtK s e =
      if (geo.is_intersecting sqrtK s e UNINITIALIZED g).ret.ne NOINTERSECTION
      then (geo.is_intersecting sqrtK s e UNINITIALIZED g).T else fin (-1)) ∧
    (geo.shadow_intersection sqrtK s e = fin (-1) ↔
      (geo.is_intersecting sqrtK s e UNINITIALIZED g).ret.ne NOINTERSECTION = false) := by
  obtain ⟨h1, h2⟩ := geo.is_intersecting_step sqrtK s e UNINITIALIZED g
  rw [h1, h2, Geometry.shadow_intersection_eq]
  have hne := geo.candidate_ne_unset sqrtK s e
  simp only [UNINITIALIZED, cand_update_unset]
  cases hc : geo.candidate sqrtK s e with
  | none => simp
  | some t => simpa using hne t hc

/-- The test of the specification in exact arithmetic, near the light.  In the scene of the low triangle the light
is at the distance `1/2000000` from the origin, nearer than `EPSILON`; the
shadow time `1/4000000` of the triangle is less than the distance
`1/2000000` from the offset point to the light, so the test of the claim
holds, yet the body of the loop in `compute_diffuse` adds the term of the
light (white) to the black total: the light is not occluded. -/
theorem occlusion_test_fails_near_light :
    occluded_by_time Real.sqrt (ex_near_light_scene ℝ) (Vector3.lift ⟨0, 0, 0⟩)
      (Vector3.lift ⟨0, 0, 1 / 2000000⟩) = true ∧
    Sphere.diffuse_light Real.sqrt (ex_near_light_scene ℝ) (Vector3.lift ⟨0, 0, 1⟩)
      (Vector3.lift ⟨0, 0, 0⟩) Color3.Black (ex_light 0 0 (1 / 2000000))
      = ⟨fin 1, fin 1, fin 1⟩ := by
  have hv : ((⟨0, 0, 1 / 2000000⟩ : Vector3 ℝ) - ⟨0, 0, 0⟩).x ≠ 0 ∨
      ((⟨0, 0, 1 / 2000000⟩ : Vector3 ℝ) - ⟨0, 0, 0⟩).y ≠ 0 ∨
      ((⟨0, 0, 1 / 2000000⟩ : Vector3 ℝ) - ⟨0, 0, 0⟩).z ≠ 0 := by
    right; right
    show (1 / 2000000 : ℝ) - 0 ≠ 0
    norm_num
  constructor
  · rw [occluded_by_time_iff isSqrt_real _ _ _ hv]
    refine ⟨Geometry.triangle (ex_low_triangle ℝ), by simp [ex_near_light_scene],
      1 / 4000000, ex_low_triangle_shadow, by norm_num, ?_⟩
    rw [ex_near_light_distance]
    norm_num [abs_of_neg]
  · have hocc : occluded Real.sqrt (ex_near_light_scene ℝ) (Vector3.lift ⟨0, 0, 0⟩)
        (Vector3.lift ⟨0, 0, 1 / 2000000⟩) = false := by
      rw [Bool.eq_false_iff]
      intro h
      rw [occluded_iff isSqrt_real _ _ _ hv] at h
      obtain ⟨geo, hmem, t, h1, h0, hlt⟩ := h
      rw [ex_near_light_distance] at hlt
      linarith
    rw [Sphere.sphere_diffuse_light_eq]
    have hpos : (ex_light (0 : ℝ) 0 (1 / 2000000)).position
        = Vector3.lift ⟨0, 0, 1 / 2000000⟩ := rfl
    rw [hpos, hocc, light_vector_lift isSqrt_real _ _ hv, ex_near_light_unit, distance_lift,
      ex_near_light_distance]
    simp [Sphere.attenuation, ex_light, Color3.muls, Color3.Black, real_t.pow, max_of, real_t.gt,
      Vector3.lift, Vector3.dot, fin_div_fin]
    show Color3.add _ _ = _
    simp [Color3.add]

/-- The occlusion test in exact arithmetic.  For a finite surface point `p` and a light at a
finite position other than `p` whose distance from `p` is at least
`EPSILON`, the inner loop of `compute_diffuse` leaves `b_i = 0` if and only
if some primitive of the scene returns, for the ray from the offset point
`p + EPSILON*L` toward the light, a shadow time other than -1 that is
strictly less than the distance from the offset point to the light; and the
body of the loop over the lights, in the Sphere, Triangle and Model versions,
leaves the total unchanged under that condition and adds the term of the
light otherwise. -/
theorem light_occluded_iff_shadow_time_before_light {sqrtK : K → K} (hs : IsSqrt sqrtK)
    (scene : Scene K) (normal : Vector3 (real_t K)) (p q : Vector3 K) (light : PointLight K)
    (total : Color3 K) (hq : light.position = Vector3.lift q)
    (hpq : (q - p).x ≠ 0 ∨ (q - p).y ≠ 0 ∨ (q - p).z ≠ 0)
    (hfar : 1 / 1000000 ≤ sqrtK (Vector3.dot (q - p) (q - p))) :
    (shadow_loop sqrtK (Vector3.normalize sqrtK (Vector3.lift q - Vector3.lift p))
        (Vector3.lift p
          + Vector3.smul EPSILON (Vector3.normalize sqrtK (Vector3.lift q - Vector3.lift p)))
        (Vector3.lift p) (Vector3.distance sqrtK (Vector3.lift q) (Vector3.lift p))
        scene.geometries = fin 0 ↔
      occluded_by_time sqrtK scene (Vector3.lift p) (Vector3.lift q) = true) ∧
    Sphere.diffuse_light sqrtK scene normal (Vector3.lift p) total light =
      (if occluded_by_time sqrtK scene (Vector3.lift p) (Vector3.lift q) then total
      else total + (Sphere.attenuation (Vector3.distance sqrtK (Vector3.lift q) (Vector3.lift p))
          light (Vector3.lift q) (Vector3.lift p)).muls
        (max_of (Vector3.dot (Vector3.normalize sqrtK (Vector3.lift q - Vector3.lift p)) normal)
          (fin 0))) ∧
    Triangle.diffuse_light sqrtK scene normal (Vector3.lift p) total light =
      (if occluded_by_time sqrtK scene (Vector3.lift p) (Vector3.lift q) then total
      else total + (Triangle.attenuation
          (Vector3.distance sqrtK (Vector3.lift q) (Vector3.lift p))
          light (Vector3.lift q) (Vector3.lift p)).muls
        (Triangle.max
          (Vector3.dot (Vector3.normalize sqrtK (Vector3.lift q - Vector3.lift p)) normal)
          (fin 0))) ∧
    Model.diffuse_light sqrtK scene normal (Vector3.lift p) total light =
      (if occluded_by_time sqrtK scene (Vector3.lift p) (Vector3.lift q) then total
      else total + (Model.attenuation (Vector3.distance sqrtK (Vector3.lift q) (Vector3.lift p))
          light (Vector3.lift q) (Vector3.lift p)).muls
        (Model.max
          (Vector3.dot (Vector3.normalize sqrtK (Vector3.lift q - Vector3.lift p)) normal)
          (fin 0))) := by
  have he := occluded_eq_occluded_by_time hs scene p q hpq hfar
  refine ⟨?_, ?_, ?_, ?_⟩
  · rw [← he, shadow_loop_occluded]
    cases occluded sqrtK scene (Vector3.lift p) (Vector3.lift q) <;> simp
  · rw [Sphere.sphere_diffuse_light_eq, hq, he]
  · rw [Triangle.triangle_diffuse_light_eq, hq, he]
  · rw [Model.model_diffuse_light_eq, hq, he]

/-- Claim C13.  `compute_diffuse`, in the Sphere, Triangle and Model versions
alike, returns the sum over the lights that are not occluded, in the order
of the lights and starting from black, of
`light.color * (1 / (c0 + c1*d + c2*d^2)) * max(0, dot(normal, L))`, where
`d` is the distance from the surface point to the light and `L` the unit
direction to it; with no lights it returns black. -/
theorem compute_diffuse_sums_unoccluded_lights (sqrtK : K → K) (scene : Scene K)
    (normal surface_pos : Vector3 (real_t K)) :
    Sphere.compute_diffuse sqrtK scene normal surface_pos
      = diffuse_sum sqrtK scene normal surface_pos ∧
    Triangle.compute_diffuse sqrtK scene normal surface_pos
      = diffuse_sum sqrtK scene normal surface_pos ∧
    Model.compute_diffuse sqrtK scene normal surface_pos
      = diffuse_sum sqrtK scene normal surface_pos ∧
    Sphere.compute_diffuse sqrtK { scene with point_lights := [] } normal surface_pos
      = Color3.Black ∧
    Triangle.compute_diffuse sqrtK { scene with point_lights := [] } normal surface_pos
      = Color3.Black ∧
    Model.compute_diffuse sqrtK { scene with point_lights := [] } normal surface_pos
      = Color3.Black :=
  ⟨Sphere.sphere_diffuse_eq_sum sqrtK scene normal surface_pos,
    Triangle.triangle_diffuse_eq_sum sqrtK scene normal surface_pos,
    Model.model_diffuse_eq_sum sqrtK scene normal surface_pos, rfl, rfl, rfl⟩

/-- Claim C14, as stated, fails.  At the point `(1/4, 1/4, 1)` of the upper
triangle of the example mesh, whose material has a black diffuse colour, in
the scene with one white light straight above, `Model::color_at_pixel`
returns black, while `texture_color * (ambient_light * ambient + S)` is
white. -/
theorem color_at_pixel_ignores_material_diffuse_fails :
    Model.color_at_pixel Real.sqrt (ex_model ℝ) (ex_hit_globals ℝ) (ex_lit_scene ℝ)
      (Vector3.lift ⟨1 / 4, 1 / 4, 1⟩) = Except.ok ⟨fin 0, fin 0, fin 0⟩ ∧
    (Model.compute_texture (ex_model ℝ) (ex_hit_globals ℝ)).map (fun texture_color =>
      texture_color * ((ex_lit_scene ℝ).ambient_light * (ex_model ℝ).material.ambient
        + diffuse_sum Real.sqrt (ex_lit_scene ℝ)
            (Model.normal_of Real.sqrt (ex_model ℝ) (ex_hit_globals ℝ)
              (Vector3.lift ⟨1 / 4, 1 / 4, 1⟩))
            (Vector3.lift ⟨1 / 4, 1 / 4, 1⟩)))
      = Except.ok ⟨fin 1, fin 1, fin 1⟩ := by
  have htex : Model.compute_texture (ex_model ℝ) (ex_hit_globals ℝ)
      = Except.ok ⟨fin 1, fin 1, fin 1⟩ := by
    simp [Model.compute_texture, Model.compute_texture_at_vertex, ex_model, ex_material,
      Color3.White]
  constructor
  · simp only [Model.color_at_pixel, htex, ex_model_normal, Model.model_diffuse_eq_sum,
      ex_lit_diffuse_sum]
    simp [ex_model, ex_material, ex_black, ex_lit_scene, Color3.col_mul_mk, Color3.col_add_mk, bind,
      Except.bind]
  · rw [htex, ex_model_normal, ex_lit_diffuse_sum]
    simp [ex_model, ex_material, ex_black, ex_lit_scene, Color3.col_mul_mk, Color3.col_add_mk,
      Except.map]

/-- Claim C14, amended.  For every primitive kind and surface point,
`color_at_pixel` returns
`texture_color * (scene.ambient_light * material_ambient + material_diffuse * S)`,
where `S` is the sum over the unoccluded lights of
`attenuation(dist) * light_color * max(0, dot(normal, light_dir))`, and,
for a Triangle, `material_ambient` and `material_diffuse` are the colours of
the three vertex materials blended by the barycentric weights of the hit. -/
theorem color_at_pixel_formula [FloorRing K] (lib : Libm K) (S : Sphere K) (tri : Triangle K)
    (m : Model K) (g : Globals K) (scene : Scene K) (surface_pos : Vector3 (real_t K)) :
    S.color_at_pixel lib scene surface_pos =
      (S.compute_texture lib (S.normal_of lib.sqrt surface_pos)).map (fun texture_color =>
        texture_color * (scene.ambient_light * S.material.ambient
          + S.material.diffuse
            * diffuse_sum lib.sqrt scene (S.normal_of lib.sqrt surface_pos) surface_pos)) ∧
    tri.color_at_pixel lib.sqrt g scene surface_pos =
      (tri.compute_texture g).map (fun texture_color =>
        texture_color * (scene.ambient_light
            * (Color3.smul g.ALPHA (tri.vertices 0).material.ambient
              + Color3.smul g.BETA (tri.vertices 1).material.ambient
              + Color3.smul g.GAMMA (tri.vertices 2).material.ambient)
          + (Color3.smul g.ALPHA (tri.vertices 0).material.diffuse
              + Color3.smul g.BETA (tri.vertices 1).material.diffuse
              + Color3.smul g.GAMMA (tri.vertices 2).material.diffuse)
            * diffuse_sum lib.sqrt scene (tri.normal_of lib.sqrt g surface_pos) surface_pos)) ∧
    m.color_at_pixel lib.sqrt g scene surface_pos =
      (m.compute_texture g).map (fun texture_color =>
        texture_color * (scene.ambient_light * m.material.ambient
          + m.material.diffuse
            * diffuse_sum lib.sqrt scene (m.normal_of lib.sqrt g surface_pos) surface_pos)) := by
  refine ⟨?_, ?_, ?_⟩
  · simp only [Sphere.color_at_pixel, Sphere.sphere_diffuse_eq_sum]
    cases S.compute_texture lib (S.normal_of lib.sqrt surface_pos) <;> rfl
  · simp only [Triangle.color_at_pixel, Triangle.triangle_diffuse_eq_sum]
    cases tri.compute_texture g <;> rfl
  · simp only [Model.color_at_pixel, Model.model_diffuse_eq_sum]
    cases m.compute_texture g <;> rfl

/-- Claim C15 fails on the code.  With the 10 x 10 index texture,
`Triangle::compute_texture_at_vertex` looks up the pixel `(2, -3)` for the
coordinate `(1.2, -0.3)` and the pixel `(2, 7)` for `(0.2, 0.7)`. -/
theorem texture_wrap_differs_for_negative_coordinate :
    Triangle.compute_texture_at_vertex (fin (6 / 5)) (fin (-3 / 10)) (ex_index_material ℚ)
      = Except.ok ⟨fin 2, fin (-3), fin 0⟩ ∧
    Triangle.compute_texture_at_vertex (fin (1 / 5)) (fin (7 / 10)) (ex_index_material ℚ)
      = Except.ok ⟨fin 2, fin 7, fin 0⟩ := by
  have h12 : trunc ((10 : ℚ) * (6 / 5)) = 12 := by
    rw [show (10 : ℚ) * (6 / 5) = ((12 : Int) : ℚ) by norm_num, trunc_intCast]
  have h3 : trunc ((10 : ℚ) * (-3 / 10)) = -3 := by
    rw [show (10 : ℚ) * (-3 / 10) = ((-3 : Int) : ℚ) by norm_num, trunc_intCast]
  have h2 : trunc ((10 : ℚ) * (1 / 5)) = 2 := by
    rw [show (10 : ℚ) * (1 / 5) = ((2 : Int) : ℚ) by norm_num, trunc_intCast]
  have h7 : trunc ((10 : ℚ) * (7 / 10)) = 7 := by
    rw [show (10 : ℚ) * (7 / 10) = ((7 : Int) : ℚ) by norm_num, trunc_intCast]
  have m12 : Int.tmod 12 10 = 2 := by decide
  have m3 : Int.tmod (-3) 10 = -3 := by decide
  have m2 : Int.tmod 2 10 = 2 := by decide
  have m7 : Int.tmod 7 10 = 7 := by decide
  constructor
  · simp only [Triangle.compute_texture_at_vertex, ex_index_material, c_mod, real_t.to_int,
      Int.cast_ofNat, fin_mul_fin, h12, h3, m12, m3, trunc_intCast]
    simp [bind, Except.bind]
  · simp only [Triangle.compute_texture_at_vertex, ex_index_material, c_mod, real_t.to_int,
      Int.cast_ofNat, fin_mul_fin, h2, h7, m2, m7, trunc_intCast]
    simp [bind, Except.bind]

/-- Claim C16 fails on the code.  With the 10 x 10 index texture,
`Model::compute_texture_at_vertex` passes the indices `(-3, 5)` to
`get_texture_pixel` for the coordinate `(-0.35, 0.5)`; the first is outside
`[0, 10)` and is not `floor(-3.5) mod 10 = 6`. -/
theorem texture_index_negative_for_negative_coordinate :
    Model.compute_texture_at_vertex (ex_index_model ℚ) (fin (-7 / 20)) (fin (1 / 2))
      = Except.ok ⟨fin (-3), fin 5, fin 0⟩ ∧
    Int.floor ((10 : ℚ) * (-7 / 20)) % 10 = 6 ∧ Int.floor ((10 : ℚ) * (1 / 2)) % 10 = 5 := by
  have h3 : trunc ((10 : ℚ) * (-7 / 20)) = -3 := by
    unfold trunc
    rw [if_neg (by norm_num), Int.ceil_eq_iff]
    norm_num
  have h5 : trunc ((10 : ℚ) * (1 / 2)) = 5 := by
    rw [show (10 : ℚ) * (1 / 2) = ((5 : Int) : ℚ) by norm_num, trunc_intCast]
  have m3 : Int.tmod (-3) 10 = -3 := by decide
  have m5 : Int.tmod 5 10 = 5 := by decide
  have f4 : Int.floor ((10 : ℚ) * (-7 / 20)) = -4 := by
    rw [Int.floor_eq_iff]
    norm_num
  have f5 : Int.floor ((10 : ℚ) * (1 / 2)) = 5 := by
    rw [show (10 : ℚ) * (1 / 2) = ((5 : Int) : ℚ) by norm_num, Int.floor_intCast]
  refine ⟨?_, ?_, ?_⟩
  · simp only [Model.compute_texture_at_vertex, ex_index_model, ex_index_material, c_mod,
      real_t.to_int, Int.cast_ofNat, fin_mul_fin, h3, h5, m3, m5, trunc_intCast]
    simp [bind, Except.bind]
  · rw [f4]; decide
  · rw [f5]; decide

/-- Claim C17.  For a material whose texture has zero width or zero height,
the texture lookup of Sphere, Triangle and Model returns white for every
coordinate: it does not end in a modulo by zero, and the result is the same
whatever the pixels of the texture are. -/
theorem degenerate_texture_is_white [FloorRing K] (lib : Libm K) (S : Sphere K) (m : Model K)
    (material : Material K) (normal : Vector3 (real_t K)) (u v : real_t K)
    (pixels : Int → Int → Color3 K)
    (hS : S.material.tex_width = 0 ∨ S.material.tex_height = 0)
    (hT : material.tex_width = 0 ∨ material.tex_height = 0)
    (hM : m.material.tex_width = 0 ∨ m.material.tex_height = 0) :
    Sphere.compute_texture lib
        { S with material := { S.material with get_texture_pixel := pixels } } normal
      = Except.ok Color3.White ∧
    Triangle.compute_texture_at_vertex u v { material with get_texture_pixel := pixels }
      = Except.ok Color3.White ∧
    Model.compute_texture_at_vertex
        { m with material := { m.material with get_texture_pixel := pixels } } u v
      = Except.ok Color3.White := by
  refine ⟨?_, ?_, ?_⟩
  · unfold Sphere.compute_texture
    simp only []
    rw [if_pos hS]
  · unfold Triangle.compute_texture_at_vertex
    simp only []
    rw [if_pos hT]
  · unfold Model.compute_texture_at_vertex
    simp only []
    rw [if_pos hM]

theorem degenerate_texture_is_white_witness :
    Sphere.compute_texture (⟨fun x => x, fun a => a, fun a _ => a, fin 3⟩ : Libm ℚ)
        { ex_sphere ℚ with
          material := { (ex_sphere ℚ).material with get_texture_pixel := fun _ _ => ex_black ℚ } }
        (Vector3.lift ⟨0, 0, 1⟩)
      = Except.ok Color3.White ∧
    Triangle.compute_texture_at_vertex (fin (1 / 2)) (fin (-1 / 2))
        { ex_material ℚ with get_texture_pixel := fun _ _ => ex_black ℚ }
      = Except.ok Color3.White ∧
    Model.compute_texture_at_vertex
        { ex_model ℚ with
          material := { (ex_model ℚ).material with get_texture_pixel := fun _ _ => ex_black ℚ } }
        (fin (1 / 2)) (fin (-1 / 2))
      = Except.ok Color3.White :=
  degenerate_texture_is_white _ (ex_sphere ℚ) (ex_model ℚ) (ex_material ℚ) _ _ _ _
    (Or.inl rfl) (Or.inl rfl) (Or.inl rfl)

/-- Claim C18.  For every scene, every primitive of it of whichever kind, and
every normal, incoming ray and surface point, `compute_specular` called with
the base depth 1 returns, and it makes no `compute_specular` call: it returns
even when no nested call is allowed, and its log of calls is empty. -/
theorem compute_specular_base_depth_makes_no_call [FloorRing K] (lib : Libm K)
    (dflt : Color3 K) (fuel : Nat) (geo : Geometry K) (g : Globals K) (scene : Scene K)
    (normal incoming_ray surface_pos : Vector3 (real_t K)) (hgeo : geo ∈ scene.geometries) :
    ∃ r, Geometry.compute_specular lib dflt (fuel + 1) geo g scene normal incoming_ray
        surface_pos 1 = Except.ok r ∧ r.calls = Calls.none := by
  obtain ⟨r, hr, -, -, hnone⟩ := Geometry.compute_specular_calls lib dflt scene
    (List.ne_nil_of_mem hgeo) 1 (le_refl 1) (fuel + 1) (by omega) geo g normal incoming_ray
    surface_pos
  exact ⟨r, hr, hnone rfl⟩

theorem compute_specular_base_depth_makes_no_call_witness :
    ∃ r, Geometry.compute_specular
        (⟨Real.sqrt, fun _ => nan, fun _ _ => nan, fin Real.pi⟩ : Libm ℝ) (ex_black ℝ) (0 + 1)
        (Geometry.model (ex_model ℝ)) (ex_globals ℝ) (ex_lit_scene ℝ) (Vector3.lift ⟨0, 0, 1⟩)
        (Vector3.lift ⟨0, 0, -1⟩) (Vector3.lift ⟨1 / 4, 1 / 4, 1⟩) 1 = Except.ok r ∧
      r.calls = Calls.none :=
  compute_specular_base_depth_makes_no_call _ _ 0 _ _ (ex_lit_scene ℝ) _ _ _
    (List.mem_cons_self _ _)

/-- The mirror scene at depth 0.  In the mirror scene, `compute_specular` of
the lower triangle, called with depth 0 for the ray that comes straight down
on the point `(1/4, 1/4, 0)`, ends by exhausting the nested calls allowed,
however many they are. -/
theorem ex_mirror_depth_zero_out_of_fuel (fuel : Nat) :
    Geometry.compute_specular (⟨Real.sqrt, fun _ => nan, fun _ _ => nan, fin Real.pi⟩ : Libm ℝ)
      (ex_black ℝ) fuel (Geometry.triangle (ex_triangle ℝ)) (ex_globals ℝ) (ex_mirror_scene ℝ)
      (Vector3.lift ⟨0, 0, 1⟩) (Vector3.lift ⟨0, 0, -1⟩) (Vector3.lift ⟨1 / 4, 1 / 4, 0⟩) 0
      = Except.error Fault.out_of_fuel :=
  (ex_mirror_diverges _ rfl (ex_black ℝ) fuel 0 (le_refl 0) (ex_triangle ℝ) (ex_globals ℝ) 0).1
    (le_refl 0) (by norm_num)

/-- Claim C19 as worded fails.  In the mirror scene, `compute_specular` of
the lower triangle, called with depth 0 for the ray that comes straight down
on the point `(1/4, 1/4, 0)`, finds the upper triangle on the reflected ray
and, the depth not being 1, calls `compute_specular` again with depth -1; the
ray then goes back and forth between the two triangles with a depth that
only decreases, so that the call does not return however many nested calls
are allowed. -/
theorem compute_specular_depth_zero_never_returns :
    ¬ ∃ (fuel : Nat) (r : Shaded ℝ),
      Geometry.compute_specular (⟨Real.sqrt, fun _ => nan, fun _ _ => nan, fin Real.pi⟩ : Libm ℝ)
        (ex_black ℝ) fuel (Geometry.triangle (ex_triangle ℝ)) (ex_globals ℝ) (ex_mirror_scene ℝ)
        (Vector3.lift ⟨0, 0, 1⟩) (Vector3.lift ⟨0, 0, -1⟩) (Vector3.lift ⟨1 / 4, 1 / 4, 0⟩) 0
        = Except.ok r := by
  rintro ⟨fuel, r, h⟩
  rw [ex_mirror_depth_zero_out_of_fuel fuel] at h
  cases h

/-- Claim C20.  For every scene, every primitive of it of whichever kind and
every depth `d ≥ 1`, `compute_specular` returns when at least `d` nested
calls are allowed; every `compute_specular` call it makes is passed the depth
`d - 1`, and the number of `compute_specular` calls made below the initial
call, nested ones included, is at most `2^d - 2`. -/
theorem compute_specular_calls_bounded [FloorRing K] (lib : Libm K) (dflt : Color3 K)
    (d fuel : Nat) (geo : Geometry K) (g : Globals K) (scene : Scene K)
    (normal incoming_ray surface_pos : Vector3 (real_t K)) (hd : 1 ≤ d) (hfuel : d ≤ fuel)
    (hgeo : geo ∈ scene.geometries) :
    ∃ r, Geometry.compute_specular lib dflt fuel geo g scene normal incoming_ray surface_pos
        (d : Int) = Except.ok r ∧
      (∀ x ∈ r.calls.depths, x = (d : Int) - 1) ∧ r.calls.count ≤ 2 ^ d - 2 := by
  obtain ⟨r, hr, hcount, hdep, -⟩ := Geometry.compute_specular_calls lib dflt scene
    (List.ne_nil_of_mem hgeo) d hd fuel hfuel geo g normal incoming_ray surface_pos
  exact ⟨r, hr, hdep, hcount⟩

theorem compute_specular_calls_bounded_witness :
    ∃ r, Geometry.compute_specular
        (⟨Real.sqrt, fun _ => nan, fun _ _ => nan, fin Real.pi⟩ : Libm ℝ) (ex_black ℝ) 3
        (Geometry.model (ex_model ℝ)) (ex_globals ℝ) (ex_lit_scene ℝ) (Vector3.lift ⟨0, 0, 1⟩)
        (Vector3.lift ⟨0, 0, -1⟩) (Vector3.lift ⟨1 / 4, 1 / 4, 1⟩) ((3 : Nat) : Int)
        = Except.ok r ∧
      (∀ x ∈ r.calls.depths, x = ((3 : Nat) : Int) - 1) ∧ r.calls.count ≤ 2 ^ 3 - 2 :=
  compute_specular_calls_bounded _ _ 3 3 _ _ (ex_lit_scene ℝ) _ _ _ (by norm_num) (le_refl 3)
    (List.mem_cons_self _ _)

/-- Claim C21.  For every sphere, transmissive or not, whenever the
discriminant of the refraction formula is negative, the refracted direction
that `compute_refr_ray` returns is the zero vector and
`Sphere::compute_specular` returns the colour, the file-scope variables and
the calls of the reflected ray alone: the coefficient `R` is 1 and nothing of
a refracted ray enters the result.  The library `sqrt` is taken to return 0
at 0. -/
theorem total_internal_reflection_returns_reflected_colour [FloorRing K] (lib : Libm K)
    (dflt : Color3 K) (call : SpecularCall K) (S : Sphere K) (g : Globals K) (scene : Scene K)
    (normal incoming_ray surface_pos : Vector3 (real_t K)) (depth : Int)
    (hsqrt : lib.sqrt 0 = 0)
    (hdisc : (S.discriminant_at normal incoming_ray).lt (fin 0) = true) :
    S.refracted_ray lib.sqrt normal incoming_ray = ⟨fin 0, fin 0, fin 0⟩ ∧
    S.compute_specular lib dflt call g scene normal incoming_ray surface_pos depth =
      (match scene.geometries.get? 0 with
      | none => Except.error Fault.out_of_bounds
      | some _ => do
        let tex_color ← S.compute_texture lib normal
        let r1 := nearest_hit_loop lib.sqrt (Sphere.reflected_ray lib.sqrt normal incoming_ray)
          (surface_pos + Vector3.smul EPSILON (Sphere.reflected_ray lib.sqrt normal incoming_ray))
          scene.geometries 0 UNINITIALIZED 0 g
        let refl ← Sphere.specular_reflection lib call scene surface_pos
          (Sphere.reflected_ray lib.sqrt normal incoming_ray) r1.1 r1.2.1 r1.2.2 depth tex_color
        Except.ok ⟨refl.1, refl.2.1, refl.2.2⟩) := by
  refine ⟨S.refracted_ray_degenerate lib.sqrt normal incoming_ray hdisc, ?_⟩
  unfold Sphere.compute_specular
  simp only [Sphere.specular_refraction_degenerate lib dflt call S _ scene normal incoming_ray
    surface_pos depth _ hsqrt hdisc]
  cases scene.geometries.get? 0 with
  | none => rfl
  | some x0 =>
    simp only []
    cases S.compute_texture lib normal with
    | error e => rfl
    | ok tex =>
      simp only [bind, Except.bind, Sphere.reflected_ray]
      cases Sphere.specular_reflection lib call scene surface_pos
        (if (Vector3.dot incoming_ray normal).lt (fin 0) = true then
          Vector3.normalize lib.sqrt
            (incoming_ray - Vector3.smul (fin 2 * Vector3.dot incoming_ray normal) normal)
        else Vector3.normalize lib.sqrt
            (incoming_ray + Vector3.smul (fin 2 * Vector3.dot incoming_ray (-normal)) normal))
        _ _ _ depth tex with
      | error e => rfl
      | ok refl => simp [Calls.append]

theorem total_internal_reflection_returns_reflected_colour_witness :
    Sphere.refracted_ray Real.sqrt (ex_glass_sphere ℝ) (Vector3.lift ⟨0, 0, 1⟩)
      (Vector3.lift ⟨1, 0, 0⟩) = ⟨fin 0, fin 0, fin 0⟩ :=
  (total_internal_reflection_returns_reflected_colour
    (⟨Real.sqrt, fun _ => nan, fun _ _ => nan, fin Real.pi⟩ : Libm ℝ) (ex_black ℝ)
    (fun _ _ _ _ _ _ _ => Except.error Fault.out_of_fuel) (ex_glass_sphere ℝ) (ex_globals ℝ)
    (ex_floor_scene ℝ) (Vector3.lift ⟨0, 0, 1⟩) (Vector3.lift ⟨1, 0, 0⟩)
    (Vector3.lift ⟨0, 0, 2⟩) 1 Real.sqrt_zero (by
      simp [Sphere.discriminant_at, Sphere.refr_discriminant, Sphere.get_refractive_index,
        ex_glass_sphere, ex_glass_material, ex_sphere, real_t.pow, Vector3.dot, Vector3.lift,
        fin_div_fin]
      norm_num)).1

/-- Claim C22.  For a transmissive sphere whose refracted direction is not
degenerate, in a scene with a primitive and at a depth `d ≥ 1` with at least
`d` nested calls allowed: the texture lookup, the refracted ray and the
reflected ray return, the coefficient `R` that the refracted ray leaves is
`R0 + (1 - R0)*(1 + c)^5` with `R0 = ((nt - 1)/(nt + 1))^2`, where `nt` is
the index of the material and `c = dot(refr_ray, normal)` when the ray enters
(`dot(I, N) < 0`), and `nt = 1` and `c = dot(-I, normal)` when it leaves; and
`compute_specular` returns `R*refl_color + (1 - R)*refr_color` whenever
`R != 1` or `refr_color` is finite (for `R == 1` the code returns
`refl_color` itself). -/
theorem fresnel_blend_of_reflected_and_refracted [FloorRing K] (lib : Libm K) (dflt : Color3 K)
    (d fuel : Nat) (S : Sphere K) (g : Globals K) (scene : Scene K)
    (normal incoming_ray surface_pos : Vector3 (real_t K)) (hd : 1 ≤ d) (hfuel : d ≤ fuel)
    (hne : scene.geometries ≠ [])
    (htrans : S.get_refractive_index.ne (fin 0) = true)
    (hnd : (Vector3.length lib.sqrt (S.refracted_ray lib.sqrt normal incoming_ray)).ne (fin 0)
      = true) :
    ∃ tex refr refl r,
      S.compute_texture lib normal = Except.ok tex ∧
      S.specular_refraction lib dflt (Geometry.compute_specular lib dflt (fuel - 1))
        (cast_ray lib.sqrt scene (Sphere.reflected_ray lib.sqrt normal incoming_ray) surface_pos
          g).2.2 scene normal incoming_ray surface_pos d tex = Except.ok refr ∧
      Sphere.specular_reflection lib (Geometry.compute_specular lib dflt (fuel - 1)) scene
        surface_pos (Sphere.reflected_ray lib.sqrt normal incoming_ray)
        (cast_ray lib.sqrt scene (Sphere.reflected_ray lib.sqrt normal incoming_ray) surface_pos
          g).1
        (cast_ray lib.sqrt scene (Sphere.reflected_ray lib.sqrt normal incoming_ray) surface_pos
          g).2.1 refr.2.2.1 d tex = Except.ok refl ∧
      Geometry.compute_specular lib dflt fuel (Geometry.sphere S) g scene normal incoming_ray
        surface_pos d = Except.ok r ∧
      refr.1 = schlick
        (if (Vector3.dot incoming_ray normal).lt (fin 0) then S.get_refractive_index else fin 1)
        (if (Vector3.dot incoming_ray normal).lt (fin 0) then
          Vector3.dot (S.refracted_ray lib.sqrt normal incoming_ray) normal
        else Vector3.dot (-incoming_ray) normal) ∧
      (refr.1.eq (fin 1) = false ∨ refr.2.1.IsFinite →
        r.color = Color3.smul refr.1 refl.1 + Color3.smul (fin 1 - refr.1) refr.2.1) := by
  obtain ⟨f, rfl⟩ : ∃ f, fuel = f + 1 := ⟨fuel - 1, by omega⟩
  have hcall := Geometry.compute_specular_callee lib dflt scene hne d f hfuel
  obtain ⟨tex, htex⟩ := S.sphere_texture_ok lib normal
  obtain ⟨refr, hrefr, -⟩ := S.specular_refraction_calls lib dflt
    (Geometry.compute_specular lib dflt f)
    (cast_ray lib.sqrt scene (Sphere.reflected_ray lib.sqrt normal incoming_ray) surface_pos
      g).2.2 scene normal incoming_ray surface_pos d tex (2 ^ (d - 1) - 2) hne hcall
  obtain ⟨refl, hrefl, -⟩ := Sphere.specular_reflection_calls lib
    (Geometry.compute_specular lib dflt f) scene surface_pos
    (Sphere.reflected_ray lib.sqrt normal incoming_ray)
    (cast_ray lib.sqrt scene (Sphere.reflected_ray lib.sqrt normal incoming_ray) surface_pos g).1
    (cast_ray lib.sqrt scene (Sphere.reflected_ray lib.sqrt normal incoming_ray) surface_pos
      g).2.1 refr.2.2.1 d tex (2 ^ (d - 1) - 2)
    (nearest_hit_loop_index_some lib.sqrt _ _ scene.geometries hne UNINITIALIZED g) hcall
  have hR := S.specular_refraction_coefficient lib dflt _ _ scene normal incoming_ray surface_pos
    d tex refr htrans hnd hrefr
  have hspec := S.compute_specular_of_parts lib dflt (Geometry.compute_specular lib dflt f) g
    scene normal incoming_ray surface_pos d hne tex refr refl htex hrefr hrefl
  refine ⟨tex, refr, refl, _, htex, hrefr, hrefl, hspec, ?_, ?_⟩
  · rw [hR]
    split_ifs <;> rw [Sphere.compute_refraction_eq]
  · intro h
    show (if refr.1.eq (fin 1) then refl.1
        else Color3.smul refr.1 refl.1 + Color3.smul (fin 1 - refr.1) refr.2.1) = _
    rcases h with h | ⟨a, b, c, h⟩
    · rw [h]; rfl
    · cases hq : refr.1.eq (fin 1) with
      | false => rfl
      | true =>
        have h1 : refr.1 = fin 1 := eq_iff.mp hq
        rw [h1, h]
        simp only [if_true, Color3.smul, real_t.one_mul', real_t.sub_self_fin, fin_mul_fin,
          zero_mul]
        show refl.1 = Color3.add _ _
        simp only [Color3.add, real_t.add_zero']

theorem fresnel_blend_of_reflected_and_refracted_witness :
    ∃ r, Geometry.compute_specular
        (⟨Real.sqrt, fun _ => nan, fun _ _ => nan, fin Real.pi⟩ : Libm ℝ)
        (ex_black ℝ) 1 (Geometry.sphere (ex_glass_sphere ℝ)) (ex_globals ℝ) (ex_floor_scene ℝ)
        (Vector3.lift ⟨0, 0, 1⟩) (Vector3.lift ⟨0, 0, -1⟩) (Vector3.lift ⟨1 / 4, 1 / 4, 1⟩)
        ((1 : Nat) : Int) = Except.ok r :=
  match fresnel_blend_of_reflected_and_refracted
    (⟨Real.sqrt, fun _ => nan, fun _ _ => nan, fin Real.pi⟩ : Libm ℝ) (ex_black ℝ) 1 1
    (ex_glass_sphere ℝ) (ex_globals ℝ) (ex_floor_scene ℝ) (Vector3.lift ⟨0, 0, 1⟩)
    (Vector3.lift ⟨0, 0, -1⟩) (Vector3.lift ⟨1 / 4, 1 / 4, 1⟩) (le_refl 1) (le_refl 1)
    (by simp [ex_floor_scene])
    (by simp [Sphere.get_refractive_index, ex_glass_sphere, ex_glass_material, real_t.ne])
    (by
      simp [Sphere.refracted_ray, Sphere.compute_refr_ray, Sphere.get_refractive_index,
        ex_glass_sphere, ex_glass_material, ex_sphere, real_t.pow, Vector3.dot, Vector3.lift,
        Vector3.length, Vector3.normalize, Vector3.divs, Vector3.smul, Vector3.muls,
        Vector3.vec_sub_mk, real_t.sqrt, real_t.ne, fin_div_fin]
      norm_num
      simp [fin_div_fin, real_t.sqrt]
      norm_num) with
  | ⟨_, _, _, r, _, _, _, h, _, _⟩ => ⟨r, h⟩

/-- Claim C23 fails on the code.  For the glass sphere (index 3/2) and a ray
that leaves it along the normal, `I = N = (0, 0, 1)`, the discriminant is 1,
and the refracted direction that `Sphere::compute_specular` computes, with
the normal as it is, is `(0, 0, -1)`: its component along `N` is -1, the ray
goes back into the sphere. -/
theorem refracted_ray_of_leaving_ray_points_inward :
    (Vector3.dot (Vector3.lift (⟨0, 0, 1⟩ : Vector3 ℝ)) (Vector3.lift ⟨0, 0, 1⟩)).gt (fin 0)
      = true ∧
    Sphere.discriminant_at (ex_glass_sphere ℝ) (Vector3.lift ⟨0, 0, 1⟩) (Vector3.lift ⟨0, 0, 1⟩)
      = fin 1 ∧
    Sphere.refracted_ray Real.sqrt (ex_glass_sphere ℝ) (Vector3.lift ⟨0, 0, 1⟩)
      (Vector3.lift ⟨0, 0, 1⟩) = Vector3.lift ⟨0, 0, -1⟩ ∧
    Vector3.dot (Sphere.refracted_ray Real.sqrt (ex_glass_sphere ℝ) (Vector3.lift ⟨0, 0, 1⟩)
      (Vector3.lift ⟨0, 0, 1⟩)) (Vector3.lift ⟨0, 0, 1⟩) = fin (-1) := by
  have hr : Sphere.refracted_ray Real.sqrt (ex_glass_sphere ℝ) (Vector3.lift ⟨0, 0, 1⟩)
      (Vector3.lift ⟨0, 0, 1⟩) = Vector3.lift ⟨0, 0, -1⟩ := by
    simp [Sphere.refracted_ray, Sphere.compute_refr_ray, Sphere.get_refractive_index,
      ex_glass_sphere, ex_glass_material, ex_sphere, real_t.pow, Vector3.dot, Vector3.lift,
      Vector3.normalize, Vector3.divs, Vector3.smul, Vector3.muls, Vector3.vec_sub_mk,
      real_t.sqrt, fin_div_fin]
    norm_num
    simp [fin_div_fin, real_t.sqrt]
  refine ⟨?_, ?_, hr, ?_⟩
  · simp [Vector3.dot, Vector3.lift, real_t.gt]
  · simp [Sphere.discriminant_at, Sphere.refr_discriminant, Sphere.get_refractive_index,
      ex_glass_sphere, ex_glass_material, ex_sphere, real_t.pow, Vector3.dot, Vector3.lift,
      fin_div_fin]
  · rw [hr]
    simp [Vector3.dot, Vector3.lift]

/-- Claim C24.  For every depth and every primitive of the scene, of
whichever kind: when its refractive index is 0 and the reflected ray is hit
by no primitive, `compute_specular` returns the texture colour of the surface
multiplied by `scene.background_color`, and it makes no `compute_specular`
call. -/
theorem specular_miss_is_texture_times_background [FloorRing K] (lib : Libm K)
    (dflt : Color3 K) (fuel : Nat) (geo : Geometry K) (g : Globals K) (scene : Scene K)
    (normal incoming_ray surface_pos : Vector3 (real_t K)) (depth : Int)
    (hgeo : geo ∈ scene.geometries)
    (hindex : (geo.get_refractive_index g).ne (fin 0) = false)
    (hmiss : ∀ x ∈ scene.geometries, ∀ g1,
      x.own_hit lib.sqrt (geo.reflected_ray lib.sqrt normal incoming_ray)
        (surface_pos + Vector3.smul EPSILON (geo.reflected_ray lib.sqrt normal incoming_ray)) g1
        = none) :
    ∃ tex r, geo.compute_texture lib g normal = Except.ok tex ∧
      Geometry.compute_specular lib dflt (fuel + 1) geo g scene normal incoming_ray surface_pos
        depth = Except.ok r ∧
      r.color = tex * scene.background_color ∧ r.calls = Calls.none := by
  have hne : scene.geometries ≠ [] := List.ne_nil_of_mem hgeo
  obtain ⟨x0, hx0⟩ : ∃ x0, scene.geometries.get? 0 = some x0 := by
    cases hg : scene.geometries with
    | nil => exact absurd hg hne
    | cons x rest => exact ⟨x, rfl⟩
  have h1 := cast_ray_miss lib.sqrt scene _ surface_pos g hmiss
  have hmin : (cast_ray lib.sqrt scene (geo.reflected_ray lib.sqrt normal incoming_ray)
      surface_pos g).1.ne UNINITIALIZED = false := by
    rw [h1]; simp [real_t.ne, UNINITIALIZED]
  cases geo with
  | sphere S =>
    obtain ⟨tex, htex⟩ := S.sphere_texture_ok lib normal
    have hrefr : S.specular_refraction lib dflt (Geometry.compute_specular lib dflt fuel)
        (cast_ray lib.sqrt scene (Sphere.reflected_ray lib.sqrt normal incoming_ray)
          surface_pos g).2.2 scene normal incoming_ray surface_pos depth tex
        = Except.ok (fin 1, dflt, (cast_ray lib.sqrt scene
          (Sphere.reflected_ray lib.sqrt normal incoming_ray) surface_pos g).2.2,
          Calls.none) := by
      rw [Sphere.specular_refraction_eq]
      have : S.get_refractive_index.ne (fin 0) = false := hindex
      simp only [this, Bool.false_eq_true, if_false]
    have hrefl : Sphere.specular_reflection lib (Geometry.compute_specular lib dflt fuel) scene
        surface_pos (Sphere.reflected_ray lib.sqrt normal incoming_ray)
        (cast_ray lib.sqrt scene (Sphere.reflected_ray lib.sqrt normal incoming_ray)
          surface_pos g).1
        (cast_ray lib.sqrt scene (Sphere.reflected_ray lib.sqrt normal incoming_ray)
          surface_pos g).2.1
        (cast_ray lib.sqrt scene (Sphere.reflected_ray lib.sqrt normal incoming_ray)
          surface_pos g).2.2 depth tex
        = Except.ok (tex * scene.background_color, (cast_ray lib.sqrt scene
          (Sphere.reflected_ray lib.sqrt normal incoming_ray) surface_pos g).2.2,
          Calls.none) := by
      have hmin2 : (cast_ray lib.sqrt scene (Sphere.reflected_ray lib.sqrt normal incoming_ray)
          surface_pos g).1.ne UNINITIALIZED = false := hmin
      simp only [Sphere.specular_reflection, hmin2, Bool.false_eq_true, if_false]
    have hspec := S.compute_specular_of_parts lib dflt (Geometry.compute_specular lib dflt fuel) g
      scene normal incoming_ray surface_pos depth hne tex _ _ htex hrefr hrefl
    refine ⟨tex, _, htex, hspec, ?_, rfl⟩
    simp
  | triangle t =>
    obtain ⟨tex, htex⟩ := t.triangle_texture_ok g
    have hmin2 : (nearest_hit_loop lib.sqrt (mirror_ray lib.sqrt normal incoming_ray)
        (surface_pos + Vector3.smul EPSILON (mirror_ray lib.sqrt normal incoming_ray))
        scene.geometries 0 UNINITIALIZED 0 g).1.ne UNINITIALIZED = false := hmin
    unfold mirror_ray at hmin2
    refine ⟨tex, ⟨tex * scene.background_color,
      (cast_ray lib.sqrt scene (mirror_ray lib.sqrt normal incoming_ray) surface_pos g).2.2,
      Calls.none⟩, htex, ?_, rfl, rfl⟩
    simp only [Geometry.compute_specular, Triangle.compute_specular, hx0, htex, hmin2]
    rfl
  | model m =>
    obtain ⟨tex, htex⟩ := m.model_texture_ok g
    have hmin2 : (nearest_hit_loop lib.sqrt (mirror_ray lib.sqrt normal incoming_ray)
        (surface_pos + Vector3.smul EPSILON (mirror_ray lib.sqrt normal incoming_ray))
        scene.geometries 0 UNINITIALIZED 0 g).1.ne UNINITIALIZED = false := hmin
    unfold mirror_ray at hmin2
    refine ⟨tex, ⟨tex * scene.background_color,
      (cast_ray lib.sqrt scene (mirror_ray lib.sqrt normal incoming_ray) surface_pos g).2.2,
      Calls.none⟩, htex, ?_, rfl, rfl⟩
    simp only [Geometry.compute_specular, Model.compute_specular, hx0, htex, hmin2]
    rfl

theorem specular_miss_is_texture_times_background_witness :
    ∃ tex r, Geometry.compute_texture
        (⟨Real.sqrt, fun _ => nan, fun _ _ => nan, fin Real.pi⟩ : Libm ℝ)
        (Geometry.triangle (ex_triangle ℝ)) (ex_globals ℝ) (Vector3.lift ⟨0, 0, 1⟩)
        = Except.ok tex ∧
      Geometry.compute_specular (⟨Real.sqrt, fun _ => nan, fun _ _ => nan, fin Real.pi⟩ : Libm ℝ)
        (ex_black ℝ) (0 + 1) (Geometry.triangle (ex_triangle ℝ)) (ex_globals ℝ)
        (ex_floor_scene ℝ) (Vector3.lift ⟨0, 0, 1⟩) (Vector3.lift ⟨0, 0, -1⟩)
        (Vector3.lift ⟨1 / 4, 1 / 4, 0⟩) 3 = Except.ok r ∧
      r.color = tex * (ex_floor_scene ℝ).background_color ∧ r.calls = Calls.none :=
  specular_miss_is_texture_times_background
    (⟨Real.sqrt, fun _ => nan, fun _ _ => nan, fin Real.pi⟩ : Libm ℝ) (ex_black ℝ) 0
    (Geometry.triangle (ex_triangle ℝ)) (ex_globals ℝ) (ex_floor_scene ℝ)
    (Vector3.lift ⟨0, 0, 1⟩) (Vector3.lift ⟨0, 0, -1⟩) (Vector3.lift ⟨1 / 4, 1 / 4, 0⟩) 3
    (by simp [ex_floor_scene])
    (by
      simp [Geometry.get_refractive_index, Triangle.get_refractive_index, ex_triangle, ex_vertex,
        ex_material, ex_globals, real_t.ne])
    (by
      intro x hx g1
      have hxe : x = Geometry.triangle (ex_triangle ℝ) := by simpa [ex_floor_scene] using hx
      subst hxe
      show Geometry.own_hit Real.sqrt _ (mirror_ray Real.sqrt _ _)
        (_ + Vector3.smul EPSILON (mirror_ray Real.sqrt _ _)) g1 = none
      unfold mirror_ray
      rw [ex_reflect_down]
      simp [Geometry.own_hit, Geometry.is_intersecting, Triangle.is_intersecting, cramer,
        Cramer.valid, ex_triangle, ex_vertex, Triangle.transform_vector,
        Triangle.transform_point, Matrix4.identity, Vector3.lift, Vector3.smul,
        Vector3.vec_add_mk, EPSILON, UNINITIALIZED, NOINTERSECTION, fin_div_fin, real_t.ne]
      norm_num)

/-- Claim C25.  For every in-range pixel whose viewing ray hits a primitive,
the primitive that the loop selected is in the scene and the final time `t`
is its own hit time, and `trace_pixel` returns, with
`hit_point = e + ray*t`: the colour of `compute_specular(scene, normal, ray,
hit_point, 3)` of that primitive when its refractive index is not 0, and
otherwise `color_at_pixel(scene, hit_point) + get_specular() *
compute_specular(scene, normal, ray, hit_point, 3)`, whichever of the two
operands of `+` is evaluated first. -/
theorem trace_pixel_hit_colour [FloorRing K] (lib : Libm K) (dflt : Color3 K) (fuel : Nat)
    (specular_first : Bool) (rt : Raytracer K) (scene : Scene K) (x y width height : Nat)
    (g : Globals K) (hx : x < width) (hy : y < height)
    (hhit : (nearest_hit_loop lib.sqrt (rt.viewing_ray lib.sqrt x y width height) rt.e
      scene.geometries 0 UNINITIALIZED 0 g).1.ne UNINITIALIZED = true) :
    ∃ geo,
      scene.geometries.get? (nearest_hit_loop lib.sqrt (rt.viewing_ray lib.sqrt x y width height)
        rt.e scene.geometries 0 UNINITIALIZED 0 g).2.1 = some geo ∧
      (∀ g1, geo.own_hit lib.sqrt (rt.viewing_ray lib.sqrt x y width height) rt.e g1
        = some (nearest_hit_loop lib.sqrt (rt.viewing_ray lib.sqrt x y width height) rt.e
          scene.geometries 0 UNINITIALIZED 0 g).1) ∧
      rt.trace_pixel_shaded lib dflt fuel specular_first scene x y width height g =
        (let ray := rt.viewing_ray lib.sqrt x y width height
        let r := nearest_hit_loop lib.sqrt ray rt.e scene.geometries 0 UNINITIALIZED 0 g
        let hit_point := rt.e + Vector3.muls ray r.1
        let normal := geo.normal_of lib.sqrt r.2.2 hit_point
        if (geo.get_refractive_index r.2.2).ne (fin 0) then
          (Geometry.compute_specular lib dflt fuel geo r.2.2 scene normal ray hit_point 3).map
            (fun s => (s.color, s.g))
        else if specular_first then
          (Geometry.compute_specular lib dflt fuel geo r.2.2 scene normal ray hit_point 3).bind
            (fun s => (geo.color_at_pixel lib s.g scene hit_point).map
              (fun c => (c + geo.get_specular r.2.2 * s.color, s.g)))
        else
          (geo.color_at_pixel lib r.2.2 scene hit_point).bind
            (fun c => (Geometry.compute_specular lib dflt fuel geo r.2.2 scene normal ray
              hit_point 3).map (fun s => (c + geo.get_specular r.2.2 * s.color, s.g)))) := by
  obtain ⟨geo, hgeo, hown⟩ := nearest_hit_loop_hit lib.sqrt _ rt.e scene.geometries g hhit
  refine ⟨geo, hgeo, hown, ?_⟩
  obtain ⟨x0, hx0⟩ : ∃ x0, scene.geometries.get? 0 = some x0 := by
    cases hg : scene.geometries with
    | nil =>
      rw [hg] at hhit
      simp [nearest_hit_loop, real_t.ne, UNINITIALIZED] at hhit
    | cons x1 rest => exact ⟨x1, rfl⟩
  unfold Raytracer.viewing_ray at hhit hgeo ⊢
  have hxr : ¬ ¬ (0 ≤ x ∧ x < width) := not_not.mpr ⟨Nat.zero_le x, hx⟩
  have hyr : ¬ ¬ (0 ≤ y ∧ y < height) := not_not.mpr ⟨Nat.zero_le y, hy⟩
  simp only [Raytracer.trace_pixel_shaded, if_neg hxr, if_neg hyr, hx0, hhit, if_true, hgeo]
  split_ifs
  · cases Geometry.compute_specular lib dflt fuel geo _ scene _ _ _ 3 <;> rfl
  · cases Geometry.compute_specular lib dflt fuel geo _ scene _ _ _ 3 with
    | error e => rfl
    | ok s =>
      simp only [bind, Except.bind]
      cases geo.color_at_pixel lib s.g scene _ <;> rfl
  · cases geo.color_at_pixel lib _ scene _ with
    | error e => rfl
    | ok c =>
      simp only [bind, Except.bind]
      cases Geometry.compute_specular lib dflt fuel geo _ scene _ _ _ 3 <;> rfl

theorem trace_pixel_hit_colour_witness :
    (nearest_hit_loop Real.sqrt ((ex_raytracer ℝ).viewing_ray Real.sqrt 0 0 1 1)
        (ex_raytracer ℝ).e (ex_floor_scene ℝ).geometries 0 UNINITIALIZED 0
        (ex_globals ℝ)).1.ne UNINITIALIZED = true ∧
      ∃ geo, (ex_floor_scene ℝ).geometries.get?
          (nearest_hit_loop Real.sqrt ((ex_raytracer ℝ).viewing_ray Real.sqrt 0 0 1 1)
            (ex_raytracer ℝ).e (ex_floor_scene ℝ).geometries 0 UNINITIALIZED 0
            (ex_globals ℝ)).2.1 = some geo ∧
        ∀ g1, geo.own_hit Real.sqrt ((ex_raytracer ℝ).viewing_ray Real.sqrt 0 0 1 1)
          (ex_raytracer ℝ).e g1
          = some (nearest_hit_loop Real.sqrt ((ex_raytracer ℝ).viewing_ray Real.sqrt 0 0 1 1)
            (ex_raytracer ℝ).e (ex_floor_scene ℝ).geometries 0 UNINITIALIZED 0
            (ex_globals ℝ)).1 :=
  have hhit : (nearest_hit_loop Real.sqrt ((ex_raytracer ℝ).viewing_ray Real.sqrt 0 0 1 1)
      (ex_raytracer ℝ).e (ex_floor_scene ℝ).geometries 0 UNINITIALIZED 0
      (ex_globals ℝ)).1.ne UNINITIALIZED = true := by
    rw [ex_view_ray]
    simp [nearest_hit_loop, ex_raytracer, ex_floor_scene,
      Geometry.is_intersecting, Triangle.is_intersecting, cramer,
      Cramer.valid, ex_triangle, ex_vertex, Triangle.transform_vector,
      Triangle.transform_point, Matrix4.identity, Vector3.lift,
      UNINITIALIZED, NOINTERSECTION, fin_div_fin, real_t.ne]
    norm_num
  ⟨hhit,
    match trace_pixel_hit_colour
      (⟨Real.sqrt, fun _ => nan, fun _ _ => nan, fin Real.pi⟩ : Libm ℝ) (ex_black ℝ) 3 false
      (ex_raytracer ℝ) (ex_floor_scene ℝ) 0 0 1 1 (ex_globals ℝ) (by decide) (by decide) hhit with
    | ⟨geo, h1, h2, _⟩ => ⟨geo, h1, h2⟩⟩

/-- The basis of the camera in exact arithmetic.  For every camera whose view direction `gv` and up vector `tv`
are finite, with `gv` non-zero and `tv` no multiple of `gv` (so `tv` is
non-zero and the two are not parallel), the members `u`, `v`, `w` that
`Raytracer::initialize` computes have length 1 each, are pairwise orthogonal,
and `w` is the view direction divided by its length. -/
theorem initialize_basis_is_orthonormal (sqrtK : K → K) (tanK : real_t K → real_t K)
    (camera : Camera K) (width height : Nat) (gv tv : Vector3 K) (hs : IsSqrt sqrtK)
    (hdir : camera.direction = Vector3.lift gv) (hup : camera.up = Vector3.lift tv)
    (hg : gv.x ≠ 0 ∨ gv.y ≠ 0 ∨ gv.z ≠ 0)
    (hpar : ∀ c : K, tv ≠ ⟨c * gv.x, c * gv.y, c * gv.z⟩) :
    Vector3.length sqrtK ( Raytracer.initialize sqrtK tanK camera width height).u = fin 1 ∧
    Vector3.length sqrtK ( Raytracer.initialize sqrtK tanK camera width height).v = fin 1 ∧
    Vector3.length sqrtK ( Raytracer.initialize sqrtK tanK camera width height).w = fin 1 ∧
    Vector3.dot ( Raytracer.initialize sqrtK tanK camera width height).u
      ( Raytracer.initialize sqrtK tanK camera width height).v = fin 0 ∧
    Vector3.dot ( Raytracer.initialize sqrtK tanK camera width height).u
      ( Raytracer.initialize sqrtK tanK camera width height).w = fin 0 ∧
    Vector3.dot ( Raytracer.initialize sqrtK tanK camera width height).v
      ( Raytracer.initialize sqrtK tanK camera width height).w = fin 0 ∧
    ( Raytracer.initialize sqrtK tanK camera width height).w
      = Vector3.lift ⟨gv.x / sqrtK (Vector3.dot gv gv), gv.y / sqrtK (Vector3.dot gv gv),
          gv.z / sqrtK (Vector3.dot gv gv)⟩ := by
  have hD := ne_of_gt (length_pos hs gv hg)
  have hc0 := cross_ne_zero tv gv hg hpar
  have hc : (Vector3.cross tv (Vector3.unit sqrtK gv)).x ≠ 0 ∨
      (Vector3.cross tv (Vector3.unit sqrtK gv)).y ≠ 0 ∨
      (Vector3.cross tv (Vector3.unit sqrtK gv)).z ≠ 0 := by
    rw [cross_unit]
    rcases hc0 with h | h | h
    · exact Or.inl (div_ne_zero h hD)
    · exact Or.inr (Or.inl (div_ne_zero h hD))
    · exact Or.inr (Or.inr (div_ne_zero h hD))
  obtain ⟨hw, hu, hv⟩ := initialize_basis sqrtK tanK camera width height gv tv hs hdir hup hg hc
  have hWW := unit_dot_self hs gv hg
  have hUU := unit_dot_self hs _ hc
  have hUW : Vector3.dot (Vector3.unit sqrtK (Vector3.cross tv (Vector3.unit sqrtK gv)))
      (Vector3.unit sqrtK gv) = 0 := by
    rw [unit_dot, cross_dot_right, zero_div]
  have hWU := (dot_symm _ _).trans hUW
  rw [hw, hu, hv]
  simp only [Vector3.length_lift, Vector3.dot_lift_lift]
  rw [vec_neg_dot_neg, vec_neg_dot, vec_neg_dot, cross_dot_self, hWW, hUU, hWU,
    hUW, cross_dot_left, dot_symm _ (Vector3.cross _ _), cross_dot_right, sqrt_one_eq hs]
  simp [sqrt_one_eq hs, Vector3.unit]

/-- Claim C27 fails on the code.  `is_done` is assigned only inside the body
of the loop over the rows.  For a 1 x 1 image and a time budget of one second
that the clock shows as used up right after the only row was traced, the loop
ends on its condition: `raytrace` returns `false` although the pixel was
written and `current_row == height`.  With a budget of zero seconds the
condition fails before the body ever runs, and `raytrace` returns `is_done`
without a value. -/
theorem raytrace_returns_false_when_complete (fuel : Nat) :
    Raytracer.raytrace (ex_black_trace ℚ) 1 1 (some (fin 1))
        (fun k => if k < 2 then 0 else 2000) (fuel + 2) (ex_start ℚ)
      = Except.ok (some false, ⟨1, [(0, ex_black ℚ)], ex_globals ℚ, 3, some false⟩) ∧
    Raytracer.raytrace (ex_black_trace ℚ) 1 1 (some (fin 0)) (fun _ => 5) (fuel + 1)
        (ex_start ℚ)
      = Except.ok (none, ⟨0, [], ex_globals ℚ, 2, none⟩) := by
  have h1 : real_t.to_int (fin (1000 : ℚ)) = 1000 := by
    have h := trunc_intCast (K := ℚ) 1000
    simpa [real_t.to_int] using h
  have h0 : real_t.to_int (fin (0 : ℚ)) = 0 := by
    have h := trunc_intCast (K := ℚ) 0
    simpa [real_t.to_int] using h
  constructor
  · simp [Raytracer.raytrace, Raytracer.raytrace_loop, Raytracer.raytrace_row, h1, ex_start,
      ex_black_trace, bind, Except.bind, List.range, List.range.loop, fin_mul_fin]
  · simp [Raytracer.raytrace, Raytracer.raytrace_loop, h0, ex_start, bind, Except.bind, fin_mul_fin]

/-- Claim C29 as worded fails.  The sphere of radius 2 around the origin, hit
from `(0, 0, 5)` straight down, records the time 3 and returns 1, not -1; the
triangle `(0,0,0)`, `(1,0,0)`, `(0,1,0)`, hit from `(1/4, 1/4, 5)` straight
down, records the time 5 and returns -1, not 1. -/
theorem is_intersecting_signs_are_swapped :
    Sphere.is_intersecting Real.sqrt (ex_sphere ℝ) (Vector3.lift ⟨0, 0, -1⟩)
      (Vector3.lift ⟨0, 0, 5⟩) UNINITIALIZED = (fin 1, fin 3) ∧
    (Triangle.is_intersecting (ex_triangle ℝ) (Vector3.lift ⟨0, 0, -1⟩)
      (Vector3.lift ⟨1 / 4, 1 / 4, 5⟩) UNINITIALIZED (ex_globals ℝ)).ret = fin (-1) ∧
    (Triangle.is_intersecting (ex_triangle ℝ) (Vector3.lift ⟨0, 0, -1⟩)
      (Vector3.lift ⟨1 / 4, 1 / 4, 5⟩) UNINITIALIZED (ex_globals ℝ)).T = fin 5 := by
  have h4 : Real.sqrt 4 = 2 := by
    rw [show (4 : ℝ) = 2 ^ 2 by norm_num]
    exact Real.sqrt_sq (by norm_num)
  refine ⟨?_, ?_, ?_⟩
  · simp [Sphere.is_intersecting, ex_sphere, Sphere.transform_point, Sphere.transform_vector,
      Matrix4.identity, Vector3.lift, UNINITIALIZED, fin_div_fin, real_t.sqrt, Vector3.dot,
      Vector3.vec_sub_mk, Vector3.vec_neg_mk]
    norm_num [h4]
    simp [fin_div_fin]
    norm_num
  · simp [Triangle.is_intersecting, cramer, Cramer.valid, ex_triangle, ex_vertex,
      Triangle.transform_vector, Triangle.transform_point, Matrix4.identity, Vector3.lift,
      UNINITIALIZED, NOINTERSECTION, fin_div_fin, real_t.ne]
    norm_num
  · simp [Triangle.is_intersecting, cramer, Cramer.valid, ex_triangle, ex_vertex,
      Triangle.transform_vector, Triangle.transform_point, Matrix4.identity, Vector3.lift,
      UNINITIALIZED, NOINTERSECTION, fin_div_fin, real_t.ne]
    norm_num

/-- Claim C29, amended.  `is_intersecting` returns 1 when it records an
intersection with a sphere or with a model, -1 when it records an
intersection with a triangle, and 0 when it records none; to record an
intersection is to replace the time `*T` by another. -/
theorem is_intersecting_return_value (sqrtK : K → K) (geo : Geometry K)
    (s e : Vector3 (real_t K)) (T : real_t K) (g : Globals K) :
    ((geo.is_intersecting sqrtK s e T g).T ≠ T →
      (geo.is_intersecting sqrtK s e T g).ret =
        (match geo with
          | Geometry.sphere _ => fin 1
          | Geometry.triangle _ => fin (-1)
          | Geometry.model _ => fin 1)) ∧
    ((geo.is_intersecting sqrtK s e T g).T = T →
      (geo.is_intersecting sqrtK s e T g).ret = fin 0) := by
  have h := geo.is_intersecting_ret_zero sqrtK s e T g
  have hv := geo.is_intersecting_ret_values sqrtK s e T g
  constructor
  · intro hT
    rcases hv with h0 | h1
    · have h2 := h.mpr hT
      rw [h0] at h2
      simp [real_t.ne, NOINTERSECTION] at h2
    · exact h1
  · intro hT
    by_contra hne
    have h2 : (geo.is_intersecting sqrtK s e T g).ret.ne NOINTERSECTION = true := by
      rcases hv with h0 | h1
      · exact absurd h0 hne
      · rw [h1]; cases geo <;> simp [real_t.ne, NOINTERSECTION]
    exact (h.mp h2) hT

/-- Claim C30 fails on the code.  In the scene that holds only the lens (a
sphere of radius 2 around the origin, index 3/2, white ambient colour, white
ambient light and background), `compute_specular` of the lens is called with
depth 1 for the ray that comes straight down on its top `(0, 0, 2)`.  The
texture colour is white; the refracted ray goes straight down and hits the
lens itself at the time `4 - EPSILON`; the local colour of that hit is white.
The branch of the refracted hit for `depth <= 1` assigns `refl_color`, not
`refr_color`, so the colour returned blends, with the weight `1 - R = 24/25`,
the value `dflt` that `refr_color` had when it was declared, whatever it is,
and not the texture colour times the local colour of the refracted hit. -/
theorem refracted_colour_at_base_depth_is_never_assigned (dflt : Color3 ℝ) :
    Sphere.compute_texture (⟨Real.sqrt, fun _ => nan, fun _ _ => nan, fin Real.pi⟩ : Libm ℝ)
      (ex_lens ℝ) (Vector3.lift ⟨0, 0, 1⟩) = Except.ok ⟨fin 1, fin 1, fin 1⟩ ∧
    cast_ray Real.sqrt (ex_lens_scene ℝ)
      (Sphere.refracted_ray Real.sqrt (ex_lens ℝ) (Vector3.lift ⟨0, 0, 1⟩)
        (Vector3.lift ⟨0, 0, -1⟩)) (Vector3.lift ⟨0, 0, 2⟩) (ex_globals ℝ)
      = (fin (4 - 1 / 1000000), 0, ex_globals ℝ) ∧
    Geometry.color_at_pixel (⟨Real.sqrt, fun _ => nan, fun _ _ => nan, fin Real.pi⟩ : Libm ℝ)
      (Geometry.sphere (ex_lens ℝ)) (ex_globals ℝ) (ex_lens_scene ℝ)
      (Vector3.lift ⟨0, 0, 2⟩ + Vector3.muls (Vector3.lift ⟨0, 0, -1⟩) (fin (4 - 1 / 1000000)))
      = Except.ok ⟨fin 1, fin 1, fin 1⟩ ∧
    (Geometry.compute_specular (⟨Real.sqrt, fun _ => nan, fun _ _ => nan, fin Real.pi⟩ : Libm ℝ)
      dflt 1 (Geometry.sphere (ex_lens ℝ)) (ex_globals ℝ) (ex_lens_scene ℝ)
      (Vector3.lift ⟨0, 0, 1⟩) (Vector3.lift ⟨0, 0, -1⟩) (Vector3.lift ⟨0, 0, 2⟩) 1).map
        Shaded.color
      = Except.ok (Color3.smul (fin (1 / 25)) ⟨fin 1, fin 1, fin 1⟩
          + Color3.smul (fin (24 / 25)) dflt) := by
  refine ⟨ex_lens_texture _ _, ?_, ex_lens_local_colour _ _ _, ?_⟩
  · rw [ex_lens_refracted, ex_lens_cast_down]
  · have hcast : cast_ray Real.sqrt (ex_lens_scene ℝ)
        (Sphere.reflected_ray Real.sqrt (Vector3.lift ⟨0, 0, 1⟩) (Vector3.lift ⟨0, 0, -1⟩))
        (Vector3.lift ⟨0, 0, 2⟩) (ex_globals ℝ) = (UNINITIALIZED, 0, ex_globals ℝ) := by
      rw [ex_lens_reflected, ex_lens_cast_up]
    have h := Sphere.compute_specular_of_parts
      (⟨Real.sqrt, fun _ => nan, fun _ _ => nan, fin Real.pi⟩ : Libm ℝ) dflt
      (Geometry.compute_specular
        (⟨Real.sqrt, fun _ => nan, fun _ _ => nan, fin Real.pi⟩ : Libm ℝ) dflt 0)
      (ex_lens ℝ) (ex_globals ℝ) (ex_lens_scene ℝ) (Vector3.lift ⟨0, 0, 1⟩)
      (Vector3.lift ⟨0, 0, -1⟩) (Vector3.lift ⟨0, 0, 2⟩) 1 (by simp [ex_lens_scene])
      ⟨fin 1, fin 1, fin 1⟩ (fin (1 / 25), dflt, ex_globals ℝ, Calls.none)
      (⟨fin 1, fin 1, fin 1⟩ * (ex_lens_scene ℝ).background_color, ex_globals ℝ, Calls.none)
      (ex_lens_texture _ _)
      (by
        show Sphere.specular_refraction _ dflt _ (ex_lens ℝ)
          (cast_ray Real.sqrt (ex_lens_scene ℝ)
            (Sphere.reflected_ray Real.sqrt (Vector3.lift ⟨0, 0, 1⟩) (Vector3.lift ⟨0, 0, -1⟩))
            (Vector3.lift ⟨0, 0, 2⟩) (ex_globals ℝ)).2.2 _ _ _ _ _ _ = _
        rw [hcast]
        exact ex_lens_refraction dflt _ _ _)
      (by
        show Sphere.specular_reflection _ _ _ _
          (Sphere.reflected_ray Real.sqrt (Vector3.lift ⟨0, 0, 1⟩) (Vector3.lift ⟨0, 0, -1⟩))
          (cast_ray Real.sqrt (ex_lens_scene ℝ)
            (Sphere.reflected_ray Real.sqrt (Vector3.lift ⟨0, 0, 1⟩) (Vector3.lift ⟨0, 0, -1⟩))
            (Vector3.lift ⟨0, 0, 2⟩) (ex_globals ℝ)).1
          (cast_ray Real.sqrt (ex_lens_scene ℝ)
            (Sphere.reflected_ray Real.sqrt (Vector3.lift ⟨0, 0, 1⟩) (Vector3.lift ⟨0, 0, -1⟩))
            (Vector3.lift ⟨0, 0, 2⟩) (ex_globals ℝ)).2.1 _ _ _ = _
        rw [hcast, ex_lens_reflected]
        exact ex_lens_reflection _ _ _ _)
    have hgeo : Geometry.compute_specular
        (⟨Real.sqrt, fun _ => nan, fun _ _ => nan, fin Real.pi⟩ : Libm ℝ) dflt 1
        (Geometry.sphere (ex_lens ℝ)) (ex_globals ℝ) (ex_lens_scene ℝ) (Vector3.lift ⟨0, 0, 1⟩)
        (Vector3.lift ⟨0, 0, -1⟩) (Vector3.lift ⟨0, 0, 2⟩) 1
        = Sphere.compute_specular
          (⟨Real.sqrt, fun _ => nan, fun _ _ => nan, fin Real.pi⟩ : Libm ℝ) dflt
          (Geometry.compute_specular
            (⟨Real.sqrt, fun _ => nan, fun _ _ => nan, fin Real.pi⟩ : Libm ℝ) dflt 0)
          (ex_lens ℝ) (ex_globals ℝ) (ex_lens_scene ℝ) (Vector3.lift ⟨0, 0, 1⟩)
          (Vector3.lift ⟨0, 0, -1⟩) (Vector3.lift ⟨0, 0, 2⟩) 1 := rfl
    rw [hgeo, h]
    simp [Except.map, ex_lens_scene, Color3.smul, Color3.col_mul_mk, fin_mul_fin]
    norm_num

/-- The mirror direction in exact arithmetic.  For every finite unit normal `N` and every finite incoming
vector `I`: the two forms of the mirror vector in `Sphere::compute_specular`
are the same vector `I - 2*dot(I,N)*N`, which is the one of
`Triangle::compute_specular` and `Model::compute_specular`; it has the length
of `I` and `dot(R, N) = -dot(I, N)`; and for a unit `I` the normalize step
leaves it as it is, so that it is the reflected ray of all three versions. -/
theorem mirror_direction_keeps_length (sqrtK : K → K) (hs : IsSqrt sqrtK) (N I : Vector3 K)
    (hN : Vector3.dot N N = 1) :
    mirror_vector_leaving (Vector3.lift N) (Vector3.lift I)
      = mirror_vector (Vector3.lift N) (Vector3.lift I) ∧
    Vector3.length sqrtK (mirror_vector (Vector3.lift N) (Vector3.lift I))
      = Vector3.length sqrtK (Vector3.lift I) ∧
    Vector3.dot (mirror_vector (Vector3.lift N) (Vector3.lift I)) (Vector3.lift N)
      = fin (-Vector3.dot I N) ∧
    (Vector3.dot I I = 1 →
      Vector3.normalize sqrtK (mirror_vector (Vector3.lift N) (Vector3.lift I))
        = mirror_vector (Vector3.lift N) (Vector3.lift I) ∧
      Sphere.reflected_ray sqrtK (Vector3.lift N) (Vector3.lift I)
        = mirror_vector (Vector3.lift N) (Vector3.lift I) ∧
      mirror_ray sqrtK (Vector3.lift N) (Vector3.lift I)
        = mirror_vector (Vector3.lift N) (Vector3.lift I)) := by
  obtain ⟨h1, h2⟩ := mirror_dot N I hN
  have hl := mirror_vector_leaving_lift N I
  have hm := mirror_vector_lift N I
  refine ⟨hl.trans hm.symm, ?_, ?_, ?_⟩
  · rw [hm, Vector3.length_lift, Vector3.length_lift, h1]
  · rw [hm, Vector3.dot_lift_lift, h2]
  · intro hI
    have hn : Vector3.normalize sqrtK (mirror_vector (Vector3.lift N) (Vector3.lift I))
        = mirror_vector (Vector3.lift N) (Vector3.lift I) := by
      rw [hm]
      exact normalize_unit_lift hs _ (h1.trans hI)
    refine ⟨hn, ?_, hn⟩
    show (if _ then Vector3.normalize sqrtK (mirror_vector (Vector3.lift N) (Vector3.lift I))
      else Vector3.normalize sqrtK (mirror_vector_leaving (Vector3.lift N) (Vector3.lift I))) = _
    rw [hl.trans hm.symm, hn, ite_self]

/-- The refracted direction in exact arithmetic.  For finite unit vectors `dir` and `normal`, every finite `n`
and every `nt > 0`, when the discriminant of the refraction is not negative:
the vector `n*(dir - normal*dot(dir,normal))/nt - normal*sqrt(discriminant)`
that `compute_refr_ray` builds is a finite vector `W` of length 1, so that
`compute_refr_ray` returns `W` itself, and the part of `W` across the normal,
`W - normal*dot(W, normal)`, is `n/nt` times the part of `dir` across the
normal. -/
theorem refracted_vector_is_unit_and_obeys_snell (sqrtK : K → K) (hs : IsSqrt sqrtK) (n nt : K)
    (N d : Vector3 K) (hnt : 0 < nt) (hd : Vector3.dot d d = 1) (hN : Vector3.dot N N = 1)
    (hD : (Sphere.refr_discriminant (fin n) (fin nt) (Vector3.lift N) (Vector3.lift d)).lt (fin 0)
      = false) :
    ∃ W : Vector3 K,
      Sphere.refr_vector sqrtK (fin n) (fin nt) (Vector3.lift N) (Vector3.lift d)
        = Vector3.lift W ∧
      Vector3.length sqrtK (Vector3.lift W) = fin 1 ∧
      Sphere.compute_refr_ray sqrtK (fin n) (fin nt) (Vector3.lift N) (Vector3.lift d)
        = Vector3.lift W ∧
      W.x - N.x * Vector3.dot W N = n / nt * (d.x - N.x * Vector3.dot d N) ∧
      W.y - N.y * Vector3.dot W N = n / nt * (d.y - N.y * Vector3.dot d N) ∧
      W.z - N.z * Vector3.dot W N = n / nt * (d.z - N.z * Vector3.dot d N) := by
  have hnt0 : nt ≠ 0 := ne_of_gt hnt
  have hD0 : 0 ≤ 1 - n * n * (1 - Vector3.dot d N * Vector3.dot d N) / (nt * nt) := by
    rw [Sphere.refr_discriminant_fin n nt N d hnt0] at hD
    simpa using hD
  obtain ⟨-, hsq⟩ := hs _ hD0
  obtain ⟨h1, h2⟩ := refr_vector_algebra n nt _ N d hd hN hsq
  have hv := Sphere.refr_vector_lift sqrtK n nt N d hnt0 hD0
  refine ⟨_, hv, ?_, ?_, ?_, ?_, ?_⟩
  · rw [Vector3.length_lift, h1, sqrt_one_eq hs]
  · rw [Sphere.compute_refr_ray_eq, hD]
    show Vector3.normalize sqrtK (Sphere.refr_vector sqrtK (fin n) (fin nt) (Vector3.lift N)
      (Vector3.lift d)) = _
    rw [hv]
    exact normalize_unit_lift hs _ h1
  · rw [h2]; ring
  · rw [h2]; ring
  · rw [h2]; ring

/-- A triangle of one material in exact arithmetic.  For every triangle whose three vertices have the same
material, with finite colours and a finite refractive index, and stored
weights that are finite and sum to 1: `get_specular` and
`get_refractive_index` return the specular colour and the refractive index of
the material, the interpolated ambient and diffuse colours of
`color_at_pixel` are the ambient and diffuse colours of the material, and
`compute_texture` returns the colour that the texture lookup of the material
gives at the interpolated texture coordinate, when that colour is finite. -/
theorem triangle_of_one_material [FloorRing K] (sqrtK : K → K) (tri : Triangle K) (g : Globals K)
    (mat : Material K) (α β γ ρ : K) (c : Color3 K)
    (h0 : (tri.vertices 0).material = mat) (h1 : (tri.vertices 1).material = mat)
    (h2 : (tri.vertices 2).material = mat)
    (ha : g.ALPHA = fin α) (hb : g.BETA = fin β) (hc : g.GAMMA = fin γ)
    (hsum : α + β + γ = 1)
    (hspec : mat.specular.IsFinite) (hamb : mat.ambient.IsFinite) (hdiff : mat.diffuse.IsFinite)
    (href : mat.refractive_index = fin ρ)
    (htex : Triangle.compute_texture_at_vertex (tri.bary_tex_u g) (tri.bary_tex_v g) mat
      = Except.ok c)
    (hfin : c.IsFinite) :
    tri.get_specular g = mat.specular ∧
    tri.get_refractive_index g = mat.refractive_index ∧
    tri.bary_ambient g = mat.ambient ∧
    tri.bary_diffuse g = mat.diffuse ∧
    tri.compute_texture g = Except.ok c ∧
    ∀ (scene : Scene K) (surface_pos : Vector3 (real_t K)),
      tri.color_at_pixel sqrtK g scene surface_pos =
        Except.ok (c * (scene.ambient_light * mat.ambient
          + mat.diffuse * Triangle.compute_diffuse sqrtK scene
              (tri.normal_of sqrtK g surface_pos) surface_pos)) := by
  have hs := Color3.interpolate_same α β γ hsum mat.specular hspec
  have hA := Color3.interpolate_same α β γ hsum mat.ambient hamb
  have hD := Color3.interpolate_same α β γ hsum mat.diffuse hdiff
  have hT := Color3.interpolate_same α β γ hsum c hfin
  have hamb' : tri.bary_ambient g = mat.ambient := by
    simp only [Triangle.bary_ambient, h0, h1, h2, ha, hb, hc, hA]
  have hdiff' : tri.bary_diffuse g = mat.diffuse := by
    simp only [Triangle.bary_diffuse, h0, h1, h2, ha, hb, hc, hD]
  have htex' : tri.compute_texture g = Except.ok c := by
    unfold Triangle.bary_tex_u Triangle.bary_tex_v at htex
    rw [ha, hb, hc] at htex
    simp only [Triangle.compute_texture, h0, h1, h2, ha, hb, hc, htex, bind, Except.bind, hT]
  refine ⟨?_, ?_, hamb', hdiff', htex', ?_⟩
  · simp only [Triangle.get_specular, h0, h1, h2, ha, hb, hc, hs]
  · simp only [Triangle.get_refractive_index, h0, h1, h2, ha, hb, hc, href, fin_mul_fin,
      fin_add_fin]
    congr 1
    linear_combination ρ * hsum
  · intro scene surface_pos
    rw [Triangle.color_at_pixel_eq, htex', hamb', hdiff']
    rfl

/-- Claim C37, amended.  In the nearest-hit loop of `trace_pixel` and of
`compute_specular`, started from the unset time -1, when no sphere of the
scene stores `NaN` for the ray and some primitive is hit: the selected
primitive is in the scene, its own hit time is the final time, the final time
is at most the own hit time of every primitive, and no primitive that comes
before the selected one in scene order has the final time as its own hit
time; so among the primitives with the minimal hit time the first one is
selected. -/
theorem nearest_hit_tie_goes_to_first (sqrtK : K → K) (dir e : Vector3 (real_t K))
    (objs : List (Geometry K)) (g : Globals K)
    (hnan : ∀ S, Geometry.sphere S ∈ objs →
      (S.is_intersecting sqrtK dir e UNINITIALIZED).2 ≠ nan)
    (hhit : (nearest_hit_loop sqrtK dir e objs 0 UNINITIALIZED 0 g).1 ≠ UNINITIALIZED) :
    ∃ sel, objs.get? (nearest_hit_loop sqrtK dir e objs 0 UNINITIALIZED 0 g).2.1 = some sel ∧
      (∀ g1, sel.own_hit sqrtK dir e g1
        = some (nearest_hit_loop sqrtK dir e objs 0 UNINITIALIZED 0 g).1) ∧
      (∀ x ∈ objs, ∀ g1 t, x.own_hit sqrtK dir e g1 = some t →
        (nearest_hit_loop sqrtK dir e objs 0 UNINITIALIZED 0 g).1.le t = true) ∧
      (∀ j x g1, j < (nearest_hit_loop sqrtK dir e objs 0 UNINITIALIZED 0 g).2.1 →
        objs.get? j = some x →
        x.own_hit sqrtK dir e g1
          ≠ some (nearest_hit_loop sqrtK dir e objs 0 UNINITIALIZED 0 g).1) := by
  have hgood := scene_candidates_good sqrtK dir e objs hnan
  simp only [Geometry.own_hit_eq]
  rcases nearest_hit_loop_first sqrtK dir e objs hgood 0 UNINITIALIZED 0 g (Or.inl rfl) with
    ⟨e1, -, -⟩ | ⟨k, sel, e1, e2, e3, -, e5, e6⟩
  · exact absurd e1 hhit
  · rw [Nat.zero_add] at e2
    refine ⟨sel, by rw [e2]; exact e1, fun _ => e3, fun x hx _ t ht => e6 x hx t ht, ?_⟩
    intro j x _ hj hx hc
    rw [e2] at hj
    have h := e5 j x _ hj hx hc
    rw [lt_irrefl'] at h
    cases h

theorem nearest_hit_tie_goes_to_first_witness :
    (nearest_hit_loop Real.sqrt (Vector3.lift ⟨0, 0, -1⟩) (Vector3.lift ⟨0, 0, 5⟩)
      [Geometry.sphere (ex_sphere ℝ), Geometry.triangle (ex_cap_triangle ℝ)] 0 UNINITIALIZED 0
      (ex_globals ℝ)).2.1 = 0 ∧
    (Geometry.triangle (ex_cap_triangle ℝ)).own_hit Real.sqrt (Vector3.lift ⟨0, 0, -1⟩)
      (Vector3.lift ⟨0, 0, 5⟩) (ex_globals ℝ) = some (fin 3) ∧
    ∃ sel, [Geometry.sphere (ex_sphere ℝ), Geometry.triangle (ex_cap_triangle ℝ)].get?
        (nearest_hit_loop Real.sqrt (Vector3.lift ⟨0, 0, -1⟩) (Vector3.lift ⟨0, 0, 5⟩)
          [Geometry.sphere (ex_sphere ℝ), Geometry.triangle (ex_cap_triangle ℝ)] 0
          UNINITIALIZED 0 (ex_globals ℝ)).2.1 = some sel ∧
      ∀ g1, sel.own_hit Real.sqrt (Vector3.lift ⟨0, 0, -1⟩) (Vector3.lift ⟨0, 0, 5⟩) g1
        = some (nearest_hit_loop Real.sqrt (Vector3.lift ⟨0, 0, -1⟩) (Vector3.lift ⟨0, 0, 5⟩)
          [Geometry.sphere (ex_sphere ℝ), Geometry.triangle (ex_cap_triangle ℝ)] 0
          UNINITIALIZED 0 (ex_globals ℝ)).1 :=
  ⟨(ex_cap_tie_loop (ex_globals ℝ)).2.1, (ex_cap_tie_loop (ex_globals ℝ)).2.2,
    match nearest_hit_tie_goes_to_first Real.sqrt (Vector3.lift ⟨0, 0, -1⟩)
      (Vector3.lift ⟨0, 0, 5⟩)
      [Geometry.sphere (ex_sphere ℝ), Geometry.triangle (ex_cap_triangle ℝ)] (ex_globals ℝ)
      (fun S hS => by
        simp only [List.mem_cons, Geometry.sphere.injEq, List.mem_singleton, reduceCtorEq,
          or_false, List.not_mem_nil] at hS
        subst hS
        exact Sphere.stored_ne_nan Real.sqrt isSqrt_real (ex_sphere ℝ) _ _ ⟨0, 0, 5⟩ ⟨0, 0, -1⟩
          ⟨0, 0, 0⟩ 2 rfl rfl rfl rfl (Or.inr (Or.inr (by norm_num))))
      (by rw [(ex_cap_tie_loop (ex_globals ℝ)).1]; simp [UNINITIALIZED]; norm_num) with
    | ⟨sel, h1, h2, _⟩ => ⟨sel, h1, h2⟩⟩

/-- Claim C39 fails on the code.  In the mirror scene, `compute_specular` of
a triangle is called with depth 2 for the ray that comes straight down on the
point `(1/4, 1/4, 0)`.  The reflected ray is cast from the offset origin
`(1/4, 1/4, EPSILON)` straight up and hits the upper triangle, primitive 1,
at the time `1 - EPSILON`: the ray meets it at `offset_origin + minTime*dir =
(1/4, 1/4, 1)`.  The code computes `new_pos = surface_pos + refl_ray*minTime`
from the point that was not offset: the upper triangle is shaded by
`color_at_pixel`, and `compute_specular` is called on it, whatever that call
does, at `(1/4, 1/4, 1 - EPSILON)`, which is `EPSILON` short of the
surface. -/
theorem reflected_hit_is_shaded_short_of_the_surface (call : SpecularCall ℝ) (tri : Triangle ℝ)
    (g : Globals ℝ) :
    (cast_ray Real.sqrt (ex_mirror_scene ℝ) (Vector3.lift ⟨0, 0, 1⟩)
      (Vector3.lift ⟨1 / 4, 1 / 4, 0⟩) g).1 = fin (1 - 1 / 1000000) ∧
    (cast_ray Real.sqrt (ex_mirror_scene ℝ) (Vector3.lift ⟨0, 0, 1⟩)
      (Vector3.lift ⟨1 / 4, 1 / 4, 0⟩) g).2.1 = 1 ∧
    (Vector3.lift (⟨1 / 4, 1 / 4, 0⟩ : Vector3 ℝ) + Vector3.smul EPSILON (Vector3.lift ⟨0, 0, 1⟩))
        + Vector3.muls (Vector3.lift ⟨0, 0, 1⟩)
          (cast_ray Real.sqrt (ex_mirror_scene ℝ) (Vector3.lift ⟨0, 0, 1⟩)
            (Vector3.lift ⟨1 / 4, 1 / 4, 0⟩) g).1
      = Vector3.lift ⟨1 / 4, 1 / 4, 1⟩ ∧
    ∃ tex col,
      tri.compute_texture g = Except.ok tex ∧
      Geometry.color_at_pixel
        (⟨Real.sqrt, fun _ => nan, fun _ _ => nan, fin Real.pi⟩ : Libm ℝ)
        (Geometry.triangle (ex_top_triangle ℝ))
        (cast_ray Real.sqrt (ex_mirror_scene ℝ) (Vector3.lift ⟨0, 0, 1⟩)
          (Vector3.lift ⟨1 / 4, 1 / 4, 0⟩) g).2.2 (ex_mirror_scene ℝ)
        (Vector3.lift ⟨1 / 4, 1 / 4, 1 - 1 / 1000000⟩) = Except.ok col ∧
      tri.compute_specular (⟨Real.sqrt, fun _ => nan, fun _ _ => nan, fin Real.pi⟩ : Libm ℝ)
        call g (ex_mirror_scene ℝ) (Vector3.lift ⟨0, 0, 1⟩)
        (Vector3.lift ⟨0, 0, -1⟩) (Vector3.lift ⟨1 / 4, 1 / 4, 0⟩) 2
      = (call (Geometry.triangle (ex_top_triangle ℝ))
          (cast_ray Real.sqrt (ex_mirror_scene ℝ) (Vector3.lift ⟨0, 0, 1⟩)
            (Vector3.lift ⟨1 / 4, 1 / 4, 0⟩) g).2.2 (ex_mirror_scene ℝ)
          (Vector3.lift ⟨0, 0, 1⟩) (Vector3.lift ⟨0, 0, 1⟩)
          (Vector3.lift ⟨1 / 4, 1 / 4, 1 - 1 / 1000000⟩) (2 - 1)).bind
        (fun rec_refl => Except.ok ⟨tex * (col
            + Geometry.get_specular (Geometry.triangle (ex_top_triangle ℝ))
                (cast_ray Real.sqrt (ex_mirror_scene ℝ) (Vector3.lift ⟨0, 0, 1⟩)
                  (Vector3.lift ⟨1 / 4, 1 / 4, 0⟩) g).2.2 * rec_refl.color),
          rec_refl.g, Calls.call (2 - 1) rec_refl.calls Calls.none⟩) := by
  have hslop : Vector3.lift (⟨1 / 4, 1 / 4, 0⟩ : Vector3 ℝ)
      + Vector3.smul EPSILON (Vector3.lift ⟨0, 0, 1⟩)
      = Vector3.lift ⟨1 / 4, 1 / 4, 1 / 1000000⟩ := by
    simp [EPSILON, Vector3.lift, Vector3.smul, Vector3.vec_add_mk]
  obtain ⟨h1, h2, -, -, -⟩ := ex_mirror_up (1 / 1000000) (by norm_num) (by norm_num) g
  have hc1 : (cast_ray Real.sqrt (ex_mirror_scene ℝ) (Vector3.lift ⟨0, 0, 1⟩)
      (Vector3.lift ⟨1 / 4, 1 / 4, 0⟩) g).1 = fin (1 - 1 / 1000000) := by
    rw [cast_ray, hslop]; exact h1
  have hc2 : (cast_ray Real.sqrt (ex_mirror_scene ℝ) (Vector3.lift ⟨0, 0, 1⟩)
      (Vector3.lift ⟨1 / 4, 1 / 4, 0⟩) g).2.1 = 1 := by
    rw [cast_ray, hslop]; exact h2
  refine ⟨hc1, hc2, ?_, ex_mirror_call_up _ rfl call tri g 2 (by norm_num)⟩
  rw [hc1, hslop]
  simp [Vector3.lift, Vector3.muls, Vector3.vec_add_mk]

/-- Claim C31 fails on the code.  (a) In the grey scene (the lens above the
grey triangle), `Triangle::compute_specular` of the grey triangle, whose
texture colour is the grey `(1/2, 1/2, 1/2)`, is called with depth 1 for the
ray that comes straight down on `(0, 0, -5)`: the reflected ray hits the lens,
whose local colour is white, and the branch `depth == 1` returns that colour
itself, white, not the texture colour times it; the same holds for every
triangle and every model as the receiver.  (b) In the refracted-hit branch of
`Sphere::compute_specular` at depth 1 nothing is assigned to `refr_color`:
for the lens hit from above on its top, the refracted part returns the value
`dflt` that `refr_color` was declared with, whatever the texture colour
`tex_color` is. -/
theorem base_depth_branches_drop_the_texture_factor (dflt : Color3 ℝ) (call : SpecularCall ℝ)
    (g : Globals ℝ) :
    (ex_grey_triangle ℝ).compute_texture (ex_tri_globals ℝ)
      = Except.ok ⟨fin (1 / 2), fin (1 / 2), fin (1 / 2)⟩ ∧
    ((ex_grey_triangle ℝ).compute_specular
      (⟨Real.sqrt, fun _ => nan, fun _ _ => nan, fin Real.pi⟩ : Libm ℝ)
      call (ex_tri_globals ℝ) (ex_grey_scene ℝ) (Vector3.lift ⟨0, 0, 1⟩) (Vector3.lift ⟨0, 0, -1⟩)
      (Vector3.lift ⟨0, 0, -5⟩) 1).map Shaded.color = Except.ok ⟨fin 1, fin 1, fin 1⟩ ∧
    (⟨fin (1 / 2), fin (1 / 2), fin (1 / 2)⟩ * ⟨fin 1, fin 1, fin 1⟩ : Color3 ℝ)
      ≠ ⟨fin 1, fin 1, fin 1⟩ ∧
    (∀ (tri : Triangle ℝ) (g1 : Globals ℝ),
      (tri.compute_specular (⟨Real.sqrt, fun _ => nan, fun _ _ => nan, fin Real.pi⟩ : Libm ℝ)
        call g1 (ex_grey_scene ℝ) (Vector3.lift ⟨0, 0, 1⟩) (Vector3.lift ⟨0, 0, -1⟩)
        (Vector3.lift ⟨0, 0, -5⟩) 1).map Shaded.color = Except.ok ⟨fin 1, fin 1, fin 1⟩) ∧
    (∀ (m : Model ℝ) (g1 : Globals ℝ),
      (m.compute_specular (⟨Real.sqrt, fun _ => nan, fun _ _ => nan, fin Real.pi⟩ : Libm ℝ)
        call g1 (ex_grey_scene ℝ) (Vector3.lift ⟨0, 0, 1⟩) (Vector3.lift ⟨0, 0, -1⟩)
        (Vector3.lift ⟨0, 0, -5⟩) 1).map Shaded.color = Except.ok ⟨fin 1, fin 1, fin 1⟩) ∧
    (∀ tex : Color3 ℝ,
      Sphere.specular_refraction
        (⟨Real.sqrt, fun _ => nan, fun _ _ => nan, fin Real.pi⟩ : Libm ℝ)
        dflt call (ex_lens ℝ) g (ex_lens_scene ℝ) (Vector3.lift ⟨0, 0, 1⟩)
        (Vector3.lift ⟨0, 0, -1⟩) (Vector3.lift ⟨0, 0, 2⟩) 1 tex
        = Except.ok (fin (1 / 25), dflt, g, Calls.none)) := by
  refine ⟨ex_grey_texture, ex_grey_triangle_base call _ _, ?_,
    fun tri g1 => ex_grey_triangle_base call tri g1,
    fun m g1 => ex_grey_model_base call m g1,
    fun tex => ex_lens_refraction dflt call g tex⟩
  intro h
  have hr := congrArg Color3.r h
  simp [Color3.col_mul_mk, fin_mul_fin] at hr

/-- Claim C32 fails on the code.  In the grey scene, for the same normal
`(0, 0, 1)`, incoming ray `(0, 0, -1)`, surface point `(0, 0, -5)` and depth
1, the grey sphere and the grey triangle have the same texture colour, the
grey `(1/2, 1/2, 1/2)`, and the same refractive index 0, and every model is
called with the same arguments: `Sphere::compute_specular` returns the
texture colour times the local colour of the lens that the reflected ray
hits, `(1/2, 1/2, 1/2)`, while `Triangle::compute_specular` and
`Model::compute_specular` return the local colour of the lens itself,
`(1, 1, 1)`. -/
theorem sphere_and_triangle_specular_differ (dflt : Color3 ℝ) (call : SpecularCall ℝ)
    (g : Globals ℝ) (m : Model ℝ) :
    Sphere.compute_texture (⟨Real.sqrt, fun _ => nan, fun _ _ => nan, fin Real.pi⟩ : Libm ℝ)
      (ex_grey_sphere ℝ) (Vector3.lift ⟨0, 0, 1⟩)
      = Except.ok ⟨fin (1 / 2), fin (1 / 2), fin (1 / 2)⟩ ∧
    (ex_grey_triangle ℝ).compute_texture (ex_tri_globals ℝ)
      = Except.ok ⟨fin (1 / 2), fin (1 / 2), fin (1 / 2)⟩ ∧
    (ex_grey_sphere ℝ).get_refractive_index = fin 0 ∧
    (ex_grey_triangle ℝ).get_refractive_index (ex_tri_globals ℝ) = fin 0 ∧
    ((ex_grey_sphere ℝ).compute_specular
      (⟨Real.sqrt, fun _ => nan, fun _ _ => nan, fin Real.pi⟩ : Libm ℝ) dflt
      call g (ex_grey_scene ℝ) (Vector3.lift ⟨0, 0, 1⟩) (Vector3.lift ⟨0, 0, -1⟩)
      (Vector3.lift ⟨0, 0, -5⟩) 1).map Shaded.color
      = Except.ok ⟨fin (1 / 2), fin (1 / 2), fin (1 / 2)⟩ ∧
    ((ex_grey_triangle ℝ).compute_specular
      (⟨Real.sqrt, fun _ => nan, fun _ _ => nan, fin Real.pi⟩ : Libm ℝ)
      call (ex_tri_globals ℝ) (ex_grey_scene ℝ) (Vector3.lift ⟨0, 0, 1⟩) (Vector3.lift ⟨0, 0, -1⟩)
      (Vector3.lift ⟨0, 0, -5⟩) 1).map Shaded.color = Except.ok ⟨fin 1, fin 1, fin 1⟩ ∧
    (m.compute_specular (⟨Real.sqrt, fun _ => nan, fun _ _ => nan, fin Real.pi⟩ : Libm ℝ)
      call g (ex_grey_scene ℝ) (Vector3.lift ⟨0, 0, 1⟩) (Vector3.lift ⟨0, 0, -1⟩)
      (Vector3.lift ⟨0, 0, -5⟩) 1).map Shaded.color = Except.ok ⟨fin 1, fin 1, fin 1⟩ := by
  refine ⟨ex_grey_sphere_texture _, ex_grey_texture, rfl, ?_, ?_,
    ex_grey_triangle_base call _ _, ex_grey_model_base call m g⟩
  · simp [Triangle.get_refractive_index, ex_grey_triangle, ex_grey_vertex, ex_grey_material,
      ex_tri_globals, fin_mul_fin, fin_add_fin]
  · rw [ex_grey_sphere_base dflt call (ex_grey_sphere ℝ) g _
      (by simp [Sphere.get_refractive_index, ex_grey_sphere, ex_grey_material, real_t.ne])
      (ex_grey_sphere_texture _)]
    simp [Color3.col_mul_mk, fin_mul_fin]

/-- Claim C33 fails on the code.  In the coloured scene (the lens, the
coloured triangle above it, the black triangle inside it),
`Sphere::compute_specular` of the lens is called with depth 1 for the ray
that comes straight down on its top `(0, 0, 2)`.  The loop for the reflected
ray selects the coloured triangle, primitive 1, and stores the weights
`(3/4, 1/8, 1/8)`, with which the local colour of that hit is
`(3/4, 1/8, 1/8)`.  Before the reflected hit is shaded, the loop for the
refracted ray runs: it selects the black triangle, primitive 2, and
overwrites the weights with `(1/2, 1/4, 1/4)`.  The coloured triangle is then
shaded with these weights: the colour returned is
`(1/25)*(1/2, 1/4, 1/4) + (24/25)*refr_color`, for every value `dflt` of
`refr_color`. -/
theorem reflected_hit_is_shaded_with_overwritten_weights (dflt : Color3 ℝ)
    (call : SpecularCall ℝ) (g : Globals ℝ) :
    (cast_ray Real.sqrt (ex_rgb_scene ℝ) (Vector3.lift ⟨0, 0, 1⟩) (Vector3.lift ⟨0, 0, 2⟩)
      g).2.1 = 1 ∧
    (cast_ray Real.sqrt (ex_rgb_scene ℝ) (Vector3.lift ⟨0, 0, 1⟩) (Vector3.lift ⟨0, 0, 2⟩)
      g).2.2.ALPHA = fin (3 / 4) ∧
    (cast_ray Real.sqrt (ex_rgb_scene ℝ) (Vector3.lift ⟨0, 0, 1⟩) (Vector3.lift ⟨0, 0, 2⟩)
      g).2.2.BETA = fin (1 / 8) ∧
    (cast_ray Real.sqrt (ex_rgb_scene ℝ) (Vector3.lift ⟨0, 0, 1⟩) (Vector3.lift ⟨0, 0, 2⟩)
      g).2.2.GAMMA = fin (1 / 8) ∧
    Geometry.color_at_pixel (⟨Real.sqrt, fun _ => nan, fun _ _ => nan, fin Real.pi⟩ : Libm ℝ)
      (Geometry.triangle (ex_rgb_triangle ℝ))
      (cast_ray Real.sqrt (ex_rgb_scene ℝ) (Vector3.lift ⟨0, 0, 1⟩) (Vector3.lift ⟨0, 0, 2⟩)
        g).2.2 (ex_rgb_scene ℝ)
      (Vector3.lift ⟨0, 0, 2⟩ + Vector3.muls (Vector3.lift ⟨0, 0, 1⟩)
        (cast_ray Real.sqrt (ex_rgb_scene ℝ) (Vector3.lift ⟨0, 0, 1⟩) (Vector3.lift ⟨0, 0, 2⟩)
          g).1)
      = Except.ok ⟨fin (3 / 4), fin (1 / 8), fin (1 / 8)⟩ ∧
    (cast_ray Real.sqrt (ex_rgb_scene ℝ) (Vector3.lift ⟨0, 0, -1⟩) (Vector3.lift ⟨0, 0, 2⟩)
      (cast_ray Real.sqrt (ex_rgb_scene ℝ) (Vector3.lift ⟨0, 0, 1⟩) (Vector3.lift ⟨0, 0, 2⟩)
        g).2.2).2.1 = 2 ∧
    (cast_ray Real.sqrt (ex_rgb_scene ℝ) (Vector3.lift ⟨0, 0, -1⟩) (Vector3.lift ⟨0, 0, 2⟩)
      (cast_ray Real.sqrt (ex_rgb_scene ℝ) (Vector3.lift ⟨0, 0, 1⟩) (Vector3.lift ⟨0, 0, 2⟩)
        g).2.2).2.2.ALPHA = fin (1 / 2) ∧
    ((ex_lens ℝ).compute_specular
      (⟨Real.sqrt, fun _ => nan, fun _ _ => nan, fin Real.pi⟩ : Libm ℝ) dflt call g
      (ex_rgb_scene ℝ) (Vector3.lift ⟨0, 0, 1⟩) (Vector3.lift ⟨0, 0, -1⟩)
      (Vector3.lift ⟨0, 0, 2⟩) 1).map Shaded.color
      = Except.ok (Color3.smul (fin (1 / 25)) ⟨fin (1 / 2), fin (1 / 4), fin (1 / 4)⟩
          + Color3.smul (fin (24 / 25)) dflt) := by
  obtain ⟨u1, u2, u3, u4, u5⟩ := ex_rgb_cast_up g
  obtain ⟨d1, d2, d3, d4, d5⟩ := ex_rgb_cast_down
    (cast_ray Real.sqrt (ex_rgb_scene ℝ) (Vector3.lift ⟨0, 0, 1⟩) (Vector3.lift ⟨0, 0, 2⟩) g).2.2
  refine ⟨u2, u3, u4, u5, ?_, d2, d3, ?_⟩
  · exact ex_rgb_local_colour Real.sqrt _ _ _ _ _ u3 u4 u5 (by norm_num)
  · have hcast : cast_ray Real.sqrt (ex_rgb_scene ℝ)
        (Sphere.reflected_ray Real.sqrt (Vector3.lift ⟨0, 0, 1⟩) (Vector3.lift ⟨0, 0, -1⟩))
        (Vector3.lift ⟨0, 0, 2⟩) g
        = cast_ray Real.sqrt (ex_rgb_scene ℝ) (Vector3.lift ⟨0, 0, 1⟩) (Vector3.lift ⟨0, 0, 2⟩)
          g := by
      rw [ex_lens_reflected]
    have h := Sphere.compute_specular_of_parts
      (⟨Real.sqrt, fun _ => nan, fun _ _ => nan, fin Real.pi⟩ : Libm ℝ) dflt call
      (ex_lens ℝ) g (ex_rgb_scene ℝ) (Vector3.lift ⟨0, 0, 1⟩)
      (Vector3.lift ⟨0, 0, -1⟩) (Vector3.lift ⟨0, 0, 2⟩) 1 (by simp [ex_rgb_scene])
      ⟨fin 1, fin 1, fin 1⟩
      (fin (1 / 25), dflt,
        (cast_ray Real.sqrt (ex_rgb_scene ℝ) (Vector3.lift ⟨0, 0, -1⟩) (Vector3.lift ⟨0, 0, 2⟩)
          (cast_ray Real.sqrt (ex_rgb_scene ℝ) (Vector3.lift ⟨0, 0, 1⟩) (Vector3.lift ⟨0, 0, 2⟩)
            g).2.2).2.2, Calls.none)
      (⟨fin 1, fin 1, fin 1⟩ * ⟨fin (1 / 2), fin (1 / 4), fin (1 / 4)⟩,
        (cast_ray Real.sqrt (ex_rgb_scene ℝ) (Vector3.lift ⟨0, 0, -1⟩) (Vector3.lift ⟨0, 0, 2⟩)
          (cast_ray Real.sqrt (ex_rgb_scene ℝ) (Vector3.lift ⟨0, 0, 1⟩) (Vector3.lift ⟨0, 0, 2⟩)
            g).2.2).2.2, Calls.none)
      (ex_lens_texture _ _)
      (by
        show Sphere.specular_refraction _ dflt _ (ex_lens ℝ)
          (cast_ray Real.sqrt (ex_rgb_scene ℝ)
            (Sphere.reflected_ray Real.sqrt (Vector3.lift ⟨0, 0, 1⟩) (Vector3.lift ⟨0, 0, -1⟩))
            (Vector3.lift ⟨0, 0, 2⟩) g).2.2 _ _ _ _ _ _ = _
        rw [hcast]
        exact ex_rgb_refraction dflt _ _ _)
      (by
        show Sphere.specular_reflection _ _ _ _
          (Sphere.reflected_ray Real.sqrt (Vector3.lift ⟨0, 0, 1⟩) (Vector3.lift ⟨0, 0, -1⟩))
          (cast_ray Real.sqrt (ex_rgb_scene ℝ)
            (Sphere.reflected_ray Real.sqrt (Vector3.lift ⟨0, 0, 1⟩) (Vector3.lift ⟨0, 0, -1⟩))
            (Vector3.lift ⟨0, 0, 2⟩) g).1
          (cast_ray Real.sqrt (ex_rgb_scene ℝ)
            (Sphere.reflected_ray Real.sqrt (Vector3.lift ⟨0, 0, 1⟩) (Vector3.lift ⟨0, 0, -1⟩))
            (Vector3.lift ⟨0, 0, 2⟩) g).2.1 _ _ _ = _
        rw [hcast, ex_lens_reflected, u1, u2]
        have hx1 : (ex_rgb_scene ℝ).geometries.get? 1
            = some (Geometry.triangle (ex_rgb_triangle ℝ)) := rfl
        have hmin : (fin (1 - 1 / 1000000) : real_t ℝ).ne UNINITIALIZED = true := by
          simp [real_t.ne, UNINITIALIZED]; norm_num
        have hcol := ex_rgb_local_colour Real.sqrt
          (cast_ray Real.sqrt (ex_rgb_scene ℝ) (Vector3.lift ⟨0, 0, -1⟩) (Vector3.lift ⟨0, 0, 2⟩)
            (cast_ray Real.sqrt (ex_rgb_scene ℝ) (Vector3.lift ⟨0, 0, 1⟩)
              (Vector3.lift ⟨0, 0, 2⟩) g).2.2).2.2
          (Vector3.lift ⟨0, 0, 2⟩ + Vector3.muls (Vector3.lift ⟨0, 0, 1⟩)
            (fin (1 - 1 / 1000000))) _ _ _ d3 d4 d5 (by norm_num)
        simp only [Sphere.specular_reflection, hmin, if_true, hx1, Geometry.color_at_pixel,
          hcol, bind, Except.bind]
        rfl)
    rw [h]
    simp [Except.map, Color3.smul, Color3.col_mul_mk, fin_mul_fin]
    norm_num

/-- Claim C1 as worded fails.  (a) For the ray with the zero direction from
`(0, 0, 5)` the sphere of radius 2 around the origin stores `NaN`: after the
loop over the scene of this sphere the running time is `NaN`, which is the
own hit time of the sphere and is neither `==` nor `<=` to itself.  (b) In
the scene of the flat sphere followed by the example triangle, for the ray
from `(1/4, 1/4, 5)` straight down, the flat sphere stores `NaN`; the
triangle, whose own hit time is 5, does not replace it, since `5 < NaN` is
false and `NaN == -1` is false: the running time after the loop is `NaN`, not
the hit time 5, and the flat sphere is selected. -/
theorem nearest_hit_search_keeps_nan :
    (nearest_hit_loop Real.sqrt (Vector3.lift ⟨0, 0, 0⟩) (Vector3.lift ⟨0, 0, 5⟩)
      [Geometry.sphere (ex_sphere ℝ)] 0 UNINITIALIZED 0 (ex_globals ℝ)).1 = nan ∧
    (Geometry.sphere (ex_sphere ℝ)).own_hit Real.sqrt (Vector3.lift ⟨0, 0, 0⟩)
      (Vector3.lift ⟨0, 0, 5⟩) (ex_globals ℝ) = some nan ∧
    (nan : real_t ℝ).le nan = false ∧ (nan : real_t ℝ).eq nan = false ∧
    (nearest_hit_loop Real.sqrt (Vector3.lift (ex_down ℝ)) (Vector3.lift (ex_origin ℝ))
      [Geometry.sphere (ex_flat_sphere ℝ), Geometry.triangle (ex_triangle ℝ)]
      0 UNINITIALIZED 0 (ex_globals ℝ)).1 = nan ∧
    (nearest_hit_loop Real.sqrt (Vector3.lift (ex_down ℝ)) (Vector3.lift (ex_origin ℝ))
      [Geometry.sphere (ex_flat_sphere ℝ), Geometry.triangle (ex_triangle ℝ)]
      0 UNINITIALIZED 0 (ex_globals ℝ)).2.1 = 0 ∧
    (Geometry.triangle (ex_triangle ℝ)).own_hit Real.sqrt (Vector3.lift (ex_down ℝ))
      (Vector3.lift (ex_origin ℝ)) (ex_globals ℝ) = some (fin 5) ∧
    (nan : real_t ℝ).le (fin 5) = false :=
  ⟨(ex_zero_direction_loop (ex_globals ℝ)).1, (ex_zero_direction_loop (ex_globals ℝ)).2, rfl,
    rfl, (ex_flat_first_loop (ex_globals ℝ)).2.2.1, (ex_flat_first_loop (ex_globals ℝ)).2.2.2,
    ex_triangle_own_hit (ex_globals ℝ), rfl⟩

/-- Claim C9 as worded fails.  Queried with the running best `NaN`, which is
what the nearest-hit loop hands on after a sphere that stored `NaN`, the
example mesh leaves the running best `NaN` and returns 0, although its first
member triangle has the valid hit time 5: `5 < NaN` is false and
`NaN == -1` is false.  `NaN` is not the minimum of the running best and the
valid hit times: `NaN <= 5` is false. -/
theorem model_keeps_nan_running_best :
    ((ex_model ℚ).is_intersecting (Vector3.lift (ex_down ℚ)) (Vector3.lift (ex_origin ℚ)) nan
      (ex_globals ℚ)).T = nan ∧
    ((ex_model ℚ).is_intersecting (Vector3.lift (ex_down ℚ)) (Vector3.lift (ex_origin ℚ)) nan
      (ex_globals ℚ)).ret = fin 0 ∧
    (ex_model ℚ).hit_time (Vector3.lift (ex_down ℚ)) (Vector3.lift (ex_origin ℚ)) ex_face0
      = some (fin 5) ∧
    ex_face0 ∈ (ex_model ℚ).mesh.triangles ∧
    (nan : real_t ℚ).le (fin 5) = false ∧ (nan : real_t ℚ) ≠ UNINITIALIZED :=
  ⟨ex_model_from_nan.1, ex_model_from_nan.2.1, ex_model_from_nan.2.2, by simp [ex_model], rfl,
    by simp [UNINITIALIZED]⟩

/-- Claim C37 as worded fails.  In the scene of the flat sphere followed by
twice the example triangle, for the ray from `(1/4, 1/4, 5)` straight down,
the two triangles have the same hit time 5, the least of the hit times that
are numbers; the flat sphere stores `NaN` before them and no triangle
replaces it: the loop selects the flat sphere, index 0, and not the first of
the two triangles, index 1. -/
theorem nan_sphere_is_selected_before_tied_hits :
    (nearest_hit_loop Real.sqrt (Vector3.lift (ex_down ℝ)) (Vector3.lift (ex_origin ℝ))
      [Geometry.sphere (ex_flat_sphere ℝ), Geometry.triangle (ex_triangle ℝ),
        Geometry.triangle (ex_triangle ℝ)] 0 UNINITIALIZED 0 (ex_globals ℝ)).2.1 = 0 ∧
    (nearest_hit_loop Real.sqrt (Vector3.lift (ex_down ℝ)) (Vector3.lift (ex_origin ℝ))
      [Geometry.sphere (ex_flat_sphere ℝ), Geometry.triangle (ex_triangle ℝ),
        Geometry.triangle (ex_triangle ℝ)] 0 UNINITIALIZED 0 (ex_globals ℝ)).1 = nan ∧
    (Geometry.sphere (ex_flat_sphere ℝ)).own_hit Real.sqrt (Vector3.lift (ex_down ℝ))
      (Vector3.lift (ex_origin ℝ)) (ex_globals ℝ) = some nan ∧
    (Geometry.triangle (ex_triangle ℝ)).own_hit Real.sqrt (Vector3.lift (ex_down ℝ))
      (Vector3.lift (ex_origin ℝ)) (ex_globals ℝ) = some (fin 5) ∧
    (nan : real_t ℝ).le (fin 5) = false := by
  refine ⟨(ex_flat_first_loop (ex_globals ℝ)).2.1, (ex_flat_first_loop (ex_globals ℝ)).1, ?_,
    ex_triangle_own_hit (ex_globals ℝ), rfl⟩
  have h := ex_flat_sphere_stores_nan (Vector3.lift (ex_down ℝ)) (Vector3.lift (ex_origin ℝ))
  simp [Geometry.own_hit, Geometry.is_intersecting, UNINITIALIZED, NOINTERSECTION, h,
    real_t.ne]

/-- Claim C19, amended.  For every scene and every primitive of it,
`compute_specular` called with the base depth 1 returns without making any
further `compute_specular` call, whichever kind the primitive is; the Sphere
version, which tests `depth > 1`, does so as well when it is called with
depth 0 or with any depth below.  (The Triangle and Model versions test
`depth == 1` and do not.) -/
theorem compute_specular_returns_at_its_base_depth [FloorRing K] (lib : Libm K)
    (dflt : Color3 K) (fuel : Nat) (geo : Geometry K) (g : Globals K) (scene : Scene K)
    (normal incoming_ray surface_pos : Vector3 (real_t K)) (depth : Int)
    (hgeo : geo ∈ scene.geometries)
    (hdepth : depth = 1 ∨ (depth ≤ 1 ∧ ∃ S, geo = Geometry.sphere S)) :
    ∃ r, Geometry.compute_specular lib dflt (fuel + 1) geo g scene normal incoming_ray
        surface_pos depth = Except.ok r ∧ r.calls = Calls.none := by
  rcases hdepth with h1 | ⟨hle, S, hS⟩
  · obtain ⟨r, hr, -, -, hnone⟩ := Geometry.compute_specular_calls lib dflt scene
      (List.ne_nil_of_mem hgeo) 1 (le_refl 1) (fuel + 1) (by omega) geo g normal incoming_ray
      surface_pos
    rw [h1]
    exact ⟨r, hr, hnone rfl⟩
  · rw [hS]
    exact Geometry.sphere_specular_below_base lib dflt fuel S g scene normal incoming_ray
      surface_pos depth (List.ne_nil_of_mem hgeo) hle

theorem compute_specular_returns_at_its_base_depth_witness :
    ∃ r, Geometry.compute_specular
        (⟨Real.sqrt, fun _ => nan, fun _ _ => nan, fin Real.pi⟩ : Libm ℝ) (ex_black ℝ) (0 + 1)
        (Geometry.sphere (ex_lens ℝ)) (ex_globals ℝ) (ex_lens_scene ℝ) (Vector3.lift ⟨0, 0, 1⟩)
        (Vector3.lift ⟨0, 0, -1⟩) (Vector3.lift ⟨0, 0, 2⟩) 0 = Except.ok r ∧
      r.calls = Calls.none :=
  compute_specular_returns_at_its_base_depth _ _ 0 _ _ (ex_lens_scene ℝ) _ _ _ 0
    (List.mem_cons_self _ _) (Or.inr ⟨by norm_num, ex_lens ℝ, rfl⟩)

/-- Claim C28 fails on the code.  On the scene without primitives, for a
1 x 1 image, with `max_time` null and `current_row = 0 <= height` on entry,
`Raytracer::raytrace` does not return true: the call `trace_pixel(scene, 0, 0,
1, 1)` of the first row reads `sceneObjects[0]` past the end of the array
(raytracer.cpp:116), whatever the camera, the order of evaluation, the number
of nested calls allowed and the number of turns of the loop allowed. -/
theorem raytrace_of_empty_scene_reads_past_end [FloorRing K] (lib : Libm K) (dflt : Color3 K)
    (nesting : Nat) (specular_first : Bool) (rt : Raytracer K) (clock : Nat → Nat)
    (fuel : Nat) :
    Raytracer.raytrace (fun x y g => Raytracer.trace_pixel_shaded lib dflt nesting
        specular_first rt (ex_empty_scene K) x y 1 1 g) 1 1 none clock (fuel + 1) (ex_start K)
      = Except.error Fault.out_of_bounds := by
  simp [Raytracer.raytrace, Raytracer.raytrace_loop, Raytracer.raytrace_row,
    Raytracer.trace_pixel_shaded, ex_empty_scene, ex_start, bind, Except.bind, List.range,
    List.range.loop]

/-- Claim C4 as worded fails in `double` arithmetic.  For the sphere around
the origin whose radius `R` is the `double` 0.1 and the ray from `(0, 0, D)`,
`D` the `double` 0.3, straight down (a unit direction that points at the
centre, `D > R`), `Sphere::is_intersecting` reports a hit and stores
`0.19999999999999996` (`900719925474099 / 2^52`), which is neither the number
`D - R` nor the `double` `D - R`, `0.19999999999999998`. -/
theorem sphere_centered_hit_time_is_rounded :
    Sphere.is_intersecting_fl ieee (ex_ball (dbl (1 / 10))) (Vector3.lift ⟨0, 0, -1⟩)
      ⟨fin 0, fin 0, dbl (3 / 10)⟩ UNINITIALIZED
      = (fin 1, fin (900719925474099 / 4503599627370496)) ∧
    dbl (1 / 10) = fin (3602879701896397 / 36028797018963968) ∧
    dbl (3 / 10) = fin (5404319552844595 / 18014398509481984) ∧
    (900719925474099 / 4503599627370496 : ℚ)
      ≠ 5404319552844595 / 18014398509481984 - 3602879701896397 / 36028797018963968 ∧
    ieee.sub (dbl (3 / 10)) (dbl (1 / 10)) = fin (7205759403792793 / 36028797018963968) ∧
    (900719925474099 / 4503599627370496 : ℚ) ≠ 7205759403792793 / 36028797018963968 := by
  decide!

/-- Claim C4, amended.  For a sphere of radius `R ≥ 0` centred at the origin
with the identity transform and a ray whose origin `o` is at distance `D > R`
from the centre and whose unit direction `dir` points at the centre, when no
operation of the query rounds, `Sphere::is_intersecting` in `double`
arithmetic, queried from the unset time, reports a hit (returns 1) and stores
`t = D - R`. -/
theorem sphere_centered_hit_time_without_rounding (R : Rounding K) (sqrtK : K → K)
    (hs : IsSqrt sqrtK) (S : Sphere K) (o dir : Vector3 K) (Rad D : K)
    (hpos : S.position = Vector3.lift ⟨0, 0, 0⟩) (hI : S.inv_trans = Matrix4.identity K)
    (hrad : S.radius = fin Rad) (hR : 0 ≤ Rad) (hDR : Rad < D)
    (hunit : Vector3.dot dir dir = 1)
    (hx : o.x + D * dir.x = 0) (hy : o.y + D * dir.y = 0) (hz : o.z + D * dir.z = 0)
    (hex : S.is_intersecting_exact R sqrtK (Vector3.lift dir) (Vector3.lift o)) :
    S.is_intersecting_fl R (Vector3.lift dir) (Vector3.lift o) UNINITIALIZED
      = (fin 1, fin (D - Rad)) := by
  rw [Sphere.is_intersecting_fl_eq R sqrtK S _ _ _ hex]
  exact sphere_centered_hit_time sqrtK hs S o dir Rad D hpos hI hrad hR hDR hunit hx hy hz

theorem sphere_centered_hit_time_without_rounding_witness :
    Sphere.is_intersecting_fl (Rounding.binary64 Real.sqrt) (ex_sphere ℝ)
      (Vector3.lift (ex_down ℝ)) (Vector3.lift ⟨0, 0, 5⟩) UNINITIALIZED
      = (fin 1, fin (5 - 2)) :=
  sphere_centered_hit_time_without_rounding (Rounding.binary64 Real.sqrt) Real.sqrt isSqrt_real
    (ex_sphere ℝ) ⟨0, 0, 5⟩ (ex_down ℝ) 2 5 rfl rfl rfl
    (by norm_num) (by norm_num) (by norm_num [Vector3.dot, ex_down]) (by norm_num [ex_down])
    (by norm_num [ex_down]) (by norm_num [ex_down]) ex_sphere_query_exact

/-- Claim C3 as worded fails in `double` arithmetic.  (a) The ray from
`(-1, R, 0)` with the direction `(1, 0, 0)` touches the sphere of radius `R`
around the origin at `t = 1`; for `R` the `double` 3.9 the discriminant that
the code computes is negative (`-2^-49`) and `Sphere::is_intersecting`
reports no hit.  (b) For `R` the `double` 0.6 the computed discriminant is
positive (`2^-53`), a hit is reported, and the time stored,
`0.9999999894632878`, is not a root of `|E + t d - c|² = R²`. -/
theorem sphere_test_misses_tangent_ray :
    Sphere.is_intersecting_fl ieee (ex_ball (dbl (39 / 10))) (Vector3.lift ⟨1, 0, 0⟩)
      ⟨fin (-1), dbl (39 / 10), fin 0⟩ UNINITIALIZED = (fin 0, UNINITIALIZED) ∧
    dbl (39 / 10) = fin (8782019273372467 / 2251799813685248) ∧
    on_sphere (⟨-1, 8782019273372467 / 2251799813685248, 0⟩ : Vector3 ℚ) ⟨1, 0, 0⟩ ⟨0, 0, 0⟩
      (8782019273372467 / 2251799813685248) 1 ∧
    Sphere.is_intersecting_fl ieee (ex_ball (dbl (6 / 10))) (Vector3.lift ⟨1, 0, 0⟩)
      ⟨fin (-1), dbl (6 / 10), fin 0⟩ UNINITIALIZED
      = (fin 1, fin (4503599579917363 / 4503599627370496)) ∧
    dbl (6 / 10) = fin (5404319552844595 / 9007199254740992) ∧
    ¬ on_sphere (⟨-1, 5404319552844595 / 9007199254740992, 0⟩ : Vector3 ℚ) ⟨1, 0, 0⟩ ⟨0, 0, 0⟩
      (5404319552844595 / 9007199254740992) (4503599579917363 / 4503599627370496) := by
  refine ⟨by decide!, by decide!, ?_, by decide!, by decide!, ?_⟩
  · unfold on_sphere
    norm_num
  · unfold on_sphere
    norm_num

/-- Claim C3, amended.  For a sphere and a ray with finite local data `E`,
`d`, `c`, `R` and a non-zero local direction `d`, when no operation of the
query rounds, `Sphere::is_intersecting` in `double` arithmetic, queried from
the unset time, reports a hit if and only if some `t > 0` satisfies
`|E + t d - c|² = R²`, and then the time it stores is the smallest such
positive `t`. -/
theorem sphere_hit_iff_positive_root_without_rounding (R : Rounding K) (sqrtK : K → K)
    (hs : IsSqrt sqrtK) (S : Sphere K)
    (s e : Vector3 (real_t K)) (E d c : Vector3 K) (Rad : K)
    (hE : S.transform_point e = Vector3.lift E) (hd : S.transform_vector s = Vector3.lift d)
    (hc : S.transform_point S.position = Vector3.lift c) (hR : S.radius = fin Rad)
    (hd0 : d.x ≠ 0 ∨ d.y ≠ 0 ∨ d.z ≠ 0)
    (hex : S.is_intersecting_exact R sqrtK s e) :
    ((S.is_intersecting_fl R s e UNINITIALIZED).1.ne NOINTERSECTION = true ↔
      ∃ t : K, 0 < t ∧ on_sphere E d c Rad t) ∧
    ((S.is_intersecting_fl R s e UNINITIALIZED).1.ne NOINTERSECTION = true →
      ∃ t : K, (S.is_intersecting_fl R s e UNINITIALIZED).2 = fin t ∧ 0 < t ∧
        on_sphere E d c Rad t ∧ ∀ t' : K, 0 < t' → on_sphere E d c Rad t' → t ≤ t') := by
  rw [Sphere.is_intersecting_fl_eq R sqrtK S _ _ _ hex]
  exact sphere_hit_iff_positive_root sqrtK hs S s e E d c Rad hE hd hc hR hd0

theorem sphere_hit_iff_positive_root_without_rounding_witness :
    ((Sphere.is_intersecting_fl (Rounding.binary64 Real.sqrt) (ex_sphere ℝ)
        (Vector3.lift (ex_down ℝ)) (Vector3.lift ⟨0, 0, 5⟩) UNINITIALIZED).1.ne NOINTERSECTION
        = true ↔
      ∃ t : ℝ, 0 < t ∧ on_sphere ⟨0, 0, 5⟩ (ex_down ℝ) ⟨0, 0, 0⟩ 2 t) ∧
    ((Sphere.is_intersecting_fl (Rounding.binary64 Real.sqrt) (ex_sphere ℝ)
        (Vector3.lift (ex_down ℝ)) (Vector3.lift ⟨0, 0, 5⟩) UNINITIALIZED).1.ne NOINTERSECTION
        = true →
      ∃ t : ℝ, (Sphere.is_intersecting_fl (Rounding.binary64 Real.sqrt) (ex_sphere ℝ)
          (Vector3.lift (ex_down ℝ)) (Vector3.lift ⟨0, 0, 5⟩) UNINITIALIZED).2 = fin t ∧ 0 < t ∧
        on_sphere ⟨0, 0, 5⟩ (ex_down ℝ) ⟨0, 0, 0⟩ 2 t ∧
        ∀ t' : ℝ, 0 < t' → on_sphere ⟨0, 0, 5⟩ (ex_down ℝ) ⟨0, 0, 0⟩ 2 t' → t ≤ t') :=
  sphere_hit_iff_positive_root_without_rounding (Rounding.binary64 Real.sqrt) Real.sqrt
    isSqrt_real (ex_sphere ℝ) (Vector3.lift (ex_down ℝ))
    (Vector3.lift ⟨0, 0, 5⟩) ⟨0, 0, 5⟩ (ex_down ℝ) ⟨0, 0, 0⟩ 2 rfl rfl rfl rfl
    (Or.inr (Or.inr (by norm_num [ex_down]))) ex_sphere_query_exact

/-- Claim C5 as worded fails in `double` arithmetic.  On the triangle
`(0,0,0)`, `(1,0,0)`, `(0,1,0)` the ray straight down from `(1, 1e-20, 1)` has
the solution `β = 1`, `γ = 1e-20`, `t = 1`, which `Triangle::is_intersecting`
computes without error; `β + γ > 1`, yet the test `beta <= 1.0 - gamma`
passes because `1.0 - gamma` rounds to 1, and a hit is reported, also by
`Model::intersects_triangle`.  On the triangle `(0,0,0)`, `(3,0,0)`, `(0,3,0)`
the ray straight down from `(1, 1, 1)` has the solution `β = γ = 1/3`, and the
computed `beta` is the double nearest to `1/3`, so the computed values do not
solve the system. -/
theorem triangle_test_accepts_point_outside :
    dbl (1 / 100000000000000000000)
        = fin (6646139978924579 / 664613997892457936451903530140172288) ∧
    ((ex_triangle ℚ).system_fl ieee (Vector3.lift (ex_down ℚ))
        ⟨fin 1, dbl (1 / 100000000000000000000), fin 1⟩).M = fin (-1) ∧
    ((ex_triangle ℚ).system_fl ieee (Vector3.lift (ex_down ℚ))
        ⟨fin 1, dbl (1 / 100000000000000000000), fin 1⟩).beta = fin 1 ∧
    ((ex_triangle ℚ).system_fl ieee (Vector3.lift (ex_down ℚ))
        ⟨fin 1, dbl (1 / 100000000000000000000), fin 1⟩).gamma
      = fin (6646139978924579 / 664613997892457936451903530140172288) ∧
    ((ex_triangle ℚ).system_fl ieee (Vector3.lift (ex_down ℚ))
        ⟨fin 1, dbl (1 / 100000000000000000000), fin 1⟩).TIME = fin 1 ∧
    meets ⟨0, 0, 0⟩ ⟨1, 0, 0⟩ ⟨0, 1, 0⟩ (ex_down ℚ)
      ⟨1, 6646139978924579 / 664613997892457936451903530140172288, 1⟩
      1 (6646139978924579 / 664613997892457936451903530140172288) 1 ∧
    ¬ ((1 : ℚ) + 6646139978924579 / 664613997892457936451903530140172288 ≤ 1) ∧
    ((ex_triangle ℚ).is_intersecting_fl ieee (Vector3.lift (ex_down ℚ))
        ⟨fin 1, dbl (1 / 100000000000000000000), fin 1⟩ UNINITIALIZED (ex_globals ℚ)).ret
      = fin (-1) ∧
    ((ex_model ℚ).intersects_triangle_fl ieee ex_face0 (Vector3.lift (ex_down ℚ))
        ⟨fin 1, dbl (1 / 100000000000000000000), fin 1⟩ UNINITIALIZED (ex_globals ℚ)).ret
      = fin 1 ∧
    ((ex_wide_triangle ℚ).system_fl ieee (Vector3.lift (ex_down ℚ))
        (Vector3.lift ⟨1, 1, 1⟩)).M = fin (-9) ∧
    ((ex_wide_triangle ℚ).system_fl ieee (Vector3.lift (ex_down ℚ))
        (Vector3.lift ⟨1, 1, 1⟩)).beta = fin (6004799503160661 / 18014398509481984) ∧
    ((ex_wide_triangle ℚ).system_fl ieee (Vector3.lift (ex_down ℚ))
        (Vector3.lift ⟨1, 1, 1⟩)).gamma = fin (6004799503160661 / 18014398509481984) ∧
    ((ex_wide_triangle ℚ).system_fl ieee (Vector3.lift (ex_down ℚ))
        (Vector3.lift ⟨1, 1, 1⟩)).TIME = fin 1 ∧
    meets ⟨0, 0, 0⟩ ⟨3, 0, 0⟩ ⟨0, 3, 0⟩ (ex_down ℚ) ⟨1, 1, 1⟩ (1 / 3) (1 / 3) 1 ∧
    ¬ meets ⟨0, 0, 0⟩ ⟨3, 0, 0⟩ ⟨0, 3, 0⟩ (ex_down ℚ) ⟨1, 1, 1⟩
      (6004799503160661 / 18014398509481984) (6004799503160661 / 18014398509481984) 1 := by
  dsimp only [meets]
  decide!

/-- Claim C5, amended.  In `double` arithmetic, for a triangle with finite
local vertices `a`, `b`, `c` and a ray with finite local origin `e1` and
direction `d` whose determinant `M` is not zero, when no operation of the
block that sets up and solves the system rounds and `1.0 - gamma` does not
round: the values `beta`, `gamma`, `TIME` that `Triangle::is_intersecting`
computes are finite and are the unique solution of
`a + β (b - a) + γ (c - a) = e1 + t d`; a query from the unset time reports a
hit if and only if `t ≥ 0`, `β ≥ 0`, `γ ≥ 0` and `β + γ ≤ 1`; and
`Model::intersects_triangle` on the same system records a hit under the same
condition. -/
theorem triangle_cramer_solution_without_rounding (R : Rounding K) (tri : Triangle K)
    (s e : Vector3 (real_t K)) (g : Globals K) (a b c d e1 : Vector3 K)
    (ha : (tri.vertices 0).position = Vector3.lift a)
    (hb : (tri.vertices 1).position = Vector3.lift b)
    (hc : (tri.vertices 2).position = Vector3.lift c)
    (hd : tri.transform_vector s = Vector3.lift d)
    (he : tri.transform_point e = Vector3.lift e1)
    (hM : (tri.system_fl R s e).M ≠ fin 0)
    (hex : cramer_exact R (Vector3.lift a) (Vector3.lift b) (Vector3.lift c) (Vector3.lift d)
      (Vector3.lift e1))
    (hgam : R.Keeps (fin 1 - (tri.system_fl R s e).gamma)) :
    ∃ β γ t : K,
      (tri.system_fl R s e).beta = fin β ∧ (tri.system_fl R s e).gamma = fin γ ∧
      (tri.system_fl R s e).TIME = fin t ∧
      meets a b c d e1 β γ t ∧
      (∀ β' γ' t' : K, meets a b c d e1 β' γ' t' → β' = β ∧ γ' = γ ∧ t' = t) ∧
      ((tri.is_intersecting_fl R s e UNINITIALIZED g).ret.ne (fin 0) = true ↔
        0 ≤ t ∧ 0 ≤ β ∧ 0 ≤ γ ∧ β + γ ≤ 1) ∧
      (∀ (m : Model K) (triangle : MeshTriangle) (s' e' : Vector3 (real_t K)) (g' : Globals K),
        m.system_fl R triangle s' e' = tri.system_fl R s e →
        ((m.intersects_triangle_fl R triangle s' e' UNINITIALIZED g').ret.eq (fin 1) = true ↔
          0 ≤ t ∧ 0 ≤ β ∧ 0 ≤ γ ∧ β + γ ≤ 1)) := by
  have hsys : tri.system_fl R s e = tri.system s e := by
    unfold Triangle.system_fl Triangle.system
    rw [ha, hb, hc, hd, he]
    exact cramer_fl_eq R _ _ _ _ _ hex
  have hval : (tri.system_fl R s e).valid_fl R = (tri.system s e).valid := by
    rw [Cramer.valid_fl_eq R _ hgam, hsys]
  rw [hsys] at hM
  obtain ⟨β, γ, t, h1, h2, h3, h4, h5, h6, -⟩ :=
    triangle_cramer_solution tri s e g a b c d e1 ha hb hc hd he hM
  rw [Triangle.is_intersecting_hit] at h6
  refine ⟨β, γ, t, by rw [hsys, h1], by rw [hsys, h2], by rw [hsys, h3], h4, h5, ?_, ?_⟩
  · rw [Triangle.is_intersecting_fl_hit, hval]
    exact h6
  · intro m triangle s' e' g' hsame
    rw [Model.intersects_triangle_fl_hit, hsame, hval]
    exact h6

theorem triangle_cramer_solution_without_rounding_witness :
    ∃ β γ t : ℚ,
      ((ex_triangle ℚ).system_fl ieee (Vector3.lift (ex_down ℚ))
        (Vector3.lift (ex_origin ℚ))).beta = fin β ∧
      ((ex_triangle ℚ).system_fl ieee (Vector3.lift (ex_down ℚ))
        (Vector3.lift (ex_origin ℚ))).gamma = fin γ ∧
      ((ex_triangle ℚ).system_fl ieee (Vector3.lift (ex_down ℚ))
        (Vector3.lift (ex_origin ℚ))).TIME = fin t ∧
      meets ⟨0, 0, 0⟩ ⟨1, 0, 0⟩ ⟨0, 1, 0⟩ (ex_down ℚ) (ex_origin ℚ) β γ t ∧
      (∀ β' γ' t' : ℚ, meets ⟨0, 0, 0⟩ ⟨1, 0, 0⟩ ⟨0, 1, 0⟩ (ex_down ℚ) (ex_origin ℚ) β' γ' t' →
        β' = β ∧ γ' = γ ∧ t' = t) ∧
      (((ex_triangle ℚ).is_intersecting_fl ieee (Vector3.lift (ex_down ℚ))
          (Vector3.lift (ex_origin ℚ)) UNINITIALIZED (ex_globals ℚ)).ret.ne (fin 0) = true ↔
        0 ≤ t ∧ 0 ≤ β ∧ 0 ≤ γ ∧ β + γ ≤ 1) ∧
      (∀ (m : Model ℚ) (triangle : MeshTriangle) (s' e' : Vector3 (real_t ℚ)) (g' : Globals ℚ),
        m.system_fl ieee triangle s' e'
          = (ex_triangle ℚ).system_fl ieee (Vector3.lift (ex_down ℚ))
              (Vector3.lift (ex_origin ℚ)) →
        ((m.intersects_triangle_fl ieee triangle s' e' UNINITIALIZED g').ret.eq (fin 1) = true ↔
          0 ≤ t ∧ 0 ≤ β ∧ 0 ≤ γ ∧ β + γ ≤ 1)) :=
  triangle_cramer_solution_without_rounding ieee (ex_triangle ℚ) (Vector3.lift (ex_down ℚ))
    (Vector3.lift (ex_origin ℚ)) (ex_globals ℚ) ⟨0, 0, 0⟩ ⟨1, 0, 0⟩ ⟨0, 1, 0⟩ (ex_down ℚ)
    (ex_origin ℚ) rfl rfl rfl rfl rfl (by decide!)
    (by
      dsimp only [cramer_exact, Rounding.KeepsSub, Rounding.KeepsDet, Rounding.KeepsSum,
        Rounding.Keeps]
      exact ⟨by decide!, by decide!, by decide!, by decide!⟩)
    (by
      unfold Rounding.Keeps
      decide!)

/-- Claim C7 as worded fails in `double` arithmetic.  On the triangle
`(0,0,0)`, `(1,0,0)`, `(0,1,0)` the ray straight down from `(1, 1e-20, 1)` is
recorded as a hit: `Triangle::is_intersecting` stores `ALPHA = -1e-20`, which
is negative, and `Model::intersects_triangle` stores the weights `0`, `1`,
`1e-20`, whose sum is not 1.  For the ray straight down from
`(0.07, 0.11, 1)`, a point inside the triangle, the three weights that
`Triangle::is_intersecting` stores add up to `1 - 2^-53` as real numbers. -/
theorem triangle_weights_leave_unit_interval :
    ((ex_triangle ℚ).is_intersecting_fl ieee (Vector3.lift (ex_down ℚ))
        ⟨fin 1, dbl (1 / 100000000000000000000), fin 1⟩ UNINITIALIZED (ex_globals ℚ)).ret
      = fin (-1) ∧
    ((ex_triangle ℚ).is_intersecting_fl ieee (Vector3.lift (ex_down ℚ))
        ⟨fin 1, dbl (1 / 100000000000000000000), fin 1⟩ UNINITIALIZED (ex_globals ℚ)).g.ALPHA
      = fin (-(6646139978924579 / 664613997892457936451903530140172288)) ∧
    ((ex_model ℚ).intersects_triangle_fl ieee ex_face0 (Vector3.lift (ex_down ℚ))
        ⟨fin 1, dbl (1 / 100000000000000000000), fin 1⟩ UNINITIALIZED (ex_globals ℚ)).ret
      = fin 1 ∧
    ((ex_model ℚ).intersects_triangle_fl ieee ex_face0 (Vector3.lift (ex_down ℚ))
        ⟨fin 1, dbl (1 / 100000000000000000000), fin 1⟩ UNINITIALIZED (ex_globals ℚ)).g.ALPH
      = fin 0 ∧
    ((ex_model ℚ).intersects_triangle_fl ieee ex_face0 (Vector3.lift (ex_down ℚ))
        ⟨fin 1, dbl (1 / 100000000000000000000), fin 1⟩ UNINITIALIZED (ex_globals ℚ)).g.BET
      = fin 1 ∧
    ((ex_model ℚ).intersects_triangle_fl ieee ex_face0 (Vector3.lift (ex_down ℚ))
        ⟨fin 1, dbl (1 / 100000000000000000000), fin 1⟩ UNINITIALIZED (ex_globals ℚ)).g.GAM
      = fin (6646139978924579 / 664613997892457936451903530140172288) ∧
    ((ex_triangle ℚ).is_intersecting_fl ieee (Vector3.lift (ex_down ℚ))
        ⟨dbl (7 / 100), dbl (11 / 100), fin 1⟩ UNINITIALIZED (ex_globals ℚ)).ret = fin (-1) ∧
    ((ex_triangle ℚ).is_intersecting_fl ieee (Vector3.lift (ex_down ℚ))
        ⟨dbl (7 / 100), dbl (11 / 100), fin 1⟩ UNINITIALIZED (ex_globals ℚ)).g.ALPHA
      = fin (7385903388887613 / 9007199254740992) ∧
    ((ex_triangle ℚ).is_intersecting_fl ieee (Vector3.lift (ex_down ℚ))
        ⟨dbl (7 / 100), dbl (11 / 100), fin 1⟩ UNINITIALIZED (ex_globals ℚ)).g.BETA
      = fin (1261007895663739 / 18014398509481984) ∧
    ((ex_triangle ℚ).is_intersecting_fl ieee (Vector3.lift (ex_down ℚ))
        ⟨dbl (7 / 100), dbl (11 / 100), fin 1⟩ UNINITIALIZED (ex_globals ℚ)).g.GAMMA
      = fin (7926335344172073 / 72057594037927936) ∧
    (7385903388887613 / 9007199254740992 + 1261007895663739 / 18014398509481984
        + 7926335344172073 / 72057594037927936 : ℚ) ≠ 1 := by
  decide!

/-- Claim C7, amended.  In `double` arithmetic, whenever
`Triangle::is_intersecting` records a hit (returns a non-zero value) and the
subtractions `1.0 - gamma`, `1.0 - beta` and `(1.0 - beta) - gamma` do not
round, or `Model::intersects_triangle` records a hit (returns 1) and the
subtractions `1.0 - gamma` and `(1.0 - gamma) - beta` do not round, the
weights it stores are finite, satisfy `alpha + beta + gamma = 1`, and each of
them lies in `[0, 1]`. -/
theorem barycentric_partition_of_unity_without_rounding (R : Rounding K) (tri : Triangle K)
    (m : Model K) (triangle : MeshTriangle) (s e : Vector3 (real_t K)) (T : real_t K)
    (g : Globals K) :
    ((tri.is_intersecting_fl R s e T g).ret.ne (fin 0) = true →
      R.Keeps (fin 1 - (tri.system_fl R s e).gamma) →
      R.Keeps (fin 1 - (tri.system_fl R s e).beta) →
      R.Keeps (fin 1 - (tri.system_fl R s e).beta - (tri.system_fl R s e).gamma) →
      ∃ α β γ : K, (tri.is_intersecting_fl R s e T g).g.ALPHA = fin α ∧
        (tri.is_intersecting_fl R s e T g).g.BETA = fin β ∧
        (tri.is_intersecting_fl R s e T g).g.GAMMA = fin γ ∧
        α + β + γ = 1 ∧ 0 ≤ α ∧ α ≤ 1 ∧ 0 ≤ β ∧ β ≤ 1 ∧ 0 ≤ γ ∧ γ ≤ 1) ∧
    ((m.intersects_triangle_fl R triangle s e T g).ret.eq (fin 1) = true →
      R.Keeps (fin 1 - (m.system_fl R triangle s e).gamma) →
      R.Keeps (fin 1 - (m.system_fl R triangle s e).gamma - (m.system_fl R triangle s e).beta) →
      ∃ α β γ : K, (m.intersects_triangle_fl R triangle s e T g).g.ALPH = fin α ∧
        (m.intersects_triangle_fl R triangle s e T g).g.BET = fin β ∧
        (m.intersects_triangle_fl R triangle s e T g).g.GAM = fin γ ∧
        α + β + γ = 1 ∧ 0 ≤ α ∧ α ≤ 1 ∧ 0 ≤ β ∧ β ≤ 1 ∧ 0 ≤ γ ∧ γ ≤ 1) := by
  constructor
  · rw [Triangle.is_intersecting_fl_record]
    intro h k1 k2 k3
    rw [Cramer.valid_fl_eq R _ k1] at h ⊢
    by_cases hv : (tri.system_fl R s e).valid = true
    · by_cases hu : ((tri.system_fl R s e).TIME.lt T || T.eq (fin (-1))) = true
      · obtain ⟨α, β, γ, h1, _, h2, h3, h4⟩ := Cramer.valid_weights hv
        rw [if_pos hv, if_pos hu]
        refine ⟨α, β, γ, ?_, h2, h3, h4⟩
        show R.sub (R.sub (fin 1) (tri.system_fl R s e).beta) (tri.system_fl R s e).gamma = fin α
        rw [R.sub_eq k2, R.sub_eq k3, h1]
      · rw [if_pos hv, if_neg hu] at h
        simp [real_t.ne] at h
    · rw [if_neg hv] at h
      simp [real_t.ne] at h
  · rw [Model.intersects_triangle_fl_eq]
    intro h k1 k3
    rw [Cramer.valid_fl_eq R _ k1] at h ⊢
    by_cases hv : (m.system_fl R triangle s e).valid = true
    · by_cases hu : ((m.system_fl R triangle s e).TIME.lt T || T.eq (fin (-1))) = true
      · obtain ⟨α, β, γ, _, h1, h2, h3, h4⟩ := Cramer.valid_weights hv
        rw [if_pos hv, if_pos hu]
        refine ⟨α, β, γ, ?_, h2, h3, h4⟩
        show R.sub (R.sub (fin 1) (m.system_fl R triangle s e).gamma)
          (m.system_fl R triangle s e).beta = fin α
        rw [R.sub_eq k1, R.sub_eq k3, h1]
      · rw [if_pos hv, if_neg hu] at h
        norm_num at h
    · rw [if_neg hv] at h
      norm_num at h

theorem barycentric_partition_of_unity_without_rounding_witness :
    (∃ α β γ : ℚ, ((ex_triangle ℚ).is_intersecting_fl ieee (Vector3.lift (ex_down ℚ))
          (Vector3.lift (ex_origin ℚ)) UNINITIALIZED (ex_globals ℚ)).g.ALPHA = fin α ∧
        ((ex_triangle ℚ).is_intersecting_fl ieee (Vector3.lift (ex_down ℚ))
          (Vector3.lift (ex_origin ℚ)) UNINITIALIZED (ex_globals ℚ)).g.BETA = fin β ∧
        ((ex_triangle ℚ).is_intersecting_fl ieee (Vector3.lift (ex_down ℚ))
          (Vector3.lift (ex_origin ℚ)) UNINITIALIZED (ex_globals ℚ)).g.GAMMA = fin γ ∧
        α + β + γ = 1 ∧ 0 ≤ α ∧ α ≤ 1 ∧ 0 ≤ β ∧ β ≤ 1 ∧ 0 ≤ γ ∧ γ ≤ 1) ∧
    (∃ α β γ : ℚ, ((ex_model ℚ).intersects_triangle_fl ieee ex_face0 (Vector3.lift (ex_down ℚ))
          (Vector3.lift (ex_origin ℚ)) UNINITIALIZED (ex_globals ℚ)).g.ALPH = fin α ∧
        ((ex_model ℚ).intersects_triangle_fl ieee ex_face0 (Vector3.lift (ex_down ℚ))
          (Vector3.lift (ex_origin ℚ)) UNINITIALIZED (ex_globals ℚ)).g.BET = fin β ∧
        ((ex_model ℚ).intersects_triangle_fl ieee ex_face0 (Vector3.lift (ex_down ℚ))
          (Vector3.lift (ex_origin ℚ)) UNINITIALIZED (ex_globals ℚ)).g.GAM = fin γ ∧
        α + β + γ = 1 ∧ 0 ≤ α ∧ α ≤ 1 ∧ 0 ≤ β ∧ β ≤ 1 ∧ 0 ≤ γ ∧ γ ≤ 1) :=
  ⟨(barycentric_partition_of_unity_without_rounding ieee (ex_triangle ℚ) (ex_model ℚ) ex_face0
      (Vector3.lift (ex_down ℚ)) (Vector3.lift (ex_origin ℚ)) UNINITIALIZED (ex_globals ℚ)).1
      (by decide!) (by unfold Rounding.Keeps; decide!) (by unfold Rounding.Keeps; decide!)
      (by unfold Rounding.Keeps; decide!),
    (barycentric_partition_of_unity_without_rounding ieee (ex_triangle ℚ) (ex_model ℚ) ex_face0
      (Vector3.lift (ex_down ℚ)) (Vector3.lift (ex_origin ℚ)) UNINITIALIZED (ex_globals ℚ)).2
      (by decide!) (by unfold Rounding.Keeps; decide!) (by unfold Rounding.Keeps; decide!)⟩

/-- Claim C34 as worded fails in `double` arithmetic.  (a) For the normal
`(0.6, 0.8, 0)`, whose computed length is 1, and the incoming vector
`(1, 2, 3)`, the computed length of the mirror vector is
`3.7416573867739418` and that of the incoming vector is
`3.7416573867739413`, and the two vectors differ in their squared length as
real vectors too.  (b) For the normal `(0.8, 0.6, 0)` and the incoming
vector `(0.8, 0, 0.6)`, both of computed length 1, the mirror vector has the
computed length `1.0000000000000002`, the normalize step changes it, and its
dot product with the normal is not the negated dot product of the incoming
vector and the normal. -/
theorem mirror_direction_changes_length :
    (ieee.length ⟨dbl (3 / 5), dbl (4 / 5), fin 0⟩ = fin 1 ∧
      ieee.length (mirror_vector_fl ieee ⟨dbl (3 / 5), dbl (4 / 5), fin 0⟩
          (Vector3.lift ⟨1, 2, 3⟩))
        = fin (4212731703205797 / 1125899906842624) ∧
      ieee.length (Vector3.lift ⟨1, 2, 3⟩) = fin (8425463406411593 / 2251799813685248) ∧
      Vector3.dot (mirror_vector_fl ieee ⟨dbl (3 / 5), dbl (4 / 5), fin 0⟩
          (Vector3.lift ⟨1, 2, 3⟩))
        (mirror_vector_fl ieee ⟨dbl (3 / 5), dbl (4 / 5), fin 0⟩ (Vector3.lift ⟨1, 2, 3⟩))
        ≠ Vector3.dot (Vector3.lift (⟨1, 2, 3⟩ : Vector3 ℚ)) (Vector3.lift ⟨1, 2, 3⟩) ∧
      mirror_vector_leaving_fl ieee ⟨dbl (3 / 5), dbl (4 / 5), fin 0⟩ (Vector3.lift ⟨1, 2, 3⟩)
        = mirror_vector_fl ieee ⟨dbl (3 / 5), dbl (4 / 5), fin 0⟩ (Vector3.lift ⟨1, 2, 3⟩)) ∧
    (ieee.length ⟨dbl (4 / 5), dbl (3 / 5), fin 0⟩ = fin 1 ∧
      ieee.length ⟨dbl (4 / 5), fin 0, dbl (3 / 5)⟩ = fin 1 ∧
      ieee.length (mirror_vector_fl ieee ⟨dbl (4 / 5), dbl (3 / 5), fin 0⟩
          ⟨dbl (4 / 5), fin 0, dbl (3 / 5)⟩)
        = fin (4503599627370497 / 4503599627370496) ∧
      (mirror_ray_fl ieee ⟨dbl (4 / 5), dbl (3 / 5), fin 0⟩
          ⟨dbl (4 / 5), fin 0, dbl (3 / 5)⟩).x
        ≠ (mirror_vector_fl ieee ⟨dbl (4 / 5), dbl (3 / 5), fin 0⟩
          ⟨dbl (4 / 5), fin 0, dbl (3 / 5)⟩).x ∧
      (Sphere.reflected_ray_fl ieee ⟨dbl (4 / 5), dbl (3 / 5), fin 0⟩
          ⟨dbl (4 / 5), fin 0, dbl (3 / 5)⟩).x
        ≠ (mirror_vector_fl ieee ⟨dbl (4 / 5), dbl (3 / 5), fin 0⟩
          ⟨dbl (4 / 5), fin 0, dbl (3 / 5)⟩).x ∧
      ieee.dot (mirror_vector_fl ieee ⟨dbl (4 / 5), dbl (3 / 5), fin 0⟩
          ⟨dbl (4 / 5), fin 0, dbl (3 / 5)⟩) ⟨dbl (4 / 5), dbl (3 / 5), fin 0⟩
        ≠ -ieee.dot ⟨dbl (4 / 5), fin 0, dbl (3 / 5)⟩ ⟨dbl (4 / 5), dbl (3 / 5), fin 0⟩) := by
  have hv : ∀ a b : Vector3 (real_t ℚ), a.x = b.x → a.y = b.y → a.z = b.z → a = b := by
    intro a b h1 h2 h3
    cases a; cases b; simp_all
  refine ⟨⟨by decide!, by decide!, by decide!, by decide!,
    hv _ _ (by decide!) (by decide!) (by decide!)⟩, by decide!⟩

/-- Claim C34, amended.  In `double` arithmetic, for every finite normal `N`
with `dot(N, N) = 1` and every finite incoming vector `I`, when no operation
of the two forms of the mirror vector, of its dot product with `N` and of the
two lengths rounds: the two forms of the mirror vector in
`Sphere::compute_specular` are the same vector, which is the one of
`Triangle::compute_specular` and `Model::compute_specular`; its length, as
computed and as a real vector, is that of `I` and its dot product with `N` is
the negated dot product of `I` and `N`; and for `I` with `dot(I, I) = 1` the normalize step
leaves it as it is, so that it is the reflected ray of all three versions. -/
theorem mirror_direction_keeps_length_without_rounding (R : Rounding K) (sqrtK : K → K)
    (hs : IsSqrt sqrtK) (N I : Vector3 K) (hN : Vector3.dot N N = 1)
    (hex : mirror_exact R sqrtK (Vector3.lift N) (Vector3.lift I)) :
    mirror_vector_leaving_fl R (Vector3.lift N) (Vector3.lift I)
      = mirror_vector_fl R (Vector3.lift N) (Vector3.lift I) ∧
    R.length (mirror_vector_fl R (Vector3.lift N) (Vector3.lift I))
      = R.length (Vector3.lift I) ∧
    Vector3.length sqrtK (mirror_vector_fl R (Vector3.lift N) (Vector3.lift I))
      = Vector3.length sqrtK (Vector3.lift I) ∧
    R.dot (mirror_vector_fl R (Vector3.lift N) (Vector3.lift I)) (Vector3.lift N)
      = -R.dot (Vector3.lift I) (Vector3.lift N) ∧
    (Vector3.dot I I = 1 →
      R.normalize (mirror_vector_fl R (Vector3.lift N) (Vector3.lift I))
        = mirror_vector_fl R (Vector3.lift N) (Vector3.lift I) ∧
      Sphere.reflected_ray_fl R (Vector3.lift N) (Vector3.lift I)
        = mirror_vector_fl R (Vector3.lift N) (Vector3.lift I) ∧
      mirror_ray_fl R (Vector3.lift N) (Vector3.lift I)
        = mirror_vector_fl R (Vector3.lift N) (Vector3.lift I)) := by
  obtain ⟨ha, hb, hmn, ⟨hmm, hms⟩, hii, his⟩ := hex
  have hfl := mirror_vector_fl_eq R _ _ ha
  have hfl' := mirror_vector_leaving_fl_eq R _ _ hb
  obtain ⟨e1, e2, e3, e4⟩ := mirror_direction_keeps_length sqrtK hs N I hN
  have hm := mirror_vector_lift N I
  have hlen : R.length (mirror_vector_fl R (Vector3.lift N) (Vector3.lift I))
      = R.length (Vector3.lift I) := by
    rw [hfl, R.length_eq hii his, ← e2]
    exact R.length_eq hmm hms
  have hsame : mirror_vector_leaving_fl R (Vector3.lift N) (Vector3.lift I)
      = mirror_vector_fl R (Vector3.lift N) (Vector3.lift I) := by
    rw [hfl, hfl']
    exact e1
  refine ⟨hsame, hlen, by rw [hfl]; exact e2, ?_, ?_⟩
  · have hmn' : R.KeepsDot (mirror_vector (Vector3.lift N) (Vector3.lift I)) (Vector3.lift N) :=
      hmn
    rw [hfl, R.dot_eq hmn', e3, R.dot_eq ha.1, Vector3.dot_lift_lift]
    rfl
  · intro hI
    have hl1 : R.length (Vector3.lift I) = fin 1 := by
      rw [R.length_eq hii his, Vector3.length_lift, hI, sqrt_one_eq hs]
    obtain ⟨k1, k2, k3⟩ := ha.2.2.2
    have hx := congrArg Vector3.x hm
    have hy := congrArg Vector3.y hm
    have hz := congrArg Vector3.z hm
    have hn : R.normalize (mirror_vector_fl R (Vector3.lift N) (Vector3.lift I))
        = mirror_vector_fl R (Vector3.lift N) (Vector3.lift I) := by
      have hl2 := hlen
      rw [hl1, hfl, hm] at hl2
      rw [hfl, hm]
      refine R.normalize_unit _ ?_ ?_ ?_ hl2
      · have := k1
        unfold Rounding.Keeps at this
        rw [show (Vector3.lift I).x - (Vector3.smul (fin 2 * Vector3.dot (Vector3.lift I)
          (Vector3.lift N)) (Vector3.lift N)).x = _ from hx] at this
        exact this
      · have := k2
        unfold Rounding.Keeps at this
        rw [show (Vector3.lift I).y - (Vector3.smul (fin 2 * Vector3.dot (Vector3.lift I)
          (Vector3.lift N)) (Vector3.lift N)).y = _ from hy] at this
        exact this
      · have := k3
        unfold Rounding.Keeps at this
        rw [show (Vector3.lift I).z - (Vector3.smul (fin 2 * Vector3.dot (Vector3.lift I)
          (Vector3.lift N)) (Vector3.lift N)).z = _ from hz] at this
        exact this
    refine ⟨hn, ?_, hn⟩
    show (if _ then R.normalize (mirror_vector_fl R (Vector3.lift N) (Vector3.lift I))
      else R.normalize (mirror_vector_leaving_fl R (Vector3.lift N) (Vector3.lift I))) = _
    rw [hsame, hn, ite_self]

theorem mirror_direction_keeps_length_without_rounding_witness :
    mirror_vector_leaving_fl (Rounding.binary64 Real.sqrt) (Vector3.lift ⟨0, 0, 1⟩)
        (Vector3.lift ⟨0, 0, -1⟩)
      = mirror_vector_fl (Rounding.binary64 Real.sqrt) (Vector3.lift ⟨0, 0, 1⟩)
        (Vector3.lift ⟨0, 0, -1⟩) ∧
    (Rounding.binary64 Real.sqrt).length (mirror_vector_fl (Rounding.binary64 Real.sqrt)
        (Vector3.lift ⟨0, 0, 1⟩) (Vector3.lift ⟨0, 0, -1⟩))
      = (Rounding.binary64 Real.sqrt).length (Vector3.lift ⟨0, 0, -1⟩) ∧
    Vector3.length Real.sqrt (mirror_vector_fl (Rounding.binary64 Real.sqrt)
        (Vector3.lift ⟨0, 0, 1⟩) (Vector3.lift ⟨0, 0, -1⟩))
      = Vector3.length Real.sqrt (Vector3.lift ⟨0, 0, -1⟩) ∧
    (Rounding.binary64 Real.sqrt).dot (mirror_vector_fl (Rounding.binary64 Real.sqrt)
        (Vector3.lift ⟨0, 0, 1⟩) (Vector3.lift ⟨0, 0, -1⟩)) (Vector3.lift ⟨0, 0, 1⟩)
      = -(Rounding.binary64 Real.sqrt).dot (Vector3.lift ⟨0, 0, -1⟩) (Vector3.lift ⟨0, 0, 1⟩) ∧
    (Rounding.binary64 Real.sqrt).normalize (mirror_vector_fl (Rounding.binary64 Real.sqrt)
        (Vector3.lift ⟨0, 0, 1⟩) (Vector3.lift ⟨0, 0, -1⟩))
      = mirror_vector_fl (Rounding.binary64 Real.sqrt) (Vector3.lift ⟨0, 0, 1⟩)
        (Vector3.lift ⟨0, 0, -1⟩) ∧
    Sphere.reflected_ray_fl (Rounding.binary64 Real.sqrt) (Vector3.lift ⟨0, 0, 1⟩)
        (Vector3.lift ⟨0, 0, -1⟩)
      = mirror_vector_fl (Rounding.binary64 Real.sqrt) (Vector3.lift ⟨0, 0, 1⟩)
        (Vector3.lift ⟨0, 0, -1⟩) ∧
    mirror_ray_fl (Rounding.binary64 Real.sqrt) (Vector3.lift ⟨0, 0, 1⟩)
        (Vector3.lift ⟨0, 0, -1⟩)
      = mirror_vector_fl (Rounding.binary64 Real.sqrt) (Vector3.lift ⟨0, 0, 1⟩)
        (Vector3.lift ⟨0, 0, -1⟩) :=
  match mirror_direction_keeps_length_without_rounding (Rounding.binary64 Real.sqrt) Real.sqrt
    isSqrt_real (⟨0, 0, 1⟩ : Vector3 ℝ) ⟨0, 0, -1⟩ (by norm_num [Vector3.dot])
    ex_mirror_exact with
  | ⟨h1, h2, h2', h3, h4⟩ => ⟨h1, h2, h2', h3, h4 (by norm_num [Vector3.dot])⟩

/-- Claim C35 as worded fails in `double` arithmetic.  For `n = 1`,
`nt = 2.996`, the normal `(0, 0, 1)` and the direction `(1, 0, 0)`, both of
length 1, the discriminant is positive, and the vector that
`compute_refr_ray` builds has the computed length `0.9999999999999999`, so
that the normalize step changes it; as a real vector it has not the squared
length 1 either. -/
theorem refracted_vector_is_rescaled :
    dbl (2996 / 1000) = fin (6746392241801003 / 2251799813685248) ∧
    Sphere.refr_discriminant_fl ieee (fin 1) (dbl (2996 / 1000)) (Vector3.lift ⟨0, 0, 1⟩)
        (Vector3.lift ⟨1, 0, 0⟩)
      = fin (8003725190663901 / 9007199254740992) ∧
    (Sphere.refr_vector_fl ieee (fin 1) (dbl (2996 / 1000)) (Vector3.lift ⟨0, 0, 1⟩)
        (Vector3.lift ⟨1, 0, 0⟩)).x = fin (751602073993741 / 2251799813685248) ∧
    (Sphere.refr_vector_fl ieee (fin 1) (dbl (2996 / 1000)) (Vector3.lift ⟨0, 0, 1⟩)
        (Vector3.lift ⟨1, 0, 0⟩)).y = fin 0 ∧
    (Sphere.refr_vector_fl ieee (fin 1) (dbl (2996 / 1000)) (Vector3.lift ⟨0, 0, 1⟩)
        (Vector3.lift ⟨1, 0, 0⟩)).z = fin (-(4245325298858133 / 4503599627370496)) ∧
    ieee.length (Sphere.refr_vector_fl ieee (fin 1) (dbl (2996 / 1000))
        (Vector3.lift ⟨0, 0, 1⟩) (Vector3.lift ⟨1, 0, 0⟩))
      = fin (9007199254740991 / 9007199254740992) ∧
    (Sphere.compute_refr_ray_fl ieee (fin 1) (dbl (2996 / 1000)) (Vector3.lift ⟨0, 0, 1⟩)
        (Vector3.lift ⟨1, 0, 0⟩)).x = fin (6012816591949929 / 18014398509481984) ∧
    (Sphere.compute_refr_ray_fl ieee (fin 1) (dbl (2996 / 1000)) (Vector3.lift ⟨0, 0, 1⟩)
        (Vector3.lift ⟨1, 0, 0⟩)).z = fin (-(8490650597716267 / 9007199254740992)) ∧
    (Sphere.compute_refr_ray_fl ieee (fin 1) (dbl (2996 / 1000)) (Vector3.lift ⟨0, 0, 1⟩)
        (Vector3.lift ⟨1, 0, 0⟩)).x
      ≠ (Sphere.refr_vector_fl ieee (fin 1) (dbl (2996 / 1000)) (Vector3.lift ⟨0, 0, 1⟩)
        (Vector3.lift ⟨1, 0, 0⟩)).x ∧
    Vector3.dot (Sphere.refr_vector_fl ieee (fin 1) (dbl (2996 / 1000)) (Vector3.lift ⟨0, 0, 1⟩)
        (Vector3.lift ⟨1, 0, 0⟩))
      (Sphere.refr_vector_fl ieee (fin 1) (dbl (2996 / 1000)) (Vector3.lift ⟨0, 0, 1⟩)
        (Vector3.lift ⟨1, 0, 0⟩)) ≠ fin 1 := by
  decide!

/-- Claim C35, amended.  In `double` arithmetic, for finite vectors `dir` and
`normal` with `dot(dir, dir) = 1` and `dot(normal, normal) = 1`, every finite
`n` and every `nt > 0`, when the discriminant of the refraction is not
negative and no operation before the normalize step rounds, nor any of the
length of the vector built: the vector
`n*(dir - normal*dot(dir,normal))/nt - normal*sqrt(discriminant)` that
`compute_refr_ray` builds is a finite vector `W` of length 1, as computed
and as a real vector, so that `compute_refr_ray` returns `W` itself, and the part of `W` across the
normal, `W - normal*dot(W, normal)`, is `n/nt` times the part of `dir` across
the normal. -/
theorem refracted_vector_is_unit_without_rounding (R : Rounding K) (sqrtK : K → K)
    (hs : IsSqrt sqrtK) (n nt : K) (N d : Vector3 K) (hnt : 0 < nt)
    (hd : Vector3.dot d d = 1) (hN : Vector3.dot N N = 1)
    (hD : (Sphere.refr_discriminant_fl R (fin n) (fin nt) (Vector3.lift N)
      (Vector3.lift d)).lt (fin 0) = false)
    (hex : refr_exact R sqrtK (fin n) (fin nt) (Vector3.lift N) (Vector3.lift d)) :
    ∃ W : Vector3 K,
      Sphere.refr_vector_fl R (fin n) (fin nt) (Vector3.lift N) (Vector3.lift d)
        = Vector3.lift W ∧
      R.length (Vector3.lift W) = fin 1 ∧
      Vector3.length sqrtK (Vector3.lift W) = fin 1 ∧
      Sphere.compute_refr_ray_fl R (fin n) (fin nt) (Vector3.lift N) (Vector3.lift d)
        = Vector3.lift W ∧
      W.x - N.x * Vector3.dot W N = n / nt * (d.x - N.x * Vector3.dot d N) ∧
      W.y - N.y * Vector3.dot W N = n / nt * (d.y - N.y * Vector3.dot d N) ∧
      W.z - N.z * Vector3.dot W N = n / nt * (d.z - N.z * Vector3.dot d N) := by
  obtain ⟨hdisc, hvec⟩ := Sphere.refr_vector_fl_eq R sqrtK _ _ _ _ hex
  rw [hdisc] at hD
  obtain ⟨W, h1, h2, h3, h4, h5, h6⟩ :=
    refracted_vector_is_unit_and_obeys_snell sqrtK hs n nt N d hnt hd hN hD
  obtain ⟨e1, e2, ⟨e3, e4⟩⟩ := hex
  have hDD : fin 1 - (fin n * fin n * (fin 1 - Vector3.dot (Vector3.lift d) (Vector3.lift N)
      * Vector3.dot (Vector3.lift d) (Vector3.lift N))) / (fin nt * fin nt)
      = Sphere.refr_discriminant (fin n) (fin nt) (Vector3.lift N) (Vector3.lift d) := by
    unfold Sphere.refr_discriminant
    simp only [real_t.pow_two']
  have hW : Vector3.divs (Vector3.smul (fin n) (Vector3.lift d - Vector3.muls (Vector3.lift N)
        (Vector3.dot (Vector3.lift d) (Vector3.lift N)))) (fin nt)
      - Vector3.muls (Vector3.lift N) (real_t.sqrt sqrtK
          (fin 1 - (fin n * fin n * (fin 1 - Vector3.dot (Vector3.lift d) (Vector3.lift N)
            * Vector3.dot (Vector3.lift d) (Vector3.lift N))) / (fin nt * fin nt)))
      = Vector3.lift W := by
    rw [hDD]
    exact h1
  have e3' : R.KeepsDot (Vector3.lift W) (Vector3.lift W) := by
    have := e3
    simp only [hW] at this
    exact this
  have e4' : R.KeepsSqrt sqrtK (Vector3.dot (Vector3.lift W) (Vector3.lift W)) := by
    have := e4
    simp only [hW] at this
    exact this
  have hlen : R.length (Vector3.lift W) = fin 1 := by
    rw [R.length_eq e3' e4']
    exact h2
  obtain ⟨k1, k2, k3⟩ := e2.2.2.2.2.2.2
  unfold Rounding.Keeps at k1 k2 k3
  have hx := congrArg Vector3.x hW
  have hy := congrArg Vector3.y hW
  have hz := congrArg Vector3.z hW
  refine ⟨W, by rw [hvec, h1], hlen, h2, ?_, h4, h5, h6⟩
  rw [Sphere.compute_refr_ray_fl_eq, hdisc, hD, hvec, h1]
  refine R.normalize_unit _ ?_ ?_ ?_ hlen
  · rw [show _ - _ = _ from hx] at k1
    exact k1
  · rw [show _ - _ = _ from hy] at k2
    exact k2
  · rw [show _ - _ = _ from hz] at k3
    exact k3

theorem refracted_vector_is_unit_without_rounding_witness :
    ∃ W : Vector3 ℝ,
      Sphere.refr_vector_fl (Rounding.binary64 Real.sqrt) (fin 1) (fin 2)
        (Vector3.lift ⟨0, 0, 1⟩) (Vector3.lift ⟨0, 0, -1⟩) = Vector3.lift W ∧
      (Rounding.binary64 Real.sqrt).length (Vector3.lift W) = fin 1 ∧
      Vector3.length Real.sqrt (Vector3.lift W) = fin 1 ∧
      Sphere.compute_refr_ray_fl (Rounding.binary64 Real.sqrt) (fin 1) (fin 2)
        (Vector3.lift ⟨0, 0, 1⟩) (Vector3.lift ⟨0, 0, -1⟩) = Vector3.lift W ∧
      W.x - 0 * Vector3.dot W ⟨0, 0, 1⟩
        = 1 / 2 * (0 - 0 * Vector3.dot (⟨0, 0, -1⟩ : Vector3 ℝ) ⟨0, 0, 1⟩) ∧
      W.y - 0 * Vector3.dot W ⟨0, 0, 1⟩
        = 1 / 2 * (0 - 0 * Vector3.dot (⟨0, 0, -1⟩ : Vector3 ℝ) ⟨0, 0, 1⟩) ∧
      W.z - 1 * Vector3.dot W ⟨0, 0, 1⟩
        = 1 / 2 * (-1 - 1 * Vector3.dot (⟨0, 0, -1⟩ : Vector3 ℝ) ⟨0, 0, 1⟩) :=
  refracted_vector_is_unit_without_rounding (Rounding.binary64 Real.sqrt) Real.sqrt isSqrt_real
    1 2 (⟨0, 0, 1⟩ : Vector3 ℝ) ⟨0, 0, -1⟩ (by norm_num) (by norm_num [Vector3.dot])
    (by norm_num [Vector3.dot])
    (by
      rw [(Sphere.refr_vector_fl_eq _ Real.sqrt _ _ _ _ ex_refr_exact).1,
        Sphere.refr_discriminant_fin _ _ _ _ (by norm_num)]
      simp [Vector3.dot])
    ex_refr_exact

/-- Claim C26 as worded fails in `double` arithmetic.  For the view direction
`(0.2, -0.1, -1)` and the up vector `(0, 1, 0)`, the computed length of each
of `u`, `v`, `w` is `0.9999999999999999`, the computed `dot(u, w)` is
`-2^-55`, and as real vectors `u` has not the squared length 1 and is not
orthogonal to `w`. -/
theorem initialize_basis_is_rounded :
    ieee.length ( Raytracer.initialize_fl ieee (fun x => x) ex_tilted_camera 1 1).u
      = fin (9007199254740991 / 9007199254740992) ∧
    ieee.length ( Raytracer.initialize_fl ieee (fun x => x) ex_tilted_camera 1 1).v
      = fin (9007199254740991 / 9007199254740992) ∧
    ieee.length ( Raytracer.initialize_fl ieee (fun x => x) ex_tilted_camera 1 1).w
      = fin (9007199254740991 / 9007199254740992) ∧
    ieee.dot ( Raytracer.initialize_fl ieee (fun x => x) ex_tilted_camera 1 1).u
        ( Raytracer.initialize_fl ieee (fun x => x) ex_tilted_camera 1 1).w
      = fin (-1 / 36028797018963968) ∧
    Vector3.dot ( Raytracer.initialize_fl ieee (fun x => x) ex_tilted_camera 1 1).u
        ( Raytracer.initialize_fl ieee (fun x => x) ex_tilted_camera 1 1).u ≠ fin 1 ∧
    Vector3.dot ( Raytracer.initialize_fl ieee (fun x => x) ex_tilted_camera 1 1).u
        ( Raytracer.initialize_fl ieee (fun x => x) ex_tilted_camera 1 1).w
      = fin (-437398364411537 / 40564819207303340847894502572032) := by
  decide!

/-- Claim C26, amended.  In `double` arithmetic, for every camera whose view
direction `gv` and up vector `tv` are finite, with `gv` non-zero and `tv` no
multiple of `gv`, when no operation of the lines that compute `w`, `u` and
`v` rounds: the members `u`, `v`, `w` that `Raytracer::initialize` computes
have length 1 each, are pairwise orthogonal, and `w` is the view direction
divided by its length. -/
theorem initialize_basis_is_orthonormal_without_rounding (R : Rounding K) (sqrtK : K → K)
    (tanK : real_t K → real_t K) (camera : Camera K) (width height : Nat) (gv tv : Vector3 K)
    (hs : IsSqrt sqrtK)
    (hdir : camera.direction = Vector3.lift gv) (hup : camera.up = Vector3.lift tv)
    (hg : gv.x ≠ 0 ∨ gv.y ≠ 0 ∨ gv.z ≠ 0)
    (hpar : ∀ c : K, tv ≠ ⟨c * gv.x, c * gv.y, c * gv.z⟩)
    (hex : basis_exact R sqrtK camera.direction camera.up) :
    Vector3.length sqrtK ( Raytracer.initialize_fl R tanK camera width height).u = fin 1 ∧
    Vector3.length sqrtK ( Raytracer.initialize_fl R tanK camera width height).v = fin 1 ∧
    Vector3.length sqrtK ( Raytracer.initialize_fl R tanK camera width height).w = fin 1 ∧
    Vector3.dot ( Raytracer.initialize_fl R tanK camera width height).u
      ( Raytracer.initialize_fl R tanK camera width height).v = fin 0 ∧
    Vector3.dot ( Raytracer.initialize_fl R tanK camera width height).u
      ( Raytracer.initialize_fl R tanK camera width height).w = fin 0 ∧
    Vector3.dot ( Raytracer.initialize_fl R tanK camera width height).v
      ( Raytracer.initialize_fl R tanK camera width height).w = fin 0 ∧
    ( Raytracer.initialize_fl R tanK camera width height).w
      = Vector3.lift ⟨gv.x / sqrtK (Vector3.dot gv gv), gv.y / sqrtK (Vector3.dot gv gv),
          gv.z / sqrtK (Vector3.dot gv gv)⟩ := by
  obtain ⟨hu, hv, hw⟩ := Raytracer.initialize_fl_basis R sqrtK tanK camera width height hex
  rw [hu, hv, hw]
  exact initialize_basis_is_orthonormal sqrtK tanK camera width height gv tv hs hdir hup hg hpar

theorem initialize_basis_is_orthonormal_without_rounding_witness :
    (∀ c : ℝ, (⟨0, 1, 0⟩ : Vector3 ℝ) ≠ ⟨c * 0, c * 0, c * (-1)⟩) ∧
    Vector3.length Real.sqrt ( Raytracer.initialize_fl (Rounding.binary64 Real.sqrt)
      (fun x => x) (ex_camera ℝ) 1 1).u = fin 1 ∧
    Vector3.length Real.sqrt ( Raytracer.initialize_fl (Rounding.binary64 Real.sqrt)
      (fun x => x) (ex_camera ℝ) 1 1).v = fin 1 ∧
    Vector3.length Real.sqrt ( Raytracer.initialize_fl (Rounding.binary64 Real.sqrt)
      (fun x => x) (ex_camera ℝ) 1 1).w = fin 1 ∧
    Vector3.dot ( Raytracer.initialize_fl (Rounding.binary64 Real.sqrt) (fun x => x)
        (ex_camera ℝ) 1 1).u
      ( Raytracer.initialize_fl (Rounding.binary64 Real.sqrt) (fun x => x)
        (ex_camera ℝ) 1 1).v = fin 0 ∧
    Vector3.dot ( Raytracer.initialize_fl (Rounding.binary64 Real.sqrt) (fun x => x)
        (ex_camera ℝ) 1 1).u
      ( Raytracer.initialize_fl (Rounding.binary64 Real.sqrt) (fun x => x)
        (ex_camera ℝ) 1 1).w = fin 0 ∧
    Vector3.dot ( Raytracer.initialize_fl (Rounding.binary64 Real.sqrt) (fun x => x)
        (ex_camera ℝ) 1 1).v
      ( Raytracer.initialize_fl (Rounding.binary64 Real.sqrt) (fun x => x)
        (ex_camera ℝ) 1 1).w = fin 0 :=
  have hpar : ∀ c : ℝ, (⟨0, 1, 0⟩ : Vector3 ℝ) ≠ ⟨c * 0, c * 0, c * (-1)⟩ := by
    intro c h
    have hy := congrArg Vector3.y h
    simp at hy
  match initialize_basis_is_orthonormal_without_rounding (Rounding.binary64 Real.sqrt) Real.sqrt
    (fun x => x) (ex_camera ℝ) 1 1 ⟨0, 0, -1⟩ ⟨0, 1, 0⟩ isSqrt_real rfl rfl
    (Or.inr (Or.inr (by norm_num))) hpar ex_camera_basis_exact with
  | ⟨h1, h2, h3, h4, h5, h6, _⟩ => ⟨hpar, h1, h2, h3, h4, h5, h6⟩

/-- Claim C12 as worded fails, in `double` arithmetic and in exact
arithmetic.  (a) In `double` arithmetic, for the surface point `(0, 0, 0)`,
the light at `(-4, -4, 4)` and the roof triangle in the plane `z = 4`, which
passes through the light: the shadow time `6.928202230275508` is strictly
less than the distance `6.9282022302755095` from the offset point to the
light, so the test of the claim holds, yet the computed distance of the hit
point from the surface point is the computed distance of the light,
`6.928203230275509`, `b_i` stays 1 and the light adds its term.  (b) For the
light at `(-4, -7/2, 3/2)` and the roof triangle in the plane `z = 3/2` the
shadow time is the distance from the offset point to the light, so the test
of the claim fails, yet `b_i` becomes 0 and the light adds nothing.  (c) In
exact arithmetic, in the scene of the low triangle with the light nearer to
the surface point than `EPSILON`, the test of the claim holds and the light
adds its term. -/
theorem occlusion_is_not_the_time_test :
    ((ex_roof_triangle 4).shadow_intersection_fl ieee
        (ieee.normalize (ieee.vsub (Vector3.lift ⟨-4, -4, 4⟩) (Vector3.lift ⟨0, 0, 0⟩)))
        (ieee.vadd (Vector3.lift ⟨0, 0, 0⟩) (ieee.smul (ieee.round EPSILON)
          (ieee.normalize (ieee.vsub (Vector3.lift ⟨-4, -4, 4⟩) (Vector3.lift ⟨0, 0, 0⟩)))))
        = fin (3900231122827027 / 562949953421312) ∧
      ieee.distance
        (ieee.vadd (Vector3.lift ⟨0, 0, 0⟩) (ieee.smul (ieee.round EPSILON)
          (ieee.normalize (ieee.vsub (Vector3.lift ⟨-4, -4, 4⟩) (Vector3.lift ⟨0, 0, 0⟩)))))
        (Vector3.lift ⟨-4, -4, 4⟩) = fin (975057780706757 / 140737488355328) ∧
      ieee.distance
        (ieee.vadd
          (ieee.vadd (Vector3.lift ⟨0, 0, 0⟩) (ieee.smul (ieee.round EPSILON)
            (ieee.normalize (ieee.vsub (Vector3.lift ⟨-4, -4, 4⟩) (Vector3.lift ⟨0, 0, 0⟩)))))
          (ieee.muls
            (ieee.normalize (ieee.vsub (Vector3.lift ⟨-4, -4, 4⟩) (Vector3.lift ⟨0, 0, 0⟩)))
            (fin (3900231122827027 / 562949953421312))))
        (Vector3.lift ⟨0, 0, 0⟩) = fin (3900231685776981 / 562949953421312) ∧
      ieee.distance (Vector3.lift ⟨-4, -4, 4⟩) (Vector3.lift ⟨0, 0, 0⟩)
        = fin (3900231685776981 / 562949953421312) ∧
      occluded_by_time_fl ieee (ex_roof_scene (-4) (-4) 4) (Vector3.lift ⟨0, 0, 0⟩)
        (Vector3.lift ⟨-4, -4, 4⟩) = true ∧
      shadow_loop_fl ieee
        (ieee.normalize (ieee.vsub (Vector3.lift ⟨-4, -4, 4⟩) (Vector3.lift ⟨0, 0, 0⟩)))
        (ieee.vadd (Vector3.lift ⟨0, 0, 0⟩) (ieee.smul (ieee.round EPSILON)
          (ieee.normalize (ieee.vsub (Vector3.lift ⟨-4, -4, 4⟩) (Vector3.lift ⟨0, 0, 0⟩)))))
        (Vector3.lift ⟨0, 0, 0⟩)
        (ieee.distance (Vector3.lift ⟨-4, -4, 4⟩) (Vector3.lift ⟨0, 0, 0⟩))
        (ex_roof_scene (-4) (-4) 4).geometries = fin 1 ∧
      (Sphere.diffuse_light_fl ieee (ex_roof_scene (-4) (-4) 4) (Vector3.lift ⟨0, 0, 1⟩)
        (Vector3.lift ⟨0, 0, 0⟩) Color3.Black (ex_light_at (Vector3.lift ⟨-4, -4, 4⟩))).r
        ≠ fin 0) ∧
    (occluded_by_time_fl ieee (ex_roof_scene (-4) (-7 / 2) (3 / 2)) (Vector3.lift ⟨0, 0, 0⟩)
        (Vector3.lift ⟨-4, -7 / 2, 3 / 2⟩) = false ∧
      shadow_loop_fl ieee
        (ieee.normalize (ieee.vsub (Vector3.lift ⟨-4, -7 / 2, 3 / 2⟩)
          (Vector3.lift ⟨0, 0, 0⟩)))
        (ieee.vadd (Vector3.lift ⟨0, 0, 0⟩) (ieee.smul (ieee.round EPSILON)
          (ieee.normalize (ieee.vsub (Vector3.lift ⟨-4, -7 / 2, 3 / 2⟩)
            (Vector3.lift ⟨0, 0, 0⟩)))))
        (Vector3.lift ⟨0, 0, 0⟩)
        (ieee.distance (Vector3.lift ⟨-4, -7 / 2, 3 / 2⟩) (Vector3.lift ⟨0, 0, 0⟩))
        (ex_roof_scene (-4) (-7 / 2) (3 / 2)).geometries = fin 0 ∧
      (Sphere.diffuse_light_fl ieee (ex_roof_scene (-4) (-7 / 2) (3 / 2))
        (Vector3.lift ⟨0, 0, 1⟩) (Vector3.lift ⟨0, 0, 0⟩) Color3.Black
        (ex_light_at (Vector3.lift ⟨-4, -7 / 2, 3 / 2⟩))).r = fin 0) ∧
    (occluded_by_time Real.sqrt (ex_near_light_scene ℝ) (Vector3.lift ⟨0, 0, 0⟩)
        (Vector3.lift ⟨0, 0, 1 / 2000000⟩) = true ∧
      Sphere.diffuse_light Real.sqrt (ex_near_light_scene ℝ) (Vector3.lift ⟨0, 0, 1⟩)
        (Vector3.lift ⟨0, 0, 0⟩) Color3.Black (ex_light 0 0 (1 / 2000000))
        = ⟨fin 1, fin 1, fin 1⟩) :=
  ⟨by decide!, by decide!, occlusion_test_fails_near_light⟩

/-- Claim C12, amended.  In `double` arithmetic, for every surface point `p`
and every light, with `L` the computed unit direction from `p` to the light
and `p' = p + EPSILON*L`: the inner loop of `compute_diffuse` leaves
`b_i = 0` if and only if some primitive of the scene returns, for the ray
from `p'` in the direction `L`, a shadow time `t` other than -1 such that the
computed distance from the hit point `p' + L*t` to `p` is strictly less than
the computed distance from the light to `p`; and the body of the loop over
the lights, in the Sphere, Triangle and Model versions, leaves the total
unchanged under that condition and adds the term of the light otherwise. -/
theorem light_occluded_iff_hit_point_nearer (R : Rounding K) (scene : Scene K)
    (normal surface_pos : Vector3 (real_t K)) (light : PointLight K) (total : Color3 K) :
    (shadow_loop_fl R (R.normalize (R.vsub light.position surface_pos))
        (R.vadd surface_pos
          (R.smul (R.round EPSILON) (R.normalize (R.vsub light.position surface_pos))))
        surface_pos (R.distance light.position surface_pos) scene.geometries = fin 0 ↔
      occluded_fl R scene surface_pos light.position = true) ∧
    Sphere.diffuse_light_fl R scene normal surface_pos total light =
      (if occluded_fl R scene surface_pos light.position then total
      else R.cadd total (R.cmuls
        (Sphere.attenuation_fl R (R.distance light.position surface_pos) light light.position
          surface_pos)
        (max_of (R.dot (R.normalize (R.vsub light.position surface_pos)) normal) (fin 0)))) ∧
    Triangle.diffuse_light_fl R scene normal surface_pos total light =
      (if occluded_fl R scene surface_pos light.position then total
      else R.cadd total (R.cmuls
        (Triangle.attenuation_fl R (R.distance light.position surface_pos) light light.position
          surface_pos)
        (Triangle.max (R.dot (R.normalize (R.vsub light.position surface_pos)) normal)
          (fin 0)))) ∧
    Model.diffuse_light_fl R scene normal surface_pos total light =
      (if occluded_fl R scene surface_pos light.position then total
      else R.cadd total (R.cmuls
        (Model.attenuation_fl R (R.distance light.position surface_pos) light light.position
          surface_pos)
        (Model.max (R.dot (R.normalize (R.vsub light.position surface_pos)) normal)
          (fin 0)))) := by
  refine ⟨?_, ?_, ?_, ?_⟩
  · rw [shadow_loop_fl_eq]
    show (if occluded_fl R scene surface_pos light.position = true then (fin 0 : real_t K)
      else fin 1) = fin 0 ↔ _
    cases occluded_fl R scene surface_pos light.position <;> simp
  · simp only [Sphere.diffuse_light_fl, shadow_loop_fl_eq, occluded_fl]
    split_ifs <;> simp_all
  · simp only [Triangle.diffuse_light_fl, shadow_loop_fl_eq, occluded_fl]
    split_ifs <;> simp_all
  · simp only [Model.diffuse_light_fl, shadow_loop_fl_eq, occluded_fl]
    split_ifs <;> simp_all

/-- Claim C38 as worded fails in `double` arithmetic.  On the tinted
triangle, whose three vertices have the same material with every colour
component, the refractive index and the texture pixel equal to the `double`
0.3, the ray straight down from `(1/8, 1/8, 1)` is a hit with the weights
`3/4`, `1/8`, `1/8`, whose sum is 1; `get_specular`, `get_refractive_index`,
the interpolated ambient and diffuse colours and `compute_texture` return
`0.29999999999999993` in place of `0.3`. -/
theorem triangle_interpolation_is_rounded :
    dbl (3 / 10) = fin (5404319552844595 / 18014398509481984) ∧
    (ex_tint_triangle.is_intersecting_fl ieee (Vector3.lift (ex_down ℚ))
      (Vector3.lift ⟨1 / 8, 1 / 8, 1⟩) UNINITIALIZED (ex_globals ℚ)).ret = fin (-1) ∧
    (ex_tint_triangle.is_intersecting_fl ieee (Vector3.lift (ex_down ℚ))
      (Vector3.lift ⟨1 / 8, 1 / 8, 1⟩) UNINITIALIZED (ex_globals ℚ)).g.ALPHA = fin (3 / 4) ∧
    (ex_tint_triangle.is_intersecting_fl ieee (Vector3.lift (ex_down ℚ))
      (Vector3.lift ⟨1 / 8, 1 / 8, 1⟩) UNINITIALIZED (ex_globals ℚ)).g.BETA = fin (1 / 8) ∧
    (ex_tint_triangle.is_intersecting_fl ieee (Vector3.lift (ex_down ℚ))
      (Vector3.lift ⟨1 / 8, 1 / 8, 1⟩) UNINITIALIZED (ex_globals ℚ)).g.GAMMA = fin (1 / 8) ∧
    (ex_tint_triangle.get_specular_fl ieee
      (ex_tint_triangle.is_intersecting_fl ieee (Vector3.lift (ex_down ℚ))
        (Vector3.lift ⟨1 / 8, 1 / 8, 1⟩) UNINITIALIZED (ex_globals ℚ)).g).r
      = fin (2702159776422297 / 9007199254740992) ∧
    ex_tint_triangle.get_refractive_index_fl ieee
      (ex_tint_triangle.is_intersecting_fl ieee (Vector3.lift (ex_down ℚ))
        (Vector3.lift ⟨1 / 8, 1 / 8, 1⟩) UNINITIALIZED (ex_globals ℚ)).g
      = fin (2702159776422297 / 9007199254740992) ∧
    (ex_tint_triangle.bary_ambient_fl ieee
      (ex_tint_triangle.is_intersecting_fl ieee (Vector3.lift (ex_down ℚ))
        (Vector3.lift ⟨1 / 8, 1 / 8, 1⟩) UNINITIALIZED (ex_globals ℚ)).g).r
      = fin (2702159776422297 / 9007199254740992) ∧
    (ex_tint_triangle.bary_diffuse_fl ieee
      (ex_tint_triangle.is_intersecting_fl ieee (Vector3.lift (ex_down ℚ))
        (Vector3.lift ⟨1 / 8, 1 / 8, 1⟩) UNINITIALIZED (ex_globals ℚ)).g).r
      = fin (2702159776422297 / 9007199254740992) ∧
    (ex_tint_triangle.compute_texture_fl ieee
      (ex_tint_triangle.is_intersecting_fl ieee (Vector3.lift (ex_down ℚ))
        (Vector3.lift ⟨1 / 8, 1 / 8, 1⟩) UNINITIALIZED (ex_globals ℚ)).g).toOption.map Color3.r
      = some (fin (2702159776422297 / 9007199254740992)) ∧
    (2702159776422297 / 9007199254740992 : ℚ) ≠ 5404319552844595 / 18014398509481984 := by
  decide!

/-- Claim C38, amended.  In `double` arithmetic, for every triangle whose
three vertices have the same material, with finite colours and a finite
refractive index, and stored weights that are finite and sum to 1, when no
operation of the interpolation of the specular, ambient and diffuse colours,
of the refractive index and of the texture colour rounds: `get_specular` and
`get_refractive_index` return the specular colour and the refractive index of
the material, the interpolated ambient and diffuse colours of
`color_at_pixel` are the ambient and diffuse colours of the material, and
`compute_texture` returns the colour that the texture lookup of the material
gives at the interpolated texture coordinate, when that colour is finite. -/
theorem triangle_of_one_material_without_rounding [FloorRing K] (R : Rounding K)
    (tri : Triangle K) (g : Globals K) (mat : Material K) (α β γ ρ : K) (c : Color3 K)
    (h0 : (tri.vertices 0).material = mat) (h1 : (tri.vertices 1).material = mat)
    (h2 : (tri.vertices 2).material = mat)
    (ha : g.ALPHA = fin α) (hb : g.BETA = fin β) (hc : g.GAMMA = fin γ)
    (hsum : α + β + γ = 1)
    (hspec : mat.specular.IsFinite) (hamb : mat.ambient.IsFinite) (hdiff : mat.diffuse.IsFinite)
    (href : mat.refractive_index = fin ρ)
    (htex : Triangle.compute_texture_at_vertex_fl R (tri.bary_tex_u_fl R g)
      (tri.bary_tex_v_fl R g) mat = Except.ok c)
    (hfin : c.IsFinite)
    (hex : R.KeepsMix (fin α) (fin β) (fin γ) mat.specular ∧
      R.KeepsMix (fin α) (fin β) (fin γ) mat.ambient ∧
      R.KeepsMix (fin α) (fin β) (fin γ) mat.diffuse ∧
      R.KeepsMix (fin α) (fin β) (fin γ) c ∧
      R.KeepsSum (fin α) (fin ρ) (fin β) (fin ρ) (fin γ) (fin ρ)) :
    tri.get_specular_fl R g = mat.specular ∧
    tri.get_refractive_index_fl R g = mat.refractive_index ∧
    tri.bary_ambient_fl R g = mat.ambient ∧
    tri.bary_diffuse_fl R g = mat.diffuse ∧
    tri.compute_texture_fl R g = Except.ok c ∧
    ∀ (scene : Scene K) (surface_pos : Vector3 (real_t K)),
      tri.color_at_pixel_fl R g scene surface_pos =
        Except.ok (R.cmul c (R.cadd (R.cmul scene.ambient_light mat.ambient)
          (R.cmul mat.diffuse (Triangle.compute_diffuse_fl R scene
              (tri.normal_of_fl R g surface_pos) surface_pos)))) := by
  obtain ⟨e1, e2, e3, e4, e5⟩ := hex
  have hs := Color3.interpolate_same α β γ hsum mat.specular hspec
  have hA := Color3.interpolate_same α β γ hsum mat.ambient hamb
  have hD := Color3.interpolate_same α β γ hsum mat.diffuse hdiff
  have hT := Color3.interpolate_same α β γ hsum c hfin
  have hamb' : tri.bary_ambient_fl R g = mat.ambient := by
    simp only [Triangle.bary_ambient_fl, h0, h1, h2, ha, hb, hc, R.mix_eq _ _ _ _ e2, hA]
  have hdiff' : tri.bary_diffuse_fl R g = mat.diffuse := by
    simp only [Triangle.bary_diffuse_fl, h0, h1, h2, ha, hb, hc, R.mix_eq _ _ _ _ e3, hD]
  have htex' : tri.compute_texture_fl R g = Except.ok c := by
    unfold Triangle.bary_tex_u_fl Triangle.bary_tex_v_fl at htex
    rw [ha, hb, hc] at htex
    simp only [Triangle.compute_texture_fl, h0, h1, h2, ha, hb, hc, htex, bind, Except.bind,
      R.mix_eq _ _ _ _ e4, hT]
  refine ⟨?_, ?_, hamb', hdiff', htex', ?_⟩
  · simp only [Triangle.get_specular_fl, h0, h1, h2, ha, hb, hc, R.mix_eq _ _ _ _ e1, hs]
  · simp only [Triangle.get_refractive_index_fl, h0, h1, h2, ha, hb, hc, href, R.sum_eq e5,
      fin_mul_fin, fin_add_fin]
    congr 1
    linear_combination ρ * hsum
  · intro scene surface_pos
    rw [Triangle.color_at_pixel_fl_eq, htex', hamb', hdiff']
    rfl

theorem triangle_of_one_material_without_rounding_witness :
    (ex_half_triangle ℚ).get_specular_fl ieee (ex_tri_globals ℚ)
      = (ex_half_material ℚ).specular ∧
    (ex_half_triangle ℚ).get_refractive_index_fl ieee (ex_tri_globals ℚ)
      = (ex_half_material ℚ).refractive_index ∧
    (ex_half_triangle ℚ).bary_ambient_fl ieee (ex_tri_globals ℚ)
      = (ex_half_material ℚ).ambient ∧
    (ex_half_triangle ℚ).bary_diffuse_fl ieee (ex_tri_globals ℚ)
      = (ex_half_material ℚ).diffuse ∧
    (ex_half_triangle ℚ).compute_texture_fl ieee (ex_tri_globals ℚ)
      = Except.ok ⟨fin (1 / 2), fin (1 / 2), fin (1 / 2)⟩ :=
  match triangle_of_one_material_without_rounding ieee (ex_half_triangle ℚ) (ex_tri_globals ℚ)
    (ex_half_material ℚ) (1 / 2) (1 / 4) (1 / 4) (3 / 2) ⟨fin (1 / 2), fin (1 / 2), fin (1 / 2)⟩
    (by simp [ex_half_triangle, ex_half_vertex]) (by simp [ex_half_triangle, ex_half_vertex])
    (by simp [ex_half_triangle, ex_half_vertex]) rfl rfl rfl (by norm_num)
    ⟨1, 1 / 2, 1 / 4, rfl⟩ ⟨1 / 2, 1 / 4, 1, rfl⟩ ⟨1 / 4, 1 / 2, 1, rfl⟩ rfl
    (by
      simp [Triangle.compute_texture_at_vertex_fl, ex_half_material, c_mod, bind, Except.bind])
    ⟨1 / 2, 1 / 2, 1 / 2, rfl⟩
    (by
      dsimp only [Rounding.KeepsMix, Rounding.KeepsSum, Rounding.Keeps, ex_half_material]
      exact ⟨by decide!, by decide!, by decide!, by decide!, by decide!⟩) with
  | ⟨h1, h2, h3, h4, h5, _⟩ => ⟨h1, h2, h3, h4, h5⟩

end Lemmas

end Raytrace
